import Mathlib

/-!
# Surface collision queries

A shallow embedding of `src/engine/surface_collision.c` and theorems about it.

Modelling conventions.

* `f32` values are rational numbers (`ℚ`): arithmetic is exact, there is no rounding, no
  infinity and no NaN. A division by zero yields `0` (Lean's convention for `ℚ`).
* `s32` values are integers (`ℤ`). The products and differences of the point-in-triangle
  edge expressions are reduced to the 32-bit two's complement range by `s32` after every
  operation; the other integer expressions of the file (cell index, `lowerY - 30`) stay far
  from the range limits on the paths studied and are left unreduced.
* A conversion `f32 -> s32` truncates toward zero (`f32_to_s32`).
* A `struct SurfaceNode *` list is a `List Surface`; a `NULL` surface is `none`.
* Global variables read or written by the file are the fields of `Globals`, passed
  explicitly; functions that write globals return the updated record.
* Constants, type tags and library functions that come from headers outside the translated
  file are the fields of `Externals`; every theorem holds for all of their values unless a
  hypothesis says otherwise.
-/

namespace SurfaceCollision

/-! ## Data model -/

/-- Integer vector `Vec3t` / `Vec3s` / `Vec3i`; index 0, 1, 2 of the C array is `x`, `y`, `z`. -/
structure Vec3t where
  x : Int
  y : Int
  z : Int
deriving DecidableEq, Repr

/-- Float vector `Vec3f`; index 0, 1, 2 of the C array is `x`, `y`, `z`. -/
structure Vec3f where
  x : ℚ
  y : ℚ
  z : ℚ
deriving DecidableEq, Repr

/-- The fields of `struct Surface` read by the collision queries. -/
structure Surface where
  type : Int
  flags : Nat
  lowerY : Int
  upperY : Int
  vertex1 : Vec3t
  vertex2 : Vec3t
  vertex3 : Vec3t
  normal : Vec3f
  originOffset : ℚ
deriving DecidableEq, Repr

/-- The fields of `struct Object` read by the wall query; `addr` stands for the pointer value. -/
structure Object where
  addr : Nat
  activeFlags : Nat
deriving DecidableEq, Repr

/-- Index of the per-cell surface lists (`SPATIAL_PARTITION_*`). -/
inductive SpatialPartition where
  | SPATIAL_PARTITION_FLOORS
  | SPATIAL_PARTITION_CEILS
  | SPATIAL_PARTITION_WALLS
  | SPATIAL_PARTITION_WATER
deriving DecidableEq, Repr

/-- Constants, surface type tags, flag bits, the square root function and the vector
normalisation `vec3f_normalize`, all of which the translated file takes from headers and
libraries that are not part of it. -/
structure Externals where
  FLOOR_LOWER_LIMIT : Int
  CELL_HEIGHT_LIMIT : Int
  LEVEL_BOUNDARY_MAX : Int
  CELL_SIZE : Int
  NUM_CELLS_INDEX : Int
  MAX_REFEREMCED_WALLS : Nat
  SURFACE_DEFAULT : Int
  SURFACE_HANGABLE : Int
  SURFACE_INTANGIBLE : Int
  SURFACE_CAMERA_BOUNDARY : Int
  SURFACE_VANISH_CAP_WALLS : Int
  SURFACE_NEW_WATER : Int
  SURFACE_NEW_WATER_BOTTOM : Int
  SURFACE_FLAG_NO_CAM_COLLISION : Nat
  ACTIVE_FLAG_MOVE_THROUGH_GRATE : Nat
  MARIO_VANISH_CAP : Nat
  sqrtf : ℚ → ℚ
  NUM_CELLS : Int
  RAYCAST_FIND_FLOOR : Nat
  RAYCAST_FIND_WALL : Nat
  RAYCAST_FIND_CEIL : Nat
  RAYCAST_FIND_WATER : Nat
  vec3f_normalize : Vec3f → Vec3f

/-- `struct WallCollisionData`. The field `walls` holds the array entries `walls[0]` up to
`walls[numWalls - 1]` in order; entries of the C array at or beyond `numWalls` are stale
storage that the file never reads, and a store `walls[numWalls++] = surf` replaces whatever
was kept beyond the first `numWalls` entries. -/
structure WallCollisionData where
  x : ℚ
  y : ℚ
  z : ℚ
  offsetY : ℚ
  radius : ℚ
  numWalls : Nat
  walls : List Surface
deriving DecidableEq, Repr

/-- The global variables the file reads or writes. The two partitions are indexed
`[cellZ][cellX][category]` and give the list that starts at the `.next` of the cell head. -/
structure Globals where
  gCheckingSurfaceCollisionsForCamera : Bool
  gFindFloorIncludeSurfaceIntangible : Bool
  gCurrentObject : Option Object
  gMarioObject : Option Object
  gMarioState_flags : Nat
  gMarioState_pos1 : ℚ
  gLakituState_pos1 : ℚ
  gEnvironmentRegions : Option (List Int)
  gStaticSurfacePartition : Int → Int → SpatialPartition → List Surface
  gDynamicSurfacePartition : Int → Int → SpatialPartition → List Surface
  gNumCalls_floor : Nat
  gNumCalls_ceil : Nat
  gNumCalls_wall : Nat
  gNumFindFloorMisses : Nat

/-! ## Machine arithmetic -/

/-- Reduction of an integer to the 32-bit two's complement range. -/
def s32 (n : Int) : Int := (n + 2147483648) % 4294967296 - 2147483648

/-- 32-bit signed subtraction. -/
def s32_sub (a b : Int) : Int := s32 (a - b)

/-- 32-bit signed multiplication. -/
def s32_mul (a b : Int) : Int := s32 (a * b)

/-- Conversion of a float to an integer: truncation toward zero. -/
def f32_to_s32 (q : ℚ) : Int := if 0 ≤ q then ⌊q⌋ else ⌈q⌉

/-! ## Helpers from headers outside the file -/

/-- Modelled from the spec: `is_outside_level_bounds`, declared outside the file. The spec
says that coordinates outside a fixed world extent short-circuit every query; the extent is
taken to be the open square `-LEVEL_BOUNDARY_MAX < x, z < LEVEL_BOUNDARY_MAX`. The theorems
below use the test only through its result. -/
def is_outside_level_bounds (E : Externals) (x z : Int) : Bool :=
  decide (x ≤ -E.LEVEL_BOUNDARY_MAX) || decide (x ≥ E.LEVEL_BOUNDARY_MAX)
    || decide (z ≤ -E.LEVEL_BOUNDARY_MAX) || decide (z ≥ E.LEVEL_BOUNDARY_MAX)

/-- Modelled from the spec: `get_surface_height_at_location`, declared outside the file. The
spec says the height at (x,z) is computed by the plane equation `normal . P + offset = 0`. -/
def get_surface_height_at_location (x z : Int) (surf : Surface) : ℚ :=
  -((x : ℚ) * surf.normal.x + surf.normal.z * (z : ℚ) + surf.originOffset) / surf.normal.y

/-- The difference `a - b` of a float vector and an integer vertex (`vec3_diff`). -/
def vec3_diff_ft (a : Vec3f) (b : Vec3t) : Vec3f :=
  ⟨a.x - (b.x : ℚ), a.y - (b.y : ℚ), a.z - (b.z : ℚ)⟩

/-- The difference `a - b` of two integer vertices, stored as floats (`vec3_diff`). -/
def vec3_diff_tt (a b : Vec3t) : Vec3f :=
  ⟨((a.x - b.x : Int) : ℚ), ((a.y - b.y : Int) : ℚ), ((a.z - b.z : Int) : ℚ)⟩

/-- The dot product `vec3_dot`. -/
def vec3_dot (a b : Vec3f) : ℚ := a.x * b.x + a.y * b.y + a.z * b.z

/-- The cell index `((x + LEVEL_BOUNDARY_MAX) / CELL_SIZE) & NUM_CELLS_INDEX`. -/
def cell_index (E : Externals) (x : Int) : Int :=
  Int.land (Int.tdiv (x + E.LEVEL_BOUNDARY_MAX) E.CELL_SIZE) E.NUM_CELLS_INDEX

/-- The test `surf->flags & SURFACE_FLAG_NO_CAM_COLLISION`. -/
def has_no_cam_collision (E : Externals) (surf : Surface) : Bool :=
  decide (Nat.land surf.flags E.SURFACE_FLAG_NO_CAM_COLLISION ≠ 0)

/-! ## Floors -/

/-- One edge expression of the point-in-triangle test,
`(vz[i] - z) * (vx[j] - vx[i]) - (vx[i] - x) * (vz[j] - vz[i])`, in 32-bit arithmetic. -/
def edge_expr (x z vxi vzi vxj vzj : Int) : Int :=
  s32_sub (s32_mul (s32_sub vzi z) (s32_sub vxj vxi)) (s32_mul (s32_sub vxi x) (s32_sub vzj vzi))

/-- The mode and type exclusions of `find_floor_from_list`: `true` when the surface is
skipped. In camera mode a surface flagged no-camera-collision or typed as water is skipped;
otherwise a surface typed camera-boundary is skipped. -/
def floor_mode_excluded (E : Externals) (cam : Bool) (surf : Surface) : Bool :=
  if cam then
    (has_no_cam_collision E surf || decide (surf.type = E.SURFACE_NEW_WATER)
      || decide (surf.type = E.SURFACE_NEW_WATER_BOTTOM))
  else decide (surf.type = E.SURFACE_CAMERA_BOUNDARY)

/-- The loop of `find_floor_from_list`, with the running `floor` and `*pheight`. -/
def find_floor_loop (E : Externals) (cam : Bool) (x y z : Int) :
    List Surface → Option Surface → ℚ → Option Surface × ℚ
  | [], floor, pheight => (floor, pheight)
  | surf :: rest, floor, pheight =>
    if y < surf.lowerY - 30 then find_floor_loop E cam x y z rest floor pheight
    else if edge_expr x z surf.vertex1.x surf.vertex1.z surf.vertex2.x surf.vertex2.z < 0 then
      find_floor_loop E cam x y z rest floor pheight
    else if edge_expr x z surf.vertex2.x surf.vertex2.z surf.vertex3.x surf.vertex3.z < 0 then
      find_floor_loop E cam x y z rest floor pheight
    else if edge_expr x z surf.vertex3.x surf.vertex3.z surf.vertex1.x surf.vertex1.z < 0 then
      find_floor_loop E cam x y z rest floor pheight
    else if floor_mode_excluded E cam surf then find_floor_loop E cam x y z rest floor pheight
    else
      let height := get_surface_height_at_location x z surf
      if height < pheight then find_floor_loop E cam x y z rest floor pheight
      else if (y : ℚ) < height - 78 then find_floor_loop E cam x y z rest floor pheight
      else if height - 78 = (y : ℚ) then (some surf, height)
      else find_floor_loop E cam x y z rest (some surf) height

/-- The function `find_floor_from_list`: the floor found and the value left in `*pheight`. -/
def find_floor_from_list (E : Externals) (cam : Bool) (surfaceNode : List Surface)
    (x y z : Int) : Option Surface × ℚ :=
  find_floor_loop E cam x y z surfaceNode none (E.FLOOR_LOWER_LIMIT : ℚ)

/-- The static part of `find_floor` (the static scan and the re-probe beneath an intangible
floor): the static candidate and the updated `gFindFloorIncludeSurfaceIntangible`. -/
def find_floor_static (E : Externals) (cam includeIntangible : Bool) (surfaceList : List Surface)
    (x y z : Int) : (Option Surface × ℚ) × Bool :=
  let r := find_floor_from_list E cam surfaceList x y z
  if !includeIntangible then
    match r.1 with
    | some floor =>
      if floor.type = E.SURFACE_INTANGIBLE then
        (find_floor_from_list E cam surfaceList x (f32_to_s32 (r.2 - 200)) z, includeIntangible)
      else (r, includeIntangible)
    | none => (r, includeIntangible)
  else (r, false)

/-- The function `find_floor`: the returned height, the surface stored in `*pfloor` and the
globals after the call. -/
def find_floor (E : Externals) (G : Globals) (xPos yPos zPos : ℚ) :
    ℚ × Option Surface × Globals :=
  let x := f32_to_s32 xPos
  let y := f32_to_s32 yPos
  let z := f32_to_s32 zPos
  if is_outside_level_bounds E x z then ((E.FLOOR_LOWER_LIMIT : ℚ), none, G)
  else
    let cellX := cell_index E x
    let cellZ := cell_index E z
    let dyn := find_floor_from_list E G.gCheckingSurfaceCollisionsForCamera
      (G.gDynamicSurfacePartition cellZ cellX SpatialPartition.SPATIAL_PARTITION_FLOORS) x y z
    let st := find_floor_static E G.gCheckingSurfaceCollisionsForCamera
      G.gFindFloorIncludeSurfaceIntangible
      (G.gStaticSurfacePartition cellZ cellX SpatialPartition.SPATIAL_PARTITION_FLOORS) x y z
    let misses := if st.1.1 = none then G.gNumFindFloorMisses + 1 else G.gNumFindFloorMisses
    let G1 := { G with gFindFloorIncludeSurfaceIntangible := st.2,
                       gNumFindFloorMisses := misses,
                       gNumCalls_floor := G.gNumCalls_floor + 1 }
    if dyn.2 > st.1.2 then (dyn.2, dyn.1, G1) else (st.1.2, st.1.1, G1)

/-! ## Ceilings -/

/-- The function `add_ceil_margin`: the updated `*x` and `*z`. -/
def add_ceil_margin (E : Externals) (x z : Int) (target1 target2 : Vec3t) (margin : ℚ) :
    Int × Int :=
  let diff_x : ℚ := ((target1.x - x + target2.x - x : Int) : ℚ)
  let diff_z : ℚ := ((target1.z - z + target2.z - z : Int) : ℚ)
  let invDenom := margin / E.sqrtf (diff_x ^ 2 + diff_z ^ 2)
  (f32_to_s32 ((x : ℚ) + diff_x * invDenom), f32_to_s32 ((z : ℚ) + diff_z * invDenom))

/-- A ceiling vertex as used by the point-in-triangle test of `find_ceil_from_list`: moved by
the margin `1.5f` unless the surface is hangable. -/
def ceil_vertex (E : Externals) (surf : Surface) (v target1 target2 : Vec3t) : Int × Int :=
  if surf.type ≠ E.SURFACE_HANGABLE then add_ceil_margin E v.x v.z target1 target2 (3 / 2)
  else (v.x, v.z)

/-- The mode and type exclusions of `find_ceil_from_list`: `true` when the surface is
skipped. A surface typed as water is skipped in both modes; in camera mode a surface flagged
no-camera-collision is skipped, otherwise a surface typed camera-boundary is skipped. -/
def ceil_mode_excluded (E : Externals) (cam : Bool) (surf : Surface) : Bool :=
  if surf.type = E.SURFACE_NEW_WATER ∨ surf.type = E.SURFACE_NEW_WATER_BOTTOM then true
  else if cam then has_no_cam_collision E surf
  else decide (surf.type = E.SURFACE_CAMERA_BOUNDARY)

/-- The loop of `find_ceil_from_list`, with the running `ceil` and `*pheight`. -/
def find_ceil_loop (E : Externals) (cam : Bool) (x y z : Int) :
    List Surface → Option Surface → ℚ → Option Surface × ℚ
  | [], ceil, pheight => (ceil, pheight)
  | surf :: rest, ceil, pheight =>
    if y > surf.upperY then find_ceil_loop E cam x y z rest ceil pheight
    else
      let v0 := ceil_vertex E surf surf.vertex1 surf.vertex2 surf.vertex3
      let v1 := ceil_vertex E surf surf.vertex2 surf.vertex3 surf.vertex1
      if edge_expr x z v0.1 v0.2 v1.1 v1.2 > 0 then find_ceil_loop E cam x y z rest ceil pheight
      else
        let v2 := ceil_vertex E surf surf.vertex3 surf.vertex1 surf.vertex2
        if edge_expr x z v1.1 v1.2 v2.1 v2.2 > 0 then
          find_ceil_loop E cam x y z rest ceil pheight
        else if edge_expr x z v2.1 v2.2 v0.1 v0.2 > 0 then
          find_ceil_loop E cam x y z rest ceil pheight
        else if ceil_mode_excluded E cam surf then find_ceil_loop E cam x y z rest ceil pheight
        else
          let height := get_surface_height_at_location x z surf
          if height > pheight then find_ceil_loop E cam x y z rest ceil pheight
          else if (y : ℚ) > height then find_ceil_loop E cam x y z rest ceil pheight
          else if y ≥ surf.upperY then find_ceil_loop E cam x y z rest ceil pheight
          else if height = (y : ℚ) then (some surf, height)
          else find_ceil_loop E cam x y z rest (some surf) height

/-- The function `find_ceil_from_list`: the ceiling found and the value left in `*pheight`. -/
def find_ceil_from_list (E : Externals) (cam : Bool) (surfaceNode : List Surface)
    (x y z : Int) : Option Surface × ℚ :=
  find_ceil_loop E cam x y z surfaceNode none (E.CELL_HEIGHT_LIMIT : ℚ)

/-- The function `find_ceil`: the returned height, the surface stored in `*pceil` and the
globals after the call. -/
def find_ceil (E : Externals) (G : Globals) (posX posY posZ : ℚ) :
    ℚ × Option Surface × Globals :=
  let x := f32_to_s32 posX
  let y := f32_to_s32 posY
  let z := f32_to_s32 posZ
  if is_outside_level_bounds E x z then ((E.CELL_HEIGHT_LIMIT : ℚ), none, G)
  else
    let cellX := cell_index E x
    let cellZ := cell_index E z
    let dyn := find_ceil_from_list E G.gCheckingSurfaceCollisionsForCamera
      (G.gDynamicSurfacePartition cellZ cellX SpatialPartition.SPATIAL_PARTITION_CEILS) x y z
    let st := find_ceil_from_list E G.gCheckingSurfaceCollisionsForCamera
      (G.gStaticSurfacePartition cellZ cellX SpatialPartition.SPATIAL_PARTITION_CEILS) x y z
    let G1 := { G with gNumCalls_ceil := G.gNumCalls_ceil + 1 }
    if dyn.2 < st.2 then (dyn.2, dyn.1, G1) else (st.2, st.1, G1)

/-! ## Walls -/

/-- The running state of the loop of `find_wall_collisions_from_list`: `pos[0]`, `pos[2]`,
`margin_radius`, `data->numWalls`, `data->walls` and `numCols`. -/
structure WallScan where
  pos0 : ℚ
  pos2 : ℚ
  margin_radius : ℚ
  numWalls : Nat
  walls : List Surface
  numCols : Int
deriving DecidableEq, Repr

/-- The type and mode exclusions at the head of the wall loop: `true` when the surface is
skipped. -/
def wall_type_skip (E : Externals) (G : Globals) (surf : Surface) : Bool :=
  if surf.type = E.SURFACE_NEW_WATER ∨ surf.type = E.SURFACE_NEW_WATER_BOTTOM then true
  else if G.gCheckingSurfaceCollisionsForCamera then has_no_cam_collision E surf
  else if surf.type = E.SURFACE_CAMERA_BOUNDARY then true
  else
    match G.gCurrentObject with
    | some cur =>
      if surf.type = E.SURFACE_VANISH_CAP_WALLS then
        if Nat.land cur.activeFlags E.ACTIVE_FLAG_MOVE_THROUGH_GRATE ≠ 0 then true
        else if G.gMarioObject.map Object.addr = some cur.addr
            ∧ Nat.land G.gMarioState_flags E.MARIO_VANISH_CAP ≠ 0 then true
        else false
      else false
    | none => false

/-- The body of `CALC_OFFSET(vert, next_step)`: `none` when control goes to `next_step`,
otherwise the values of `d00`, `d01`, `invDenom` and `offset` carried to `check_collision`. -/
def CALC_OFFSET (E : Externals) (vert v2 : Vec3f) (margin_radius : ℚ) : Option (ℚ × ℚ × ℚ × ℚ) :=
  if vert.y ≠ 0 then
    let v := v2.y / vert.y
    if v < 0 ∨ v > 1 then none
    else
      let d00 := vert.x * v - v2.x
      let d01 := vert.z * v - v2.z
      let invDenom := E.sqrtf (d00 ^ 2 + d01 ^ 2)
      let offset := invDenom - margin_radius
      if offset > 0 then none else some (d00, d01, invDenom, offset)
  else none

/-- The label `hasCollision`: the surface is reported if there is room, and counted. -/
def hasCollision (E : Externals) (surf : Surface) (st : WallScan) : WallScan :=
  if st.numWalls < E.MAX_REFEREMCED_WALLS then
    { st with walls := st.walls.take st.numWalls ++ [surf], numWalls := st.numWalls + 1,
              numCols := st.numCols + 1 }
  else { st with numCols := st.numCols + 1 }

/-- The label `check_collision`, entered with the values left by `CALC_OFFSET`. -/
def check_collision (E : Externals) (surf : Surface) (st : WallScan) (c : ℚ × ℚ × ℚ × ℚ) :
    WallScan :=
  let offset := c.2.2.2
  let invDenom := offset / c.2.2.1
  let d00 := c.1 * invDenom
  let d01 := c.2.1 * invDenom
  let st1 := { st with pos0 := st.pos0 + d00, pos2 := st.pos2 + d01,
                       margin_radius := st.margin_radius + 1 / 100 }
  if d00 * surf.normal.x + d01 * surf.normal.z < (-9 / 10) * offset then st1
  else hasCollision E surf st1

/-- The labels `edge_1_2`, `edge_1_3` and `edge_2_3`, entered with the plane offset. -/
def wall_edges (E : Externals) (surf : Surface) (pos : Vec3f) (offset : ℚ) (st : WallScan) :
    WallScan :=
  if offset < 0 then st
  else
    let v0 := vec3_diff_tt surf.vertex2 surf.vertex1
    let v1 := vec3_diff_tt surf.vertex3 surf.vertex1
    let v2 := vec3_diff_ft pos surf.vertex1
    match CALC_OFFSET E v0 v2 st.margin_radius with
    | some c => check_collision E surf st c
    | none =>
      match CALC_OFFSET E v1 v2 st.margin_radius with
      | some c => check_collision E surf st c
      | none =>
        match CALC_OFFSET E (vec3_diff_tt surf.vertex3 surf.vertex2)
            (vec3_diff_ft pos surf.vertex2) st.margin_radius with
        | some c => check_collision E surf st c
        | none => st

/-- The barycentric face test of the wall loop at `pos`: `true` when neither `goto edge_1_2`
is taken. -/
def wall_face_test (surf : Surface) (pos : Vec3f) : Bool :=
  let v0 := vec3_diff_tt surf.vertex2 surf.vertex1
  let v1 := vec3_diff_tt surf.vertex3 surf.vertex1
  let v2 := vec3_diff_ft pos surf.vertex1
  let d00 := vec3_dot v0 v0
  let d01 := vec3_dot v0 v1
  let d11 := vec3_dot v1 v1
  let d20 := vec3_dot v2 v0
  let d21 := vec3_dot v2 v1
  let invDenom := 1 / (d00 * d11 - d01 * d01)
  let v := (d11 * d20 - d01 * d21) * invDenom
  let w := (d00 * d21 - d01 * d20) * invDenom
  if v < 0 ∨ v > 1 then false
  else if w < 0 ∨ w > 1 ∨ v + w > 1 then false
  else true

/-- The signed plane distance `offset` of the wall loop. -/
def wall_offset (surf : Surface) (pos : Vec3f) : ℚ :=
  surf.normal.x * pos.x + surf.normal.y * pos.y + surf.normal.z * pos.z + surf.originOffset

/-- One iteration of the loop of `find_wall_collisions_from_list`, for the surface `surf`;
`radius` is the clamped radius and `pos1` is `pos[1]`. -/
def wall_step (E : Externals) (G : Globals) (radius pos1 : ℚ) (st : WallScan) (surf : Surface) :
    WallScan :=
  if wall_type_skip E G surf then st
  else if pos1 < (surf.lowerY : ℚ) ∨ pos1 > (surf.upperY : ℚ) then st
  else
    let pos : Vec3f := ⟨st.pos0, pos1, st.pos2⟩
    let offset := wall_offset surf pos
    if offset < -radius ∨ offset > radius then st
    else if wall_face_test surf pos then
      hasCollision E surf
        { st with pos0 := st.pos0 + surf.normal.x * (radius - offset),
                  pos2 := st.pos2 + surf.normal.z * (radius - offset) }
    else wall_edges E surf pos offset st

/-- The function `find_wall_collisions_from_list`: the returned `numCols` and the updated
`*data`. -/
def find_wall_collisions_from_list (E : Externals) (G : Globals) (surfaceNode : List Surface)
    (data : WallCollisionData) : Int × WallCollisionData :=
  let margin_radius := data.radius - 1
  let radius := if data.radius > 200 then 200 else data.radius
  let st := surfaceNode.foldl (wall_step E G radius (data.y + data.offsetY))
    ⟨data.x, data.z, margin_radius, data.numWalls, data.walls, 0⟩
  (st.numCols, { data with x := st.pos0, z := st.pos2, numWalls := st.numWalls,
                           walls := st.walls })

/-- The function `find_wall_collisions`: the returned count, the updated `*colData` and the
globals after the call. -/
def find_wall_collisions (E : Externals) (G : Globals) (colData : WallCollisionData) :
    Int × WallCollisionData × Globals :=
  let x := f32_to_s32 colData.x
  let z := f32_to_s32 colData.z
  let colData0 := { colData with numWalls := 0 }
  if is_outside_level_bounds E x z then (0, colData0, G)
  else
    let cellX := cell_index E x
    let cellZ := cell_index E z
    let r1 := find_wall_collisions_from_list E G
      (G.gDynamicSurfacePartition cellZ cellX SpatialPartition.SPATIAL_PARTITION_WALLS) colData0
    let r2 := find_wall_collisions_from_list E G
      (G.gStaticSurfacePartition cellZ cellX SpatialPartition.SPATIAL_PARTITION_WALLS) r1.2
    (r1.1 + r2.1, r2.2, { G with gNumCalls_wall := G.gNumCalls_wall + 1 })

/-! ## Water and environment regions -/

/-- The function `check_within_triangle_bounds`. -/
def check_within_triangle_bounds (x z : Int) (surf : Surface) : Bool :=
  if edge_expr x z surf.vertex1.x surf.vertex1.z surf.vertex2.x surf.vertex2.z < 0 then false
  else if edge_expr x z surf.vertex2.x surf.vertex2.z surf.vertex3.x surf.vertex3.z < 0 then false
  else if edge_expr x z surf.vertex3.x surf.vertex3.z surf.vertex1.x surf.vertex1.z < 0 then false
  else true

/-- The first loop of `find_water_floor_from_list`: the running `bottomHeight`. -/
def water_bottom_loop (E : Externals) (x y z : Int) : List Surface → ℚ → ℚ
  | [], bottomHeight => bottomHeight
  | surf :: rest, bottomHeight =>
    if surf.type ≠ E.SURFACE_NEW_WATER_BOTTOM ∨ !check_within_triangle_bounds x z surf then
      water_bottom_loop E x y z rest bottomHeight
    else
      let curBottomHeight := get_surface_height_at_location x z surf
      if curBottomHeight < (y : ℚ) - 78 then water_bottom_loop E x y z rest bottomHeight
      else if curBottomHeight ≥ (y : ℚ) - 78 then water_bottom_loop E x y z rest curBottomHeight
      else water_bottom_loop E x y z rest bottomHeight

/-- The second loop of `find_water_floor_from_list`: the running `floor`, `height` and
`*pheight`. -/
def water_top_loop (E : Externals) (x z : Int) (bottomHeight : ℚ) :
    List Surface → Option Surface × ℚ × ℚ → Option Surface × ℚ × ℚ
  | [], r => r
  | surf :: rest, r =>
    if surf.type = E.SURFACE_NEW_WATER_BOTTOM ∨ !check_within_triangle_bounds x z surf then
      water_top_loop E x z bottomHeight rest r
    else
      let curHeight := get_surface_height_at_location x z surf
      if bottomHeight ≠ (E.FLOOR_LOWER_LIMIT : ℚ) ∧ curHeight > bottomHeight then
        water_top_loop E x z bottomHeight rest r
      else if curHeight > r.2.1 then water_top_loop E x z bottomHeight rest (some surf, curHeight, curHeight)
      else water_top_loop E x z bottomHeight rest r

/-- The function `find_water_floor_from_list`, entered with the caller's value of `*pheight`:
the floor found and the value left in `*pheight`. -/
def find_water_floor_from_list (E : Externals) (surfaceNode : List Surface) (x y z : Int)
    (pheight : ℚ) : Option Surface × ℚ :=
  let bottomHeight := water_bottom_loop E x y z surfaceNode (E.FLOOR_LOWER_LIMIT : ℚ)
  let r := water_top_loop E x z bottomHeight surfaceNode (none, (E.FLOOR_LOWER_LIMIT : ℚ), pheight)
  (r.1, r.2.2)

/-- The function `find_water_floor`: the returned height and the surface stored in `*pfloor`
(`none` when nothing is stored). -/
def find_water_floor (E : Externals) (G : Globals) (xPos yPos zPos : Int) : ℚ × Option Surface :=
  if is_outside_level_bounds E xPos zPos then ((E.FLOOR_LOWER_LIMIT : ℚ), none)
  else
    let cellX := cell_index E xPos
    let cellZ := cell_index E zPos
    let r := find_water_floor_from_list E
      (G.gStaticSurfacePartition cellZ cellX SpatialPartition.SPATIAL_PARTITION_WATER)
      xPos yPos zPos (E.FLOOR_LOWER_LIMIT : ℚ)
    match r.1 with
    | none => ((E.FLOOR_LOWER_LIMIT : ℚ), none)
    | some floor => (r.2, some floor)

/-- The condition `loX < x && x < hiX && loZ < z && z < hiZ && val < 50` of the region loop
of `find_water_level`, for the region whose six entries `val, loX, loZ, hiX, hiZ, level`
start at offset `off` of the region array; reads outside the array give `0`. -/
def water_region_matches (x z : Int) (regions : List Int) (off : Nat) : Prop :=
  regions.getD (off + 1) 0 < x ∧ x < regions.getD (off + 3) 0
  ∧ regions.getD (off + 2) 0 < z ∧ z < regions.getD (off + 4) 0
  ∧ regions.getD off 0 < 50

instance (x z : Int) (regions : List Int) (off : Nat) :
    Decidable (water_region_matches x z regions off) := by
  unfold water_region_matches; infer_instance

/-- The region loop of `find_water_level`: `n` iterations remain and `p` points at offset
`off` of the region array. -/
def water_region_loop (x z : Int) (regions : List Int) : Nat → Nat → Int → Int
  | 0, _, waterLevel => waterLevel
  | n + 1, off, waterLevel =>
    if water_region_matches x z regions off then regions.getD (off + 5) 0
    else water_region_loop x z regions n (off + 6) waterLevel

/-- The function `find_water_level`. -/
def find_water_level (E : Externals) (G : Globals) (x z : Int) : Int :=
  let waterLevel : Int :=
    if G.gCheckingSurfaceCollisionsForCamera then
      f32_to_s32 (find_water_floor E G x (f32_to_s32 G.gLakituState_pos1) z).1
    else f32_to_s32 (find_water_floor E G x (f32_to_s32 G.gMarioState_pos1) z).1
  match G.gEnvironmentRegions with
  | some p =>
    if waterLevel = E.FLOOR_LOWER_LIMIT then
      water_region_loop x z p (p.getD 0 0).toNat 1 waterLevel
    else waterLevel
  | none => waterLevel

/-- The condition under which the region loop of `find_poison_gas_level` takes the level of
the region whose six entries start at offset `off`: `val >= 50`, the point strictly inside
the box, and `val % 10 == 0`. -/
def gas_region_matches (x z : Int) (regions : List Int) (off : Nat) : Prop :=
  regions.getD off 0 ≥ 50
  ∧ regions.getD (off + 1) 0 < x ∧ x < regions.getD (off + 3) 0
  ∧ regions.getD (off + 2) 0 < z ∧ z < regions.getD (off + 4) 0
  ∧ Int.tmod (regions.getD off 0) 10 = 0

instance (x z : Int) (regions : List Int) (off : Nat) :
    Decidable (gas_region_matches x z regions off) := by
  unfold gas_region_matches; infer_instance

/-- The region loop of `find_poison_gas_level`: `n` iterations remain and `p` points at
offset `off` of the region array. -/
def gas_region_loop (x z : Int) (regions : List Int) : Nat → Nat → Int → Int
  | 0, _, gasLevel => gasLevel
  | n + 1, off, gasLevel =>
    if gas_region_matches x z regions off then regions.getD (off + 5) 0
    else gas_region_loop x z regions n (off + 6) gasLevel

/-- The function `find_poison_gas_level`. -/
def find_poison_gas_level (E : Externals) (G : Globals) (x z : Int) : Int :=
  match G.gEnvironmentRegions with
  | some p => gas_region_loop x z p (p.getD 0 0).toNat 1 E.FLOOR_LOWER_LIMIT
  | none => E.FLOOR_LOWER_LIMIT

/-! ## Ray casting -/

/-- The constant `RAY_OFFSET` of the file. -/
def RAY_OFFSET : ℚ := 30

/-- The constant `RAY_STEPS` of the file. -/
def RAY_STEPS : ℚ := 4

/-- A vertex copied into a float vector (`vec3_copy`). -/
def vec3_of_vertex (v : Vec3t) : Vec3f := ⟨(v.x : ℚ), (v.y : ℚ), (v.z : ℚ)⟩

/-- The sum of two float vectors (`vec3_add`, `vec3_sum`). -/
def vec3_sum (a b : Vec3f) : Vec3f := ⟨a.x + b.x, a.y + b.y, a.z + b.z⟩

/-- The difference of two float vectors (`vec3_diff`). -/
def vec3_diff (a b : Vec3f) : Vec3f := ⟨a.x - b.x, a.y - b.y, a.z - b.z⟩

/-- A float vector scaled by a number (`vec3_mul_val`). -/
def vec3_mul_val (a : Vec3f) (k : ℚ) : Vec3f := ⟨a.x * k, a.y * k, a.z * k⟩

/-- The cross product (`vec3_cross`). -/
def vec3_cross (a b : Vec3f) : Vec3f :=
  ⟨a.y * b.z - a.z * b.y, a.z * b.x - a.x * b.z, a.x * b.y - a.y * b.x⟩

/-- The function `ray_surface_intersect`, entered with the caller's values of `hit_pos` and
`*length`: the returned truth value and the values of `hit_pos` and `*length` on return. -/
def ray_surface_intersect (E : Externals) (orig dir : Vec3f) (dir_length : ℚ) (surface : Surface)
    (hit_pos : Vec3f) (length : ℚ) : Bool × Vec3f × ℚ :=
  if surface.type = E.SURFACE_INTANGIBLE
      ∨ Nat.land surface.flags E.SURFACE_FLAG_NO_CAM_COLLISION ≠ 0 then (false, hit_pos, length)
  else
    let norm := vec3_mul_val ⟨0, surface.normal.y, 0⟩ RAY_OFFSET
    let v0 := vec3_sum (vec3_of_vertex surface.vertex1) norm
    let v1 := vec3_sum (vec3_of_vertex surface.vertex2) norm
    let v2 := vec3_sum (vec3_of_vertex surface.vertex3) norm
    let e1 := vec3_diff v1 v0
    let e2 := vec3_diff v2 v0
    let h := vec3_cross dir e2
    let a := vec3_dot e1 h
    if a > -(1 / 100000) ∧ a < 1 / 100000 then (false, hit_pos, length)
    else
      let f := 1 / a
      let s := vec3_diff orig v0
      let u := f * vec3_dot s h
      if u < 0 ∨ u > 1 then (false, hit_pos, length)
      else
        let q := vec3_cross s e1
        let v := f * vec3_dot dir q
        if v < 0 ∨ u + v > 1 then (false, hit_pos, length)
        else
          let len := f * vec3_dot e2 q
          if len ≤ 1 / 100000 ∨ len > dir_length then (false, hit_pos, len)
          else (true, vec3_sum orig (vec3_mul_val dir len), len)

/-- The out-parameters shared by the ray functions: `*hit_surface`, `hit_pos` and
`*max_length`. -/
structure RayHit where
  hit_surface : Option Surface
  hit_pos : Vec3f
  max_length : ℚ
deriving DecidableEq, Repr

/-- The loop of `find_surface_on_ray_list`, with the out-parameters and the locals
`chk_hit_pos` and `length`. -/
def ray_list_loop (E : Externals) (orig dir : Vec3f) (dir_length top bottom : ℚ) :
    List Surface → RayHit × Vec3f × ℚ → RayHit × Vec3f × ℚ
  | [], st => st
  | surface :: rest, st =>
    if (surface.lowerY : ℚ) > top ∨ (surface.upperY : ℚ) < bottom then
      ray_list_loop E orig dir dir_length top bottom rest st
    else
      let res := ray_surface_intersect E orig dir dir_length surface st.2.1 st.2.2
      if res.1 = true ∧ res.2.2 ≤ st.1.max_length then
        ray_list_loop E orig dir dir_length top bottom rest
          (⟨some surface, res.2.1, res.2.2⟩, res.2.1, res.2.2)
      else ray_list_loop E orig dir dir_length top bottom rest (st.1, res.2.1, res.2.2)

/-- The upper bound `top` of the ray computed by `find_surface_on_ray_list`. -/
def ray_top (orig dir : Vec3f) (dir_length : ℚ) : ℚ :=
  if dir.y ≥ 0 then orig.y + dir.y * dir_length else orig.y

/-- The lower bound `bottom` of the ray computed by `find_surface_on_ray_list`. -/
def ray_bottom (orig dir : Vec3f) (dir_length : ℚ) : ℚ :=
  if dir.y ≥ 0 then orig.y else orig.y + dir.y * dir_length

/-- The function `find_surface_on_ray_list`. Its locals `chk_hit_pos` and `length` are not
initialised in the source and are read only after `ray_surface_intersect` has written them;
they start at zero here. -/
def find_surface_on_ray_list (E : Externals) (list : List Surface) (orig dir : Vec3f)
    (dir_length : ℚ) (r : RayHit) : RayHit :=
  (ray_list_loop E orig dir dir_length (ray_top orig dir dir_length)
    (ray_bottom orig dir dir_length) list (r, ⟨0, 0, 0⟩, 0)).1

/-- The function `find_surface_on_ray_cell`. -/
def find_surface_on_ray_cell (E : Externals) (G : Globals) (cellX cellZ : Int)
    (orig normalized_dir : Vec3f) (dir_length : ℚ) (r : RayHit) (flags : Nat) : RayHit :=
  if cellX ≥ 0 ∧ cellX ≤ E.NUM_CELLS - 1 ∧ cellZ ≥ 0 ∧ cellZ ≤ E.NUM_CELLS - 1 then
    let r1 :=
      if normalized_dir.y > -(99999 / 100000) ∧ Nat.land flags E.RAYCAST_FIND_CEIL ≠ 0 then
        find_surface_on_ray_list E
          (G.gDynamicSurfacePartition cellZ cellX SpatialPartition.SPATIAL_PARTITION_CEILS)
          orig normalized_dir dir_length
          (find_surface_on_ray_list E
            (G.gStaticSurfacePartition cellZ cellX SpatialPartition.SPATIAL_PARTITION_CEILS)
            orig normalized_dir dir_length r)
      else r
    let r2 :=
      if normalized_dir.y < 99999 / 100000 ∧ Nat.land flags E.RAYCAST_FIND_FLOOR ≠ 0 then
        find_surface_on_ray_list E
          (G.gDynamicSurfacePartition cellZ cellX SpatialPartition.SPATIAL_PARTITION_FLOORS)
          orig normalized_dir dir_length
          (find_surface_on_ray_list E
            (G.gStaticSurfacePartition cellZ cellX SpatialPartition.SPATIAL_PARTITION_FLOORS)
            orig normalized_dir dir_length r1)
      else r1
    let r3 :=
      if Nat.land flags E.RAYCAST_FIND_WALL ≠ 0 then
        find_surface_on_ray_list E
          (G.gDynamicSurfacePartition cellZ cellX SpatialPartition.SPATIAL_PARTITION_WALLS)
          orig normalized_dir dir_length
          (find_surface_on_ray_list E
            (G.gStaticSurfacePartition cellZ cellX SpatialPartition.SPATIAL_PARTITION_WALLS)
            orig normalized_dir dir_length r2)
      else r2
    if Nat.land flags E.RAYCAST_FIND_WATER ≠ 0 then
      find_surface_on_ray_list E
        (G.gDynamicSurfacePartition cellZ cellX SpatialPartition.SPATIAL_PARTITION_WATER)
        orig normalized_dir dir_length
        (find_surface_on_ray_list E
          (G.gStaticSurfacePartition cellZ cellX SpatialPartition.SPATIAL_PARTITION_WATER)
          orig normalized_dir dir_length r3)
    else r3
  else r

/-- The DDA loop of `find_surface_on_ray`: `fuel` bounds the number of iterations, `i` is
the loop counter, and the running `fCellX`, `fCellZ`, `cellX`, `cellZ` and out-parameters
are carried along. -/
def ray_dda_loop (E : Externals) (G : Globals) (orig normalized_dir : Vec3f)
    (dir_length : ℚ) (flags : Nat) (step dx dz : ℚ) :
    Nat → Int → ℚ → ℚ → Int → Int → RayHit → RayHit
  | 0, _, _, _, _, _, r => r
  | fuel + 1, i, fCellX, fCellZ, cellX, cellZ, r =>
    if (i : ℚ) < step ∧ r.hit_surface = none then
      let r1 := find_surface_on_ray_cell E G cellX cellZ orig normalized_dir dir_length r flags
      let fCellX1 := fCellX + dx
      let fCellZ1 := fCellZ + dz
      let cellX1 := f32_to_s32 fCellX1
      let cellZ1 := f32_to_s32 fCellZ1
      let r2 :=
        if cellX ≠ cellX1 ∧ cellZ ≠ cellZ1 then
          find_surface_on_ray_cell E G cellX cellZ1 orig normalized_dir dir_length
            (find_surface_on_ray_cell E G cellX1 cellZ orig normalized_dir dir_length r1 flags)
            flags
        else r1
      ray_dda_loop E G orig normalized_dir dir_length flags step dx dz fuel (i + 1)
        fCellX1 fCellZ1 cellX1 cellZ1 r2
    else r

/-- The function `find_surface_on_ray`: the values of `*hit_surface` and `hit_pos` on
return. The DDA loop runs while `i < step`, so at most `ceil(step)` times, which is the fuel
given to `ray_dda_loop`. -/
def find_surface_on_ray (E : Externals) (G : Globals) (orig dir : Vec3f) (flags : Nat) :
    Option Surface × Vec3f :=
  let dir_length := E.sqrtf (dir.x ^ 2 + dir.y ^ 2 + dir.z ^ 2)
  let r0 : RayHit := ⟨none, vec3_sum orig dir, dir_length⟩
  let normalized_dir := E.vec3f_normalize dir
  let fCellX := (orig.x + (E.LEVEL_BOUNDARY_MAX : ℚ)) / (E.CELL_SIZE : ℚ)
  let fCellZ := (orig.z + (E.LEVEL_BOUNDARY_MAX : ℚ)) / (E.CELL_SIZE : ℚ)
  let cellX := f32_to_s32 fCellX
  let cellZ := f32_to_s32 fCellZ
  if normalized_dir.y ≥ 99999 / 100000 ∨ normalized_dir.y ≤ -(99999 / 100000) then
    let r := find_surface_on_ray_cell E G cellX cellZ orig normalized_dir dir_length r0 flags
    (r.hit_surface, r.hit_pos)
  else
    let step :=
      if |dir.x| ≥ |dir.z| then RAY_STEPS * |dir.x| / (E.CELL_SIZE : ℚ)
      else RAY_STEPS * |dir.z| / (E.CELL_SIZE : ℚ)
    let dx := dir.x / step / (E.CELL_SIZE : ℚ)
    let dz := dir.z / step / (E.CELL_SIZE : ℚ)
    let r := ray_dda_loop E G orig normalized_dir dir_length flags step dx dz
      ⌈step⌉.toNat 0 fCellX fCellZ cellX cellZ r0
    (r.hit_surface, r.hit_pos)

/-! ## Specification-side predicates -/

/-- The filters of `find_floor_from_list` that do not depend on the running best height: the
`lowerY - 30` reject, the three half-plane tests and the mode and type exclusions. -/
def floor_candidate (E : Externals) (cam : Bool) (x y z : Int) (surf : Surface) : Prop :=
  surf.lowerY - 30 ≤ y
  ∧ 0 ≤ edge_expr x z surf.vertex1.x surf.vertex1.z surf.vertex2.x surf.vertex2.z
  ∧ 0 ≤ edge_expr x z surf.vertex2.x surf.vertex2.z surf.vertex3.x surf.vertex3.z
  ∧ 0 ≤ edge_expr x z surf.vertex3.x surf.vertex3.z surf.vertex1.x surf.vertex1.z
  ∧ floor_mode_excluded E cam surf = false

instance (E : Externals) (cam : Bool) (x y z : Int) (surf : Surface) :
    Decidable (floor_candidate E cam x y z surf) := by
  unfold floor_candidate; infer_instance

/-- A surface passes all the filters of `find_floor_from_list` for the query (x,y,z): it is a
candidate, its height is at least `FLOOR_LOWER_LIMIT`, and `y >= height - 78`. -/
def floor_passes (E : Externals) (cam : Bool) (x y z : Int) (surf : Surface) : Prop :=
  floor_candidate E cam x y z surf
  ∧ (E.FLOOR_LOWER_LIMIT : ℚ) ≤ get_surface_height_at_location x z surf
  ∧ get_surface_height_at_location x z surf - 78 ≤ (y : ℚ)

instance (E : Externals) (cam : Bool) (x y z : Int) (surf : Surface) :
    Decidable (floor_passes E cam x y z surf) := by
  unfold floor_passes; infer_instance

/-- The filters of `find_ceil_from_list` that do not depend on the running best height: the
`upperY` reject, the three half-plane tests on the margin-adjusted vertices and the mode and
type exclusions. -/
def ceil_candidate (E : Externals) (cam : Bool) (x y z : Int) (surf : Surface) : Prop :=
  y ≤ surf.upperY
  ∧ edge_expr x z (ceil_vertex E surf surf.vertex1 surf.vertex2 surf.vertex3).1
      (ceil_vertex E surf surf.vertex1 surf.vertex2 surf.vertex3).2
      (ceil_vertex E surf surf.vertex2 surf.vertex3 surf.vertex1).1
      (ceil_vertex E surf surf.vertex2 surf.vertex3 surf.vertex1).2 ≤ 0
  ∧ edge_expr x z (ceil_vertex E surf surf.vertex2 surf.vertex3 surf.vertex1).1
      (ceil_vertex E surf surf.vertex2 surf.vertex3 surf.vertex1).2
      (ceil_vertex E surf surf.vertex3 surf.vertex1 surf.vertex2).1
      (ceil_vertex E surf surf.vertex3 surf.vertex1 surf.vertex2).2 ≤ 0
  ∧ edge_expr x z (ceil_vertex E surf surf.vertex3 surf.vertex1 surf.vertex2).1
      (ceil_vertex E surf surf.vertex3 surf.vertex1 surf.vertex2).2
      (ceil_vertex E surf surf.vertex1 surf.vertex2 surf.vertex3).1
      (ceil_vertex E surf surf.vertex1 surf.vertex2 surf.vertex3).2 ≤ 0
  ∧ ceil_mode_excluded E cam surf = false

instance (E : Externals) (cam : Bool) (x y z : Int) (surf : Surface) :
    Decidable (ceil_candidate E cam x y z surf) := by
  unfold ceil_candidate; infer_instance

/-- The dynamic floor candidate of `find_floor` for the integer query (x,y,z): the result of
scanning the dynamic floor list of the query's cell. -/
def dynamic_floor_candidate (E : Externals) (G : Globals) (x y z : Int) : Option Surface × ℚ :=
  find_floor_from_list E G.gCheckingSurfaceCollisionsForCamera
    (G.gDynamicSurfacePartition (cell_index E z) (cell_index E x)
      SpatialPartition.SPATIAL_PARTITION_FLOORS) x y z

/-- The static floor candidate of `find_floor` for the integer query (x,y,z): the result of
scanning the static floor list of the query's cell, after the re-probe beneath an intangible
floor when that applies. -/
def static_floor_candidate (E : Externals) (G : Globals) (x y z : Int) : Option Surface × ℚ :=
  (find_floor_static E G.gCheckingSurfaceCollisionsForCamera G.gFindFloorIncludeSurfaceIntangible
    (G.gStaticSurfacePartition (cell_index E z) (cell_index E x)
      SpatialPartition.SPATIAL_PARTITION_FLOORS) x y z).1

/-- The dynamic ceiling candidate of `find_ceil` for the integer query (x,y,z). -/
def dynamic_ceil_candidate (E : Externals) (G : Globals) (x y z : Int) : Option Surface × ℚ :=
  find_ceil_from_list E G.gCheckingSurfaceCollisionsForCamera
    (G.gDynamicSurfacePartition (cell_index E z) (cell_index E x)
      SpatialPartition.SPATIAL_PARTITION_CEILS) x y z

/-- The static ceiling candidate of `find_ceil` for the integer query (x,y,z). -/
def static_ceil_candidate (E : Externals) (G : Globals) (x y z : Int) : Option Surface × ℚ :=
  find_ceil_from_list E G.gCheckingSurfaceCollisionsForCamera
    (G.gStaticSurfacePartition (cell_index E z) (cell_index E x)
      SpatialPartition.SPATIAL_PARTITION_CEILS) x y z

/-- The exclusion by query mode: in camera mode a surface carrying
`SURFACE_FLAG_NO_CAM_COLLISION`, otherwise a surface of type `SURFACE_CAMERA_BOUNDARY`. -/
def camera_mode_excluded (E : Externals) (cam : Bool) (surf : Surface) : Bool :=
  if cam then has_no_cam_collision E surf else decide (surf.type = E.SURFACE_CAMERA_BOUNDARY)

/-- A surface is typed as water: `SURFACE_NEW_WATER` or `SURFACE_NEW_WATER_BOTTOM`. -/
def is_water_type (E : Externals) (surf : Surface) : Prop :=
  surf.type = E.SURFACE_NEW_WATER ∨ surf.type = E.SURFACE_NEW_WATER_BOTTOM

instance (E : Externals) (surf : Surface) : Decidable (is_water_type E surf) := by
  unfold is_water_type; infer_instance

/-- The walls reported so far: the first `numWalls` entries of the array. -/
def WallScan.reported (st : WallScan) : List Surface := st.walls.take st.numWalls

/-- The walls reported by a `WallCollisionData`: the first `numWalls` entries of the array. -/
def WallCollisionData.reported (data : WallCollisionData) : List Surface :=
  data.walls.take data.numWalls

/-- The probe passes the type, Y-range and plane-distance filters of the wall loop for the
surface `surf`, at the position `pos` and with the clamped radius `radius`. -/
def wall_passes_filters (E : Externals) (G : Globals) (radius : ℚ) (surf : Surface)
    (pos : Vec3f) : Prop :=
  wall_type_skip E G surf = false
  ∧ (surf.lowerY : ℚ) ≤ pos.y ∧ pos.y ≤ (surf.upperY : ℚ)
  ∧ -radius ≤ wall_offset surf pos ∧ wall_offset surf pos ≤ radius

instance (E : Externals) (G : Globals) (radius : ℚ) (surf : Surface) (pos : Vec3f) :
    Decidable (wall_passes_filters E G radius surf pos) := by
  unfold wall_passes_filters; infer_instance

/-- The start position of the wall loop: `{ data->x, data->y + data->offsetY, data->z }`. -/
def probe_pos (data : WallCollisionData) : Vec3f := ⟨data.x, data.y + data.offsetY, data.z⟩

/-- A vertical wall with unit normal. -/
def vertical_unit_normal (surf : Surface) : Prop :=
  surf.normal.y = 0 ∧ surf.normal.x ^ 2 + surf.normal.y ^ 2 + surf.normal.z ^ 2 = 1

/-- The normal of the surface is perpendicular to the two edges from `vertex1` (and so to
all three edges of the triangle). -/
def normal_perp_edges (surf : Surface) : Prop :=
  vec3_dot surf.normal (vec3_diff_tt surf.vertex2 surf.vertex1) = 0
  ∧ vec3_dot surf.normal (vec3_diff_tt surf.vertex3 surf.vertex1) = 0

/-- The surface `s` lies in the plane with normal `n` and offset `oo`, its normal is
perpendicular to its edges, and the barycentric face test of the wall loop succeeds on it at
the position `P`. -/
def coplanar_face (n : Vec3f) (oo : ℚ) (P : Vec3f) (s : Surface) : Prop :=
  s.normal = n ∧ s.originOffset = oo ∧ normal_perp_edges s ∧ wall_face_test s P = true

/-- The surface is skipped by the type or by the Y-range filter of the wall loop. -/
def wall_skipped (E : Externals) (G : Globals) (pos1 : ℚ) (s : Surface) : Prop :=
  wall_type_skip E G s = true ∨ pos1 < (s.lowerY : ℚ) ∨ pos1 > (s.upperY : ℚ)

/-- The corrected (x,z) left in `*data` by `find_wall_collisions_from_list`. -/
def corrected_xz (E : Externals) (G : Globals) (l : List Surface) (data : WallCollisionData) :
    ℚ × ℚ :=
  ((find_wall_collisions_from_list E G l data).2.x, (find_wall_collisions_from_list E G l data).2.z)

instance (surf : Surface) : Decidable (vertical_unit_normal surf) := by
  unfold vertical_unit_normal; infer_instance

instance (surf : Surface) : Decidable (normal_perp_edges surf) := by
  unfold normal_perp_edges; infer_instance

/-- The edge expression of the point-in-triangle test in exact integer arithmetic. -/
def edge_exact (x z vxi vzi vxj vzj : Int) : Int :=
  (vzi - z) * (vxj - vxi) - (vxi - x) * (vzj - vzi)

/-- Twice the signed area of the (x,z) projection of the triangle; it is positive for a
triangle wound in the floor orientation (its upward normal has a positive y component). -/
def signed_area2 (surf : Surface) : Int :=
  (surf.vertex1.z - surf.vertex3.z) * (surf.vertex2.x - surf.vertex1.x)
    - (surf.vertex1.x - surf.vertex3.x) * (surf.vertex2.z - surf.vertex1.z)

/-- The triangle is wound in the floor orientation. -/
def floor_wound (surf : Surface) : Prop := 0 < signed_area2 surf

instance (surf : Surface) : Decidable (floor_wound surf) := by
  unfold floor_wound; infer_instance

/-- The integer point (x,z) lies strictly inside the (x,z) projection of the triangle: it is
a combination of the three vertices with positive weights `a`, `b`, `c` of sum 1. -/
def strictly_inside_xz (surf : Surface) (x z : Int) : Prop :=
  ∃ a b c : ℚ, 0 < a ∧ 0 < b ∧ 0 < c ∧ a + b + c = 1
    ∧ (x : ℚ) = a * surf.vertex1.x + b * surf.vertex2.x + c * surf.vertex3.x
    ∧ (z : ℚ) = a * surf.vertex1.z + b * surf.vertex2.z + c * surf.vertex3.z

/-- The x and z coordinates of the three vertices lie in `[-m, m]`. -/
def vertices_within (surf : Surface) (m : Int) : Prop :=
  (-m ≤ surf.vertex1.x ∧ surf.vertex1.x ≤ m) ∧ (-m ≤ surf.vertex1.z ∧ surf.vertex1.z ≤ m)
  ∧ (-m ≤ surf.vertex2.x ∧ surf.vertex2.x ≤ m) ∧ (-m ≤ surf.vertex2.z ∧ surf.vertex2.z ≤ m)
  ∧ (-m ≤ surf.vertex3.x ∧ surf.vertex3.x ≤ m) ∧ (-m ≤ surf.vertex3.z ∧ surf.vertex3.z ≤ m)

instance (surf : Surface) (m : Int) : Decidable (vertices_within surf m) := by
  unfold vertices_within; infer_instance

/-- A flat (horizontal) triangle with consistent precomputed fields: the three vertices have
the same y, the normal is (0,1,0), the plane offset is minus that height, and the vertical
bounds are tight. -/
def flat_triangle (surf : Surface) : Prop :=
  surf.vertex2.y = surf.vertex1.y ∧ surf.vertex3.y = surf.vertex1.y
  ∧ surf.normal = ⟨0, 1, 0⟩ ∧ surf.originOffset = -(surf.vertex1.y : ℚ)
  ∧ surf.lowerY = surf.vertex1.y ∧ surf.upperY = surf.vertex1.y

instance (surf : Surface) : Decidable (flat_triangle surf) := by
  unfold flat_triangle; infer_instance

/-- The surface type is not excluded from the floor search of `find_floor` under the globals
`G`: it passes the mode and type exclusions of the list scan, and it is not intangible unless
intangible floors were asked for. -/
def floor_type_not_excluded (E : Externals) (G : Globals) (surf : Surface) : Prop :=
  floor_mode_excluded E G.gCheckingSurfaceCollisionsForCamera surf = false
  ∧ (surf.type ≠ E.SURFACE_INTANGIBLE ∨ G.gFindFloorIncludeSurfaceIntangible = true)

instance (E : Externals) (G : Globals) (surf : Surface) :
    Decidable (floor_type_not_excluded E G surf) := by
  unfold floor_type_not_excluded; infer_instance

/-- The surface is alone in the static floor list of the cell of (x,z) and the dynamic floor
list of that cell is empty. -/
def alone_in_floor_lists (E : Externals) (G : Globals) (surf : Surface) (x z : Int) : Prop :=
  G.gStaticSurfacePartition (cell_index E z) (cell_index E x)
      SpatialPartition.SPATIAL_PARTITION_FLOORS = [surf]
  ∧ G.gDynamicSurfacePartition (cell_index E z) (cell_index E x)
      SpatialPartition.SPATIAL_PARTITION_FLOORS = []

instance (E : Externals) (G : Globals) (surf : Surface) (x z : Int) :
    Decidable (alone_in_floor_lists E G surf x z) := by
  unfold alone_in_floor_lists; infer_instance

/-- The hypotheses of the single-triangle property as the specification words them: a flat
floor triangle of a non-excluded type, wound in the floor orientation, alone in the static
floor list with an empty dynamic list, an integer point (x,z) strictly inside its projection
and a `y` with `y >= H - 78`, where `H` is the plane height at (x,z). -/
def floor_query_as_claimed (E : Externals) (G : Globals) (s : Surface) (x y z : Int) : Prop :=
  flat_triangle s ∧ floor_wound s ∧ floor_type_not_excluded E G s
  ∧ alone_in_floor_lists E G s x z ∧ strictly_inside_xz s x z
  ∧ get_surface_height_at_location x z s - 78 ≤ (y : ℚ)

/-- The externals with the capacity of the report list replaced by `cap`. -/
def with_wall_cap (E : Externals) (cap : Nat) : Externals :=
  { E with MAX_REFEREMCED_WALLS := cap }

/-- The surface makes contact at the state `st` of the wall loop: the iteration reaches the
label `hasCollision`, where the surface is counted. -/
def wall_contact (E : Externals) (G : Globals) (radius pos1 : ℚ) (st : WallScan)
    (surf : Surface) : Bool :=
  decide ((wall_step E G radius pos1 st surf).numCols = st.numCols + 1)

/-- The surfaces of the list that make contact, in scan order, when the wall loop is run
from the state `st`. -/
def wall_contacts (E : Externals) (G : Globals) (radius pos1 : ℚ) :
    WallScan → List Surface → List Surface
  | _, [] => []
  | st, surf :: rest =>
    if wall_contact E G radius pos1 st surf then
      surf :: wall_contacts E G radius pos1 (wall_step E G radius pos1 st surf) rest
    else wall_contacts E G radius pos1 (wall_step E G radius pos1 st surf) rest

/-- The values of `d00`, `d01`, `invDenom` and `offset` with which the edge tests reach
`check_collision`, if one of the three does. -/
def wall_edge_values (E : Externals) (surf : Surface) (pos : Vec3f) (margin_radius : ℚ) :
    Option (ℚ × ℚ × ℚ × ℚ) :=
  match CALC_OFFSET E (vec3_diff_tt surf.vertex2 surf.vertex1) (vec3_diff_ft pos surf.vertex1)
      margin_radius with
  | some c => some c
  | none =>
    match CALC_OFFSET E (vec3_diff_tt surf.vertex3 surf.vertex1) (vec3_diff_ft pos surf.vertex1)
        margin_radius with
    | some c => some c
    | none => CALC_OFFSET E (vec3_diff_tt surf.vertex3 surf.vertex2)
        (vec3_diff_ft pos surf.vertex2) margin_radius

/-- The state of the wall loop after the position and margin updates of one iteration, with
the report list and the counts left as they were. -/
def wall_moved (E : Externals) (G : Globals) (radius pos1 : ℚ) (st : WallScan)
    (surf : Surface) : WallScan :=
  { st with pos0 := (wall_step E G radius pos1 st surf).pos0,
            pos2 := (wall_step E G radius pos1 st surf).pos2,
            margin_radius := (wall_step E G radius pos1 st surf).margin_radius }

/-- The surfaces of the list that make contact, in scan order, when
`find_wall_collisions_from_list` is run on the list for the probe `data`. -/
def find_wall_contacts (E : Externals) (G : Globals) (l : List Surface)
    (data : WallCollisionData) : List Surface :=
  wall_contacts E G (if data.radius > 200 then 200 else data.radius) (data.y + data.offsetY)
    ⟨data.x, data.z, data.radius - 1, data.numWalls, data.walls, 0⟩ l

/-- The surfaces that make contact during `find_wall_collisions`, in scan order: those of
the dynamic wall list of the probe's cell, then those of the static wall list, scanned from
the position the dynamic scan has left. None when the probe is outside the level bounds. -/
def wall_query_contacts (E : Externals) (G : Globals) (colData : WallCollisionData) :
    List Surface :=
  if is_outside_level_bounds E (f32_to_s32 colData.x) (f32_to_s32 colData.z) then []
  else
    find_wall_contacts E G
        (G.gDynamicSurfacePartition (cell_index E (f32_to_s32 colData.z))
          (cell_index E (f32_to_s32 colData.x)) SpatialPartition.SPATIAL_PARTITION_WALLS)
        { colData with numWalls := 0 }
      ++ find_wall_contacts E G
        (G.gStaticSurfacePartition (cell_index E (f32_to_s32 colData.z))
          (cell_index E (f32_to_s32 colData.x)) SpatialPartition.SPATIAL_PARTITION_WALLS)
        (find_wall_collisions_from_list E G
          (G.gDynamicSurfacePartition (cell_index E (f32_to_s32 colData.z))
            (cell_index E (f32_to_s32 colData.x)) SpatialPartition.SPATIAL_PARTITION_WALLS)
          { colData with numWalls := 0 }).2

/-- The probe reaches the edge tests of the wall loop for the surface: it passes the type,
Y-range and plane-distance filters, the face test fails, and the plane offset is not
negative. -/
def wall_reaches_edges (E : Externals) (G : Globals) (radius : ℚ) (surf : Surface)
    (pos : Vec3f) : Prop :=
  wall_passes_filters E G radius surf pos ∧ wall_face_test surf pos = false
  ∧ 0 ≤ wall_offset surf pos

instance (E : Externals) (G : Globals) (radius : ℚ) (surf : Surface) (pos : Vec3f) :
    Decidable (wall_reaches_edges E G radius surf pos) := by
  unfold wall_reaches_edges; infer_instance

/-- The corner-rejection test of `check_collision` for the values `c` left by `CALC_OFFSET`:
the dot product of the edge push with the (x,z) components of the normal is below `-0.9`
times the offset. -/
def corner_rejected (surf : Surface) (c : ℚ × ℚ × ℚ × ℚ) : Prop :=
  c.1 * (c.2.2.2 / c.2.2.1) * surf.normal.x + c.2.1 * (c.2.2.2 / c.2.2.1) * surf.normal.z
    < (-9 / 10) * c.2.2.2

instance (surf : Surface) (c : ℚ × ℚ × ℚ × ℚ) : Decidable (corner_rejected surf c) := by
  unfold corner_rejected; infer_instance

/-- A bottom surface qualifies in the first loop of `find_water_floor_from_list`: it has type
`SURFACE_NEW_WATER_BOTTOM`, contains (x,z) and its height is at least `y - 78`. -/
def water_bottom_qualifies (E : Externals) (x y z : Int) (surf : Surface) : Prop :=
  surf.type = E.SURFACE_NEW_WATER_BOTTOM ∧ check_within_triangle_bounds x z surf = true
  ∧ (y : ℚ) - 78 ≤ get_surface_height_at_location x z surf

instance (E : Externals) (x y z : Int) (surf : Surface) :
    Decidable (water_bottom_qualifies E x y z surf) := by
  unfold water_bottom_qualifies; infer_instance

/-- The last surface of the list, in list order, that qualifies as a bottom. -/
def last_water_bottom (E : Externals) (l : List Surface) (x y z : Int) : Option Surface :=
  (l.filter (fun s => decide (water_bottom_qualifies E x y z s))).getLast?

/-- The bottom height that limits the top surfaces: the height of the last qualifying
bottom, unless there is none or that height is `FLOOR_LOWER_LIMIT`. -/
def water_bottom_limit (E : Externals) (l : List Surface) (x y z : Int) : Option ℚ :=
  match last_water_bottom E l x y z with
  | some b =>
    if get_surface_height_at_location x z b = (E.FLOOR_LOWER_LIMIT : ℚ) then none
    else some (get_surface_height_at_location x z b)
  | none => none

/-- A top surface is eligible in the second loop of `find_water_floor_from_list` under the
bottom limit `lim`: it is not a bottom, contains (x,z), is not above the limit if there is
one, and is above `FLOOR_LOWER_LIMIT`. -/
def water_top_eligible (E : Externals) (lim : Option ℚ) (x z : Int) (surf : Surface) : Prop :=
  surf.type ≠ E.SURFACE_NEW_WATER_BOTTOM ∧ check_within_triangle_bounds x z surf = true
  ∧ (∀ b, lim = some b → get_surface_height_at_location x z surf ≤ b)
  ∧ (E.FLOOR_LOWER_LIMIT : ℚ) < get_surface_height_at_location x z surf

/-- The test of the second loop of `find_water_floor_from_list` that does not depend on the
running best: the surface is not a bottom, contains (x,z), and is not above `bottomHeight`
unless `bottomHeight` is `FLOOR_LOWER_LIMIT`. -/
def water_top_ok (E : Externals) (bottomHeight : ℚ) (x z : Int) (surf : Surface) : Prop :=
  surf.type ≠ E.SURFACE_NEW_WATER_BOTTOM ∧ check_within_triangle_bounds x z surf = true
  ∧ ¬ (bottomHeight ≠ (E.FLOOR_LOWER_LIMIT : ℚ)
        ∧ get_surface_height_at_location x z surf > bottomHeight)

instance (E : Externals) (bottomHeight : ℚ) (x z : Int) (surf : Surface) :
    Decidable (water_top_ok E bottomHeight x z surf) := by
  unfold water_top_ok; infer_instance

/-- The point (x,z) is strictly inside the box of the region whose six entries start at
offset `off` of the region array. -/
def region_box_contains (x z : Int) (regions : List Int) (off : Nat) : Prop :=
  regions.getD (off + 1) 0 < x ∧ x < regions.getD (off + 3) 0
  ∧ regions.getD (off + 2) 0 < z ∧ z < regions.getD (off + 4) 0

instance (x z : Int) (regions : List Int) (off : Nat) :
    Decidable (region_box_contains x z regions off) := by
  unfold region_box_contains; infer_instance

/-- The value of `waterLevel` in `find_water_level` before the region array is looked at: the
truncated result of the water-surface search at the height of the camera or of Mario. -/
def water_surface_level (E : Externals) (G : Globals) (x z : Int) : Int :=
  if G.gCheckingSurfaceCollisionsForCamera then
    f32_to_s32 (find_water_floor E G x (f32_to_s32 G.gLakituState_pos1) z).1
  else f32_to_s32 (find_water_floor E G x (f32_to_s32 G.gMarioState_pos1) z).1

/-- The first vertex of the inflated triangle: `vertex1` shifted by `30 * (0, normal.y, 0)`. -/
def ray_v0 (surface : Surface) : Vec3f :=
  vec3_sum (vec3_of_vertex surface.vertex1) (vec3_mul_val ⟨0, surface.normal.y, 0⟩ RAY_OFFSET)

/-- The second vertex of the inflated triangle. -/
def ray_v1 (surface : Surface) : Vec3f :=
  vec3_sum (vec3_of_vertex surface.vertex2) (vec3_mul_val ⟨0, surface.normal.y, 0⟩ RAY_OFFSET)

/-- The third vertex of the inflated triangle. -/
def ray_v2 (surface : Surface) : Vec3f :=
  vec3_sum (vec3_of_vertex surface.vertex3) (vec3_mul_val ⟨0, surface.normal.y, 0⟩ RAY_OFFSET)

/-- The edge `e1 = v1 - v0` of the inflated triangle. -/
def ray_e1 (surface : Surface) : Vec3f := vec3_diff (ray_v1 surface) (ray_v0 surface)

/-- The edge `e2 = v2 - v0` of the inflated triangle. -/
def ray_e2 (surface : Surface) : Vec3f := vec3_diff (ray_v2 surface) (ray_v0 surface)

/-- The point `v0 + u * e1 + v * e2` of the plane of the inflated triangle. -/
def ray_triangle_point (surface : Surface) (u v : ℚ) : Vec3f :=
  vec3_sum (vec3_sum (ray_v0 surface) (vec3_mul_val (ray_e1 surface) u))
    (vec3_mul_val (ray_e2 surface) v)

/-- The determinant `a` of `ray_surface_intersect`. -/
def ray_det (dir : Vec3f) (surface : Surface) : ℚ :=
  vec3_dot (ray_e1 surface) (vec3_cross dir (ray_e2 surface))

/-- The weight `u` of `ray_surface_intersect`. -/
def ray_u (orig dir : Vec3f) (surface : Surface) : ℚ :=
  1 / ray_det dir surface
    * vec3_dot (vec3_diff orig (ray_v0 surface)) (vec3_cross dir (ray_e2 surface))

/-- The weight `v` of `ray_surface_intersect`. -/
def ray_v (orig dir : Vec3f) (surface : Surface) : ℚ :=
  1 / ray_det dir surface
    * vec3_dot dir (vec3_cross (vec3_diff orig (ray_v0 surface)) (ray_e1 surface))

/-- The length written to `*length` by `ray_surface_intersect`. -/
def ray_len (orig dir : Vec3f) (surface : Surface) : ℚ :=
  1 / ray_det dir surface
    * vec3_dot (ray_e2 surface) (vec3_cross (vec3_diff orig (ray_v0 surface)) (ray_e1 surface))

/-- The intersection of the ray with one surface as a value: the point and the length that
`ray_surface_intersect` reports when it returns TRUE, and nothing when it returns FALSE. -/
def ray_hit (E : Externals) (orig dir : Vec3f) (dir_length : ℚ) (surface : Surface) :
    Option (Vec3f × ℚ) :=
  if (ray_surface_intersect E orig dir dir_length surface ⟨0, 0, 0⟩ 0).1 = true then
    some ((ray_surface_intersect E orig dir dir_length surface ⟨0, 0, 0⟩ 0).2.1,
      (ray_surface_intersect E orig dir dir_length surface ⟨0, 0, 0⟩ 0).2.2)
  else none

/-- The surface passes the vertical-bounds filter of `find_surface_on_ray_list`. -/
def ray_in_bounds (top bottom : ℚ) (surface : Surface) : Prop :=
  ¬ ((surface.lowerY : ℚ) > top ∨ (surface.upperY : ℚ) < bottom)

instance (top bottom : ℚ) (surface : Surface) : Decidable (ray_in_bounds top bottom surface) := by
  unfold ray_in_bounds; infer_instance

/-- The effect of one loop iteration of `find_surface_on_ray_list` on the out-parameters. -/
def ray_list_step (E : Externals) (orig dir : Vec3f) (dir_length top bottom : ℚ) (r : RayHit)
    (surface : Surface) : RayHit :=
  if ray_in_bounds top bottom surface then
    match ray_hit E orig dir dir_length surface with
    | some (p, t) => if t ≤ r.max_length then ⟨some surface, p, t⟩ else r
    | none => r
  else r

/-- The point (x,z), with any coordinates, lies strictly inside the (x,z) projection of the
triangle: it is a combination of the three vertices with positive weights of sum 1. -/
def strictly_inside_projection (surf : Surface) (x z : ℚ) : Prop :=
  ∃ a b c : ℚ, 0 < a ∧ 0 < b ∧ 0 < c ∧ a + b + c = 1
    ∧ x = a * surf.vertex1.x + b * surf.vertex2.x + c * surf.vertex3.x
    ∧ z = a * surf.vertex1.z + b * surf.vertex2.z + c * surf.vertex3.z

/-- A horizontal triangle of plane height `h`: the three vertices have y = h, the normal is
(0,1,0) and the vertical bounds of the surface enclose `h`. -/
def horizontal_floor (surf : Surface) (h : Int) : Prop :=
  surf.vertex1.y = h ∧ surf.vertex2.y = h ∧ surf.vertex3.y = h
  ∧ surf.normal = ⟨0, 1, 0⟩ ∧ surf.lowerY ≤ h ∧ h ≤ surf.upperY

instance (surf : Surface) (h : Int) : Decidable (horizontal_floor surf h) := by
  unfold horizontal_floor; infer_instance

/-- The cell index computed by `find_surface_on_ray` from a coordinate of the origin. -/
def ray_cell (E : Externals) (v : ℚ) : Int :=
  f32_to_s32 ((v + (E.LEVEL_BOUNDARY_MAX : ℚ)) / (E.CELL_SIZE : ℚ))

/-- The surface is registered alone in the floor list of the cell of the ray origin (x,z):
that cell is inside the grid, its static floor list is the surface and its dynamic floor list
is empty. -/
def alone_in_ray_cell (E : Externals) (G : Globals) (surf : Surface) (x z : ℚ) : Prop :=
  (ray_cell E x ≥ 0 ∧ ray_cell E x ≤ E.NUM_CELLS - 1
    ∧ ray_cell E z ≥ 0 ∧ ray_cell E z ≤ E.NUM_CELLS - 1)
  ∧ G.gStaticSurfacePartition (ray_cell E z) (ray_cell E x)
      SpatialPartition.SPATIAL_PARTITION_FLOORS = [surf]
  ∧ G.gDynamicSurfacePartition (ray_cell E z) (ray_cell E x)
      SpatialPartition.SPATIAL_PARTITION_FLOORS = []

instance (E : Externals) (G : Globals) (surf : Surface) (x z : ℚ) :
    Decidable (alone_in_ray_cell E G surf x z) := by
  unfold alone_in_ray_cell; infer_instance

/-- One environment region as the specification describes it: a tag, an axis-aligned box and
a level. -/
structure Region where
  tag : Int
  loX : Int
  loZ : Int
  hiX : Int
  hiZ : Int
  level : Int
deriving DecidableEq, Repr

/-- The region number `k` of the flat region array: the six entries that follow the count and
the `6 * k` entries of the regions before it. -/
def region_at (p : List Int) (k : Nat) : Region :=
  { tag := p.getD (1 + 6 * k) 0, loX := p.getD (1 + 6 * k + 1) 0, loZ := p.getD (1 + 6 * k + 2) 0,
    hiX := p.getD (1 + 6 * k + 3) 0, hiZ := p.getD (1 + 6 * k + 4) 0,
    level := p.getD (1 + 6 * k + 5) 0 }

/-- The regions of the flat region array in list order; the first entry of the array is their
number. -/
def region_list (p : List Int) : List Region :=
  (List.range (p.getD 0 0).toNat).map (region_at p)

/-- The point (x,z) is strictly inside the box of the region: all four bounds are strict. -/
def Region.contains (r : Region) (x z : Int) : Prop :=
  r.loX < x ∧ x < r.hiX ∧ r.loZ < z ∧ z < r.hiZ

instance (r : Region) (x z : Int) : Decidable (r.contains x z) := by
  unfold Region.contains; infer_instance

/-- The level of the first region in list order that has a gas tag (at least 50 and divisible
by 10) and strictly contains (x,z); the default when there is none. -/
def first_gas_level (rs : List Region) (x z : Int) (default : Int) : Int :=
  match rs.find? (fun r => decide (r.tag ≥ 50 ∧ 10 ∣ r.tag ∧ r.contains x z)) with
  | some r => r.level
  | none => default

/-- The level of the first region in list order that has a tag below 50 and strictly contains
(x,z); the default when there is none. -/
def first_water_level (rs : List Region) (x z : Int) (default : Int) : Int :=
  match rs.find? (fun r => decide (r.tag < 50 ∧ r.contains x z)) with
  | some r => r.level
  | none => default

/-- The height at which `find_water_level` runs the water-surface search: the truncated
height of the camera in camera mode, of Mario otherwise. -/
def water_query_y (G : Globals) : Int :=
  if G.gCheckingSurfaceCollisionsForCamera then f32_to_s32 G.gLakituState_pos1
  else f32_to_s32 G.gMarioState_pos1

/-- The cell index expression with the addition carried out in 32-bit arithmetic:
`((x + LEVEL_BOUNDARY_MAX) / CELL_SIZE) & NUM_CELLS_INDEX` for a sum that wraps. -/
def cell_index_wrapped (E : Externals) (x : Int) : Int :=
  Int.land (Int.tdiv (s32 (x + E.LEVEL_BOUNDARY_MAX)) E.CELL_SIZE) E.NUM_CELLS_INDEX

/-- The integer point (x,z) lies in the closed (x,z) projection of the triangle: it is a
convex combination of the three vertices, edges and vertices included. -/
def inside_closed_xz (surf : Surface) (x z : Int) : Prop :=
  ∃ a b c : ℚ, 0 ≤ a ∧ 0 ≤ b ∧ 0 ≤ c ∧ a + b + c = 1
    ∧ (x : ℚ) = a * surf.vertex1.x + b * surf.vertex2.x + c * surf.vertex3.x
    ∧ (z : ℚ) = a * surf.vertex1.z + b * surf.vertex2.z + c * surf.vertex3.z

/-- The three edge expressions of the surface at (x,z) are evaluated without overflow: the
32-bit value of each equals its exact integer value. -/
def edges_exact (x z : Int) (surf : Surface) : Prop :=
  edge_expr x z surf.vertex1.x surf.vertex1.z surf.vertex2.x surf.vertex2.z
      = edge_exact x z surf.vertex1.x surf.vertex1.z surf.vertex2.x surf.vertex2.z
  ∧ edge_expr x z surf.vertex2.x surf.vertex2.z surf.vertex3.x surf.vertex3.z
      = edge_exact x z surf.vertex2.x surf.vertex2.z surf.vertex3.x surf.vertex3.z
  ∧ edge_expr x z surf.vertex3.x surf.vertex3.z surf.vertex1.x surf.vertex1.z
      = edge_exact x z surf.vertex3.x surf.vertex3.z surf.vertex1.x surf.vertex1.z

instance (x z : Int) (surf : Surface) : Decidable (edges_exact x z surf) := by
  unfold edges_exact; infer_instance

/-- A number lies in the range of a 32-bit signed integer. -/
def in_s32_range (n : Int) : Prop := -2147483648 ≤ n ∧ n ≤ 2147483647

instance (n : Int) : Decidable (in_s32_range n) := by
  unfold in_s32_range; infer_instance

/-- Every intermediate value of one edge expression, computed exactly, lies in the 32-bit
range: the four differences, the two products and the final difference. -/
def edge_steps_in_range (x z vxi vzi vxj vzj : Int) : Prop :=
  in_s32_range (vzi - z) ∧ in_s32_range (vxj - vxi) ∧ in_s32_range (vxi - x)
  ∧ in_s32_range (vzj - vzi) ∧ in_s32_range ((vzi - z) * (vxj - vxi))
  ∧ in_s32_range ((vxi - x) * (vzj - vzi))
  ∧ in_s32_range ((vzi - z) * (vxj - vxi) - (vxi - x) * (vzj - vzi))

instance (x z vxi vzi vxj vzj : Int) : Decidable (edge_steps_in_range x z vxi vzi vxj vzj) := by
  unfold edge_steps_in_range; infer_instance

/-- One further scan of the same list at `y' = trunc(H - 200)`, where `H` is the height left
by the first scan. -/
def floor_reprobe (E : Externals) (cam : Bool) (l : List Surface) (x z : Int) (H : ℚ) :
    Option Surface × ℚ :=
  find_floor_from_list E cam l x (f32_to_s32 (H - 200)) z

/-- The static floor list of the cell of the integer point (x,z). -/
def static_floor_list (E : Externals) (G : Globals) (x z : Int) : List Surface :=
  G.gStaticSurfacePartition (cell_index E z) (cell_index E x)
    SpatialPartition.SPATIAL_PARTITION_FLOORS

/-- The loop of `find_floor_from_list` with the early exit removed: the same filters and the
same update of the running best, and no `break`. -/
def find_floor_loop_noexit (E : Externals) (cam : Bool) (x y z : Int) :
    List Surface → Option Surface → ℚ → Option Surface × ℚ
  | [], floor, pheight => (floor, pheight)
  | surf :: rest, floor, pheight =>
    if y < surf.lowerY - 30 then find_floor_loop_noexit E cam x y z rest floor pheight
    else if edge_expr x z surf.vertex1.x surf.vertex1.z surf.vertex2.x surf.vertex2.z < 0 then
      find_floor_loop_noexit E cam x y z rest floor pheight
    else if edge_expr x z surf.vertex2.x surf.vertex2.z surf.vertex3.x surf.vertex3.z < 0 then
      find_floor_loop_noexit E cam x y z rest floor pheight
    else if edge_expr x z surf.vertex3.x surf.vertex3.z surf.vertex1.x surf.vertex1.z < 0 then
      find_floor_loop_noexit E cam x y z rest floor pheight
    else if floor_mode_excluded E cam surf then
      find_floor_loop_noexit E cam x y z rest floor pheight
    else
      let height := get_surface_height_at_location x z surf
      if height < pheight then find_floor_loop_noexit E cam x y z rest floor pheight
      else if (y : ℚ) < height - 78 then find_floor_loop_noexit E cam x y z rest floor pheight
      else find_floor_loop_noexit E cam x y z rest (some surf) height

/-- The scan of `find_floor_from_list` with the early exit removed. -/
def find_floor_from_list_noexit (E : Externals) (cam : Bool) (surfaceNode : List Surface)
    (x y z : Int) : Option Surface × ℚ :=
  find_floor_loop_noexit E cam x y z surfaceNode none (E.FLOOR_LOWER_LIMIT : ℚ)

/-- The loop of `find_ceil_from_list` with the early exit removed. -/
def find_ceil_loop_noexit (E : Externals) (cam : Bool) (x y z : Int) :
    List Surface → Option Surface → ℚ → Option Surface × ℚ
  | [], ceil, pheight => (ceil, pheight)
  | surf :: rest, ceil, pheight =>
    if y > surf.upperY then find_ceil_loop_noexit E cam x y z rest ceil pheight
    else
      let v0 := ceil_vertex E surf surf.vertex1 surf.vertex2 surf.vertex3
      let v1 := ceil_vertex E surf surf.vertex2 surf.vertex3 surf.vertex1
      if edge_expr x z v0.1 v0.2 v1.1 v1.2 > 0 then
        find_ceil_loop_noexit E cam x y z rest ceil pheight
      else
        let v2 := ceil_vertex E surf surf.vertex3 surf.vertex1 surf.vertex2
        if edge_expr x z v1.1 v1.2 v2.1 v2.2 > 0 then
          find_ceil_loop_noexit E cam x y z rest ceil pheight
        else if edge_expr x z v2.1 v2.2 v0.1 v0.2 > 0 then
          find_ceil_loop_noexit E cam x y z rest ceil pheight
        else if ceil_mode_excluded E cam surf then
          find_ceil_loop_noexit E cam x y z rest ceil pheight
        else
          let height := get_surface_height_at_location x z surf
          if height > pheight then find_ceil_loop_noexit E cam x y z rest ceil pheight
          else if (y : ℚ) > height then find_ceil_loop_noexit E cam x y z rest ceil pheight
          else if y ≥ surf.upperY then find_ceil_loop_noexit E cam x y z rest ceil pheight
          else find_ceil_loop_noexit E cam x y z rest (some surf) height

/-- The scan of `find_ceil_from_list` with the early exit removed. -/
def find_ceil_from_list_noexit (E : Externals) (cam : Bool) (surfaceNode : List Surface)
    (x y z : Int) : Option Surface × ℚ :=
  find_ceil_loop_noexit E cam x y z surfaceNode none (E.CELL_HEIGHT_LIMIT : ℚ)

/-- A surface on which the floor scan takes its early exit: a candidate whose height minus
78 equals `y`. -/
def floor_exit_surface (E : Externals) (cam : Bool) (x y z : Int) (surf : Surface) : Prop :=
  floor_candidate E cam x y z surf ∧ get_surface_height_at_location x z surf - 78 = (y : ℚ)

instance (E : Externals) (cam : Bool) (x y z : Int) (surf : Surface) :
    Decidable (floor_exit_surface E cam x y z surf) := by
  unfold floor_exit_surface; infer_instance

/-- A surface on which the ceiling scan takes its early exit: a candidate whose height equals
`y`, with `y` below its `upperY`. -/
def ceil_exit_surface (E : Externals) (cam : Bool) (x y z : Int) (surf : Surface) : Prop :=
  ceil_candidate E cam x y z surf ∧ get_surface_height_at_location x z surf = (y : ℚ)
  ∧ y < surf.upperY

instance (E : Externals) (cam : Bool) (x y z : Int) (surf : Surface) :
    Decidable (ceil_exit_surface E cam x y z surf) := by
  unfold ceil_exit_surface; infer_instance

/-- The denominator `(d00 * d11) - (d01 * d01)` of the division `1.0f / ...` in the face test
of the wall loop. -/
def wall_face_denominator (surf : Surface) : ℚ :=
  let v0 := vec3_diff_tt surf.vertex2 surf.vertex1
  let v1 := vec3_diff_tt surf.vertex3 surf.vertex1
  let d00 := vec3_dot v0 v0
  let d01 := vec3_dot v0 v1
  let d11 := vec3_dot v1 v1
  d00 * d11 - d01 * d01

/-- The three vertices of the surface are collinear or coincident: the cross product of the
two edges from `vertex1` is zero. -/
def zero_area (surf : Surface) : Prop :=
  vec3_cross (vec3_diff_tt surf.vertex2 surf.vertex1) (vec3_diff_tt surf.vertex3 surf.vertex1)
    = ⟨0, 0, 0⟩

instance (surf : Surface) : Decidable (zero_area surf) := by
  unfold zero_area; infer_instance

/-- The denominators of the divisions that `ray_surface_intersect` evaluates, in order of
evaluation. Its only division is `1.0f / a`, which stands after the test on the surface type
and flags and after the test `a > -0.00001f && a < 0.00001f`. -/
def ray_surface_intersect_divisors (E : Externals) (dir : Vec3f) (surface : Surface) : List ℚ :=
  if surface.type = E.SURFACE_INTANGIBLE
      ∨ Nat.land surface.flags E.SURFACE_FLAG_NO_CAM_COLLISION ≠ 0 then []
  else
    let norm := vec3_mul_val ⟨0, surface.normal.y, 0⟩ RAY_OFFSET
    let v0 := vec3_sum (vec3_of_vertex surface.vertex1) norm
    let v1 := vec3_sum (vec3_of_vertex surface.vertex2) norm
    let v2 := vec3_sum (vec3_of_vertex surface.vertex3) norm
    let e1 := vec3_diff v1 v0
    let e2 := vec3_diff v2 v0
    let h := vec3_cross dir e2
    let a := vec3_dot e1 h
    if a > -(1 / 100000) ∧ a < 1 / 100000 then [] else [a]

/-- The value `step` of `find_surface_on_ray`: `RAY_STEPS` times the larger of `|dir[0]|` and
`|dir[2]|`, divided by `CELL_SIZE`. -/
def ray_step (E : Externals) (dir : Vec3f) : ℚ :=
  if |dir.x| ≥ |dir.z| then RAY_STEPS * |dir.x| / (E.CELL_SIZE : ℚ)
  else RAY_STEPS * |dir.z| / (E.CELL_SIZE : ℚ)

/-- The increment `dx = dir[0] / step / CELL_SIZE` of `find_surface_on_ray`. -/
def ray_dx (E : Externals) (dir : Vec3f) : ℚ := dir.x / ray_step E dir / (E.CELL_SIZE : ℚ)

/-- The increment `dz = dir[2] / step / CELL_SIZE` of `find_surface_on_ray`. -/
def ray_dz (E : Externals) (dir : Vec3f) : ℚ := dir.z / ray_step E dir / (E.CELL_SIZE : ℚ)

/-- The out-parameters after the two corner probes of a DDA iteration in which both cell
indices change: the cell (new X, old Z) is probed first, then (old X, new Z). -/
def ray_dda_corners (E : Externals) (G : Globals) (orig normalized_dir : Vec3f)
    (dir_length : ℚ) (flags : Nat) (cellX cellZ cellX1 cellZ1 : Int) (r1 : RayHit) : RayHit :=
  find_surface_on_ray_cell E G cellX cellZ1 orig normalized_dir dir_length
    (find_surface_on_ray_cell E G cellX1 cellZ orig normalized_dir dir_length r1 flags) flags

/-- The DDA loop of `find_surface_on_ray` together with the record of its calls: the
out-parameters on exit and the cells passed to `find_surface_on_ray_cell`, in call order. -/
def ray_dda_walk (E : Externals) (G : Globals) (orig normalized_dir : Vec3f)
    (dir_length : ℚ) (flags : Nat) (step dx dz : ℚ) :
    Nat → Int → ℚ → ℚ → Int → Int → RayHit → RayHit × List (Int × Int)
  | 0, _, _, _, _, _, r => (r, [])
  | fuel + 1, i, fCellX, fCellZ, cellX, cellZ, r =>
    if (i : ℚ) < step ∧ r.hit_surface = none then
      let r1 := find_surface_on_ray_cell E G cellX cellZ orig normalized_dir dir_length r flags
      let fCellX1 := fCellX + dx
      let fCellZ1 := fCellZ + dz
      let cellX1 := f32_to_s32 fCellX1
      let cellZ1 := f32_to_s32 fCellZ1
      if cellX ≠ cellX1 ∧ cellZ ≠ cellZ1 then
        let w := ray_dda_walk E G orig normalized_dir dir_length flags step dx dz fuel (i + 1)
          fCellX1 fCellZ1 cellX1 cellZ1
          (ray_dda_corners E G orig normalized_dir dir_length flags cellX cellZ cellX1 cellZ1 r1)
        (w.1, (cellX, cellZ) :: (cellX1, cellZ) :: (cellX, cellZ1) :: w.2)
      else
        let w := ray_dda_walk E G orig normalized_dir dir_length flags step dx dz fuel (i + 1)
          fCellX1 fCellZ1 cellX1 cellZ1 r1
        (w.1, (cellX, cellZ) :: w.2)
    else (r, [])

/-- The cells that `find_surface_on_ray` passes to `find_surface_on_ray_cell`, in call order:
the cell of the origin alone on the straight-down path, the record of the DDA loop
otherwise. -/
def find_surface_on_ray_cells (E : Externals) (G : Globals) (orig dir : Vec3f) (flags : Nat) :
    List (Int × Int) :=
  let dir_length := E.sqrtf (dir.x ^ 2 + dir.y ^ 2 + dir.z ^ 2)
  let r0 : RayHit := ⟨none, vec3_sum orig dir, dir_length⟩
  let normalized_dir := E.vec3f_normalize dir
  let fCellX := (orig.x + (E.LEVEL_BOUNDARY_MAX : ℚ)) / (E.CELL_SIZE : ℚ)
  let fCellZ := (orig.z + (E.LEVEL_BOUNDARY_MAX : ℚ)) / (E.CELL_SIZE : ℚ)
  let cellX := f32_to_s32 fCellX
  let cellZ := f32_to_s32 fCellZ
  if normalized_dir.y ≥ 99999 / 100000 ∨ normalized_dir.y ≤ -(99999 / 100000) then
    [(cellX, cellZ)]
  else
    (ray_dda_walk E G orig normalized_dir dir_length flags (ray_step E dir) (ray_dx E dir)
      (ray_dz E dir) ⌈ray_step E dir⌉.toNat 0 fCellX fCellZ cellX cellZ r0).2

/-- The part of the state of the wall scan that the geometric tests read and move: the
working `pos[0]`, `pos[2]` and `margin_radius`. -/
structure WallGeom where
  x : ℚ
  z : ℚ
  margin : ℚ
deriving DecidableEq, Repr

/-- The edge tests find a contact that the corner-rejection test keeps: one of the three
edges is within the margin, and the edge push is not rejected. -/
def edge_contact_kept (E : Externals) (surf : Surface) (pos : Vec3f) (margin : ℚ) : Prop :=
  match wall_edge_values E surf pos margin with
  | some c => ¬ corner_rejected surf c
  | none => False

instance (E : Externals) (surf : Surface) (pos : Vec3f) (margin : ℚ) :
    Decidable (edge_contact_kept E surf pos margin) := by
  unfold edge_contact_kept
  cases wall_edge_values E surf pos margin <;> infer_instance

/-- A wall surface makes contact with the probe at the geometric state `g`: it passes the
type, Y-range and plane-distance filters, and either the projected position lies on the face
(face contact) or the probe is on the front side, within the margin of an edge, and the edge
contact is not discarded by the corner rejection. -/
def wall_makes_contact (E : Externals) (G : Globals) (radius pos1 : ℚ) (g : WallGeom)
    (surf : Surface) : Prop :=
  wall_passes_filters E G radius surf ⟨g.x, pos1, g.z⟩
  ∧ (wall_face_test surf ⟨g.x, pos1, g.z⟩ = true
    ∨ (0 ≤ wall_offset surf ⟨g.x, pos1, g.z⟩
      ∧ edge_contact_kept E surf ⟨g.x, pos1, g.z⟩ g.margin))

instance (E : Externals) (G : Globals) (radius pos1 : ℚ) (g : WallGeom) (surf : Surface) :
    Decidable (wall_makes_contact E G radius pos1 g surf) := by
  unfold wall_makes_contact; infer_instance

/-- The push that testing one wall surface applies to the geometric state: the face push
`normal * (radius - offset)` on a face contact; on the front side with an edge within the
margin, the edge push `(d00, d01) * offset / invDenom` and the margin raised by 0.01, whether
or not the corner rejection then discards the contact; nothing otherwise. -/
def wall_push (E : Externals) (G : Globals) (radius pos1 : ℚ) (g : WallGeom)
    (surf : Surface) : WallGeom :=
  if wall_passes_filters E G radius surf ⟨g.x, pos1, g.z⟩ then
    if wall_face_test surf ⟨g.x, pos1, g.z⟩ = true then
      ⟨g.x + surf.normal.x * (radius - wall_offset surf ⟨g.x, pos1, g.z⟩),
       g.z + surf.normal.z * (radius - wall_offset surf ⟨g.x, pos1, g.z⟩), g.margin⟩
    else if 0 ≤ wall_offset surf ⟨g.x, pos1, g.z⟩ then
      match wall_edge_values E surf ⟨g.x, pos1, g.z⟩ g.margin with
      | some c => ⟨g.x + c.1 * (c.2.2.2 / c.2.2.1), g.z + c.2.1 * (c.2.2.2 / c.2.2.1),
          g.margin + 1 / 100⟩
      | none => g
    else g
  else g

/-- The geometric state after the wall surfaces of a list have been tested in order, each
from the state its predecessors have left. -/
def wall_scan_push (E : Externals) (G : Globals) (radius pos1 : ℚ) (g : WallGeom)
    (l : List Surface) : WallGeom :=
  l.foldl (wall_push E G radius pos1) g

/-- The surfaces of a list that make contact, in list order, each tested at the geometric
state its predecessors have left. -/
def wall_touches (E : Externals) (G : Globals) (radius pos1 : ℚ) :
    WallGeom → List Surface → List Surface
  | _, [] => []
  | g, surf :: rest =>
    if wall_makes_contact E G radius pos1 g surf then
      surf :: wall_touches E G radius pos1 (wall_push E G radius pos1 g surf) rest
    else wall_touches E G radius pos1 (wall_push E G radius pos1 g surf) rest

/-- The radius used by the plane-distance filter and the face push: the probe's radius, at
most 200. -/
def probe_radius (data : WallCollisionData) : ℚ := if data.radius > 200 then 200 else data.radius

/-- The geometric state with which a scan starts for the probe `data`: its (x,z) and the
margin `radius - 1`. -/
def probe_geom (data : WallCollisionData) : WallGeom := ⟨data.x, data.z, data.radius - 1⟩

/-- The dynamic wall list of the probe's cell. -/
def dynamic_wall_list (E : Externals) (G : Globals) (colData : WallCollisionData) :
    List Surface :=
  G.gDynamicSurfacePartition (cell_index E (f32_to_s32 colData.z))
    (cell_index E (f32_to_s32 colData.x)) SpatialPartition.SPATIAL_PARTITION_WALLS

/-- The static wall list of the probe's cell. -/
def static_wall_list (E : Externals) (G : Globals) (colData : WallCollisionData) :
    List Surface :=
  G.gStaticSurfacePartition (cell_index E (f32_to_s32 colData.z))
    (cell_index E (f32_to_s32 colData.x)) SpatialPartition.SPATIAL_PARTITION_WALLS

/-- The geometric state with which the scan of the static list starts: the position the scan
of the dynamic list has left, and the margin `radius - 1` again. -/
def static_scan_geom (E : Externals) (G : Globals) (colData : WallCollisionData) : WallGeom :=
  ⟨(wall_scan_push E G (probe_radius colData) (colData.y + colData.offsetY)
      (probe_geom colData) (dynamic_wall_list E G colData)).x,
   (wall_scan_push E G (probe_radius colData) (colData.y + colData.offsetY)
      (probe_geom colData) (dynamic_wall_list E G colData)).z,
   colData.radius - 1⟩

/-- The wall surfaces that make contact during a wall query, in scan order: those of the
dynamic list of the probe's cell, then those of the static list, tested from the position
the dynamic list has left. None when the probe is outside the level bounds. -/
def wall_query_touches (E : Externals) (G : Globals) (colData : WallCollisionData) :
    List Surface :=
  if is_outside_level_bounds E (f32_to_s32 colData.x) (f32_to_s32 colData.z) then []
  else
    wall_touches E G (probe_radius colData) (colData.y + colData.offsetY) (probe_geom colData)
        (dynamic_wall_list E G colData)
      ++ wall_touches E G (probe_radius colData) (colData.y + colData.offsetY)
        (static_scan_geom E G colData) (static_wall_list E G colData)

/-- The position (x,z) after every wall surface of the two lists has applied its push, each
from the position its predecessors have left; the probe's own position when it is outside
the level bounds. -/
def wall_query_position (E : Externals) (G : Globals) (colData : WallCollisionData) : ℚ × ℚ :=
  if is_outside_level_bounds E (f32_to_s32 colData.x) (f32_to_s32 colData.z) then
    (colData.x, colData.z)
  else
    ((wall_scan_push E G (probe_radius colData) (colData.y + colData.offsetY)
        (static_scan_geom E G colData) (static_wall_list E G colData)).x,
     (wall_scan_push E G (probe_radius colData) (colData.y + colData.offsetY)
        (static_scan_geom E G colData) (static_wall_list E G colData)).z)

/-- The geometric part of a state of the wall loop. -/
def WallScan.geom (st : WallScan) : WallGeom := ⟨st.pos0, st.pos2, st.margin_radius⟩

/-- The exit condition of the floor scan on a surface: it passes every filter of
`find_floor_from_list` (candidate, height at least `FLOOR_LOWER_LIMIT`, within the 78 unit
buffer) and its height minus 78 equals `y`. -/
def floor_exit_accepted (E : Externals) (cam : Bool) (x y z : Int) (surf : Surface) : Prop :=
  floor_passes E cam x y z surf ∧ get_surface_height_at_location x z surf - 78 = (y : ℚ)

instance (E : Externals) (cam : Bool) (x y z : Int) (surf : Surface) :
    Decidable (floor_exit_accepted E cam x y z surf) := by
  unfold floor_exit_accepted; infer_instance

/-- The surfaces of the list on which the exit condition of the floor scan holds, in list
order. -/
def floor_exits (E : Externals) (cam : Bool) (x y z : Int) (l : List Surface) : List Surface :=
  l.filter (fun s => decide (floor_exit_accepted E cam x y z s))

/-- The exit condition of the ceiling scan on a surface: a candidate with `y` below its
`upperY`, whose height equals `y` and is at most `CELL_HEIGHT_LIMIT`. -/
def ceil_exit_accepted (E : Externals) (cam : Bool) (x y z : Int) (surf : Surface) : Prop :=
  ceil_candidate E cam x y z surf ∧ y < surf.upperY
  ∧ get_surface_height_at_location x z surf = (y : ℚ)
  ∧ get_surface_height_at_location x z surf ≤ (E.CELL_HEIGHT_LIMIT : ℚ)

instance (E : Externals) (cam : Bool) (x y z : Int) (surf : Surface) :
    Decidable (ceil_exit_accepted E cam x y z surf) := by
  unfold ceil_exit_accepted; infer_instance

/-- The surfaces of the list on which the exit condition of the ceiling scan holds, in list
order. -/
def ceil_exits (E : Externals) (cam : Bool) (x y z : Int) (l : List Surface) : List Surface :=
  l.filter (fun s => decide (ceil_exit_accepted E cam x y z s))

/-! ## Sample data

Concrete values on which the definitions are evaluated. -/

/-- Integer square root by Newton iteration, with a bounded number of steps. -/
def sample_isqrt_iter (n : Nat) : Nat → Nat → Nat
  | 0, x => x
  | fuel + 1, x =>
    let y := (x + n / x) / 2
    if y < x then sample_isqrt_iter n fuel y else x

/-- Integer square root (rounded down) for the sizes used in the sample data. -/
def sample_isqrt (n : Nat) : Nat := if n = 0 then 0 else sample_isqrt_iter n 64 n

/-- A square root on rationals that is exact on squares of rationals: the integer square
roots of numerator and denominator. -/
def sample_sqrtf (q : ℚ) : ℚ := (sample_isqrt q.num.toNat : ℚ) / (sample_isqrt q.den : ℚ)

/-- A concrete choice of the external constants: the sentinel `-11000` and the radius limit
are the values quoted in the comments of the translated file, the level extent is a 16 x 16
grid of cells of 1024 units, and the type tags and the ray-cast flag bits are pairwise
distinct. The square root is exact on squares of rationals, and the normalisation divides a
vector by the square root of its squared length. -/
def sampleExternals : Externals :=
  { FLOOR_LOWER_LIMIT := -11000, CELL_HEIGHT_LIMIT := 20000, LEVEL_BOUNDARY_MAX := 8192,
    CELL_SIZE := 1024, NUM_CELLS_INDEX := 15, MAX_REFEREMCED_WALLS := 4,
    SURFACE_DEFAULT := 0, SURFACE_HANGABLE := 5, SURFACE_INTANGIBLE := 18,
    SURFACE_CAMERA_BOUNDARY := 114, SURFACE_VANISH_CAP_WALLS := 123,
    SURFACE_NEW_WATER := 240, SURFACE_NEW_WATER_BOTTOM := 241,
    SURFACE_FLAG_NO_CAM_COLLISION := 2, ACTIVE_FLAG_MOVE_THROUGH_GRATE := 1024,
    MARIO_VANISH_CAP := 2,
    sqrtf := sample_sqrtf,
    NUM_CELLS := 16,
    RAYCAST_FIND_FLOOR := 1, RAYCAST_FIND_WALL := 2, RAYCAST_FIND_CEIL := 4,
    RAYCAST_FIND_WATER := 8,
    vec3f_normalize := fun v =>
      ⟨v.x / sample_sqrtf (v.x ^ 2 + v.y ^ 2 + v.z ^ 2),
       v.y / sample_sqrtf (v.x ^ 2 + v.y ^ 2 + v.z ^ 2),
       v.z / sample_sqrtf (v.x ^ 2 + v.y ^ 2 + v.z ^ 2)⟩ }

/-- Globals with the given static and dynamic surface lists in every cell and category, no
current object, no environment regions, both mode flags as given and all counters zero. -/
def sampleGlobals (cam includeIntangible : Bool) (static dynamic : List Surface) : Globals :=
  { gCheckingSurfaceCollisionsForCamera := cam,
    gFindFloorIncludeSurfaceIntangible := includeIntangible,
    gCurrentObject := none, gMarioObject := none, gMarioState_flags := 0,
    gMarioState_pos1 := 0, gLakituState_pos1 := 0, gEnvironmentRegions := none,
    gStaticSurfacePartition := fun _ _ _ => static,
    gDynamicSurfacePartition := fun _ _ _ => dynamic,
    gNumCalls_floor := 0, gNumCalls_ceil := 0, gNumCalls_wall := 0, gNumFindFloorMisses := 0 }

/-- Globals for the water queries: no water surfaces, the given region array. -/
def sampleRegionGlobals (regions : List Int) : Globals :=
  { sampleGlobals false false [] [] with gEnvironmentRegions := some regions }

/-- A horizontal floor triangle at height `h` with vertices (0,0), (0,100), (100,0) in (x,z),
of the given type and flags, with tight vertical bounds. -/
def sampleFloor (type : Int) (flags : Nat) (h : Int) : Surface :=
  { type := type, flags := flags, lowerY := h, upperY := h,
    vertex1 := ⟨0, h, 0⟩, vertex2 := ⟨0, h, 100⟩, vertex3 := ⟨100, h, 0⟩,
    normal := ⟨0, 1, 0⟩, originOffset := -(h : ℚ) }

/-- A vertical wall triangle in the plane x = 0 with unit normal (1,0,0): vertices (0,0,0),
(0,0,100), (0,100,0). -/
def sampleWallA : Surface :=
  { type := 0, flags := 0, lowerY := 0, upperY := 100,
    vertex1 := ⟨0, 0, 0⟩, vertex2 := ⟨0, 0, 100⟩, vertex3 := ⟨0, 100, 0⟩,
    normal := ⟨1, 0, 0⟩, originOffset := 0 }

/-- A second vertical wall triangle in the plane x = 0, sharing with `sampleWallA` the edge
from (0,0,100) to (0,100,0): vertices (0,100,100), (0,100,0), (0,0,100). -/
def sampleWallB : Surface :=
  { type := 0, flags := 0, lowerY := 0, upperY := 100,
    vertex1 := ⟨0, 100, 100⟩, vertex2 := ⟨0, 100, 0⟩, vertex3 := ⟨0, 0, 100⟩,
    normal := ⟨1, 0, 0⟩, originOffset := 0 }

/-- A wall probe of radius 50 at distance 10 from the plane x = 0, whose vertical position
`y + offsetY = 50` and z = 50 put it on the edge shared by the two sample walls. -/
def sampleProbe : WallCollisionData :=
  { x := 10, y := 40, z := 50, offsetY := 10, radius := 50, numWalls := 0, walls := [] }

/-- A flat floor triangle at height 0 that spans most of the 16-bit coordinate range:
vertices (-32767, 32767), (32767, 32767), (0, -32767) in (x,z). -/
def sampleHugeFloor : Surface :=
  { type := 0, flags := 0, lowerY := 0, upperY := 0,
    vertex1 := ⟨-32767, 0, 32767⟩, vertex2 := ⟨32767, 0, 32767⟩, vertex3 := ⟨0, 0, -32767⟩,
    normal := ⟨0, 1, 0⟩, originOffset := 0 }

/-- A flat floor triangle at height 0 that reaches beyond level bounds of 8192: vertices
(8000, 0), (8000, 2000), (10000, 0) in (x,z). -/
def sampleBorderFloor : Surface :=
  { type := 0, flags := 0, lowerY := 0, upperY := 0,
    vertex1 := ⟨8000, 0, 0⟩, vertex2 := ⟨8000, 0, 2000⟩, vertex3 := ⟨10000, 0, 0⟩,
    normal := ⟨0, 1, 0⟩, originOffset := 0 }

/-- A wall probe at (200, 50, -45) with the given radius: beside `sampleWallA`, at distance
205 from its vertical edge through the origin. -/
def sampleEdgeProbe (radius : ℚ) : WallCollisionData :=
  { x := 200, y := 50, z := -45, offsetY := 0, radius := radius, numWalls := 0, walls := [] }

/-- A wall probe of radius 150 at (60, 50, -80): beside `sampleWallA`, at distance 100 from
its vertical edge through the origin, seen from that edge at a shallow angle to the wall. -/
def sampleCornerProbe : WallCollisionData :=
  { x := 60, y := 50, z := -80, offsetY := 0, radius := 150, numWalls := 0, walls := [] }

/-- A sloped floor triangle in the plane `y = 3x/4` with vertices (0,0,0), (0,0,100) and
(100,75,0), unit normal (-3/5, 4/5, 0) and tight vertical bounds. -/
def sampleSlopeFloor (type : Int) : Surface :=
  { type := type, flags := 0, lowerY := 0, upperY := 75,
    vertex1 := ⟨0, 0, 0⟩, vertex2 := ⟨0, 0, 100⟩, vertex3 := ⟨100, 75, 0⟩,
    normal := ⟨-3 / 5, 4 / 5, 0⟩, originOffset := 0 }

/-- A sloped hangable ceiling triangle in the plane `y = 3x/4 + 100` with vertices
(0,100,0), (100,175,0) and (0,100,100), unit normal (3/5, -4/5, 0), tight vertical bounds and
the given flags. -/
def sampleSlopeCeil (flags : Nat) : Surface :=
  { type := 5, flags := flags, lowerY := 100, upperY := 175,
    vertex1 := ⟨0, 100, 0⟩, vertex2 := ⟨100, 175, 0⟩, vertex3 := ⟨0, 100, 100⟩,
    normal := ⟨3 / 5, -4 / 5, 0⟩, originOffset := 80 }

/-- A wall whose three vertices (0,0,0), (0,0,100), (0,0,200) are collinear, carrying the
normal (1,0,0) of the plane x = 0 and the vertical bounds -5 and 5. -/
def sampleDegenerateWall : Surface :=
  { type := 0, flags := 0, lowerY := -5, upperY := 5,
    vertex1 := ⟨0, 0, 0⟩, vertex2 := ⟨0, 0, 100⟩, vertex3 := ⟨0, 0, 200⟩,
    normal := ⟨1, 0, 0⟩, originOffset := 0 }

/-- A wall probe of radius 50 at (10, 0, 50), at distance 10 from the plane x = 0. -/
def sampleLowProbe : WallCollisionData :=
  { x := 10, y := 0, z := 50, offsetY := 0, radius := 50, numWalls := 0, walls := [] }

/-- Externals whose normalisation returns the fixed downward direction `(0, -n, 0)` and whose
square root returns the fixed length `len`: a stand-in for library results that are not
exact. -/
def sampleRoundedExternals (n len : ℚ) : Externals :=
  { sampleExternals with sqrtf := fun _ => len, vec3f_normalize := fun _ => ⟨0, -n, 0⟩ }

/-- A vertical wall triangle in the plane x = 68 with unit normal (-1,0,0): vertices
(68,-50,60), (68,-50,200), (68,100,130). With the level extent of the sample constants it lies
inside the cell (8, 8), more than 50 units away from the borders of that cell. -/
def sampleCellWall : Surface :=
  { type := 0, flags := 0, lowerY := -55, upperY := 105,
    vertex1 := ⟨68, -50, 60⟩, vertex2 := ⟨68, -50, 200⟩, vertex3 := ⟨68, 100, 130⟩,
    normal := ⟨-1, 0, 0⟩, originOffset := 68 }

/-- Globals whose only surface is `sampleCellWall`, in the static wall list of the cell with
X index 8 and Z index 8; every other list of every cell is empty. -/
def sampleCellGlobals : Globals :=
  { sampleGlobals false false [] [] with
    gStaticSurfacePartition := fun cellZ cellX k =>
      if cellZ = 8 ∧ cellX = 8 ∧ k = SpatialPartition.SPATIAL_PARTITION_WALLS then
        [sampleCellWall]
      else [] }

/-! ## Lemmas on the floor scan -/

theorem find_floor_loop_cons (E : Externals) (cam : Bool) (x y z : Int) (surf : Surface)
    (rest : List Surface) (floor : Option Surface) (pheight : ℚ) :
    find_floor_loop E cam x y z (surf :: rest) floor pheight =
      if floor_candidate E cam x y z surf ∧ pheight ≤ get_surface_height_at_location x z surf
          ∧ get_surface_height_at_location x z surf - 78 ≤ (y : ℚ) then
        if get_surface_height_at_location x z surf - 78 = (y : ℚ) then
          (some surf, get_surface_height_at_location x z surf)
        else find_floor_loop E cam x y z rest (some surf) (get_surface_height_at_location x z surf)
      else find_floor_loop E cam x y z rest floor pheight := by
  simp only [find_floor_loop, floor_candidate]
  split_ifs <;>
    (first
      | rfl
      | (exfalso; simp_all; done)
      | (exfalso; simp_all; omega)
      | (exfalso; simp_all; linarith))

/-- The invariant of the floor loop entered with the running best `(floor, pheight)`: the
final height is at least `pheight` and at least the height of every candidate of the list
that is not below `pheight` and within the 78 unit buffer; and either no such candidate
exists and the running best is returned unchanged, or the result is such a candidate of the
list together with its height. -/
theorem find_floor_loop_spec (E : Externals) (cam : Bool) (x y z : Int) (l : List Surface) :
    ∀ (floor : Option Surface) (pheight : ℚ),
      pheight ≤ (find_floor_loop E cam x y z l floor pheight).2
      ∧ (∀ s ∈ l, floor_candidate E cam x y z s → pheight ≤ get_surface_height_at_location x z s →
          get_surface_height_at_location x z s - 78 ≤ (y : ℚ) →
          get_surface_height_at_location x z s ≤ (find_floor_loop E cam x y z l floor pheight).2)
      ∧ ((find_floor_loop E cam x y z l floor pheight = (floor, pheight)
            ∧ ∀ s ∈ l, ¬ (floor_candidate E cam x y z s
                ∧ pheight ≤ get_surface_height_at_location x z s
                ∧ get_surface_height_at_location x z s - 78 ≤ (y : ℚ)))
          ∨ ∃ s ∈ l, (find_floor_loop E cam x y z l floor pheight).1 = some s
              ∧ floor_candidate E cam x y z s
              ∧ pheight ≤ get_surface_height_at_location x z s
              ∧ get_surface_height_at_location x z s - 78 ≤ (y : ℚ)
              ∧ (find_floor_loop E cam x y z l floor pheight).2
                  = get_surface_height_at_location x z s) := by
  induction l with
  | nil =>
    intro floor pheight
    simp [find_floor_loop]
  | cons surf rest ih =>
    intro floor pheight
    rw [find_floor_loop_cons]
    by_cases hacc : floor_candidate E cam x y z surf
        ∧ pheight ≤ get_surface_height_at_location x z surf
        ∧ get_surface_height_at_location x z surf - 78 ≤ (y : ℚ)
    · rw [if_pos hacc]
      obtain ⟨hc, hph, hbuf⟩ := hacc
      by_cases hbrk : get_surface_height_at_location x z surf - 78 = (y : ℚ)
      · rw [if_pos hbrk]
        refine ⟨hph, ?_, Or.inr ⟨surf, List.mem_cons_self _ _, rfl, hc, hph, hbuf, rfl⟩⟩
        intro s _ _ _ hs
        show get_surface_height_at_location x z s ≤ get_surface_height_at_location x z surf
        linarith
      · rw [if_neg hbrk]
        obtain ⟨ih1, ih2, ih3⟩ := ih (some surf) (get_surface_height_at_location x z surf)
        refine ⟨le_trans hph ih1, ?_, ?_⟩
        · intro s hs hsc hsp hsb
          rcases List.mem_cons.mp hs with rfl | hs
          · exact ih1
          · by_cases hle : get_surface_height_at_location x z surf
                ≤ get_surface_height_at_location x z s
            · exact ih2 s hs hsc hle hsb
            · exact le_trans (le_of_lt (not_le.mp hle)) ih1
        · right
          rcases ih3 with ⟨heq, _⟩ | ⟨s, hs, h1, h2, h3, h4, h5⟩
          · exact ⟨surf, List.mem_cons_self _ _, by rw [heq], hc, hph, hbuf, by rw [heq]⟩
          · exact ⟨s, List.mem_cons_of_mem _ hs, h1, h2, le_trans hph h3, h4, h5⟩
    · rw [if_neg hacc]
      obtain ⟨ih1, ih2, ih3⟩ := ih floor pheight
      refine ⟨ih1, ?_, ?_⟩
      · intro s hs hsc hsp hsb
        rcases List.mem_cons.mp hs with rfl | hs
        · exact absurd ⟨hsc, hsp, hsb⟩ hacc
        · exact ih2 s hs hsc hsp hsb
      · rcases ih3 with ⟨heq, hnone⟩ | ⟨s, hs, h1, h2, h3, h4, h5⟩
        · left
          refine ⟨heq, ?_⟩
          intro s hs
          rcases List.mem_cons.mp hs with rfl | hs
          · exact hacc
          · exact hnone s hs
        · exact Or.inr ⟨s, List.mem_cons_of_mem _ hs, h1, h2, h3, h4, h5⟩

/-- C1. For every floor list and integer query (x,y,z), `find_floor_from_list` returns the
maximum plane height at (x,z) over the surfaces of the list that pass all of its filters:
the returned height bounds the height of every passing surface; when some surface passes,
the returned surface is a passing member of the list whose height is the returned height;
and when no surface passes, the result is `FLOOR_LOWER_LIMIT` with no surface. The returned
surface is none exactly when no surface passes. -/
theorem find_floor_from_list_max (E : Externals) (cam : Bool) (l : List Surface) (x y z : Int) :
    (∀ s ∈ l, floor_passes E cam x y z s →
        get_surface_height_at_location x z s ≤ (find_floor_from_list E cam l x y z).2)
    ∧ ((∃ s ∈ l, floor_passes E cam x y z s) →
        ∃ s ∈ l, (find_floor_from_list E cam l x y z).1 = some s ∧ floor_passes E cam x y z s
          ∧ get_surface_height_at_location x z s = (find_floor_from_list E cam l x y z).2)
    ∧ ((¬ ∃ s ∈ l, floor_passes E cam x y z s) →
        find_floor_from_list E cam l x y z = (none, (E.FLOOR_LOWER_LIMIT : ℚ)))
    ∧ ((find_floor_from_list E cam l x y z).1 = none ↔ ¬ ∃ s ∈ l, floor_passes E cam x y z s) := by
  obtain ⟨_, h2, h3⟩ := find_floor_loop_spec E cam x y z l none (E.FLOOR_LOWER_LIMIT : ℚ)
  have hsome : (∃ s ∈ l, floor_passes E cam x y z s) →
      ∃ s ∈ l, (find_floor_from_list E cam l x y z).1 = some s ∧ floor_passes E cam x y z s
        ∧ get_surface_height_at_location x z s = (find_floor_from_list E cam l x y z).2 := by
    rintro ⟨s, hs, hp⟩
    rcases h3 with ⟨_, hnone⟩ | ⟨t, ht, h4, h5, h6, h7, h8⟩
    · exact absurd hp (hnone s hs)
    · exact ⟨t, ht, h4, ⟨h5, h6, h7⟩, h8.symm⟩
  have hnone : (¬ ∃ s ∈ l, floor_passes E cam x y z s) →
      find_floor_from_list E cam l x y z = (none, (E.FLOOR_LOWER_LIMIT : ℚ)) := by
    intro hno
    rcases h3 with ⟨heq, _⟩ | ⟨t, ht, _, h5, h6, h7, _⟩
    · exact heq
    · exact absurd ⟨t, ht, h5, h6, h7⟩ hno
  refine ⟨fun s hs hp => h2 s hs hp.1 hp.2.1 hp.2.2, hsome, hnone, ?_⟩
  constructor
  · intro hn hex
    obtain ⟨s, _, h4, _⟩ := hsome hex
    rw [hn] at h4
    exact Option.noConfusion h4
  · intro hno
    rw [hnone hno]

/-! ## Lemmas on the ceiling scan -/

theorem find_ceil_loop_cons (E : Externals) (cam : Bool) (x y z : Int) (surf : Surface)
    (rest : List Surface) (ceil : Option Surface) (pheight : ℚ) :
    find_ceil_loop E cam x y z (surf :: rest) ceil pheight =
      if ceil_candidate E cam x y z surf ∧ get_surface_height_at_location x z surf ≤ pheight
          ∧ (y : ℚ) ≤ get_surface_height_at_location x z surf ∧ y < surf.upperY then
        if get_surface_height_at_location x z surf = (y : ℚ) then
          (some surf, get_surface_height_at_location x z surf)
        else find_ceil_loop E cam x y z rest (some surf) (get_surface_height_at_location x z surf)
      else find_ceil_loop E cam x y z rest ceil pheight := by
  simp only [find_ceil_loop, ceil_candidate]
  split_ifs <;>
    (first
      | rfl
      | (exfalso; simp_all; done)
      | (exfalso; simp_all; omega)
      | (exfalso; simp_all; linarith))

/-- The invariant of the ceiling loop entered with the running best `(ceil, pheight)`: the
final height is at most `pheight`, and either the running best is returned unchanged or the
result is an accepted candidate of the list together with its height. -/
theorem find_ceil_loop_spec (E : Externals) (cam : Bool) (x y z : Int) (l : List Surface) :
    ∀ (ceil : Option Surface) (pheight : ℚ),
      (find_ceil_loop E cam x y z l ceil pheight).2 ≤ pheight
      ∧ (find_ceil_loop E cam x y z l ceil pheight = (ceil, pheight)
          ∨ ∃ s ∈ l, (find_ceil_loop E cam x y z l ceil pheight).1 = some s
              ∧ ceil_candidate E cam x y z s
              ∧ get_surface_height_at_location x z s ≤ pheight
              ∧ (y : ℚ) ≤ get_surface_height_at_location x z s
              ∧ y < s.upperY
              ∧ (find_ceil_loop E cam x y z l ceil pheight).2
                  = get_surface_height_at_location x z s) := by
  induction l with
  | nil =>
    intro ceil pheight
    simp [find_ceil_loop]
  | cons surf rest ih =>
    intro ceil pheight
    rw [find_ceil_loop_cons]
    by_cases hacc : ceil_candidate E cam x y z surf
        ∧ get_surface_height_at_location x z surf ≤ pheight
        ∧ (y : ℚ) ≤ get_surface_height_at_location x z surf ∧ y < surf.upperY
    · rw [if_pos hacc]
      obtain ⟨hc, hph, hy, hu⟩ := hacc
      by_cases hbrk : get_surface_height_at_location x z surf = (y : ℚ)
      · rw [if_pos hbrk]
        exact ⟨hph, Or.inr ⟨surf, List.mem_cons_self _ _, rfl, hc, hph, hy, hu, rfl⟩⟩
      · rw [if_neg hbrk]
        obtain ⟨ih1, ih2⟩ := ih (some surf) (get_surface_height_at_location x z surf)
        refine ⟨le_trans ih1 hph, Or.inr ?_⟩
        rcases ih2 with heq | ⟨s, hs, h1, h2, h3, h4, h5, h6⟩
        · exact ⟨surf, List.mem_cons_self _ _, by rw [heq], hc, hph, hy, hu, by rw [heq]⟩
        · exact ⟨s, List.mem_cons_of_mem _ hs, h1, h2, le_trans h3 hph, h4, h5, h6⟩
    · rw [if_neg hacc]
      obtain ⟨ih1, ih2⟩ := ih ceil pheight
      refine ⟨ih1, ?_⟩
      rcases ih2 with heq | ⟨s, hs, h1, h2, h3, h4, h5, h6⟩
      · exact Or.inl heq
      · exact Or.inr ⟨s, List.mem_cons_of_mem _ hs, h1, h2, h3, h4, h5, h6⟩

/-! ## Sentinels of the list scans -/

theorem find_floor_from_list_ge (E : Externals) (cam : Bool) (l : List Surface) (x y z : Int) :
    (E.FLOOR_LOWER_LIMIT : ℚ) ≤ (find_floor_from_list E cam l x y z).2 :=
  (find_floor_loop_spec E cam x y z l none (E.FLOOR_LOWER_LIMIT : ℚ)).1

theorem find_floor_from_list_none (E : Externals) (cam : Bool) (l : List Surface) (x y z : Int)
    (h : (find_floor_from_list E cam l x y z).1 = none) :
    (find_floor_from_list E cam l x y z).2 = (E.FLOOR_LOWER_LIMIT : ℚ) := by
  rcases (find_floor_loop_spec E cam x y z l none (E.FLOOR_LOWER_LIMIT : ℚ)).2.2 with
    ⟨heq, _⟩ | ⟨s, _, h1, _⟩
  · unfold find_floor_from_list; rw [heq]
  · unfold find_floor_from_list at h; rw [h] at h1; exact Option.noConfusion h1

theorem find_ceil_from_list_le (E : Externals) (cam : Bool) (l : List Surface) (x y z : Int) :
    (find_ceil_from_list E cam l x y z).2 ≤ (E.CELL_HEIGHT_LIMIT : ℚ) :=
  (find_ceil_loop_spec E cam x y z l none (E.CELL_HEIGHT_LIMIT : ℚ)).1

theorem find_ceil_from_list_none (E : Externals) (cam : Bool) (l : List Surface) (x y z : Int)
    (h : (find_ceil_from_list E cam l x y z).1 = none) :
    (find_ceil_from_list E cam l x y z).2 = (E.CELL_HEIGHT_LIMIT : ℚ) := by
  rcases (find_ceil_loop_spec E cam x y z l none (E.CELL_HEIGHT_LIMIT : ℚ)).2 with
    heq | ⟨s, _, h1, _⟩
  · unfold find_ceil_from_list; rw [heq]
  · unfold find_ceil_from_list at h; rw [h] at h1; exact Option.noConfusion h1

theorem find_floor_static_eq_scan (E : Externals) (cam incl : Bool) (l : List Surface)
    (x y z : Int) :
    ∃ y1, (find_floor_static E cam incl l x y z).1 = find_floor_from_list E cam l x y1 z := by
  unfold find_floor_static
  cases incl
  · cases h : (find_floor_from_list E cam l x y z).1 with
    | none => exact ⟨y, by simp [h]⟩
    | some floor =>
      by_cases ht : floor.type = E.SURFACE_INTANGIBLE
      · exact ⟨f32_to_s32 ((find_floor_from_list E cam l x y z).2 - 200), by simp [h, ht]⟩
      · exact ⟨y, by simp [h, ht]⟩
  · exact ⟨y, by simp⟩

theorem find_floor_static_ge (E : Externals) (cam incl : Bool) (l : List Surface) (x y z : Int) :
    (E.FLOOR_LOWER_LIMIT : ℚ) ≤ (find_floor_static E cam incl l x y z).1.2 := by
  obtain ⟨y1, h⟩ := find_floor_static_eq_scan E cam incl l x y z
  rw [h]
  exact find_floor_from_list_ge E cam l x y1 z

theorem find_floor_static_none (E : Externals) (cam incl : Bool) (l : List Surface) (x y z : Int)
    (h : (find_floor_static E cam incl l x y z).1.1 = none) :
    (find_floor_static E cam incl l x y z).1.2 = (E.FLOOR_LOWER_LIMIT : ℚ) := by
  obtain ⟨y1, h1⟩ := find_floor_static_eq_scan E cam incl l x y z
  rw [h1] at h ⊢
  exact find_floor_from_list_none E cam l x y1 z h

/-! ## The static and dynamic merge, and the sentinels of the queries -/

theorem find_floor_in_bounds (E : Externals) (G : Globals) (xPos yPos zPos : ℚ)
    (hin : is_outside_level_bounds E (f32_to_s32 xPos) (f32_to_s32 zPos) = false) :
    ((find_floor E G xPos yPos zPos).1, (find_floor E G xPos yPos zPos).2.1)
      = if (dynamic_floor_candidate E G (f32_to_s32 xPos) (f32_to_s32 yPos) (f32_to_s32 zPos)).2
            > (static_floor_candidate E G (f32_to_s32 xPos) (f32_to_s32 yPos) (f32_to_s32 zPos)).2
        then ((dynamic_floor_candidate E G (f32_to_s32 xPos) (f32_to_s32 yPos) (f32_to_s32 zPos)).2,
              (dynamic_floor_candidate E G (f32_to_s32 xPos) (f32_to_s32 yPos) (f32_to_s32 zPos)).1)
        else ((static_floor_candidate E G (f32_to_s32 xPos) (f32_to_s32 yPos) (f32_to_s32 zPos)).2,
              (static_floor_candidate E G (f32_to_s32 xPos) (f32_to_s32 yPos) (f32_to_s32 zPos)).1) := by
  unfold find_floor dynamic_floor_candidate static_floor_candidate
  simp only [hin, Bool.false_eq_true, if_false]
  split_ifs <;> rfl

theorem find_ceil_in_bounds (E : Externals) (G : Globals) (xPos yPos zPos : ℚ)
    (hin : is_outside_level_bounds E (f32_to_s32 xPos) (f32_to_s32 zPos) = false) :
    ((find_ceil E G xPos yPos zPos).1, (find_ceil E G xPos yPos zPos).2.1)
      = if (dynamic_ceil_candidate E G (f32_to_s32 xPos) (f32_to_s32 yPos) (f32_to_s32 zPos)).2
            < (static_ceil_candidate E G (f32_to_s32 xPos) (f32_to_s32 yPos) (f32_to_s32 zPos)).2
        then ((dynamic_ceil_candidate E G (f32_to_s32 xPos) (f32_to_s32 yPos) (f32_to_s32 zPos)).2,
              (dynamic_ceil_candidate E G (f32_to_s32 xPos) (f32_to_s32 yPos) (f32_to_s32 zPos)).1)
        else ((static_ceil_candidate E G (f32_to_s32 xPos) (f32_to_s32 yPos) (f32_to_s32 zPos)).2,
              (static_ceil_candidate E G (f32_to_s32 xPos) (f32_to_s32 yPos) (f32_to_s32 zPos)).1) := by
  unfold find_ceil dynamic_ceil_candidate static_ceil_candidate
  simp only [hin, Bool.false_eq_true, if_false]
  split_ifs <;> rfl

/-- C2. For every in-bounds query, `find_floor` returns the larger of the static and the
dynamic candidate heights and `find_ceil` returns the smaller of the two; the dynamic surface
is returned exactly when its height is strictly better (strictly higher for floors, strictly
lower for ceilings), so on an exact height tie the static candidate's surface is returned. -/
theorem find_floor_find_ceil_merge (E : Externals) (G : Globals) (xPos yPos zPos : ℚ)
    (hin : is_outside_level_bounds E (f32_to_s32 xPos) (f32_to_s32 zPos) = false) :
    (find_floor E G xPos yPos zPos).1
        = max (static_floor_candidate E G (f32_to_s32 xPos) (f32_to_s32 yPos) (f32_to_s32 zPos)).2
            (dynamic_floor_candidate E G (f32_to_s32 xPos) (f32_to_s32 yPos) (f32_to_s32 zPos)).2
    ∧ (find_ceil E G xPos yPos zPos).1
        = min (static_ceil_candidate E G (f32_to_s32 xPos) (f32_to_s32 yPos) (f32_to_s32 zPos)).2
            (dynamic_ceil_candidate E G (f32_to_s32 xPos) (f32_to_s32 yPos) (f32_to_s32 zPos)).2
    ∧ (find_floor E G xPos yPos zPos).2.1
        = (if (static_floor_candidate E G (f32_to_s32 xPos) (f32_to_s32 yPos) (f32_to_s32 zPos)).2
              < (dynamic_floor_candidate E G (f32_to_s32 xPos) (f32_to_s32 yPos) (f32_to_s32 zPos)).2
           then (dynamic_floor_candidate E G (f32_to_s32 xPos) (f32_to_s32 yPos) (f32_to_s32 zPos)).1
           else (static_floor_candidate E G (f32_to_s32 xPos) (f32_to_s32 yPos) (f32_to_s32 zPos)).1)
    ∧ (find_ceil E G xPos yPos zPos).2.1
        = (if (dynamic_ceil_candidate E G (f32_to_s32 xPos) (f32_to_s32 yPos) (f32_to_s32 zPos)).2
              < (static_ceil_candidate E G (f32_to_s32 xPos) (f32_to_s32 yPos) (f32_to_s32 zPos)).2
           then (dynamic_ceil_candidate E G (f32_to_s32 xPos) (f32_to_s32 yPos) (f32_to_s32 zPos)).1
           else (static_ceil_candidate E G (f32_to_s32 xPos) (f32_to_s32 yPos) (f32_to_s32 zPos)).1)
    ∧ ((static_floor_candidate E G (f32_to_s32 xPos) (f32_to_s32 yPos) (f32_to_s32 zPos)).2
          = (dynamic_floor_candidate E G (f32_to_s32 xPos) (f32_to_s32 yPos) (f32_to_s32 zPos)).2 →
        (find_floor E G xPos yPos zPos).2.1
          = (static_floor_candidate E G (f32_to_s32 xPos) (f32_to_s32 yPos) (f32_to_s32 zPos)).1)
    ∧ ((static_ceil_candidate E G (f32_to_s32 xPos) (f32_to_s32 yPos) (f32_to_s32 zPos)).2
          = (dynamic_ceil_candidate E G (f32_to_s32 xPos) (f32_to_s32 yPos) (f32_to_s32 zPos)).2 →
        (find_ceil E G xPos yPos zPos).2.1
          = (static_ceil_candidate E G (f32_to_s32 xPos) (f32_to_s32 yPos) (f32_to_s32 zPos)).1) := by
  have hf := find_floor_in_bounds E G xPos yPos zPos hin
  have hc := find_ceil_in_bounds E G xPos yPos zPos hin
  have hf1 := congrArg Prod.fst hf
  have hf2 := congrArg Prod.snd hf
  have hc1 := congrArg Prod.fst hc
  have hc2 := congrArg Prod.snd hc
  simp only [apply_ite Prod.fst, apply_ite Prod.snd, gt_iff_lt] at hf1 hf2 hc1 hc2
  refine ⟨?_, ?_, hf2, hc2, ?_, ?_⟩
  · rw [hf1]
    split_ifs with h
    · exact (max_eq_right (le_of_lt h)).symm
    · exact (max_eq_left (not_lt.mp h)).symm
  · rw [hc1]
    split_ifs with h
    · exact (min_eq_right (le_of_lt h)).symm
    · exact (min_eq_left (not_lt.mp h)).symm
  · intro heq
    rw [hf2, if_neg (by rw [heq]; exact lt_irrefl _)]
  · intro heq
    rw [hc2, if_neg (by rw [heq]; exact lt_irrefl _)]

/-- C3. For every query and every content of the partitions, if `find_floor` returns no
surface its height is exactly `FLOOR_LOWER_LIMIT`, and if `find_ceil` returns no surface its
height is exactly `CELL_HEIGHT_LIMIT`. The static candidate of `find_floor` includes the
re-probe beneath an intangible floor, so the path on which that re-probe finds nothing is
covered. -/
theorem find_floor_find_ceil_none_sentinel (E : Externals) (G : Globals) (xPos yPos zPos : ℚ) :
    ((find_floor E G xPos yPos zPos).2.1 = none →
        (find_floor E G xPos yPos zPos).1 = (E.FLOOR_LOWER_LIMIT : ℚ))
    ∧ ((find_ceil E G xPos yPos zPos).2.1 = none →
        (find_ceil E G xPos yPos zPos).1 = (E.CELL_HEIGHT_LIMIT : ℚ)) := by
  constructor
  · intro hnone
    cases hout : is_outside_level_bounds E (f32_to_s32 xPos) (f32_to_s32 zPos) with
    | true => simp [find_floor, hout]
    | false =>
      have hf := find_floor_in_bounds E G xPos yPos zPos hout
      have hf1 := congrArg Prod.fst hf
      have hf2 := congrArg Prod.snd hf
      simp only [apply_ite Prod.fst, apply_ite Prod.snd] at hf1 hf2
      rw [hf2] at hnone
      rw [hf1]
      unfold dynamic_floor_candidate static_floor_candidate at *
      split_ifs at hnone ⊢ with h
      · have h1 := find_floor_from_list_none E _ _ _ _ _ hnone
        have h2 := find_floor_static_ge E G.gCheckingSurfaceCollisionsForCamera
          G.gFindFloorIncludeSurfaceIntangible
          (G.gStaticSurfacePartition (cell_index E (f32_to_s32 zPos))
            (cell_index E (f32_to_s32 xPos)) SpatialPartition.SPATIAL_PARTITION_FLOORS)
          (f32_to_s32 xPos) (f32_to_s32 yPos) (f32_to_s32 zPos)
        rw [h1] at h
        exact absurd h (not_lt.mpr h2)
      · exact find_floor_static_none E _ _ _ _ _ _ hnone
  · intro hnone
    cases hout : is_outside_level_bounds E (f32_to_s32 xPos) (f32_to_s32 zPos) with
    | true => simp [find_ceil, hout]
    | false =>
      have hc := find_ceil_in_bounds E G xPos yPos zPos hout
      have hc1 := congrArg Prod.fst hc
      have hc2 := congrArg Prod.snd hc
      simp only [apply_ite Prod.fst, apply_ite Prod.snd] at hc1 hc2
      rw [hc2] at hnone
      rw [hc1]
      unfold dynamic_ceil_candidate static_ceil_candidate at *
      split_ifs at hnone ⊢ with h
      · have h1 := find_ceil_from_list_none E _ _ _ _ _ hnone
        have h2 := find_ceil_from_list_le E G.gCheckingSurfaceCollisionsForCamera
          (G.gStaticSurfacePartition (cell_index E (f32_to_s32 zPos))
            (cell_index E (f32_to_s32 xPos)) SpatialPartition.SPATIAL_PARTITION_CEILS)
          (f32_to_s32 xPos) (f32_to_s32 yPos) (f32_to_s32 zPos)
        rw [h1] at h
        exact absurd h (not_lt.mpr h2)
      · exact find_ceil_from_list_none E _ _ _ _ _ hnone

/-- C4. For every query whose truncated (x,z) is outside the level bounds, whatever the
partitions contain: `find_floor` returns `FLOOR_LOWER_LIMIT` with no surface, `find_ceil`
returns `CELL_HEIGHT_LIMIT` with no surface, and `find_wall_collisions` returns 0 with
`numWalls = 0` and the probe's x, y, z unchanged. No list is scanned: the results do not
depend on the partitions and the globals, among them the call counters that every scanning
path increments, are returned unchanged. -/
theorem out_of_bounds_no_scan (E : Externals) (G : Globals) (xPos yPos zPos offsetY radius : ℚ)
    (numWalls : Nat) (walls : List Surface)
    (hout : is_outside_level_bounds E (f32_to_s32 xPos) (f32_to_s32 zPos) = true) :
    find_floor E G xPos yPos zPos = ((E.FLOOR_LOWER_LIMIT : ℚ), none, G)
    ∧ find_ceil E G xPos yPos zPos = ((E.CELL_HEIGHT_LIMIT : ℚ), none, G)
    ∧ find_wall_collisions E G ⟨xPos, yPos, zPos, offsetY, radius, numWalls, walls⟩
        = (0, ⟨xPos, yPos, zPos, offsetY, radius, 0, walls⟩, G) := by
  refine ⟨?_, ?_, ?_⟩
  · simp [find_floor, hout]
  · simp [find_ceil, hout]
  · simp [find_wall_collisions, hout]

/-- The path through the re-probe: a static list holding only an intangible floor at height
100, queried at (10, 100, 10) with the include-intangible flag clear. The first scan finds
the intangible floor, the re-probe from y = -100 finds nothing, and `find_floor` returns no
surface together with the sentinel height, not the height of the intangible floor. -/
theorem find_floor_intangible_reprobe_example :
    (find_floor_from_list sampleExternals false
        [sampleFloor sampleExternals.SURFACE_INTANGIBLE 0 100] 10 100 10).1
      = some (sampleFloor sampleExternals.SURFACE_INTANGIBLE 0 100)
    ∧ (find_floor sampleExternals
        (sampleGlobals false false [sampleFloor sampleExternals.SURFACE_INTANGIBLE 0 100] [])
        10 100 10).1 = (sampleExternals.FLOOR_LOWER_LIMIT : ℚ)
    ∧ (find_floor sampleExternals
        (sampleGlobals false false [sampleFloor sampleExternals.SURFACE_INTANGIBLE 0 100] [])
        10 100 10).2.1 = none := by
  decide!

theorem find_floor_find_ceil_merge_witness :
    is_outside_level_bounds sampleExternals (f32_to_s32 10) (f32_to_s32 10) = false
    ∧ (find_floor sampleExternals
        (sampleGlobals false false [sampleFloor 0 0 100] [sampleFloor 0 1 100]) 10 100 10).2.1
        = some (sampleFloor 0 0 100) :=
  ⟨by decide!, by
    rw [(find_floor_find_ceil_merge sampleExternals
      (sampleGlobals false false [sampleFloor 0 0 100] [sampleFloor 0 1 100]) 10 100 10
      (by decide!)).2.2.2.2.1 (by decide!)]
    decide!⟩

theorem out_of_bounds_no_scan_witness :
    is_outside_level_bounds sampleExternals (f32_to_s32 9000) (f32_to_s32 10) = true
    ∧ find_floor sampleExternals (sampleGlobals false false [sampleFloor 0 0 100] []) 9000 100 10
        = ((sampleExternals.FLOOR_LOWER_LIMIT : ℚ), none,
            sampleGlobals false false [sampleFloor 0 0 100] []) :=
  ⟨by decide!, (out_of_bounds_no_scan sampleExternals
    (sampleGlobals false false [sampleFloor 0 0 100] []) 9000 100 10 0 50 0 [] (by decide!)).1⟩

/-! ## Water level outside the level bounds -/

theorem water_region_loop_none (x z : Int) (p : List Int) :
    ∀ (n off : Nat) (wl : Int),
      (∀ k, k < n → ¬ water_region_matches x z p (off + 6 * k)) →
      water_region_loop x z p n off wl = wl := by
  intro n
  induction n with
  | zero => intro off wl _; rfl
  | succ n ih =>
    intro off wl h
    have h0 := h 0 (Nat.succ_pos n)
    simp only [Nat.mul_zero, Nat.add_zero] at h0
    rw [water_region_loop, if_neg h0]
    apply ih
    intro k hk
    have := h (k + 1) (Nat.succ_lt_succ hk)
    rwa [show off + 6 * (k + 1) = off + 6 + 6 * k by ring] at this

theorem water_region_loop_first (x z : Int) (p : List Int) :
    ∀ (k n off : Nat) (wl : Int), k < n →
      water_region_matches x z p (off + 6 * k) →
      (∀ j, j < k → ¬ water_region_matches x z p (off + 6 * j)) →
      water_region_loop x z p n off wl = p.getD (off + 6 * k + 5) 0 := by
  intro k
  induction k with
  | zero =>
    intro n off wl hn hm _
    obtain ⟨m, rfl⟩ := Nat.exists_eq_succ_of_ne_zero (Nat.pos_iff_ne_zero.mp hn)
    simp only [Nat.mul_zero, Nat.add_zero] at hm ⊢
    rw [water_region_loop, if_pos hm]
  | succ k ih =>
    intro n off wl hn hm hfirst
    obtain ⟨m, rfl⟩ := Nat.exists_eq_succ_of_ne_zero (Nat.pos_iff_ne_zero.mp (Nat.lt_of_le_of_lt (Nat.zero_le _) hn))
    have h0 := hfirst 0 (Nat.succ_pos k)
    simp only [Nat.mul_zero, Nat.add_zero] at h0
    rw [water_region_loop, if_neg h0]
    have e : off + 6 * (k + 1) = off + 6 + 6 * k := by ring
    rw [e] at hm ⊢
    apply ih m (off + 6) wl (Nat.lt_of_succ_lt_succ hn) hm
    intro j hj
    have := hfirst (j + 1) (Nat.succ_lt_succ hj)
    rwa [show off + 6 * (j + 1) = off + 6 + 6 * j by ring] at this

theorem find_water_floor_out_of_bounds (E : Externals) (G : Globals) (x y z : Int)
    (hout : is_outside_level_bounds E x z = true) :
    find_water_floor E G x y z = ((E.FLOOR_LOWER_LIMIT : ℚ), none) := by
  simp [find_water_floor, hout]

theorem f32_to_s32_intCast (n : Int) : f32_to_s32 (n : ℚ) = n := by
  unfold f32_to_s32
  split_ifs <;> simp

theorem find_water_level_out_of_bounds_eq (E : Externals) (G : Globals) (x z : Int)
    (hout : is_outside_level_bounds E x z = true) :
    find_water_level E G x z =
      match G.gEnvironmentRegions with
      | some p => water_region_loop x z p (p.getD 0 0).toNat 1 E.FLOOR_LOWER_LIMIT
      | none => E.FLOOR_LOWER_LIMIT := by
  unfold find_water_level
  simp only [find_water_floor_out_of_bounds E G x _ z hout, f32_to_s32_intCast, ite_self]
  cases G.gEnvironmentRegions with
  | none => rfl
  | some p => simp

/-- C5, counterexample. With level bounds of 8192, the point (9000, 0) is outside the level
bounds, yet `find_water_level` returns 500, the level of a water region (tag 0) whose box
8500 < x < 9500, -100 < z < 100 contains the point, and not the sentinel. -/
theorem find_water_level_out_of_bounds_counterexample :
    is_outside_level_bounds sampleExternals 9000 0 = true
    ∧ find_water_level sampleExternals (sampleRegionGlobals [1, 0, 8500, -100, 9500, 100, 500])
        9000 0 = 500
    ∧ (500 : Int) ≠ sampleExternals.FLOOR_LOWER_LIMIT := by
  decide!

/-- C5, amended. For every (x,z) outside the level bounds the water surfaces are not
consulted and `find_water_level` returns the result of the environment-region scan alone:
`FLOOR_LOWER_LIMIT` when the region array is absent or none of its regions is a water region
(tag below 50) strictly containing (x,z), and otherwise the level of the first such region. -/
theorem find_water_level_out_of_bounds (E : Externals) (G : Globals) (x z : Int)
    (hout : is_outside_level_bounds E x z = true) :
    (G.gEnvironmentRegions = none → find_water_level E G x z = E.FLOOR_LOWER_LIMIT)
    ∧ (∀ p, G.gEnvironmentRegions = some p →
        (∀ k, k < (p.getD 0 0).toNat → ¬ water_region_matches x z p (1 + 6 * k)) →
        find_water_level E G x z = E.FLOOR_LOWER_LIMIT)
    ∧ (∀ p k, G.gEnvironmentRegions = some p → k < (p.getD 0 0).toNat →
        water_region_matches x z p (1 + 6 * k) →
        (∀ j, j < k → ¬ water_region_matches x z p (1 + 6 * j)) →
        find_water_level E G x z = p.getD (1 + 6 * k + 5) 0) := by
  have h := find_water_level_out_of_bounds_eq E G x z hout
  refine ⟨?_, ?_, ?_⟩
  · intro hp
    rw [h, hp]
  · intro p hp hno
    rw [h, hp]
    exact water_region_loop_none x z p _ 1 _ hno
  · intro p k hp hk hm hfirst
    rw [h, hp]
    exact water_region_loop_first x z p k _ 1 _ hk hm hfirst

theorem find_water_level_out_of_bounds_witness :
    is_outside_level_bounds sampleExternals 9000 0 = true
    ∧ find_water_level sampleExternals (sampleRegionGlobals [1, 50, 8500, -100, 9500, 100, 500])
        9000 0 = sampleExternals.FLOOR_LOWER_LIMIT :=
  ⟨by decide!,
    (find_water_level_out_of_bounds sampleExternals
      (sampleRegionGlobals [1, 50, 8500, -100, 9500, 100, 500]) 9000 0 (by decide!)).2.1
      [1, 50, 8500, -100, 9500, 100, 500] rfl (by decide!)⟩

/-! ## Exclusions by type and by query mode -/

theorem find_floor_from_list_some (E : Externals) (cam : Bool) (l : List Surface) (x y z : Int)
    (s : Surface) (h : (find_floor_from_list E cam l x y z).1 = some s) :
    s ∈ l ∧ floor_candidate E cam x y z s := by
  rcases (find_floor_loop_spec E cam x y z l none (E.FLOOR_LOWER_LIMIT : ℚ)).2.2 with
    ⟨heq, _⟩ | ⟨t, ht, h1, h2, _⟩
  · unfold find_floor_from_list at h; rw [heq] at h; exact Option.noConfusion h
  · unfold find_floor_from_list at h
    rw [h1] at h
    cases h
    exact ⟨ht, h2⟩

theorem find_ceil_from_list_some (E : Externals) (cam : Bool) (l : List Surface) (x y z : Int)
    (s : Surface) (h : (find_ceil_from_list E cam l x y z).1 = some s) :
    s ∈ l ∧ ceil_candidate E cam x y z s := by
  rcases (find_ceil_loop_spec E cam x y z l none (E.CELL_HEIGHT_LIMIT : ℚ)).2 with
    heq | ⟨t, ht, h1, h2, _⟩
  · unfold find_ceil_from_list at h; rw [heq] at h; exact Option.noConfusion h
  · unfold find_ceil_from_list at h
    rw [h1] at h
    cases h
    exact ⟨ht, h2⟩

theorem floor_mode_excluded_false (E : Externals) (cam : Bool) (s : Surface)
    (h : floor_mode_excluded E cam s = false) :
    camera_mode_excluded E cam s = false ∧ (cam = true → ¬ is_water_type E s) := by
  unfold floor_mode_excluded at h
  unfold camera_mode_excluded is_water_type
  cases cam <;> simp_all

theorem ceil_mode_excluded_false (E : Externals) (cam : Bool) (s : Surface)
    (h : ceil_mode_excluded E cam s = false) :
    camera_mode_excluded E cam s = false ∧ ¬ is_water_type E s := by
  unfold ceil_mode_excluded at h
  unfold camera_mode_excluded is_water_type
  cases cam <;> simp_all

/-- The part of C7 that holds for ceilings: in both modes the surface returned by
`find_ceil_from_list` is never typed as water. -/
theorem find_ceil_from_list_never_water (E : Externals) (cam : Bool) (l : List Surface)
    (x y z : Int) (s : Surface) (h : (find_ceil_from_list E cam l x y z).1 = some s) :
    ¬ is_water_type E s :=
  (ceil_mode_excluded_false E cam s (find_ceil_from_list_some E cam l x y z s h).2.2.2.2.2).2

/-- The part of C7 that holds for floors: in camera mode the surface returned by
`find_floor_from_list` is never typed as water. -/
theorem find_floor_from_list_camera_never_water (E : Externals) (l : List Surface)
    (x y z : Int) (s : Surface) (h : (find_floor_from_list E true l x y z).1 = some s) :
    ¬ is_water_type E s :=
  (floor_mode_excluded_false E true s (find_floor_from_list_some E true l x y z s h).2.2.2.2.2).2 rfl

/-- C7, failing input. In non-camera mode `find_floor_from_list` returns a surface of type
`SURFACE_NEW_WATER`: the floor loop tests the water types only inside its camera branch,
whereas the ceiling loop and the wall loop skip them in both modes. -/
theorem find_floor_from_list_returns_water :
    find_floor_from_list sampleExternals false
        [sampleFloor sampleExternals.SURFACE_NEW_WATER 0 100] 10 100 10
      = (some (sampleFloor sampleExternals.SURFACE_NEW_WATER 0 100), 100)
    ∧ is_water_type sampleExternals (sampleFloor sampleExternals.SURFACE_NEW_WATER 0 100) := by
  decide!

theorem hasCollision_reported (E : Externals) (surf : Surface) (st : WallScan) (s : Surface)
    (h : s ∈ (hasCollision E surf st).reported) : s ∈ st.reported ∨ s = surf := by
  unfold hasCollision at h
  split_ifs at h
  · have := List.mem_of_mem_take h
    simp only [List.mem_append, List.mem_singleton] at this
    exact this
  · exact Or.inl h

theorem check_collision_reported (E : Externals) (surf : Surface) (st : WallScan)
    (c : ℚ × ℚ × ℚ × ℚ) (s : Surface)
    (h : s ∈ (check_collision E surf st c).reported) : s ∈ st.reported ∨ s = surf := by
  unfold check_collision at h
  simp only [] at h
  split_ifs at h
  · exact Or.inl h
  · rcases hasCollision_reported E surf _ s h with h | h
    · exact Or.inl h
    · exact Or.inr h

theorem wall_edges_reported (E : Externals) (surf : Surface) (pos : Vec3f) (offset : ℚ)
    (st : WallScan) (s : Surface)
    (h : s ∈ (wall_edges E surf pos offset st).reported) : s ∈ st.reported ∨ s = surf := by
  unfold wall_edges at h
  simp only [] at h
  split_ifs at h
  · exact Or.inl h
  · split at h
    · exact check_collision_reported E surf st _ s h
    · split at h
      · exact check_collision_reported E surf st _ s h
      · split at h
        · exact check_collision_reported E surf st _ s h
        · exact Or.inl h

theorem wall_step_reported (E : Externals) (G : Globals) (radius pos1 : ℚ) (st : WallScan)
    (surf s : Surface) (h : s ∈ (wall_step E G radius pos1 st surf).reported) :
    s ∈ st.reported ∨ (s = surf ∧ wall_type_skip E G surf = false) := by
  unfold wall_step at h
  simp only [] at h
  split_ifs at h with h1 h2 h3 h4
  · exact Or.inl h
  · exact Or.inl h
  · exact Or.inl h
  · rcases hasCollision_reported E surf _ s h with h | h
    · exact Or.inl h
    · exact Or.inr ⟨h, by simpa using h1⟩
  · rcases wall_edges_reported E surf _ _ st s h with h | h
    · exact Or.inl h
    · exact Or.inr ⟨h, by simpa using h1⟩

theorem wall_scan_reported (E : Externals) (G : Globals) (radius pos1 : ℚ) (l : List Surface) :
    ∀ (st : WallScan) (s : Surface),
      s ∈ (l.foldl (wall_step E G radius pos1) st).reported →
      s ∈ st.reported ∨ (s ∈ l ∧ wall_type_skip E G s = false) := by
  induction l with
  | nil => intro st s h; exact Or.inl h
  | cons a rest ih =>
    intro st s h
    rw [List.foldl_cons] at h
    rcases ih _ s h with h | ⟨h, hs⟩
    · rcases wall_step_reported E G radius pos1 st a s h with h | ⟨rfl, hs⟩
      · exact Or.inl h
      · exact Or.inr ⟨List.mem_cons_self _ _, hs⟩
    · exact Or.inr ⟨List.mem_cons_of_mem _ h, hs⟩

theorem find_wall_collisions_from_list_reported (E : Externals) (G : Globals) (l : List Surface)
    (data : WallCollisionData) (s : Surface)
    (h : s ∈ (find_wall_collisions_from_list E G l data).2.reported) :
    s ∈ data.reported ∨ (s ∈ l ∧ wall_type_skip E G s = false) := by
  unfold find_wall_collisions_from_list at h
  exact wall_scan_reported E G _ _ l _ s h

theorem wall_type_skip_of_excluded (E : Externals) (G : Globals) (s : Surface)
    (h : camera_mode_excluded E G.gCheckingSurfaceCollisionsForCamera s = true) :
    wall_type_skip E G s = true := by
  unfold camera_mode_excluded at h
  unfold wall_type_skip
  cases hc : G.gCheckingSurfaceCollisionsForCamera <;> simp_all

theorem wall_step_of_type_skip (E : Externals) (G : Globals) (radius pos1 : ℚ) (st : WallScan)
    (s : Surface) (h : wall_type_skip E G s = true) : wall_step E G radius pos1 st s = st := by
  unfold wall_step
  rw [if_pos h]

theorem foldl_filter_of_skip {α β : Type} (f : β → α → β) (p : α → Bool)
    (hskip : ∀ b a, p a = false → f b a = b) (l : List α) :
    ∀ b, l.foldl f b = (l.filter p).foldl f b := by
  induction l with
  | nil => intro b; rfl
  | cons a rest ih =>
    intro b
    cases hp : p a with
    | true => rw [List.filter_cons_of_pos hp, List.foldl_cons, List.foldl_cons, ih]
    | false => rw [List.filter_cons_of_neg (by simp [hp]), List.foldl_cons, hskip b a hp, ih]

/-- C8. With the camera flag set, no surface carrying `SURFACE_FLAG_NO_CAM_COLLISION` is
returned by `find_floor_from_list` or `find_ceil_from_list`; in the wall loop such a surface
leaves the whole running state (position, report list, counts) unchanged, so the result of
`find_wall_collisions_from_list` is the result on the list without these surfaces, and every
wall it reports beyond those already reported on entry is free of the flag. With the camera
flag clear the same holds for every surface of type `SURFACE_CAMERA_BOUNDARY`. -/
theorem camera_mode_exclusion (E : Externals) (G : Globals) (l : List Surface) (x y z : Int)
    (data : WallCollisionData) :
    (∀ s, (find_floor_from_list E G.gCheckingSurfaceCollisionsForCamera l x y z).1 = some s →
        camera_mode_excluded E G.gCheckingSurfaceCollisionsForCamera s = false)
    ∧ (∀ s, (find_ceil_from_list E G.gCheckingSurfaceCollisionsForCamera l x y z).1 = some s →
        camera_mode_excluded E G.gCheckingSurfaceCollisionsForCamera s = false)
    ∧ (∀ (radius pos1 : ℚ) (st : WallScan) (s : Surface),
        camera_mode_excluded E G.gCheckingSurfaceCollisionsForCamera s = true →
        wall_step E G radius pos1 st s = st)
    ∧ find_wall_collisions_from_list E G l data
        = find_wall_collisions_from_list E G
            (l.filter (fun s => !camera_mode_excluded E G.gCheckingSurfaceCollisionsForCamera s))
            data
    ∧ (∀ s ∈ (find_wall_collisions_from_list E G l data).2.reported,
        s ∈ data.reported
          ∨ (s ∈ l ∧ camera_mode_excluded E G.gCheckingSurfaceCollisionsForCamera s = false)) := by
  refine ⟨?_, ?_, ?_, ?_, ?_⟩
  · intro s h
    exact (floor_mode_excluded_false E _ s (find_floor_from_list_some E _ l x y z s h).2.2.2.2.2).1
  · intro s h
    exact (ceil_mode_excluded_false E _ s (find_ceil_from_list_some E _ l x y z s h).2.2.2.2.2).1
  · intro radius pos1 st s h
    exact wall_step_of_type_skip E G radius pos1 st s (wall_type_skip_of_excluded E G s h)
  · unfold find_wall_collisions_from_list
    simp only []
    rw [foldl_filter_of_skip (wall_step E G (if data.radius > 200 then 200 else data.radius)
      (data.y + data.offsetY))
      (fun s => !camera_mode_excluded E G.gCheckingSurfaceCollisionsForCamera s)]
    intro st s hs
    have hex : camera_mode_excluded E G.gCheckingSurfaceCollisionsForCamera s = true := by
      simpa using hs
    exact wall_step_of_type_skip E G _ _ st s (wall_type_skip_of_excluded E G s hex)
  · intro s hs
    rcases find_wall_collisions_from_list_reported E G l data s hs with h | ⟨h, hskip⟩
    · exact Or.inl h
    · refine Or.inr ⟨h, ?_⟩
      cases hex : camera_mode_excluded E G.gCheckingSurfaceCollisionsForCamera s with
      | false => rfl
      | true =>
        rw [wall_type_skip_of_excluded E G s hex] at hskip
        exact Bool.noConfusion hskip

/-! ## Wall push on the face of a triangle -/

theorem clamp_radius_eq_min (radius : ℚ) : (if radius > 200 then 200 else radius) = min radius 200 := by
  split_ifs with h
  · exact (min_eq_right (le_of_lt h)).symm
  · exact (min_eq_left (not_lt.mp h)).symm

theorem wall_step_face (E : Externals) (G : Globals) (radius pos1 : ℚ) (st : WallScan)
    (s : Surface) (hf : wall_passes_filters E G radius s ⟨st.pos0, pos1, st.pos2⟩)
    (hface : wall_face_test s ⟨st.pos0, pos1, st.pos2⟩ = true) :
    wall_step E G radius pos1 st s
      = hasCollision E s
          { st with pos0 := st.pos0 + s.normal.x * (radius - wall_offset s ⟨st.pos0, pos1, st.pos2⟩),
                    pos2 := st.pos2 + s.normal.z * (radius - wall_offset s ⟨st.pos0, pos1, st.pos2⟩) } := by
  obtain ⟨h1, h2, h3, h4, h5⟩ := hf
  unfold wall_step
  simp only []
  rw [if_neg (by simp [h1]), if_neg (by push_neg; exact ⟨h2, h3⟩),
    if_neg (by push_neg; exact ⟨h4, h5⟩), if_pos hface]

theorem hasCollision_pos (E : Externals) (s : Surface) (st : WallScan) :
    (hasCollision E s st).pos0 = st.pos0 ∧ (hasCollision E s st).pos2 = st.pos2 := by
  unfold hasCollision
  split_ifs <;> exact ⟨rfl, rfl⟩

theorem wall_step_skip (E : Externals) (G : Globals) (radius pos1 : ℚ) (st : WallScan)
    (s : Surface)
    (h : wall_type_skip E G s = true ∨ pos1 < (s.lowerY : ℚ) ∨ pos1 > (s.upperY : ℚ)) :
    wall_step E G radius pos1 st s = st := by
  unfold wall_step
  rcases h with h | h
  · rw [if_pos h]
  · by_cases hs : wall_type_skip E G s = true
    · rw [if_pos hs]
    · rw [if_neg hs, if_pos h]

theorem wall_offset_shift (s : Surface) (x0 y0 z0 t : ℚ) (hv : vertical_unit_normal s) :
    wall_offset s ⟨x0 + t * s.normal.x, y0, z0 + t * s.normal.z⟩
      = wall_offset s ⟨x0, y0, z0⟩ + t := by
  obtain ⟨hny, hunit⟩ := hv
  unfold wall_offset
  simp only []
  rw [hny] at hunit
  linear_combination t * hunit

theorem wall_face_test_shift (s : Surface) (x0 y0 z0 t : ℚ) (hny : s.normal.y = 0)
    (hp : normal_perp_edges s) :
    wall_face_test s ⟨x0 + t * s.normal.x, y0, z0 + t * s.normal.z⟩
      = wall_face_test s ⟨x0, y0, z0⟩ := by
  obtain ⟨hp1, hp2⟩ := hp
  have h20 : vec3_dot (vec3_diff_ft ⟨x0 + t * s.normal.x, y0, z0 + t * s.normal.z⟩ s.vertex1)
        (vec3_diff_tt s.vertex2 s.vertex1)
      = vec3_dot (vec3_diff_ft ⟨x0, y0, z0⟩ s.vertex1) (vec3_diff_tt s.vertex2 s.vertex1) := by
    unfold vec3_dot at hp1 ⊢
    unfold vec3_diff_ft
    simp only [] at hp1 ⊢
    rw [hny] at hp1
    linear_combination t * hp1
  have h21 : vec3_dot (vec3_diff_ft ⟨x0 + t * s.normal.x, y0, z0 + t * s.normal.z⟩ s.vertex1)
        (vec3_diff_tt s.vertex3 s.vertex1)
      = vec3_dot (vec3_diff_ft ⟨x0, y0, z0⟩ s.vertex1) (vec3_diff_tt s.vertex3 s.vertex1) := by
    unfold vec3_dot at hp2 ⊢
    unfold vec3_diff_ft
    simp only [] at hp2 ⊢
    rw [hny] at hp2
    linear_combination t * hp2
  unfold wall_face_test
  simp only [h20, h21]

/-- C9. For a vertical wall with unit normal placed alone in the list, a probe that passes
the type, Y-range and plane-distance filters and on which the barycentric face test
succeeds, entered with `numWalls = 0` (and a report array with room for one entry):
`find_wall_collisions_from_list` returns 1, reports exactly that surface, and moves (x,z) to
a point whose signed plane distance is `r = min(radius, 200)`. -/
theorem single_wall_face_push (E : Externals) (G : Globals) (s : Surface)
    (data : WallCollisionData)
    (hmax : 0 < E.MAX_REFEREMCED_WALLS) (hnum : data.numWalls = 0)
    (hv : vertical_unit_normal s)
    (hf : wall_passes_filters E G (min data.radius 200) s (probe_pos data))
    (hface : wall_face_test s (probe_pos data) = true) :
    (find_wall_collisions_from_list E G [s] data).1 = 1
    ∧ (find_wall_collisions_from_list E G [s] data).2.numWalls = 1
    ∧ (find_wall_collisions_from_list E G [s] data).2.reported = [s]
    ∧ s.normal.x * (find_wall_collisions_from_list E G [s] data).2.x
        + s.normal.y * (data.y + data.offsetY)
        + s.normal.z * (find_wall_collisions_from_list E G [s] data).2.z + s.originOffset
        = min data.radius 200 := by
  unfold probe_pos at hf hface
  unfold find_wall_collisions_from_list
  simp only [List.foldl_cons, List.foldl_nil, clamp_radius_eq_min]
  have hstep := wall_step_face E G (min data.radius 200) (data.y + data.offsetY)
    ⟨data.x, data.z, data.radius - 1, data.numWalls, data.walls, 0⟩ s hf hface
  rw [hstep]
  unfold hasCollision
  simp only [hnum, hmax, if_true, WallCollisionData.reported]
  refine ⟨by norm_num, trivial, by simp, ?_⟩
  have h := wall_offset_shift s data.x (data.y + data.offsetY) data.z
    (min data.radius 200 - wall_offset s ⟨data.x, data.y + data.offsetY, data.z⟩) hv
  unfold wall_offset at h ⊢
  simp only [] at h ⊢
  linear_combination h

theorem wall_step_on_line (E : Externals) (G : Globals) (r pos1 x0 z0 t : ℚ) (s : Surface)
    (st : WallScan) (hv : vertical_unit_normal s) (hp : normal_perp_edges s)
    (hface : wall_face_test s ⟨x0, pos1, z0⟩ = true)
    (hpos : st.pos0 = x0 + t * s.normal.x ∧ st.pos2 = z0 + t * s.normal.z)
    (hplane : -r ≤ wall_offset s ⟨x0, pos1, z0⟩ + t ∧ wall_offset s ⟨x0, pos1, z0⟩ + t ≤ r)
    (hns : ¬ wall_skipped E G pos1 s) :
    (wall_step E G r pos1 st s).pos0 = x0 + (r - wall_offset s ⟨x0, pos1, z0⟩) * s.normal.x
    ∧ (wall_step E G r pos1 st s).pos2 = z0 + (r - wall_offset s ⟨x0, pos1, z0⟩) * s.normal.z := by
  unfold wall_skipped at hns
  push_neg at hns
  obtain ⟨hs1, hs2, hs3⟩ := hns
  have hoff : wall_offset s ⟨st.pos0, pos1, st.pos2⟩ = wall_offset s ⟨x0, pos1, z0⟩ + t := by
    rw [hpos.1, hpos.2]
    exact wall_offset_shift s x0 pos1 z0 t hv
  have hft : wall_face_test s ⟨st.pos0, pos1, st.pos2⟩ = true := by
    rw [hpos.1, hpos.2, wall_face_test_shift s x0 pos1 z0 t hv.1 hp]
    exact hface
  have hf : wall_passes_filters E G r s ⟨st.pos0, pos1, st.pos2⟩ := by
    refine ⟨by simpa using hs1, hs2, hs3, ?_, ?_⟩
    · rw [hoff]; exact hplane.1
    · rw [hoff]; exact hplane.2
  rw [wall_step_face E G r pos1 st s hf hft]
  obtain ⟨h0, h2⟩ := hasCollision_pos E s
    { st with pos0 := st.pos0 + s.normal.x * (r - wall_offset s ⟨st.pos0, pos1, st.pos2⟩),
              pos2 := st.pos2 + s.normal.z * (r - wall_offset s ⟨st.pos0, pos1, st.pos2⟩) }
  rw [h0, h2]
  simp only []
  rw [hoff, hpos.1, hpos.2]
  constructor <;> ring

/-- The scan of a list of coplanar wall triangles, on each of which the face test succeeds
at the position `(x0, pos1, z0)` whose plane distance is within the radius `r`: from the
start position, or from the corrected position, the scan ends at the corrected position as
soon as one triangle of the list is not skipped by the type and Y-range filters (and always
when it starts from the corrected position). -/
theorem wall_scan_on_line (E : Externals) (G : Globals) (r pos1 x0 z0 oo : ℚ) (n : Vec3f)
    (hn : n.y = 0 ∧ n.x ^ 2 + n.y ^ 2 + n.z ^ 2 = 1)
    (hplane : -r ≤ n.x * x0 + n.y * pos1 + n.z * z0 + oo ∧ n.x * x0 + n.y * pos1 + n.z * z0 + oo ≤ r)
    (l : List Surface) (hl : ∀ s ∈ l, coplanar_face n oo ⟨x0, pos1, z0⟩ s) :
    ∀ (st : WallScan) (t : ℚ),
      st.pos0 = x0 + t * n.x ∧ st.pos2 = z0 + t * n.z →
      t = 0 ∨ t = r - (n.x * x0 + n.y * pos1 + n.z * z0 + oo) →
      (t = r - (n.x * x0 + n.y * pos1 + n.z * z0 + oo) ∨ ∃ s ∈ l, ¬ wall_skipped E G pos1 s) →
      (l.foldl (wall_step E G r pos1) st).pos0 = x0 + (r - (n.x * x0 + n.y * pos1 + n.z * z0 + oo)) * n.x
      ∧ (l.foldl (wall_step E G r pos1) st).pos2
          = z0 + (r - (n.x * x0 + n.y * pos1 + n.z * z0 + oo)) * n.z := by
  induction l with
  | nil =>
    intro st t hpos _ hor
    rcases hor with rfl | ⟨s, hs, _⟩
    · exact hpos
    · exact absurd hs (List.not_mem_nil s)
  | cons a rest ih =>
    intro st t hpos ht hor
    rw [List.foldl_cons]
    have hrest : ∀ s ∈ rest, coplanar_face n oo ⟨x0, pos1, z0⟩ s :=
      fun s hs => hl s (List.mem_cons_of_mem _ hs)
    obtain ⟨han, hao, hap, haf⟩ := hl a (List.mem_cons_self _ _)
    have hoffa : wall_offset a ⟨x0, pos1, z0⟩ = n.x * x0 + n.y * pos1 + n.z * z0 + oo := by
      unfold wall_offset; rw [han, hao]
    by_cases hsk : wall_skipped E G pos1 a
    · rw [wall_step_skip E G r pos1 st a hsk]
      refine ih hrest st t hpos ht ?_
      rcases hor with h | ⟨s, hs, hns⟩
      · exact Or.inl h
      · rcases List.mem_cons.mp hs with rfl | hs
        · exact absurd hsk hns
        · exact Or.inr ⟨s, hs, hns⟩
    · have hva : vertical_unit_normal a := by unfold vertical_unit_normal; rw [han]; exact hn
      have hstep := wall_step_on_line E G r pos1 x0 z0 t a st hva hap haf
        (by rw [han]; exact hpos)
        (by
          rw [hoffa]
          rcases ht with rfl | rfl
          · simpa using hplane
          · constructor <;> linarith [hplane.1, hplane.2])
        hsk
      rw [hoffa, han] at hstep
      exact ih hrest _ _ hstep (Or.inr rfl) (Or.inl rfl)

theorem corrected_xz_eq_scan (E : Externals) (G : Globals) (l : List Surface)
    (data : WallCollisionData) :
    corrected_xz E G l data
      = ((l.foldl (wall_step E G (min data.radius 200) (data.y + data.offsetY))
            ⟨data.x, data.z, data.radius - 1, data.numWalls, data.walls, 0⟩).pos0,
         (l.foldl (wall_step E G (min data.radius 200) (data.y + data.offsetY))
            ⟨data.x, data.z, data.radius - 1, data.numWalls, data.walls, 0⟩).pos2) := by
  unfold corrected_xz find_wall_collisions_from_list
  simp only [clamp_radius_eq_min]

theorem find_wall_collisions_from_list_frame (E : Externals) (G : Globals) (l : List Surface)
    (data : WallCollisionData) :
    (find_wall_collisions_from_list E G l data).2.y = data.y
    ∧ (find_wall_collisions_from_list E G l data).2.offsetY = data.offsetY
    ∧ (find_wall_collisions_from_list E G l data).2.radius = data.radius :=
  ⟨rfl, rfl, rfl⟩

theorem corrected_xz_of_coplanar (E : Externals) (G : Globals) (A : Surface)
    (data : WallCollisionData) (l : List Surface)
    (hv : vertical_unit_normal A)
    (hfA : wall_passes_filters E G (min data.radius 200) A (probe_pos data))
    (hl : ∀ s ∈ l, coplanar_face A.normal A.originOffset (probe_pos data) s) (hA : A ∈ l) :
    corrected_xz E G l data
        = (data.x + (min data.radius 200 - wall_offset A (probe_pos data)) * A.normal.x,
           data.z + (min data.radius 200 - wall_offset A (probe_pos data)) * A.normal.z)
    ∧ corrected_xz E G l (find_wall_collisions_from_list E G l data).2
        = (data.x + (min data.radius 200 - wall_offset A (probe_pos data)) * A.normal.x,
           data.z + (min data.radius 200 - wall_offset A (probe_pos data)) * A.normal.z) := by
  obtain ⟨hA1, hA2, hA3, hA4, hA5⟩ := hfA
  unfold probe_pos at hl hA2 hA3 hA4 hA5 ⊢
  simp only [] at hA2 hA3
  have hoff : wall_offset A ⟨data.x, data.y + data.offsetY, data.z⟩
      = A.normal.x * data.x + A.normal.y * (data.y + data.offsetY) + A.normal.z * data.z
        + A.originOffset := rfl
  rw [hoff] at hA4 hA5 ⊢
  have hns : ¬ wall_skipped E G (data.y + data.offsetY) A := by
    unfold wall_skipped
    push_neg
    exact ⟨by simp [hA1], hA2, hA3⟩
  have key := wall_scan_on_line E G (min data.radius 200) (data.y + data.offsetY) data.x data.z
    A.originOffset A.normal hv ⟨hA4, hA5⟩ l hl
  have h1 := key ⟨data.x, data.z, data.radius - 1, data.numWalls, data.walls, 0⟩ 0
    ⟨by simp, by simp⟩ (Or.inl rfl) (Or.inr ⟨A, hA, hns⟩)
  have e1 : corrected_xz E G l data
      = (data.x + (min data.radius 200 - (A.normal.x * data.x + A.normal.y * (data.y + data.offsetY)
            + A.normal.z * data.z + A.originOffset)) * A.normal.x,
         data.z + (min data.radius 200 - (A.normal.x * data.x + A.normal.y * (data.y + data.offsetY)
            + A.normal.z * data.z + A.originOffset)) * A.normal.z) := by
    rw [corrected_xz_eq_scan, h1.1, h1.2]
  refine ⟨e1, ?_⟩
  have hx := congrArg Prod.fst e1
  have hz := congrArg Prod.snd e1
  unfold corrected_xz at hx hz
  simp only [] at hx hz
  obtain ⟨hy1, hy2, hy3⟩ := find_wall_collisions_from_list_frame E G l data
  have h2 := key ⟨(find_wall_collisions_from_list E G l data).2.x,
      (find_wall_collisions_from_list E G l data).2.z, data.radius - 1,
      (find_wall_collisions_from_list E G l data).2.numWalls,
      (find_wall_collisions_from_list E G l data).2.walls, 0⟩ _
    ⟨hx, hz⟩ (Or.inr rfl) (Or.inl rfl)
  rw [corrected_xz_eq_scan, hy1, hy2, hy3]
  exact Prod.ext h2.1 h2.2

/-- C10. For two coplanar vertical wall triangles A and B (same unit normal with
`normal.y = 0`, same plane offset, each normal perpendicular to its triangle's edges) and a
probe that reaches A's face test and on which the face test succeeds for both triangles,
`find_wall_collisions_from_list` yields the same corrected (x,z) for the lists [A,B], [B,A]
and [A], and running the query again from the corrected position leaves (x,z) unchanged.
That the triangles share an edge is not needed. -/
theorem coplanar_walls_order_independent (E : Externals) (G : Globals) (A B : Surface)
    (data : WallCollisionData)
    (hv : vertical_unit_normal A)
    (hsame : B.normal = A.normal ∧ B.originOffset = A.originOffset)
    (hpA : normal_perp_edges A) (hpB : normal_perp_edges B)
    (hfA : wall_passes_filters E G (min data.radius 200) A (probe_pos data))
    (hfaceA : wall_face_test A (probe_pos data) = true)
    (hfaceB : wall_face_test B (probe_pos data) = true) :
    corrected_xz E G [A, B] data = corrected_xz E G [A] data
    ∧ corrected_xz E G [B, A] data = corrected_xz E G [A] data
    ∧ ∀ l ∈ [[A, B], [B, A], [A]],
        corrected_xz E G l (find_wall_collisions_from_list E G l data).2
          = corrected_xz E G l data := by
  have hcA : coplanar_face A.normal A.originOffset (probe_pos data) A := ⟨rfl, rfl, hpA, hfaceA⟩
  have hcB : coplanar_face A.normal A.originOffset (probe_pos data) B :=
    ⟨hsame.1, hsame.2, hpB, hfaceB⟩
  have hAB := corrected_xz_of_coplanar E G A data [A, B] hv hfA
    (by intro s hs; simp only [List.mem_cons, List.mem_singleton, List.not_mem_nil, or_false] at hs
        rcases hs with rfl | rfl
        · exact hcA
        · exact hcB)
    (by simp)
  have hBA := corrected_xz_of_coplanar E G A data [B, A] hv hfA
    (by intro s hs; simp only [List.mem_cons, List.mem_singleton, List.not_mem_nil, or_false] at hs
        rcases hs with rfl | rfl
        · exact hcB
        · exact hcA)
    (by simp)
  have hA1 := corrected_xz_of_coplanar E G A data [A] hv hfA
    (by intro s hs; simp only [List.mem_cons, List.mem_singleton, List.not_mem_nil, or_false] at hs
        rw [hs]; exact hcA)
    (by simp)
  refine ⟨by rw [hAB.1, hA1.1], by rw [hBA.1, hA1.1], ?_⟩
  intro l hl
  simp only [List.mem_cons, List.mem_singleton, List.not_mem_nil, or_false] at hl
  rcases hl with rfl | rfl | rfl
  · rw [hAB.1, hAB.2]
  · rw [hBA.1, hBA.2]
  · rw [hA1.1, hA1.2]

theorem single_wall_face_push_witness :
    vertical_unit_normal sampleWallA
    ∧ wall_passes_filters sampleExternals (sampleGlobals false false [] [])
        (min sampleProbe.radius 200) sampleWallA (probe_pos sampleProbe)
    ∧ wall_face_test sampleWallA (probe_pos sampleProbe) = true
    ∧ (find_wall_collisions_from_list sampleExternals (sampleGlobals false false [] [])
        [sampleWallA] sampleProbe).2.reported = [sampleWallA] :=
  ⟨by decide!, by decide!, by decide!,
    (single_wall_face_push sampleExternals (sampleGlobals false false [] []) sampleWallA
      sampleProbe (by decide!) rfl (by decide!) (by decide!) (by decide!)).2.2.1⟩

theorem coplanar_walls_order_independent_witness :
    wall_passes_filters sampleExternals (sampleGlobals false false [] [])
        (min sampleProbe.radius 200) sampleWallA (probe_pos sampleProbe)
    ∧ wall_face_test sampleWallA (probe_pos sampleProbe) = true
    ∧ wall_face_test sampleWallB (probe_pos sampleProbe) = true
    ∧ corrected_xz sampleExternals (sampleGlobals false false [] [])
          [sampleWallB, sampleWallA] sampleProbe
        = corrected_xz sampleExternals (sampleGlobals false false [] []) [sampleWallA]
            sampleProbe :=
  ⟨by decide!, by decide!, by decide!,
    (coplanar_walls_order_independent sampleExternals (sampleGlobals false false [] [])
      sampleWallA sampleWallB sampleProbe (by decide!) (by decide!) (by decide!) (by decide!)
      (by decide!) (by decide!) (by decide!)).2.1⟩

/-! ## A single floor triangle -/

theorem s32_of_range (n : Int) (h1 : -2147483648 ≤ n) (h2 : n < 2147483648) : s32 n = n := by
  unfold s32
  omega

theorem mul_range (a b : Int) (ha1 : -32766 ≤ a) (ha2 : a ≤ 32766) (hb1 : -32766 ≤ b)
    (hb2 : b ≤ 32766) : -1073610756 ≤ a * b ∧ a * b ≤ 1073610756 := by
  constructor <;> nlinarith

theorem edge_expr_eq_exact (x z vxi vzi vxj vzj : Int)
    (hx : -16383 ≤ x ∧ x ≤ 16383) (hz : -16383 ≤ z ∧ z ≤ 16383)
    (hxi : -16383 ≤ vxi ∧ vxi ≤ 16383) (hzi : -16383 ≤ vzi ∧ vzi ≤ 16383)
    (hxj : -16383 ≤ vxj ∧ vxj ≤ 16383) (hzj : -16383 ≤ vzj ∧ vzj ≤ 16383) :
    edge_expr x z vxi vzi vxj vzj = edge_exact x z vxi vzi vxj vzj := by
  unfold edge_expr edge_exact s32_sub s32_mul
  have e1 : s32 (vzi - z) = vzi - z := s32_of_range _ (by omega) (by omega)
  have e2 : s32 (vxj - vxi) = vxj - vxi := s32_of_range _ (by omega) (by omega)
  have e3 : s32 (vxi - x) = vxi - x := s32_of_range _ (by omega) (by omega)
  have e4 : s32 (vzj - vzi) = vzj - vzi := s32_of_range _ (by omega) (by omega)
  rw [e1, e2, e3, e4]
  obtain ⟨m1, m2⟩ := mul_range (vzi - z) (vxj - vxi) (by omega) (by omega) (by omega) (by omega)
  obtain ⟨m3, m4⟩ := mul_range (vxi - x) (vzj - vzi) (by omega) (by omega) (by omega) (by omega)
  have p1 : s32 ((vzi - z) * (vxj - vxi)) = (vzi - z) * (vxj - vxi) :=
    s32_of_range _ (by omega) (by omega)
  have p2 : s32 ((vxi - x) * (vzj - vzi)) = (vxi - x) * (vzj - vzi) :=
    s32_of_range _ (by omega) (by omega)
  rw [p1, p2]
  exact s32_of_range _ (by omega) (by omega)

theorem strictly_inside_bounds (surf : Surface) (x z m : Int) (hb : vertices_within surf m)
    (hi : strictly_inside_xz surf x z) : (-m ≤ x ∧ x ≤ m) ∧ (-m ≤ z ∧ z ≤ m) := by
  obtain ⟨a, b, c, ha, hb', hc, hsum, hx, hz⟩ := hi
  obtain ⟨⟨h1, h2⟩, ⟨h3, h4⟩, ⟨h5, h6⟩, ⟨h7, h8⟩, ⟨h9, h10⟩, ⟨h11, h12⟩⟩ := hb
  have q1 : (-(m : ℚ)) ≤ surf.vertex1.x := by exact_mod_cast h1
  have q2 : (surf.vertex1.x : ℚ) ≤ m := by exact_mod_cast h2
  have q3 : (-(m : ℚ)) ≤ surf.vertex1.z := by exact_mod_cast h3
  have q4 : (surf.vertex1.z : ℚ) ≤ m := by exact_mod_cast h4
  have q5 : (-(m : ℚ)) ≤ surf.vertex2.x := by exact_mod_cast h5
  have q6 : (surf.vertex2.x : ℚ) ≤ m := by exact_mod_cast h6
  have q7 : (-(m : ℚ)) ≤ surf.vertex2.z := by exact_mod_cast h7
  have q8 : (surf.vertex2.z : ℚ) ≤ m := by exact_mod_cast h8
  have q9 : (-(m : ℚ)) ≤ surf.vertex3.x := by exact_mod_cast h9
  have q10 : (surf.vertex3.x : ℚ) ≤ m := by exact_mod_cast h10
  have q11 : (-(m : ℚ)) ≤ surf.vertex3.z := by exact_mod_cast h11
  have q12 : (surf.vertex3.z : ℚ) ≤ m := by exact_mod_cast h12
  have hxl : (-(m : ℚ)) ≤ x := by
    rw [hx]
    nlinarith [mul_le_mul_of_nonneg_left q1 ha.le, mul_le_mul_of_nonneg_left q5 hb'.le,
      mul_le_mul_of_nonneg_left q9 hc.le]
  have hxu : (x : ℚ) ≤ m := by
    rw [hx]
    nlinarith [mul_le_mul_of_nonneg_left q2 ha.le, mul_le_mul_of_nonneg_left q6 hb'.le,
      mul_le_mul_of_nonneg_left q10 hc.le]
  have hzl : (-(m : ℚ)) ≤ z := by
    rw [hz]
    nlinarith [mul_le_mul_of_nonneg_left q3 ha.le, mul_le_mul_of_nonneg_left q7 hb'.le,
      mul_le_mul_of_nonneg_left q11 hc.le]
  have hzu : (z : ℚ) ≤ m := by
    rw [hz]
    nlinarith [mul_le_mul_of_nonneg_left q4 ha.le, mul_le_mul_of_nonneg_left q8 hb'.le,
      mul_le_mul_of_nonneg_left q12 hc.le]
  exact ⟨⟨by exact_mod_cast hxl, by exact_mod_cast hxu⟩, ⟨by exact_mod_cast hzl, by exact_mod_cast hzu⟩⟩

/-- For a triangle wound in the floor orientation, the three exact edge expressions are
positive at every point strictly inside its projection: each is the weight of the opposite
vertex times twice the signed area. -/
theorem edge_exact_pos_of_inside (surf : Surface) (x z : Int) (hw : floor_wound surf)
    (hi : strictly_inside_xz surf x z) :
    0 < edge_exact x z surf.vertex1.x surf.vertex1.z surf.vertex2.x surf.vertex2.z
    ∧ 0 < edge_exact x z surf.vertex2.x surf.vertex2.z surf.vertex3.x surf.vertex3.z
    ∧ 0 < edge_exact x z surf.vertex3.x surf.vertex3.z surf.vertex1.x surf.vertex1.z := by
  obtain ⟨a, b, c, ha, hb, hc, hsum, hx, hz⟩ := hi
  unfold floor_wound at hw
  have hD : (0 : ℚ) < (signed_area2 surf : ℚ) := by exact_mod_cast hw
  have hDe : (signed_area2 surf : ℚ)
      = ((surf.vertex1.z : ℚ) - surf.vertex3.z) * ((surf.vertex2.x : ℚ) - surf.vertex1.x)
        - ((surf.vertex1.x : ℚ) - surf.vertex3.x) * ((surf.vertex2.z : ℚ) - surf.vertex1.z) := by
    unfold signed_area2; push_cast; ring
  have ha' : a = 1 - b - c := by linarith
  have e1 : ((edge_exact x z surf.vertex1.x surf.vertex1.z surf.vertex2.x surf.vertex2.z : Int) : ℚ)
      = c * signed_area2 surf := by
    unfold edge_exact; push_cast; rw [hDe, hx, hz, ha']; ring
  have e2 : ((edge_exact x z surf.vertex2.x surf.vertex2.z surf.vertex3.x surf.vertex3.z : Int) : ℚ)
      = a * signed_area2 surf := by
    unfold edge_exact; push_cast; rw [hDe, hx, hz]
    have hb' : b = 1 - a - c := by linarith
    rw [hb']; ring
  have e3 : ((edge_exact x z surf.vertex3.x surf.vertex3.z surf.vertex1.x surf.vertex1.z : Int) : ℚ)
      = b * signed_area2 surf := by
    unfold edge_exact; push_cast; rw [hDe, hx, hz]
    have hc' : c = 1 - a - b := by linarith
    rw [hc']; ring
  refine ⟨?_, ?_, ?_⟩
  · have : (0 : ℚ) < ((edge_exact x z surf.vertex1.x surf.vertex1.z surf.vertex2.x surf.vertex2.z : Int) : ℚ) := by
      rw [e1]; exact mul_pos hc hD
    exact_mod_cast this
  · have : (0 : ℚ) < ((edge_exact x z surf.vertex2.x surf.vertex2.z surf.vertex3.x surf.vertex3.z : Int) : ℚ) := by
      rw [e2]; exact mul_pos ha hD
    exact_mod_cast this
  · have : (0 : ℚ) < ((edge_exact x z surf.vertex3.x surf.vertex3.z surf.vertex1.x surf.vertex1.z : Int) : ℚ) := by
      rw [e3]; exact mul_pos hb hD
    exact_mod_cast this

theorem find_floor_from_list_single (E : Externals) (cam : Bool) (s : Surface) (x y z : Int)
    (hp : floor_passes E cam x y z s) :
    find_floor_from_list E cam [s] x y z = (some s, get_surface_height_at_location x z s) := by
  unfold find_floor_from_list
  have hp1 : floor_candidate E cam x y z s
      ∧ (E.FLOOR_LOWER_LIMIT : ℚ) ≤ get_surface_height_at_location x z s
      ∧ get_surface_height_at_location x z s - 78 ≤ (y : ℚ) := hp
  rw [find_floor_loop_cons, if_pos hp1]
  split_ifs
  · rfl
  · rfl

theorem floor_candidate_of_inside (E : Externals) (cam : Bool) (s : Surface) (x y z : Int)
    (hb : vertices_within s 16383) (hw : floor_wound s) (hi : strictly_inside_xz s x z)
    (hex : floor_mode_excluded E cam s = false) (hlow : s.lowerY - 30 ≤ y) :
    floor_candidate E cam x y z s := by
  obtain ⟨hx, hz⟩ := strictly_inside_bounds s x z 16383 hb hi
  obtain ⟨b1, b2, b3, b4, b5, b6⟩ := hb
  obtain ⟨p1, p2, p3⟩ := edge_exact_pos_of_inside s x z hw hi
  refine ⟨hlow, ?_, ?_, ?_, hex⟩
  · rw [edge_expr_eq_exact x z _ _ _ _ hx hz b1 b2 b3 b4]; exact le_of_lt p1
  · rw [edge_expr_eq_exact x z _ _ _ _ hx hz b3 b4 b5 b6]; exact le_of_lt p2
  · rw [edge_expr_eq_exact x z _ _ _ _ hx hz b5 b6 b1 b2]; exact le_of_lt p3

/-- C6, amended. For every floor triangle (flat or not) of a type that is not excluded, wound
in the floor orientation, with vertex x and z coordinates in [-16383, 16383], placed alone in
the static floor list of the query's cell with an empty dynamic list, every integer point
(x,z) strictly inside its projection and inside the level bounds, and every integer `y` with
`y >= H - 78` and `y >= lowerY - 30`, where the plane height `H` at (x,z) is at least
`FLOOR_LOWER_LIMIT`: `find_floor` returns that surface and the height `H`. -/
theorem find_floor_single_triangle (E : Externals) (G : Globals) (s : Surface) (x y z : Int)
    (hwound : floor_wound s) (htype : floor_type_not_excluded E G s)
    (halone : alone_in_floor_lists E G s x z) (hinside : strictly_inside_xz s x z)
    (h78 : get_surface_height_at_location x z s - 78 ≤ (y : ℚ))
    (hlow : s.lowerY - 30 ≤ y)
    (hin : is_outside_level_bounds E x z = false)
    (hH : (E.FLOOR_LOWER_LIMIT : ℚ) ≤ get_surface_height_at_location x z s)
    (hb : vertices_within s 16383) :
    (find_floor E G x y z).1 = get_surface_height_at_location x z s
    ∧ (find_floor E G x y z).2.1 = some s := by
  obtain ⟨hex, hint⟩ := htype
  obtain ⟨hstat, hdyn⟩ := halone
  have hp : floor_passes E G.gCheckingSurfaceCollisionsForCamera x y z s :=
    ⟨floor_candidate_of_inside E _ s x y z hb hwound hinside hex hlow, hH, h78⟩
  have hscan := find_floor_from_list_single E G.gCheckingSurfaceCollisionsForCamera s x y z hp
  have hst : (find_floor_static E G.gCheckingSurfaceCollisionsForCamera
      G.gFindFloorIncludeSurfaceIntangible [s] x y z).1
      = (some s, get_surface_height_at_location x z s) := by
    unfold find_floor_static
    rw [hscan]
    cases hincl : G.gFindFloorIncludeSurfaceIntangible with
    | true => simp
    | false =>
      rcases hint with hne | hincl'
      · simp [hne]
      · rw [hincl] at hincl'; exact Bool.noConfusion hincl'
  have hd : find_floor_from_list E G.gCheckingSurfaceCollisionsForCamera [] x y z
      = (none, (E.FLOOR_LOWER_LIMIT : ℚ)) := rfl
  have hfi := find_floor_in_bounds E G x y z
    (by rw [f32_to_s32_intCast, f32_to_s32_intCast]; exact hin)
  simp only [f32_to_s32_intCast] at hfi
  unfold dynamic_floor_candidate static_floor_candidate at hfi
  rw [hstat, hdyn, hst, hd] at hfi
  simp only [gt_iff_lt, if_neg (not_lt.mpr hH)] at hfi
  exact ⟨congrArg Prod.fst hfi, congrArg Prod.snd hfi⟩

/-- C6, counterexample. Four queries satisfy the hypotheses of the property as worded, and
`find_floor` returns no surface for each: (1) a floor at height 100 queried at y = 50, which
is within the 78 unit buffer but below `lowerY - 30`; (2) a floor at height -12000, below
`FLOOR_LOWER_LIMIT`; (3) a point inside the triangle but outside the level bounds; (4) a
triangle so large that the first 32-bit edge expression wraps around to a negative value. -/
theorem find_floor_single_triangle_counterexample :
    (floor_query_as_claimed sampleExternals
        (sampleGlobals false false [sampleFloor 0 0 100] []) (sampleFloor 0 0 100) 10 50 10
      ∧ (find_floor sampleExternals
          (sampleGlobals false false [sampleFloor 0 0 100] []) 10 50 10).2.1 = none)
    ∧ (floor_query_as_claimed sampleExternals
        (sampleGlobals false false [sampleFloor 0 0 (-12000)] []) (sampleFloor 0 0 (-12000))
        10 (-12000) 10
      ∧ (find_floor sampleExternals
          (sampleGlobals false false [sampleFloor 0 0 (-12000)] []) 10 (-12000) 10).2.1 = none)
    ∧ (floor_query_as_claimed sampleExternals
        (sampleGlobals false false [sampleBorderFloor] []) sampleBorderFloor 8500 0 500
      ∧ (find_floor sampleExternals
          (sampleGlobals false false [sampleBorderFloor] []) 8500 0 500).2.1 = none)
    ∧ (floor_query_as_claimed sampleExternals
        (sampleGlobals false false [sampleHugeFloor] []) sampleHugeFloor 0 0 (-8000)
      ∧ (find_floor sampleExternals
          (sampleGlobals false false [sampleHugeFloor] []) 0 0 (-8000)).2.1 = none) := by
  refine ⟨⟨⟨by decide!, by decide!, by decide!, by decide!, ?_, by decide!⟩, by decide!⟩,
    ⟨⟨by decide!, by decide!, by decide!, by decide!, ?_, by decide!⟩, by decide!⟩,
    ⟨⟨by decide!, by decide!, by decide!, by decide!, ?_, by decide!⟩, by decide!⟩,
    ⟨⟨by decide!, by decide!, by decide!, by decide!, ?_, by decide!⟩, by decide!⟩⟩
  · exact ⟨4 / 5, 1 / 10, 1 / 10, by norm_num, by norm_num, by norm_num, by norm_num,
      by norm_num [sampleFloor], by norm_num [sampleFloor]⟩
  · exact ⟨4 / 5, 1 / 10, 1 / 10, by norm_num, by norm_num, by norm_num, by norm_num,
      by norm_num [sampleFloor], by norm_num [sampleFloor]⟩
  · exact ⟨1 / 2, 1 / 4, 1 / 4, by norm_num, by norm_num, by norm_num, by norm_num,
      by norm_num [sampleBorderFloor], by norm_num [sampleBorderFloor]⟩
  · exact ⟨24767 / 131068, 24767 / 131068, 40767 / 65534, by norm_num, by norm_num,
      by norm_num, by norm_num, by norm_num [sampleHugeFloor], by norm_num [sampleHugeFloor]⟩

theorem find_floor_single_triangle_witness :
    strictly_inside_xz (sampleFloor 0 0 100) 10 10
    ∧ is_outside_level_bounds sampleExternals 10 10 = false
    ∧ (find_floor sampleExternals (sampleGlobals false false [sampleFloor 0 0 100] [])
        ((10 : Int) : ℚ) ((80 : Int) : ℚ) ((10 : Int) : ℚ)).2.1 = some (sampleFloor 0 0 100) :=
  have hi : strictly_inside_xz (sampleFloor 0 0 100) 10 10 :=
    ⟨4 / 5, 1 / 10, 1 / 10, by norm_num, by norm_num, by norm_num, by norm_num,
      by norm_num [sampleFloor], by norm_num [sampleFloor]⟩
  ⟨hi, by decide!,
    (find_floor_single_triangle sampleExternals
      (sampleGlobals false false [sampleFloor 0 0 100] []) (sampleFloor 0 0 100) 10 80 10
      (by decide!) (by decide!) (by decide!) hi (by decide!) (by decide!) (by decide!)
      (by decide!) (by decide!)).2⟩

/-! ## Walls: clamp, report capacity and corner rejection -/

theorem wall_edges_eq (E : Externals) (surf : Surface) (pos : Vec3f) (offset : ℚ) (st : WallScan) :
    wall_edges E surf pos offset st =
      if offset < 0 then st
      else match wall_edge_values E surf pos st.margin_radius with
        | some c => check_collision E surf st c
        | none => st := by
  unfold wall_edges wall_edge_values
  simp only []
  split_ifs
  · rfl
  · cases CALC_OFFSET E (vec3_diff_tt surf.vertex2 surf.vertex1) (vec3_diff_ft pos surf.vertex1)
      st.margin_radius with
    | some c => rfl
    | none =>
      cases CALC_OFFSET E (vec3_diff_tt surf.vertex3 surf.vertex1)
        (vec3_diff_ft pos surf.vertex1) st.margin_radius with
      | some c => rfl
      | none =>
        cases CALC_OFFSET E (vec3_diff_tt surf.vertex3 surf.vertex2)
          (vec3_diff_ft pos surf.vertex2) st.margin_radius with
        | some c => rfl
        | none => rfl

theorem hasCollision_motion (E : Externals) (s : Surface) (st : WallScan) :
    (hasCollision E s st).pos0 = st.pos0 ∧ (hasCollision E s st).pos2 = st.pos2
    ∧ (hasCollision E s st).margin_radius = st.margin_radius
    ∧ (hasCollision E s st).numCols = st.numCols + 1 := by
  unfold hasCollision
  split_ifs <;> exact ⟨rfl, rfl, rfl, rfl⟩

theorem check_collision_shape (E : Externals) (s : Surface) (st : WallScan)
    (c : ℚ × ℚ × ℚ × ℚ) :
    ∃ st1 : WallScan, st1.numWalls = st.numWalls ∧ st1.walls = st.walls
      ∧ st1.numCols = st.numCols
      ∧ (check_collision E s st c = st1 ∨ check_collision E s st c = hasCollision E s st1) := by
  unfold check_collision
  simp only []
  split_ifs
  · exact ⟨{ st with pos0 := st.pos0 + c.1 * (c.2.2.2 / c.2.2.1),
                     pos2 := st.pos2 + c.2.1 * (c.2.2.2 / c.2.2.1),
                     margin_radius := st.margin_radius + 1 / 100 }, rfl, rfl, rfl, Or.inl rfl⟩
  · exact ⟨{ st with pos0 := st.pos0 + c.1 * (c.2.2.2 / c.2.2.1),
                     pos2 := st.pos2 + c.2.1 * (c.2.2.2 / c.2.2.1),
                     margin_radius := st.margin_radius + 1 / 100 }, rfl, rfl, rfl, Or.inr rfl⟩

theorem wall_step_shape (E : Externals) (G : Globals) (radius pos1 : ℚ) (st : WallScan)
    (s : Surface) :
    ∃ st1 : WallScan, st1.numWalls = st.numWalls ∧ st1.walls = st.walls
      ∧ st1.numCols = st.numCols
      ∧ (wall_step E G radius pos1 st s = st1
          ∨ wall_step E G radius pos1 st s = hasCollision E s st1) := by
  unfold wall_step
  simp only []
  split_ifs
  · exact ⟨st, rfl, rfl, rfl, Or.inl rfl⟩
  · exact ⟨st, rfl, rfl, rfl, Or.inl rfl⟩
  · exact ⟨st, rfl, rfl, rfl, Or.inl rfl⟩
  · exact ⟨{ st with
        pos0 := st.pos0 + s.normal.x * (radius - wall_offset s ⟨st.pos0, pos1, st.pos2⟩),
        pos2 := st.pos2 + s.normal.z * (radius - wall_offset s ⟨st.pos0, pos1, st.pos2⟩) },
      rfl, rfl, rfl, Or.inr rfl⟩
  · rw [wall_edges_eq]
    split_ifs
    · exact ⟨st, rfl, rfl, rfl, Or.inl rfl⟩
    · cases wall_edge_values E s ⟨st.pos0, pos1, st.pos2⟩ st.margin_radius with
      | none => exact ⟨st, rfl, rfl, rfl, Or.inl rfl⟩
      | some c => exact check_collision_shape E s st c

/-- Every iteration of the wall loop either leaves the report list and the counts as they
were, or passes through `hasCollision` after its position and margin updates. -/
theorem wall_step_cases (E : Externals) (G : Globals) (radius pos1 : ℚ) (st : WallScan)
    (s : Surface) :
    (wall_contact E G radius pos1 st s = false
      ∧ wall_step E G radius pos1 st s = wall_moved E G radius pos1 st s)
    ∨ (wall_contact E G radius pos1 st s = true
      ∧ wall_step E G radius pos1 st s = hasCollision E s (wall_moved E G radius pos1 st s)) := by
  obtain ⟨st1, h1, h2, h3, h⟩ := wall_step_shape E G radius pos1 st s
  rcases h with h | h
  · left
    unfold wall_contact wall_moved
    rw [h]
    refine ⟨by simp [h3], ?_⟩
    cases st1; cases st; simp_all
  · right
    obtain ⟨m0, m2, mm, mc⟩ := hasCollision_motion E s st1
    unfold wall_contact wall_moved
    rw [h, m0, m2, mm, mc]
    refine ⟨by simp [h3], ?_⟩
    congr 1
    cases st1; cases st; simp_all

theorem wall_type_skip_cap (E : Externals) (G : Globals) (cap : Nat) (s : Surface) :
    wall_type_skip (with_wall_cap E cap) G s = wall_type_skip E G s := rfl

theorem wall_edge_values_cap (E : Externals) (cap : Nat) (s : Surface) (pos : Vec3f) (m : ℚ) :
    wall_edge_values (with_wall_cap E cap) s pos m = wall_edge_values E s pos m := rfl

/-- The position, the margin and the increment of `numCols` produced by one iteration of the
wall loop do not depend on the capacity of the report list, nor on the report list and the
counts of the state it starts from. -/
theorem wall_step_cap_motion (E : Externals) (G : Globals) (radius pos1 : ℚ) (cap : Nat)
    (st st1 : WallScan) (s : Surface) (h0 : st1.pos0 = st.pos0) (h2 : st1.pos2 = st.pos2)
    (hm : st1.margin_radius = st.margin_radius) :
    (wall_step (with_wall_cap E cap) G radius pos1 st1 s).pos0
        = (wall_step E G radius pos1 st s).pos0
    ∧ (wall_step (with_wall_cap E cap) G radius pos1 st1 s).pos2
        = (wall_step E G radius pos1 st s).pos2
    ∧ (wall_step (with_wall_cap E cap) G radius pos1 st1 s).margin_radius
        = (wall_step E G radius pos1 st s).margin_radius
    ∧ (wall_step (with_wall_cap E cap) G radius pos1 st1 s).numCols - st1.numCols
        = (wall_step E G radius pos1 st s).numCols - st.numCols := by
  obtain ⟨p0, p2, m, nw, ws, nc⟩ := st
  obtain ⟨q0, q2, m1, nw1, ws1, nc1⟩ := st1
  simp only at h0 h2 hm
  subst h0 h2 hm
  unfold wall_step
  simp only [wall_type_skip_cap, wall_edges_eq, wall_edge_values_cap]
  split_ifs
  · simp
  · simp
  · simp
  · obtain ⟨a0, a2, am, ac⟩ := hasCollision_motion (with_wall_cap E cap) s
      ⟨q0 + s.normal.x * (radius - wall_offset s ⟨q0, pos1, q2⟩),
       q2 + s.normal.z * (radius - wall_offset s ⟨q0, pos1, q2⟩), m1, nw1, ws1, nc1⟩
    obtain ⟨b0, b2, bm, bc⟩ := hasCollision_motion E s
      ⟨q0 + s.normal.x * (radius - wall_offset s ⟨q0, pos1, q2⟩),
       q2 + s.normal.z * (radius - wall_offset s ⟨q0, pos1, q2⟩), m1, nw, ws, nc⟩
    rw [a0, a2, am, ac, b0, b2, bm, bc]
    simp
  · simp
  · cases wall_edge_values E s ⟨q0, pos1, q2⟩ m1 with
    | none => simp
    | some c =>
      simp only []
      unfold check_collision
      simp only []
      split_ifs
      · simp
      · obtain ⟨a0, a2, am, ac⟩ := hasCollision_motion (with_wall_cap E cap) s
          ⟨q0 + c.1 * (c.2.2.2 / c.2.2.1), q2 + c.2.1 * (c.2.2.2 / c.2.2.1), m1 + 1 / 100,
            nw1, ws1, nc1⟩
        obtain ⟨b0, b2, bm, bc⟩ := hasCollision_motion E s
          ⟨q0 + c.1 * (c.2.2.2 / c.2.2.1), q2 + c.2.1 * (c.2.2.2 / c.2.2.1), m1 + 1 / 100,
            nw, ws, nc⟩
        rw [a0, a2, am, ac, b0, b2, bm, bc]
        simp

theorem wall_contact_cap (E : Externals) (G : Globals) (radius pos1 : ℚ) (cap : Nat)
    (st st1 : WallScan) (s : Surface) (h0 : st1.pos0 = st.pos0) (h2 : st1.pos2 = st.pos2)
    (hm : st1.margin_radius = st.margin_radius) :
    wall_contact (with_wall_cap E cap) G radius pos1 st1 s = wall_contact E G radius pos1 st s := by
  have h := (wall_step_cap_motion E G radius pos1 cap st st1 s h0 h2 hm).2.2.2
  unfold wall_contact
  rw [decide_eq_decide]
  constructor <;> intro h' <;> omega

/-- The scan of a wall list: the final position and margin, the total increment of `numCols`
and the list of contacting surfaces do not depend on the capacity of the report list, nor on
the report list and the counts of the start state. -/
theorem wall_scan_cap (E : Externals) (G : Globals) (radius pos1 : ℚ) (cap : Nat)
    (l : List Surface) :
    ∀ (st st1 : WallScan), st1.pos0 = st.pos0 → st1.pos2 = st.pos2 →
      st1.margin_radius = st.margin_radius →
      (l.foldl (wall_step (with_wall_cap E cap) G radius pos1) st1).pos0
          = (l.foldl (wall_step E G radius pos1) st).pos0
      ∧ (l.foldl (wall_step (with_wall_cap E cap) G radius pos1) st1).pos2
          = (l.foldl (wall_step E G radius pos1) st).pos2
      ∧ wall_contacts (with_wall_cap E cap) G radius pos1 st1 l
          = wall_contacts E G radius pos1 st l := by
  induction l with
  | nil => intro st st1 h0 h2 _; exact ⟨h0, h2, rfl⟩
  | cons a rest ih =>
    intro st st1 h0 h2 hm
    obtain ⟨m0, m2, mm, _⟩ := wall_step_cap_motion E G radius pos1 cap st st1 a h0 h2 hm
    obtain ⟨i0, i2, ic⟩ := ih (wall_step E G radius pos1 st a)
      (wall_step (with_wall_cap E cap) G radius pos1 st1 a) m0 m2 mm
    refine ⟨by simpa [List.foldl_cons] using i0, by simpa [List.foldl_cons] using i2, ?_⟩
    unfold wall_contacts
    rw [wall_contact_cap E G radius pos1 cap st st1 a h0 h2 hm, ic]

theorem hasCollision_report (E : Externals) (s : Surface) (st : WallScan)
    (hinv : st.numWalls ≤ st.walls.length) (hcap : st.numWalls ≤ E.MAX_REFEREMCED_WALLS) :
    (hasCollision E s st).numWalls ≤ (hasCollision E s st).walls.length
    ∧ (hasCollision E s st).numWalls ≤ E.MAX_REFEREMCED_WALLS
    ∧ (hasCollision E s st).numWalls = min E.MAX_REFEREMCED_WALLS (st.numWalls + 1)
    ∧ (hasCollision E s st).reported = (st.reported ++ [s]).take E.MAX_REFEREMCED_WALLS := by
  have hlen : st.reported.length = st.numWalls := by
    unfold WallScan.reported; rw [List.length_take]; exact min_eq_left hinv
  unfold hasCollision
  split_ifs with h
  · refine ⟨by simp [List.length_take, min_eq_left hinv], h, by simp; omega, ?_⟩
    unfold WallScan.reported
    simp only []
    have e1 : (List.take st.numWalls st.walls ++ [s]).length = st.numWalls + 1 := by
      simp [List.length_take, min_eq_left hinv]
    have e2 : (List.take st.numWalls st.walls ++ [s]).length ≤ E.MAX_REFEREMCED_WALLS := by
      rw [e1]; exact h
    rw [List.take_of_length_le (le_of_eq e1), List.take_of_length_le e2]
  · have heq : st.numWalls = E.MAX_REFEREMCED_WALLS := le_antisymm hcap (not_lt.mp h)
    refine ⟨hinv, hcap, by simp; omega, ?_⟩
    show st.reported = _
    rw [List.take_append_of_le_length (by rw [hlen, heq])]
    rw [List.take_of_length_le (by rw [hlen, heq])]

/-- The scan of a wall list from a state whose report list is within its capacity: `numCols`
grows by the number of contacting surfaces, `numWalls` is that growth capped by the
capacity, and the reported walls are the contacting surfaces in scan order, cut at the
capacity. -/
theorem wall_scan_report (E : Externals) (G : Globals) (radius pos1 : ℚ) (l : List Surface) :
    ∀ (st : WallScan), st.numWalls ≤ st.walls.length → st.numWalls ≤ E.MAX_REFEREMCED_WALLS →
      (l.foldl (wall_step E G radius pos1) st).numWalls
          ≤ (l.foldl (wall_step E G radius pos1) st).walls.length
      ∧ (l.foldl (wall_step E G radius pos1) st).numCols
          = st.numCols + ((wall_contacts E G radius pos1 st l).length : Int)
      ∧ (l.foldl (wall_step E G radius pos1) st).numWalls
          = min E.MAX_REFEREMCED_WALLS (st.numWalls + (wall_contacts E G radius pos1 st l).length)
      ∧ (l.foldl (wall_step E G radius pos1) st).reported
          = (st.reported ++ wall_contacts E G radius pos1 st l).take E.MAX_REFEREMCED_WALLS := by
  induction l with
  | nil =>
    intro st hinv hcap
    have hlen : st.reported.length = st.numWalls := by
      unfold WallScan.reported; rw [List.length_take]; exact min_eq_left hinv
    refine ⟨hinv, by simp [wall_contacts], by simp [wall_contacts, hcap], ?_⟩
    simp only [List.foldl_nil, wall_contacts, List.append_nil]
    rw [List.take_of_length_le (by rw [hlen]; exact hcap)]
  | cons a rest ih =>
    intro st hinv hcap
    rw [List.foldl_cons]
    rcases wall_step_cases E G radius pos1 st a with ⟨hc, hs⟩ | ⟨hc, hs⟩
    · have e1 : (wall_step E G radius pos1 st a).numWalls = st.numWalls := by rw [hs]; rfl
      have e2 : (wall_step E G radius pos1 st a).walls = st.walls := by rw [hs]; rfl
      have e3 : (wall_step E G radius pos1 st a).numCols = st.numCols := by rw [hs]; rfl
      have e4 : (wall_step E G radius pos1 st a).reported = st.reported := by
        unfold WallScan.reported; rw [e1, e2]
      obtain ⟨i1, i2, i3, i4⟩ := ih (wall_step E G radius pos1 st a)
        (by rw [e1, e2]; exact hinv) (by rw [e1]; exact hcap)
      have hcs : wall_contacts E G radius pos1 st (a :: rest)
          = wall_contacts E G radius pos1 (wall_step E G radius pos1 st a) rest := by
        conv_lhs => unfold wall_contacts
        simp [hc]
      rw [hcs]
      exact ⟨i1, by rw [i2, e3], by rw [i3, e1], by rw [i4, e4]⟩
    · obtain ⟨r1, r2, r3, r4⟩ := hasCollision_report E a (wall_moved E G radius pos1 st a)
        hinv hcap
      rw [← hs] at r1 r2 r3 r4
      have e3 : (wall_step E G radius pos1 st a).numCols = st.numCols + 1 := by
        rw [hs]; exact (hasCollision_motion E a _).2.2.2
      obtain ⟨i1, i2, i3, i4⟩ := ih (wall_step E G radius pos1 st a) r1 r2
      have hcs : wall_contacts E G radius pos1 st (a :: rest)
          = a :: wall_contacts E G radius pos1 (wall_step E G radius pos1 st a) rest := by
        conv_lhs => unfold wall_contacts
        simp [hc]
      rw [hcs]
      have hm1 : (wall_moved E G radius pos1 st a).numWalls = st.numWalls := rfl
      have hm2 : (wall_moved E G radius pos1 st a).reported = st.reported := rfl
      rw [hm1] at r3
      rw [hm2] at r4
      refine ⟨i1, ?_, ?_, ?_⟩
      · rw [i2, e3, List.length_cons]; push_cast; ring
      · rw [i3, r3, List.length_cons]
        omega
      · rw [i4, r4]
        rw [show st.reported ++ a :: wall_contacts E G radius pos1
              (wall_step E G radius pos1 st a) rest
            = (st.reported ++ [a]) ++ wall_contacts E G radius pos1
              (wall_step E G radius pos1 st a) rest by simp]
        generalize st.reported ++ [a] = p
        generalize wall_contacts E G radius pos1 (wall_step E G radius pos1 st a) rest = q
        rw [List.take_append_eq_append_take, List.take_append_eq_append_take, List.take_take,
          min_self]
        congr 1
        rw [List.length_take]
        rcases Nat.le_total E.MAX_REFEREMCED_WALLS p.length with h | h
        · simp [min_eq_left h, Nat.sub_eq_zero_of_le h]
        · rw [min_eq_right h]

theorem find_wall_collisions_from_list_report (E : Externals) (G : Globals) (l : List Surface)
    (data : WallCollisionData) (hinv : data.numWalls ≤ data.walls.length)
    (hcap : data.numWalls ≤ E.MAX_REFEREMCED_WALLS) :
    (find_wall_collisions_from_list E G l data).2.numWalls
        ≤ (find_wall_collisions_from_list E G l data).2.walls.length
    ∧ (find_wall_collisions_from_list E G l data).1 = ((find_wall_contacts E G l data).length : Int)
    ∧ (find_wall_collisions_from_list E G l data).2.numWalls
        = min E.MAX_REFEREMCED_WALLS (data.numWalls + (find_wall_contacts E G l data).length)
    ∧ (find_wall_collisions_from_list E G l data).2.reported
        = (data.reported ++ find_wall_contacts E G l data).take E.MAX_REFEREMCED_WALLS := by
  obtain ⟨h1, h2, h3, h4⟩ := wall_scan_report E G (if data.radius > 200 then 200 else data.radius)
    (data.y + data.offsetY) l
    ⟨data.x, data.z, data.radius - 1, data.numWalls, data.walls, 0⟩ hinv hcap
  unfold find_wall_collisions_from_list find_wall_contacts
  refine ⟨h1, ?_, h3, h4⟩
  simp only []
  rw [h2]
  simp

theorem find_wall_collisions_from_list_cap (E : Externals) (G : Globals) (cap : Nat)
    (l : List Surface) (data data1 : WallCollisionData) (hx : data1.x = data.x)
    (hy : data1.y = data.y) (hz : data1.z = data.z) (ho : data1.offsetY = data.offsetY)
    (hr : data1.radius = data.radius) :
    (find_wall_collisions_from_list (with_wall_cap E cap) G l data1).2.x
        = (find_wall_collisions_from_list E G l data).2.x
    ∧ (find_wall_collisions_from_list (with_wall_cap E cap) G l data1).2.y
        = (find_wall_collisions_from_list E G l data).2.y
    ∧ (find_wall_collisions_from_list (with_wall_cap E cap) G l data1).2.z
        = (find_wall_collisions_from_list E G l data).2.z
    ∧ (find_wall_collisions_from_list (with_wall_cap E cap) G l data1).2.offsetY
        = (find_wall_collisions_from_list E G l data).2.offsetY
    ∧ (find_wall_collisions_from_list (with_wall_cap E cap) G l data1).2.radius
        = (find_wall_collisions_from_list E G l data).2.radius
    ∧ find_wall_contacts (with_wall_cap E cap) G l data1 = find_wall_contacts E G l data := by
  obtain ⟨h0, h2, hc⟩ := wall_scan_cap E G (if data.radius > 200 then 200 else data.radius)
    (data.y + data.offsetY) cap l
    ⟨data.x, data.z, data.radius - 1, data.numWalls, data.walls, 0⟩
    ⟨data1.x, data1.z, data1.radius - 1, data1.numWalls, data1.walls, 0⟩
    hx hz (by simp only [hr])
  rw [hr] at h0 h2 hc
  unfold find_wall_collisions_from_list find_wall_contacts
  simp only [hy, ho, hr]
  exact ⟨h0, trivial, h2, trivial, trivial, hc⟩

/-- The result of `find_wall_collisions` in terms of the contacting surfaces: the returned
count is their number, `numWalls` is that number capped by the capacity of the report list,
and the reported walls are the contacting surfaces in scan order, cut at the capacity. -/
theorem find_wall_collisions_spec (E : Externals) (G : Globals) (colData : WallCollisionData) :
    (find_wall_collisions E G colData).1 = ((wall_query_contacts E G colData).length : Int)
    ∧ (find_wall_collisions E G colData).2.1.numWalls
        = min E.MAX_REFEREMCED_WALLS (wall_query_contacts E G colData).length
    ∧ (find_wall_collisions E G colData).2.1.reported
        = (wall_query_contacts E G colData).take E.MAX_REFEREMCED_WALLS := by
  unfold find_wall_collisions wall_query_contacts
  simp only []
  split_ifs with hout
  · refine ⟨by simp, by simp, ?_⟩
    simp [WallCollisionData.reported]
  · obtain ⟨a1, a2, a3, a4⟩ := find_wall_collisions_from_list_report E G
      (G.gDynamicSurfacePartition (cell_index E (f32_to_s32 colData.z))
        (cell_index E (f32_to_s32 colData.x)) SpatialPartition.SPATIAL_PARTITION_WALLS)
      { colData with numWalls := 0 } (Nat.zero_le _) (Nat.zero_le _)
    have hcap1 : (find_wall_collisions_from_list E G
        (G.gDynamicSurfacePartition (cell_index E (f32_to_s32 colData.z))
          (cell_index E (f32_to_s32 colData.x)) SpatialPartition.SPATIAL_PARTITION_WALLS)
        { colData with numWalls := 0 }).2.numWalls ≤ E.MAX_REFEREMCED_WALLS := by
      rw [a3]; exact min_le_left _ _
    obtain ⟨b1, b2, b3, b4⟩ := find_wall_collisions_from_list_report E G
      (G.gStaticSurfacePartition (cell_index E (f32_to_s32 colData.z))
        (cell_index E (f32_to_s32 colData.x)) SpatialPartition.SPATIAL_PARTITION_WALLS)
      (find_wall_collisions_from_list E G
        (G.gDynamicSurfacePartition (cell_index E (f32_to_s32 colData.z))
          (cell_index E (f32_to_s32 colData.x)) SpatialPartition.SPATIAL_PARTITION_WALLS)
        { colData with numWalls := 0 }).2 a1 hcap1
    refine ⟨?_, ?_, ?_⟩
    · simp only []
      rw [a2, b2, List.length_append]; push_cast; ring
    · simp only []
      rw [b3, a3, List.length_append]
      simp only [Nat.zero_add]
      omega
    · simp only []
      rw [b4, a4]
      have h0 : ({ colData with numWalls := 0 } : WallCollisionData).reported = [] := by
        simp [WallCollisionData.reported]
      rw [h0, List.nil_append]
      generalize find_wall_contacts E G
        (G.gDynamicSurfacePartition (cell_index E (f32_to_s32 colData.z))
          (cell_index E (f32_to_s32 colData.x)) SpatialPartition.SPATIAL_PARTITION_WALLS)
        { colData with numWalls := 0 } = p
      generalize find_wall_contacts E G
        (G.gStaticSurfacePartition (cell_index E (f32_to_s32 colData.z))
          (cell_index E (f32_to_s32 colData.x)) SpatialPartition.SPATIAL_PARTITION_WALLS) _ = q
      rw [List.take_append_eq_append_take, List.take_append_eq_append_take, List.take_take,
        min_self]
      congr 1
      rw [List.length_take]
      rcases Nat.le_total E.MAX_REFEREMCED_WALLS p.length with h | h
      · simp [min_eq_left h, Nat.sub_eq_zero_of_le h]
      · rw [min_eq_right h]

/-- The corrected position left by `find_wall_collisions` and the list of contacting
surfaces do not depend on the capacity of the report list. -/
theorem find_wall_collisions_cap (E : Externals) (G : Globals) (cap : Nat)
    (colData : WallCollisionData) :
    (find_wall_collisions (with_wall_cap E cap) G colData).2.1.x
        = (find_wall_collisions E G colData).2.1.x
    ∧ (find_wall_collisions (with_wall_cap E cap) G colData).2.1.z
        = (find_wall_collisions E G colData).2.1.z
    ∧ wall_query_contacts (with_wall_cap E cap) G colData = wall_query_contacts E G colData := by
  have hob : is_outside_level_bounds (with_wall_cap E cap) (f32_to_s32 colData.x)
      (f32_to_s32 colData.z)
      = is_outside_level_bounds E (f32_to_s32 colData.x) (f32_to_s32 colData.z) := rfl
  have hci : ∀ v, cell_index (with_wall_cap E cap) v = cell_index E v := fun _ => rfl
  unfold find_wall_collisions wall_query_contacts
  simp only [hob, hci]
  split_ifs with hout
  · exact ⟨rfl, rfl, rfl⟩
  · obtain ⟨a1, a2, a3, a4, a5, a6⟩ := find_wall_collisions_from_list_cap E G cap
      (G.gDynamicSurfacePartition (cell_index E (f32_to_s32 colData.z))
        (cell_index E (f32_to_s32 colData.x)) SpatialPartition.SPATIAL_PARTITION_WALLS)
      { colData with numWalls := 0 } { colData with numWalls := 0 } rfl rfl rfl rfl rfl
    obtain ⟨b1, b2, b3, b4, b5, b6⟩ := find_wall_collisions_from_list_cap E G cap
      (G.gStaticSurfacePartition (cell_index E (f32_to_s32 colData.z))
        (cell_index E (f32_to_s32 colData.x)) SpatialPartition.SPATIAL_PARTITION_WALLS)
      (find_wall_collisions_from_list E G
        (G.gDynamicSurfacePartition (cell_index E (f32_to_s32 colData.z))
          (cell_index E (f32_to_s32 colData.x)) SpatialPartition.SPATIAL_PARTITION_WALLS)
        { colData with numWalls := 0 }).2
      (find_wall_collisions_from_list (with_wall_cap E cap) G
        (G.gDynamicSurfacePartition (cell_index E (f32_to_s32 colData.z))
          (cell_index E (f32_to_s32 colData.x)) SpatialPartition.SPATIAL_PARTITION_WALLS)
        { colData with numWalls := 0 }).2 a1 a2 a3 a4 a5
    exact ⟨b1, b3, by rw [a6, b6]⟩

/-- C11, failing input. For `sampleWallA` and a probe beside it at distance 205 from its vertical edge, a radius of 300 and a radius of 200 give different results: with 300 the edge test uses the margin 299 (the radius before the clamp, minus 1), finds a contact, counts and reports the wall and moves x, whereas with 200 the margin is 199 and nothing is found. The clamp to 200 does not reach `margin_radius`, which is computed before it. -/
theorem find_wall_collisions_from_list_margin_before_clamp :
    (find_wall_collisions_from_list sampleExternals (sampleGlobals false false [] [])
        [sampleWallA] (sampleEdgeProbe 300)).1 = 1
    ∧ (find_wall_collisions_from_list sampleExternals (sampleGlobals false false [] [])
        [sampleWallA] (sampleEdgeProbe 200)).1 = 0
    ∧ (find_wall_collisions_from_list sampleExternals (sampleGlobals false false [] [])
        [sampleWallA] (sampleEdgeProbe 300)).2.reported = [sampleWallA]
    ∧ (find_wall_collisions_from_list sampleExternals (sampleGlobals false false [] [])
        [sampleWallA] (sampleEdgeProbe 200)).2.reported = []
    ∧ (find_wall_collisions_from_list sampleExternals (sampleGlobals false false [] [])
        [sampleWallA] (sampleEdgeProbe 300)).2.x = 200 + 3760 / 41
    ∧ (find_wall_collisions_from_list sampleExternals (sampleGlobals false false [] [])
        [sampleWallA] (sampleEdgeProbe 200)).2.x = 200 := by
  decide!

theorem wall_step_corner_rejected (E : Externals) (G : Globals) (radius pos1 : ℚ)
    (st : WallScan) (s : Surface) (c : ℚ × ℚ × ℚ × ℚ)
    (hre : wall_reaches_edges E G radius s ⟨st.pos0, pos1, st.pos2⟩)
    (hc : wall_edge_values E s ⟨st.pos0, pos1, st.pos2⟩ st.margin_radius = some c)
    (hrej : corner_rejected s c) :
    wall_step E G radius pos1 st s
      = { st with pos0 := st.pos0 + c.1 * (c.2.2.2 / c.2.2.1),
                  pos2 := st.pos2 + c.2.1 * (c.2.2.2 / c.2.2.1),
                  margin_radius := st.margin_radius + 1 / 100 } := by
  obtain ⟨⟨h1, h2, h3, h4, h5⟩, hface, hoff⟩ := hre
  unfold wall_step
  simp only []
  rw [if_neg (by simp [h1]), if_neg (by push_neg; exact ⟨h2, h3⟩),
    if_neg (by push_neg; exact ⟨h4, h5⟩), if_neg (by simp [hface]), wall_edges_eq,
    if_neg (not_lt.mpr hoff), hc]
  simp only []
  unfold check_collision
  simp only []
  unfold corner_rejected at hrej
  rw [if_pos hrej]

/-- C14, counterexample. For `sampleWallA` and a probe of radius 150 at (60, 50, -80), the second edge test reaches `check_collision` with offset -49 and the corner-rejection test discards the contact: the wall is not counted and not reported, but the probe has been moved from (60, -80) to (89.4, -119.2). -/
theorem corner_rejection_counterexample :
    wall_reaches_edges sampleExternals (sampleGlobals false false [] []) 150 sampleWallA
        (probe_pos sampleCornerProbe)
    ∧ wall_edge_values sampleExternals sampleWallA (probe_pos sampleCornerProbe) 149
        = some (-60, 80, 100, -49)
    ∧ corner_rejected sampleWallA (-60, 80, 100, -49)
    ∧ (find_wall_collisions_from_list sampleExternals (sampleGlobals false false [] [])
        [sampleWallA] sampleCornerProbe).1 = 0
    ∧ (find_wall_collisions_from_list sampleExternals (sampleGlobals false false [] [])
        [sampleWallA] sampleCornerProbe).2.numWalls = 0
    ∧ sampleCornerProbe.x = 60 ∧ sampleCornerProbe.z = -80
    ∧ (find_wall_collisions_from_list sampleExternals (sampleGlobals false false [] [])
        [sampleWallA] sampleCornerProbe).2.x = 60 + 147 / 5
    ∧ (find_wall_collisions_from_list sampleExternals (sampleGlobals false false [] [])
        [sampleWallA] sampleCornerProbe).2.z = -80 - 196 / 5 := by
  decide!

/-- C14, amended. For every wall surface whose edge contact is discarded by the corner-rejection test, the surface is not reported and not counted, but the working position has already been moved by the edge push `(d00, d01) * offset / invDenom` and `margin_radius` has been raised by 0.01; both changes stay. -/
theorem corner_rejection_keeps_push (E : Externals) (G : Globals) (radius pos1 : ℚ)
    (st : WallScan) (s : Surface) (c : ℚ × ℚ × ℚ × ℚ)
    (hre : wall_reaches_edges E G radius s ⟨st.pos0, pos1, st.pos2⟩)
    (hc : wall_edge_values E s ⟨st.pos0, pos1, st.pos2⟩ st.margin_radius = some c)
    (hrej : corner_rejected s c) :
    wall_contact E G radius pos1 st s = false
    ∧ (wall_step E G radius pos1 st s).numCols = st.numCols
    ∧ (wall_step E G radius pos1 st s).numWalls = st.numWalls
    ∧ (wall_step E G radius pos1 st s).walls = st.walls
    ∧ (wall_step E G radius pos1 st s).pos0 = st.pos0 + c.1 * (c.2.2.2 / c.2.2.1)
    ∧ (wall_step E G radius pos1 st s).pos2 = st.pos2 + c.2.1 * (c.2.2.2 / c.2.2.1)
    ∧ (wall_step E G radius pos1 st s).margin_radius = st.margin_radius + 1 / 100 := by
  have h := wall_step_corner_rejected E G radius pos1 st s c hre hc hrej
  unfold wall_contact
  rw [h]
  exact ⟨by simp, rfl, rfl, rfl, rfl, rfl, rfl⟩

theorem corner_rejection_keeps_push_witness :
    wall_reaches_edges sampleExternals (sampleGlobals false false [] []) 150 sampleWallA
        ⟨60, 50, -80⟩
    ∧ corner_rejected sampleWallA (-60, 80, 100, -49)
    ∧ (wall_step sampleExternals (sampleGlobals false false [] []) 150 50
        ⟨60, -80, 149, 0, [], 0⟩ sampleWallA).pos0 = 60 + -60 * (-49 / 100) :=
  ⟨by decide!, by decide!,
    (corner_rejection_keeps_push sampleExternals (sampleGlobals false false [] []) 150 50
      ⟨60, -80, 149, 0, [], 0⟩ sampleWallA (-60, 80, 100, -49) (by decide!) (by decide!)
      (by decide!)).2.2.2.2.1⟩

/-! ## Water surfaces: bottoms and tops -/

theorem water_bottom_loop_cons (E : Externals) (x y z : Int) (s : Surface) (rest : List Surface)
    (b : ℚ) :
    water_bottom_loop E x y z (s :: rest) b =
      if water_bottom_qualifies E x y z s then
        water_bottom_loop E x y z rest (get_surface_height_at_location x z s)
      else water_bottom_loop E x y z rest b := by
  unfold water_bottom_qualifies
  rw [water_bottom_loop]
  simp only []
  split_ifs <;>
    (first
      | rfl
      | (exfalso; simp_all; done)
      | (exfalso; simp_all; linarith))

/-- The first loop of `find_water_floor_from_list` leaves in `bottomHeight` the height of
the last qualifying bottom, or its start value when no bottom qualifies. -/
theorem water_bottom_loop_eq (E : Externals) (x y z : Int) (l : List Surface) :
    ∀ b : ℚ, water_bottom_loop E x y z l b =
      ((last_water_bottom E l x y z).map (get_surface_height_at_location x z)).getD b := by
  induction l with
  | nil => intro b; simp [water_bottom_loop, last_water_bottom]
  | cons s rest ih =>
    intro b
    rw [water_bottom_loop_cons]
    unfold last_water_bottom at ih ⊢
    by_cases hq : water_bottom_qualifies E x y z s
    · rw [if_pos hq, ih, List.filter_cons_of_pos (by simpa using hq)]
      cases hf : List.filter (fun s => decide (water_bottom_qualifies E x y z s)) rest with
      | nil => simp
      | cons a as =>
        have hl : (a :: as).getLast? = some ((a :: as).getLast (List.cons_ne_nil a as)) :=
          List.getLast?_eq_getLast _ _
        rw [List.getLast?_cons_cons, hl]
        simp
    · rw [if_neg hq, ih, List.filter_cons_of_neg (by simpa using hq)]

theorem water_top_loop_cons (E : Externals) (x z : Int) (bh : ℚ) (s : Surface)
    (rest : List Surface) (r : Option Surface × ℚ × ℚ) :
    water_top_loop E x z bh (s :: rest) r =
      if water_top_ok E bh x z s ∧ r.2.1 < get_surface_height_at_location x z s then
        water_top_loop E x z bh rest
          (some s, get_surface_height_at_location x z s, get_surface_height_at_location x z s)
      else water_top_loop E x z bh rest r := by
  unfold water_top_ok
  rw [water_top_loop]
  simp only []
  split_ifs <;>
    (first
      | rfl
      | (exfalso; simp_all))

/-- The invariant of the second loop of `find_water_floor_from_list`: either no acceptable
surface of the list is above the running best, which is returned unchanged, or the result is
the first acceptable surface of maximal height, which is above the running best. -/
theorem water_top_loop_spec (E : Externals) (x z : Int) (bh : ℚ) (l : List Surface) :
    ∀ r : Option Surface × ℚ × ℚ,
      (water_top_loop E x z bh l r = r
        ∧ ∀ s ∈ l, water_top_ok E bh x z s → get_surface_height_at_location x z s ≤ r.2.1)
      ∨ ∃ l1 s l2, l = l1 ++ s :: l2 ∧ water_top_ok E bh x z s
          ∧ r.2.1 < get_surface_height_at_location x z s
          ∧ water_top_loop E x z bh l r
              = (some s, get_surface_height_at_location x z s,
                  get_surface_height_at_location x z s)
          ∧ (∀ t ∈ l1, water_top_ok E bh x z t →
              get_surface_height_at_location x z t < get_surface_height_at_location x z s)
          ∧ (∀ t ∈ l2, water_top_ok E bh x z t →
              get_surface_height_at_location x z t ≤ get_surface_height_at_location x z s) := by
  induction l with
  | nil => intro r; left; exact ⟨rfl, fun s hs => absurd hs (List.not_mem_nil s)⟩
  | cons a rest ih =>
    intro r
    rw [water_top_loop_cons]
    by_cases hacc : water_top_ok E bh x z a ∧ r.2.1 < get_surface_height_at_location x z a
    · rw [if_pos hacc]
      right
      rcases ih (some a, get_surface_height_at_location x z a,
          get_surface_height_at_location x z a) with ⟨heq, hall⟩ | ⟨l1, s, l2, hl, hok, hlt, hres, h1, h2⟩
      · exact ⟨[], a, rest, rfl, hacc.1, hacc.2, heq,
          fun t ht => absurd ht (List.not_mem_nil t), hall⟩
      · refine ⟨a :: l1, s, l2, by rw [hl]; rfl, hok, lt_trans hacc.2 hlt, hres, ?_, h2⟩
        intro t ht hokt
        rcases List.mem_cons.mp ht with rfl | ht
        · exact hlt
        · exact h1 t ht hokt
    · rw [if_neg hacc]
      have ha : water_top_ok E bh x z a → get_surface_height_at_location x z a ≤ r.2.1 :=
        fun hok => not_lt.mp (fun hlt => hacc ⟨hok, hlt⟩)
      rcases ih r with ⟨heq, hall⟩ | ⟨l1, s, l2, hl, hok, hlt, hres, h1, h2⟩
      · left
        refine ⟨heq, ?_⟩
        intro t ht hokt
        rcases List.mem_cons.mp ht with rfl | ht
        · exact ha hokt
        · exact hall t ht hokt
      · right
        refine ⟨a :: l1, s, l2, by rw [hl]; rfl, hok, hlt, hres, ?_, h2⟩
        intro t ht hokt
        rcases List.mem_cons.mp ht with rfl | ht
        · exact lt_of_le_of_lt (ha hokt) hlt
        · exact h1 t ht hokt

theorem water_bottom_found_eq (E : Externals) (l : List Surface) (x y z : Int) :
    water_bottom_loop E x y z l (E.FLOOR_LOWER_LIMIT : ℚ)
      = ((last_water_bottom E l x y z).map (get_surface_height_at_location x z)).getD
          (E.FLOOR_LOWER_LIMIT : ℚ) :=
  water_bottom_loop_eq E x y z l _

/-- The test of the second loop, for the `bottomHeight` left by the first loop, is the
eligibility under the bottom limit, up to the comparison with `FLOOR_LOWER_LIMIT`. -/
theorem water_top_ok_iff (E : Externals) (l : List Surface) (x y z : Int) (s : Surface) :
    (water_top_ok E (water_bottom_loop E x y z l (E.FLOOR_LOWER_LIMIT : ℚ)) x z s
      ∧ (E.FLOOR_LOWER_LIMIT : ℚ) < get_surface_height_at_location x z s)
    ↔ water_top_eligible E (water_bottom_limit E l x y z) x z s := by
  rw [water_bottom_found_eq]
  unfold water_top_ok water_top_eligible water_bottom_limit
  cases hb : last_water_bottom E l x y z with
  | none => simp; tauto
  | some b =>
    simp only [Option.map_some', Option.getD_some]
    by_cases hF : get_surface_height_at_location x z b = (E.FLOOR_LOWER_LIMIT : ℚ)
    · simp [hF]; tauto
    · simp only [hF, if_false, ne_eq, not_false_eq_true, true_and, not_lt, Option.some.injEq,
        forall_eq']
      tauto

/-- The result of `find_water_floor_from_list` in terms of the eligible top surfaces. -/
theorem find_water_floor_from_list_spec (E : Externals) (l : List Surface) (x y z : Int)
    (ph : ℚ) :
    (find_water_floor_from_list E l x y z ph = (none, ph)
      ∧ ∀ s ∈ l, ¬ water_top_eligible E (water_bottom_limit E l x y z) x z s)
    ∨ ∃ l1 s l2, l = l1 ++ s :: l2
        ∧ find_water_floor_from_list E l x y z ph = (some s, get_surface_height_at_location x z s)
        ∧ water_top_eligible E (water_bottom_limit E l x y z) x z s
        ∧ (∀ t ∈ l1, water_top_eligible E (water_bottom_limit E l x y z) x z t →
            get_surface_height_at_location x z t < get_surface_height_at_location x z s)
        ∧ (∀ t ∈ l2, water_top_eligible E (water_bottom_limit E l x y z) x z t →
            get_surface_height_at_location x z t ≤ get_surface_height_at_location x z s) := by
  rcases water_top_loop_spec E x z (water_bottom_loop E x y z l (E.FLOOR_LOWER_LIMIT : ℚ)) l
      (none, (E.FLOOR_LOWER_LIMIT : ℚ), ph) with
    ⟨heq, hall⟩ | ⟨l1, s, l2, hl, hok, hlt, hres, h1, h2⟩
  · left
    refine ⟨by unfold find_water_floor_from_list; simp only []; rw [heq], ?_⟩
    intro s hs hel
    have h := (water_top_ok_iff E l x y z s).mpr hel
    exact absurd (hall s hs h.1) (not_le.mpr h.2)
  · right
    refine ⟨l1, s, l2, hl, by unfold find_water_floor_from_list; simp only []; rw [hres],
      (water_top_ok_iff E l x y z s).mp ⟨hok, hlt⟩, ?_, ?_⟩
    · intro t ht hel
      exact h1 t ht ((water_top_ok_iff E l x y z t).mpr hel).1
    · intro t ht hel
      exact h2 t ht ((water_top_ok_iff E l x y z t).mpr hel).1

/-- C18, counterexample. With a qualifying bottom at height 60 and tops at heights 50 and 100, the query at (10, 100, 10) returns the top at height 50, which is below the bottom height 60; the top at 100, above the bottom, is the one that is skipped. -/
theorem water_top_below_bottom_counterexample :
    last_water_bottom sampleExternals
        [sampleFloor 241 0 60, sampleFloor 240 0 50, sampleFloor 240 0 100] 10 100 10
      = some (sampleFloor 241 0 60)
    ∧ get_surface_height_at_location 10 10 (sampleFloor 241 0 60) = 60
    ∧ find_water_floor_from_list sampleExternals
        [sampleFloor 241 0 60, sampleFloor 240 0 50, sampleFloor 240 0 100] 10 100 10
        (sampleExternals.FLOOR_LOWER_LIMIT : ℚ) = (some (sampleFloor 240 0 50), 50)
    ∧ get_surface_height_at_location 10 10 (sampleFloor 240 0 50) = 50 := by
  decide!

/-- C18, amended. When a bottom surface qualifies and the height of the last qualifying bottom is not `FLOOR_LOWER_LIMIT`, every surface returned by `find_water_floor_from_list` is a non-bottom surface of the list whose height at (x,z) is at or below that bottom height. -/
theorem water_top_below_bottom (E : Externals) (l : List Surface) (x y z : Int) (ph : ℚ)
    (b s : Surface) (hb : last_water_bottom E l x y z = some b)
    (hne : get_surface_height_at_location x z b ≠ (E.FLOOR_LOWER_LIMIT : ℚ))
    (hres : (find_water_floor_from_list E l x y z ph).1 = some s) :
    s ∈ l ∧ s.type ≠ E.SURFACE_NEW_WATER_BOTTOM
    ∧ get_surface_height_at_location x z s ≤ get_surface_height_at_location x z b := by
  have hlim : water_bottom_limit E l x y z = some (get_surface_height_at_location x z b) := by
    unfold water_bottom_limit; rw [hb]; simp [hne]
  rcases find_water_floor_from_list_spec E l x y z ph with
    ⟨heq, _⟩ | ⟨l1, t, l2, hl, heq, hel, _, _⟩
  · rw [heq] at hres; exact Option.noConfusion hres
  · rw [heq] at hres
    cases hres
    exact ⟨by rw [hl]; simp, hel.1, hel.2.2.1 _ hlim⟩

theorem water_top_below_bottom_witness :
    last_water_bottom sampleExternals
        [sampleFloor 240 0 100, sampleFloor 241 0 60, sampleFloor 240 0 50] 10 100 10
      = some (sampleFloor 241 0 60)
    ∧ (find_water_floor_from_list sampleExternals
        [sampleFloor 240 0 100, sampleFloor 241 0 60, sampleFloor 240 0 50] 10 100 10 0).1
      = some (sampleFloor 240 0 50)
    ∧ get_surface_height_at_location 10 10 (sampleFloor 240 0 50)
      ≤ get_surface_height_at_location 10 10 (sampleFloor 241 0 60) :=
  ⟨by decide!, by decide!,
    (water_top_below_bottom sampleExternals
      [sampleFloor 240 0 100, sampleFloor 241 0 60, sampleFloor 240 0 50] 10 100 10 0
      (sampleFloor 241 0 60) (sampleFloor 240 0 50) (by decide!) (by decide!) (by decide!)).2.2⟩

/-- C19, counterexample. With a bottom whose height is exactly `FLOOR_LOWER_LIMIT` (-11000) and that qualifies for the query at y = -11000, the top at height 0 lies above the bottom height, yet it is not skipped: `find_water_floor_from_list` returns it. -/
theorem find_water_floor_from_list_sentinel_bottom :
    last_water_bottom sampleExternals
        [sampleFloor 241 0 (-11000), sampleFloor 240 0 0] 10 (-11000) 10
      = some (sampleFloor 241 0 (-11000))
    ∧ get_surface_height_at_location 10 10 (sampleFloor 241 0 (-11000)) = -11000
    ∧ get_surface_height_at_location 10 10 (sampleFloor 240 0 0) = 0
    ∧ (find_water_floor_from_list sampleExternals
        [sampleFloor 241 0 (-11000), sampleFloor 240 0 0] 10 (-11000) 10
        (sampleExternals.FLOOR_LOWER_LIMIT : ℚ)).1 = some (sampleFloor 240 0 0) := by
  decide!

/-- C19, amended. Let B be the height of the last qualifying bottom, taken as absent also when it equals `FLOOR_LOWER_LIMIT`. `find_water_floor_from_list` returns the first surface in list order of maximal height among the non-bottom surfaces that contain (x,z), have height above `FLOOR_LOWER_LIMIT` and, when B is present, have height at most B; it returns none when there is no such surface. -/
theorem find_water_floor_from_list_first_max (E : Externals) (l : List Surface) (x y z : Int)
    (ph : ℚ) :
    ((find_water_floor_from_list E l x y z ph).1 = none
      ∧ ∀ s ∈ l, ¬ water_top_eligible E (water_bottom_limit E l x y z) x z s)
    ∨ ∃ l1 s l2, l = l1 ++ s :: l2
        ∧ (find_water_floor_from_list E l x y z ph).1 = some s
        ∧ water_top_eligible E (water_bottom_limit E l x y z) x z s
        ∧ (∀ t ∈ l1, water_top_eligible E (water_bottom_limit E l x y z) x z t →
            get_surface_height_at_location x z t < get_surface_height_at_location x z s)
        ∧ (∀ t ∈ l2, water_top_eligible E (water_bottom_limit E l x y z) x z t →
            get_surface_height_at_location x z t ≤ get_surface_height_at_location x z s) := by
  rcases find_water_floor_from_list_spec E l x y z ph with
    ⟨heq, hall⟩ | ⟨l1, s, l2, hl, heq, hel, h1, h2⟩
  · exact Or.inl ⟨by rw [heq], hall⟩
  · exact Or.inr ⟨l1, s, l2, hl, by rw [heq], hel, h1, h2⟩

/-- The two examples of the water ordering: with a bottom at height 0 and tops at 50 and 100,
the query at y = 200 returns the top at 100 (the bottom does not qualify); with a bottom at
height 60 that qualifies (query at y = 100) the result is the top at 50. -/
theorem find_water_floor_from_list_examples :
    (find_water_floor_from_list sampleExternals
        [sampleFloor 241 0 0, sampleFloor 240 0 50, sampleFloor 240 0 100] 10 200 10
        (sampleExternals.FLOOR_LOWER_LIMIT : ℚ)).1 = some (sampleFloor 240 0 100)
    ∧ last_water_bottom sampleExternals
        [sampleFloor 241 0 0, sampleFloor 240 0 50, sampleFloor 240 0 100] 10 200 10 = none
    ∧ (find_water_floor_from_list sampleExternals
        [sampleFloor 241 0 60, sampleFloor 240 0 50, sampleFloor 240 0 100] 10 100 10
        (sampleExternals.FLOOR_LOWER_LIMIT : ℚ)).1 = some (sampleFloor 240 0 50) := by
  decide!

/-! ## Environment regions: water and gas tags -/

theorem water_region_matches_iff (x z : Int) (p : List Int) (off : Nat) :
    water_region_matches x z p off ↔ region_box_contains x z p off ∧ p.getD off 0 < 50 := by
  unfold water_region_matches region_box_contains
  tauto

theorem gas_region_matches_iff (x z : Int) (p : List Int) (off : Nat) :
    gas_region_matches x z p off
      ↔ region_box_contains x z p off ∧ p.getD off 0 ≥ 50 ∧ Int.tmod (p.getD off 0) 10 = 0 := by
  unfold gas_region_matches region_box_contains
  tauto

theorem gas_region_loop_none (x z : Int) (p : List Int) :
    ∀ (n off : Nat) (gl : Int),
      (∀ k, k < n → ¬ gas_region_matches x z p (off + 6 * k)) →
      gas_region_loop x z p n off gl = gl := by
  intro n
  induction n with
  | zero => intro off gl _; rfl
  | succ n ih =>
    intro off gl h
    have h0 := h 0 (Nat.succ_pos n)
    simp only [Nat.mul_zero, Nat.add_zero] at h0
    rw [gas_region_loop, if_neg h0]
    apply ih
    intro k hk
    have := h (k + 1) (Nat.succ_lt_succ hk)
    rwa [show off + 6 * (k + 1) = off + 6 + 6 * k by ring] at this

theorem gas_region_loop_first (x z : Int) (p : List Int) :
    ∀ (k n off : Nat) (gl : Int), k < n →
      gas_region_matches x z p (off + 6 * k) →
      (∀ j, j < k → ¬ gas_region_matches x z p (off + 6 * j)) →
      gas_region_loop x z p n off gl = p.getD (off + 6 * k + 5) 0 := by
  intro k
  induction k with
  | zero =>
    intro n off gl hn hm _
    obtain ⟨m, rfl⟩ := Nat.exists_eq_succ_of_ne_zero (Nat.pos_iff_ne_zero.mp hn)
    simp only [Nat.mul_zero, Nat.add_zero] at hm ⊢
    rw [gas_region_loop, if_pos hm]
  | succ k ih =>
    intro n off gl hn hm hfirst
    obtain ⟨m, rfl⟩ := Nat.exists_eq_succ_of_ne_zero
      (Nat.pos_iff_ne_zero.mp (Nat.lt_of_le_of_lt (Nat.zero_le _) hn))
    have h0 := hfirst 0 (Nat.succ_pos k)
    simp only [Nat.mul_zero, Nat.add_zero] at h0
    rw [gas_region_loop, if_neg h0]
    have e : off + 6 * (k + 1) = off + 6 + 6 * k := by ring
    rw [e] at hm ⊢
    apply ih m (off + 6) gl (Nat.lt_of_succ_lt_succ hn) hm
    intro j hj
    have := hfirst (j + 1) (Nat.succ_lt_succ hj)
    rwa [show off + 6 * (j + 1) = off + 6 + 6 * j by ring] at this

theorem find_water_level_eq (E : Externals) (G : Globals) (x z : Int) :
    find_water_level E G x z =
      match G.gEnvironmentRegions with
      | some p =>
        if water_surface_level E G x z = E.FLOOR_LOWER_LIMIT then
          water_region_loop x z p (p.getD 0 0).toNat 1 (water_surface_level E G x z)
        else water_surface_level E G x z
      | none => water_surface_level E G x z := rfl

/-- C20, counterexample. With the single region of tag 55 and level 500 around (0,0) and no water surface, `find_water_level` returns `FLOOR_LOWER_LIMIT` and not 500: the region is not treated as water; `find_poison_gas_level` returns `FLOOR_LOWER_LIMIT` as well. -/
theorem region_tag_55_counterexample :
    region_box_contains 0 0 [1, 55, -100, -100, 100, 100, 500] 1
    ∧ water_surface_level sampleExternals
        (sampleRegionGlobals [1, 55, -100, -100, 100, 100, 500]) 0 0
      = sampleExternals.FLOOR_LOWER_LIMIT
    ∧ find_water_level sampleExternals
        (sampleRegionGlobals [1, 55, -100, -100, 100, 100, 500]) 0 0
      = sampleExternals.FLOOR_LOWER_LIMIT
    ∧ find_poison_gas_level sampleExternals
        (sampleRegionGlobals [1, 55, -100, -100, 100, 100, 500]) 0 0
      = sampleExternals.FLOOR_LOWER_LIMIT
    ∧ (500 : Int) ≠ sampleExternals.FLOOR_LOWER_LIMIT := by
  decide!

/-- C20, amended. When the region array is present and no water surface is found, `find_water_level` returns the level of the first region that strictly contains (x,z) and has a tag below 50, and `find_poison_gas_level` returns the level of the first region that strictly contains (x,z) and has a tag of at least 50 divisible by 10; a region whose tag is at least 50 and not divisible by 10 is neither water nor gas: when every region containing (x,z) has such a tag, both functions return `FLOOR_LOWER_LIMIT`. -/
theorem region_tag_classification (E : Externals) (G : Globals) (x z : Int) (p : List Int)
    (hp : G.gEnvironmentRegions = some p)
    (hw : water_surface_level E G x z = E.FLOOR_LOWER_LIMIT) :
    (∀ k, k < (p.getD 0 0).toNat → region_box_contains x z p (1 + 6 * k) →
        p.getD (1 + 6 * k) 0 < 50 →
        (∀ j, j < k → ¬ (region_box_contains x z p (1 + 6 * j) ∧ p.getD (1 + 6 * j) 0 < 50)) →
        find_water_level E G x z = p.getD (1 + 6 * k + 5) 0)
    ∧ (∀ k, k < (p.getD 0 0).toNat → region_box_contains x z p (1 + 6 * k) →
        p.getD (1 + 6 * k) 0 ≥ 50 → Int.tmod (p.getD (1 + 6 * k) 0) 10 = 0 →
        (∀ j, j < k → ¬ (region_box_contains x z p (1 + 6 * j) ∧ p.getD (1 + 6 * j) 0 ≥ 50
            ∧ Int.tmod (p.getD (1 + 6 * j) 0) 10 = 0)) →
        find_poison_gas_level E G x z = p.getD (1 + 6 * k + 5) 0)
    ∧ ((∀ k, k < (p.getD 0 0).toNat → region_box_contains x z p (1 + 6 * k) →
          p.getD (1 + 6 * k) 0 ≥ 50 ∧ Int.tmod (p.getD (1 + 6 * k) 0) 10 ≠ 0) →
        find_water_level E G x z = E.FLOOR_LOWER_LIMIT
        ∧ find_poison_gas_level E G x z = E.FLOOR_LOWER_LIMIT) := by
  have hwl : find_water_level E G x z
      = water_region_loop x z p (p.getD 0 0).toNat 1 E.FLOOR_LOWER_LIMIT := by
    rw [find_water_level_eq, hp]
    simp only [hw, if_true]
  have hgl : find_poison_gas_level E G x z
      = gas_region_loop x z p (p.getD 0 0).toNat 1 E.FLOOR_LOWER_LIMIT := by
    unfold find_poison_gas_level; rw [hp]
  refine ⟨?_, ?_, ?_⟩
  · intro k hk hbox htag hfirst
    rw [hwl]
    exact water_region_loop_first x z p k _ 1 _ hk
      ((water_region_matches_iff x z p _).mpr ⟨hbox, htag⟩)
      (fun j hj hm => hfirst j hj ((water_region_matches_iff x z p _).mp hm))
  · intro k hk hbox htag hdiv hfirst
    rw [hgl]
    exact gas_region_loop_first x z p k _ 1 _ hk
      ((gas_region_matches_iff x z p _).mpr ⟨hbox, htag, hdiv⟩)
      (fun j hj hm => hfirst j hj ((gas_region_matches_iff x z p _).mp hm))
  · intro hall
    constructor
    · rw [hwl]
      apply water_region_loop_none
      intro k hk hm
      obtain ⟨hbox, htag⟩ := (water_region_matches_iff x z p _).mp hm
      have := (hall k hk hbox).1
      omega
    · rw [hgl]
      apply gas_region_loop_none
      intro k hk hm
      obtain ⟨hbox, _, hdiv⟩ := (gas_region_matches_iff x z p _).mp hm
      exact (hall k hk hbox).2 hdiv

theorem region_tag_classification_witness :
    water_surface_level sampleExternals
        (sampleRegionGlobals [2, 55, -100, -100, 100, 100, 500, 60, -100, -100, 100, 100, 700])
        0 0 = sampleExternals.FLOOR_LOWER_LIMIT
    ∧ find_poison_gas_level sampleExternals
        (sampleRegionGlobals [2, 55, -100, -100, 100, 100, 500, 60, -100, -100, 100, 100, 700])
        0 0 = 700 :=
  ⟨by decide!, by
    rw [(region_tag_classification sampleExternals
      (sampleRegionGlobals [2, 55, -100, -100, 100, 100, 500, 60, -100, -100, 100, 100, 700])
      0 0 [2, 55, -100, -100, 100, 100, 500, 60, -100, -100, 100, 100, 700] rfl
      (by decide!)).2.1 1 (by decide!) (by decide!) (by decide!) (by decide!)
      (by intro j hj; interval_cases j; decide!)]
    decide!⟩

/-! ## Ray casting: the intersection test and the list scan -/

theorem Vec3f_ext_iff (a b : Vec3f) : a = b ↔ a.x = b.x ∧ a.y = b.y ∧ a.z = b.z := by
  cases a; cases b; simp

/-- The algebra behind the intersection test: with `a = e1 . (dir x e2)` non-zero,
`u = (s . (dir x e2)) / a`, `v = (dir . (s x e1)) / a` and `t = (e2 . (s x e1)) / a`, where
`s = orig - v0`, the point `orig + t * dir` is `v0 + u * e1 + v * e2`. -/
theorem ray_hit_point_eq (orig dir v0 e1 e2 : Vec3f)
    (ha : vec3_dot e1 (vec3_cross dir e2) ≠ 0) :
    vec3_sum orig (vec3_mul_val dir
        (1 / vec3_dot e1 (vec3_cross dir e2)
          * vec3_dot e2 (vec3_cross (vec3_diff orig v0) e1)))
      = vec3_sum (vec3_sum v0 (vec3_mul_val e1
            (1 / vec3_dot e1 (vec3_cross dir e2)
              * vec3_dot (vec3_diff orig v0) (vec3_cross dir e2))))
          (vec3_mul_val e2
            (1 / vec3_dot e1 (vec3_cross dir e2)
              * vec3_dot dir (vec3_cross (vec3_diff orig v0) e1))) := by
  obtain ⟨ox, oy, oz⟩ := orig
  obtain ⟨dx, dy, dz⟩ := dir
  obtain ⟨px, py, pz⟩ := v0
  obtain ⟨ax, ay, az⟩ := e1
  obtain ⟨bx, b_y, bz⟩ := e2
  simp only [vec3_dot, vec3_cross, vec3_diff, vec3_sum, vec3_mul_val] at ha ⊢
  rw [Vec3f_ext_iff]
  simp only []
  refine ⟨?_, ?_, ?_⟩ <;> (field_simp; ring)

theorem ray_surface_intersect_eq (E : Externals) (orig dir : Vec3f) (dir_length : ℚ)
    (surface : Surface) (hit_pos : Vec3f) (length : ℚ) :
    ray_surface_intersect E orig dir dir_length surface hit_pos length =
      if surface.type = E.SURFACE_INTANGIBLE
          ∨ Nat.land surface.flags E.SURFACE_FLAG_NO_CAM_COLLISION ≠ 0 then
        (false, hit_pos, length)
      else if ray_det dir surface > -(1 / 100000) ∧ ray_det dir surface < 1 / 100000 then
        (false, hit_pos, length)
      else if ray_u orig dir surface < 0 ∨ ray_u orig dir surface > 1 then
        (false, hit_pos, length)
      else if ray_v orig dir surface < 0
          ∨ ray_u orig dir surface + ray_v orig dir surface > 1 then (false, hit_pos, length)
      else if ray_len orig dir surface ≤ 1 / 100000 ∨ ray_len orig dir surface > dir_length then
        (false, hit_pos, ray_len orig dir surface)
      else (true, vec3_sum orig (vec3_mul_val dir (ray_len orig dir surface)),
        ray_len orig dir surface) := rfl

/-- C15. Whenever `ray_surface_intersect` returns TRUE, the reported length `t` satisfies `0.00001 < t <= dir_length`, the reported `hit_pos` is `orig + t * dir`, and `hit_pos` is a point of the inflated triangle: `hit_pos = v0 + u * e1 + v * e2` for some `u >= 0`, `v >= 0` with `u + v <= 1`, where `v0`, `v1`, `v2` are the vertices shifted by `30 * (0, normal.y, 0)`, `e1 = v1 - v0` and `e2 = v2 - v0`. -/
theorem ray_surface_intersect_hit (E : Externals) (orig dir : Vec3f) (dir_length : ℚ)
    (surface : Surface) (hit_pos0 : Vec3f) (length0 : ℚ)
    (hres : (ray_surface_intersect E orig dir dir_length surface hit_pos0 length0).1 = true) :
    1 / 100000 < (ray_surface_intersect E orig dir dir_length surface hit_pos0 length0).2.2
    ∧ (ray_surface_intersect E orig dir dir_length surface hit_pos0 length0).2.2 ≤ dir_length
    ∧ (ray_surface_intersect E orig dir dir_length surface hit_pos0 length0).2.1
        = vec3_sum orig (vec3_mul_val dir
            (ray_surface_intersect E orig dir dir_length surface hit_pos0 length0).2.2)
    ∧ ∃ u v : ℚ, u ≥ 0 ∧ v ≥ 0 ∧ u + v ≤ 1
        ∧ (ray_surface_intersect E orig dir dir_length surface hit_pos0 length0).2.1
            = ray_triangle_point surface u v := by
  rw [ray_surface_intersect_eq] at hres ⊢
  by_cases h1 : surface.type = E.SURFACE_INTANGIBLE
      ∨ Nat.land surface.flags E.SURFACE_FLAG_NO_CAM_COLLISION ≠ 0
  · rw [if_pos h1] at hres; exact absurd hres (by simp)
  rw [if_neg h1] at hres ⊢
  by_cases h2 : ray_det dir surface > -(1 / 100000) ∧ ray_det dir surface < 1 / 100000
  · rw [if_pos h2] at hres; exact absurd hres (by simp)
  rw [if_neg h2] at hres ⊢
  by_cases h3 : ray_u orig dir surface < 0 ∨ ray_u orig dir surface > 1
  · rw [if_pos h3] at hres; exact absurd hres (by simp)
  rw [if_neg h3] at hres ⊢
  by_cases h4 : ray_v orig dir surface < 0
      ∨ ray_u orig dir surface + ray_v orig dir surface > 1
  · rw [if_pos h4] at hres; exact absurd hres (by simp)
  rw [if_neg h4] at hres ⊢
  by_cases h5 : ray_len orig dir surface ≤ 1 / 100000 ∨ ray_len orig dir surface > dir_length
  · rw [if_pos h5] at hres; exact absurd hres (by simp)
  rw [if_neg h5]
  have ha : ray_det dir surface ≠ 0 := by
    intro h0
    apply h2
    rw [h0]; norm_num
  push_neg at h3 h4 h5
  exact ⟨h5.1, h5.2, rfl, ray_u orig dir surface, ray_v orig dir surface, h3.1, h4.1, h4.2,
    ray_hit_point_eq orig dir (ray_v0 surface) (ray_e1 surface) (ray_e2 surface) ha⟩

theorem ray_surface_intersect_hit_witness :
    (ray_surface_intersect sampleExternals ⟨10, 160, 10⟩ ⟨0, -1, 0⟩ 50 (sampleFloor 0 0 100)
        ⟨0, 0, 0⟩ 0) = (true, ⟨10, 130, 10⟩, 30)
    ∧ ∃ u v : ℚ, u ≥ 0 ∧ v ≥ 0 ∧ u + v ≤ 1
        ∧ (ray_surface_intersect sampleExternals ⟨10, 160, 10⟩ ⟨0, -1, 0⟩ 50
            (sampleFloor 0 0 100) ⟨0, 0, 0⟩ 0).2.1
            = ray_triangle_point (sampleFloor 0 0 100) u v :=
  ⟨by decide!,
    (ray_surface_intersect_hit sampleExternals ⟨10, 160, 10⟩ ⟨0, -1, 0⟩ 50 (sampleFloor 0 0 100)
      ⟨0, 0, 0⟩ 0 (by decide!)).2.2.2⟩

theorem ray_surface_intersect_fst (E : Externals) (orig dir : Vec3f) (dir_length : ℚ)
    (surface : Surface) (hp hp1 : Vec3f) (len len1 : ℚ) :
    (ray_surface_intersect E orig dir dir_length surface hp len).1
      = (ray_surface_intersect E orig dir dir_length surface hp1 len1).1 := by
  rw [ray_surface_intersect_eq, ray_surface_intersect_eq]
  split_ifs <;> rfl

theorem ray_surface_intersect_snd (E : Externals) (orig dir : Vec3f) (dir_length : ℚ)
    (surface : Surface) (hp hp1 : Vec3f) (len len1 : ℚ)
    (h : (ray_surface_intersect E orig dir dir_length surface hp len).1 = true) :
    (ray_surface_intersect E orig dir dir_length surface hp len).2
      = (ray_surface_intersect E orig dir dir_length surface hp1 len1).2 := by
  rw [ray_surface_intersect_eq] at h ⊢
  rw [ray_surface_intersect_eq]
  split_ifs at h ⊢
  rfl

theorem ray_hit_of_true (E : Externals) (orig dir : Vec3f) (dir_length : ℚ)
    (surface : Surface) (hp : Vec3f) (len : ℚ)
    (h : (ray_surface_intersect E orig dir dir_length surface hp len).1 = true) :
    ray_hit E orig dir dir_length surface
      = some ((ray_surface_intersect E orig dir dir_length surface hp len).2.1,
          (ray_surface_intersect E orig dir dir_length surface hp len).2.2) := by
  have h0 : (ray_surface_intersect E orig dir dir_length surface ⟨0, 0, 0⟩ 0).1 = true := by
    rw [ray_surface_intersect_fst E orig dir dir_length surface _ hp _ len]; exact h
  unfold ray_hit
  rw [if_pos h0, ray_surface_intersect_snd E orig dir dir_length surface _ hp _ len h0]

theorem ray_hit_of_false (E : Externals) (orig dir : Vec3f) (dir_length : ℚ)
    (surface : Surface) (hp : Vec3f) (len : ℚ)
    (h : ¬ (ray_surface_intersect E orig dir dir_length surface hp len).1 = true) :
    ray_hit E orig dir dir_length surface = none := by
  have h0 : ¬ (ray_surface_intersect E orig dir dir_length surface ⟨0, 0, 0⟩ 0).1 = true := by
    rw [ray_surface_intersect_fst E orig dir dir_length surface _ hp _ len]; exact h
  unfold ray_hit
  rw [if_neg h0]

theorem ray_list_loop_cons (E : Externals) (orig dir : Vec3f) (dir_length top bottom : ℚ)
    (surface : Surface) (rest : List Surface) (r : RayHit) (c : Vec3f) (len : ℚ) :
    ∃ c1 len1, ray_list_loop E orig dir dir_length top bottom (surface :: rest) (r, c, len)
      = ray_list_loop E orig dir dir_length top bottom rest
          (ray_list_step E orig dir dir_length top bottom r surface, c1, len1) := by
  rw [ray_list_loop]
  simp only []
  unfold ray_list_step
  by_cases hb : (surface.lowerY : ℚ) > top ∨ (surface.upperY : ℚ) < bottom
  · have hnib : ¬ ray_in_bounds top bottom surface := not_not.mpr hb
    rw [if_pos hb, if_neg hnib]
    exact ⟨c, len, rfl⟩
  · have hib : ray_in_bounds top bottom surface := hb
    rw [if_neg hb, if_pos hib]
    by_cases ht : (ray_surface_intersect E orig dir dir_length surface c len).1 = true
    · rw [ray_hit_of_true E orig dir dir_length surface c len ht]
      simp only []
      by_cases hle : (ray_surface_intersect E orig dir dir_length surface c len).2.2 ≤ r.max_length
      · have hc : (ray_surface_intersect E orig dir dir_length surface c len).1 = true
            ∧ (ray_surface_intersect E orig dir dir_length surface c len).2.2 ≤ r.max_length :=
          ⟨ht, hle⟩
        rw [if_pos hc, if_pos hle]
        exact ⟨_, _, rfl⟩
      · have hc : ¬ ((ray_surface_intersect E orig dir dir_length surface c len).1 = true
            ∧ (ray_surface_intersect E orig dir dir_length surface c len).2.2 ≤ r.max_length) :=
          fun h => hle h.2
        rw [if_neg hc, if_neg hle]
        exact ⟨_, _, rfl⟩
    · rw [ray_hit_of_false E orig dir dir_length surface c len ht]
      simp only []
      have hc : ¬ ((ray_surface_intersect E orig dir dir_length surface c len).1 = true
          ∧ (ray_surface_intersect E orig dir dir_length surface c len).2.2 ≤ r.max_length) :=
        fun h => ht h.1
      rw [if_neg hc]
      exact ⟨_, _, rfl⟩

/-- The scan of `find_surface_on_ray_list`, entered with any values of its locals, acts on the
out-parameters as the fold of `ray_list_step`. -/
theorem ray_list_loop_fst (E : Externals) (orig dir : Vec3f) (dir_length top bottom : ℚ) :
    ∀ (l : List Surface) (r : RayHit) (c : Vec3f) (len : ℚ),
      (ray_list_loop E orig dir dir_length top bottom l (r, c, len)).1
        = l.foldl (ray_list_step E orig dir dir_length top bottom) r := by
  intro l
  induction l with
  | nil => intro r c len; rfl
  | cons s rest ih =>
    intro r c len
    obtain ⟨c1, len1, h⟩ := ray_list_loop_cons E orig dir dir_length top bottom s rest r c len
    rw [h, ih, List.foldl_cons]

/-- The fold of `ray_list_step`: either no surface of the list passes the filter with an
intersection of length at most the incoming `max_length` and the out-parameters are
unchanged, or the result is the last surface of minimal length among those. -/
theorem ray_list_fold_spec (E : Externals) (orig dir : Vec3f) (dir_length top bottom : ℚ) :
    ∀ (l : List Surface) (r : RayHit),
      ((∀ s ∈ l, ray_in_bounds top bottom s → ∀ p t,
            ray_hit E orig dir dir_length s = some (p, t) → r.max_length < t)
        ∧ l.foldl (ray_list_step E orig dir dir_length top bottom) r = r)
      ∨ ∃ l1 s l2 p t, l = l1 ++ s :: l2 ∧ ray_in_bounds top bottom s
          ∧ ray_hit E orig dir dir_length s = some (p, t) ∧ t ≤ r.max_length
          ∧ l.foldl (ray_list_step E orig dir dir_length top bottom) r = ⟨some s, p, t⟩
          ∧ (∀ s1 ∈ l1, ray_in_bounds top bottom s1 → ∀ p1 t1,
              ray_hit E orig dir dir_length s1 = some (p1, t1) → t ≤ t1)
          ∧ (∀ s2 ∈ l2, ray_in_bounds top bottom s2 → ∀ p2 t2,
              ray_hit E orig dir dir_length s2 = some (p2, t2) → t < t2) := by
  intro l
  induction l with
  | nil =>
    intro r
    left
    exact ⟨fun s hs => absurd hs (List.not_mem_nil s), rfl⟩
  | cons s0 rest ih =>
    intro r
    rw [List.foldl_cons]
    by_cases hupd : ray_in_bounds top bottom s0 ∧ ∃ p0 t0,
        ray_hit E orig dir dir_length s0 = some (p0, t0) ∧ t0 ≤ r.max_length
    · obtain ⟨hb, p0, t0, hh, hle⟩ := hupd
      have hstep : ray_list_step E orig dir dir_length top bottom r s0 = ⟨some s0, p0, t0⟩ := by
        unfold ray_list_step
        rw [if_pos hb, hh]
        simp only []
        rw [if_pos hle]
      rw [hstep]
      rcases ih ⟨some s0, p0, t0⟩ with ⟨hall, heq⟩ | ⟨l1, s, l2, p, t, hl, hbs, hhs, hts, heq, h1, h2⟩
      · right
        exact ⟨[], s0, rest, p0, t0, rfl, hb, hh, hle, heq,
          fun s1 hs1 => absurd hs1 (List.not_mem_nil s1), hall⟩
      · right
        refine ⟨s0 :: l1, s, l2, p, t, by rw [hl]; rfl, hbs, hhs, le_trans hts hle, heq, ?_, h2⟩
        intro s1 hs1 hb1 p1 t1 hh1
        rcases List.mem_cons.mp hs1 with rfl | hm
        · rw [hh] at hh1
          cases hh1
          exact hts
        · exact h1 s1 hm hb1 p1 t1 hh1
    · have hstep : ray_list_step E orig dir dir_length top bottom r s0 = r := by
        unfold ray_list_step
        by_cases hb : ray_in_bounds top bottom s0
        · rw [if_pos hb]
          cases hh : ray_hit E orig dir dir_length s0 with
          | none => rfl
          | some pt =>
            obtain ⟨p0, t0⟩ := pt
            simp only []
            rw [if_neg (fun hle => hupd ⟨hb, p0, t0, hh, hle⟩)]
        · rw [if_neg hb]
      have hs0 : ray_in_bounds top bottom s0 → ∀ p t,
          ray_hit E orig dir dir_length s0 = some (p, t) → r.max_length < t := by
        intro hb p t hh
        by_contra hlt
        exact hupd ⟨hb, p, t, hh, not_lt.mp hlt⟩
      rw [hstep]
      rcases ih r with ⟨hall, heq⟩ | ⟨l1, s, l2, p, t, hl, hbs, hhs, hts, heq, h1, h2⟩
      · left
        refine ⟨?_, heq⟩
        intro s1 hs1 hb1 p1 t1 hh1
        rcases List.mem_cons.mp hs1 with rfl | hm
        · exact hs0 hb1 p1 t1 hh1
        · exact hall s1 hm hb1 p1 t1 hh1
      · right
        refine ⟨s0 :: l1, s, l2, p, t, by rw [hl]; rfl, hbs, hhs, hts, heq, ?_, h2⟩
        intro s1 hs1 hb1 p1 t1 hh1
        rcases List.mem_cons.mp hs1 with rfl | hm
        · exact le_trans hts (le_of_lt (hs0 hb1 p1 t1 hh1))
        · exact h1 s1 hm hb1 p1 t1 hh1

theorem find_surface_on_ray_list_eq_fold (E : Externals) (list : List Surface)
    (orig dir : Vec3f) (dir_length : ℚ) (r : RayHit) :
    find_surface_on_ray_list E list orig dir dir_length r
      = list.foldl (ray_list_step E orig dir dir_length (ray_top orig dir dir_length)
          (ray_bottom orig dir dir_length)) r := by
  unfold find_surface_on_ray_list
  rw [ray_list_loop_fst]

/-- C16. After `find_surface_on_ray_list`, either no surface of the list passes the vertical-bounds filter with an intersection of length at most the incoming `max_length`, and `hit_surface`, `hit_pos` and `max_length` are unchanged; or the list splits as `l1 ++ s :: l2` where `s` passes the filter and is intersected at point `p` with length `t <= max_length`, the out-parameters are `s`, `p` and `t`, every intersected surface before `s` has length at least `t` and every intersected surface after `s` has length greater than `t`: `t` is the minimum of the incoming `max_length` and the lengths, and `s` is the last surface attaining it. -/
theorem find_surface_on_ray_list_min (E : Externals) (list : List Surface) (orig dir : Vec3f)
    (dir_length : ℚ) (r : RayHit) :
    ((∀ s ∈ list, ray_in_bounds (ray_top orig dir dir_length) (ray_bottom orig dir dir_length) s →
          ∀ p t, ray_hit E orig dir dir_length s = some (p, t) → r.max_length < t)
      ∧ find_surface_on_ray_list E list orig dir dir_length r = r)
    ∨ ∃ l1 s l2 p t, list = l1 ++ s :: l2
        ∧ ray_in_bounds (ray_top orig dir dir_length) (ray_bottom orig dir dir_length) s
        ∧ ray_hit E orig dir dir_length s = some (p, t) ∧ t ≤ r.max_length
        ∧ find_surface_on_ray_list E list orig dir dir_length r = ⟨some s, p, t⟩
        ∧ (∀ s1 ∈ l1,
            ray_in_bounds (ray_top orig dir dir_length) (ray_bottom orig dir dir_length) s1 →
            ∀ p1 t1, ray_hit E orig dir dir_length s1 = some (p1, t1) → t ≤ t1)
        ∧ (∀ s2 ∈ l2,
            ray_in_bounds (ray_top orig dir dir_length) (ray_bottom orig dir dir_length) s2 →
            ∀ p2 t2, ray_hit E orig dir dir_length s2 = some (p2, t2) → t < t2) := by
  rw [find_surface_on_ray_list_eq_fold]
  exact ray_list_fold_spec E orig dir dir_length _ _ list r

/-! ## Ray casting: a ray straight down on a horizontal floor -/

theorem ray_down_parts (s : Surface) (h : Int) (x z d : ℚ)
    (hs : horizontal_floor s h) (harea : signed_area2 s ≠ 0) (a b c : ℚ)
    (habc : a + b + c = 1)
    (hx : x = a * s.vertex1.x + b * s.vertex2.x + c * s.vertex3.x)
    (hz : z = a * s.vertex1.z + b * s.vertex2.z + c * s.vertex3.z) :
    ray_det ⟨0, -1, 0⟩ s = (signed_area2 s : ℚ)
    ∧ ray_u ⟨x, (h : ℚ) + 30 + d, z⟩ ⟨0, -1, 0⟩ s = b
    ∧ ray_v ⟨x, (h : ℚ) + 30 + d, z⟩ ⟨0, -1, 0⟩ s = c
    ∧ ray_len ⟨x, (h : ℚ) + 30 + d, z⟩ ⟨0, -1, 0⟩ s = d := by
  obtain ⟨h1, h2, h3, hn, _, _⟩ := hs
  have hny : s.normal.y = 1 := by rw [hn]
  have hdet : ray_det ⟨0, -1, 0⟩ s = (signed_area2 s : ℚ) := by
    simp only [ray_det, ray_e1, ray_e2, ray_v0, ray_v1, ray_v2, vec3_dot, vec3_cross, vec3_diff,
      vec3_sum, vec3_mul_val, vec3_of_vertex, signed_area2, RAY_OFFSET, h1, h2, h3, hny]
    push_cast
    ring
  have hne : (signed_area2 s : ℚ) ≠ 0 := by exact_mod_cast harea
  have ha : a = 1 - b - c := by linarith
  subst ha
  refine ⟨hdet, ?_, ?_, ?_⟩
  · unfold ray_u
    rw [hdet]
    rw [div_mul_eq_mul_div, one_mul, div_eq_iff hne]
    simp only [ray_e1, ray_e2, ray_v0, ray_v1, ray_v2, vec3_dot, vec3_cross, vec3_diff,
      vec3_sum, vec3_mul_val, vec3_of_vertex, signed_area2, RAY_OFFSET, hx, hz, h1, h2, h3, hny]
    push_cast
    ring
  · unfold ray_v
    rw [hdet]
    rw [div_mul_eq_mul_div, one_mul, div_eq_iff hne]
    simp only [ray_e1, ray_e2, ray_v0, ray_v1, ray_v2, vec3_dot, vec3_cross, vec3_diff,
      vec3_sum, vec3_mul_val, vec3_of_vertex, signed_area2, RAY_OFFSET, hx, hz, h1, h2, h3, hny]
    push_cast
    ring
  · unfold ray_len
    rw [hdet]
    rw [div_mul_eq_mul_div, one_mul, div_eq_iff hne]
    simp only [ray_e1, ray_e2, ray_v0, ray_v1, ray_v2, vec3_dot, vec3_cross, vec3_diff,
      vec3_sum, vec3_mul_val, vec3_of_vertex, signed_area2, RAY_OFFSET, h1, h2, h3, hny]
    push_cast
    ring

theorem ray_surface_intersect_down (E : Externals) (s : Surface) (h : Int) (x z d L : ℚ)
    (hs : horizontal_floor s h) (harea : signed_area2 s ≠ 0)
    (hin : strictly_inside_projection s x z)
    (htype : s.type ≠ E.SURFACE_INTANGIBLE)
    (hcam : Nat.land s.flags E.SURFACE_FLAG_NO_CAM_COLLISION = 0) (hp : Vec3f) (len : ℚ) :
    ray_surface_intersect E ⟨x, (h : ℚ) + 30 + d, z⟩ ⟨0, -1, 0⟩ L s hp len
      = if d ≤ 1 / 100000 ∨ d > L then (false, hp, d)
        else (true, ⟨x, (h : ℚ) + 30, z⟩, d) := by
  obtain ⟨a, b, c, ha, hb, hc, habc, hx, hz⟩ := hin
  obtain ⟨hdet, hu, hv, hlen⟩ := ray_down_parts s h x z d hs harea a b c habc hx hz
  rw [ray_surface_intersect_eq, hdet, hu, hv, hlen]
  have h1 : ¬ (s.type = E.SURFACE_INTANGIBLE
      ∨ Nat.land s.flags E.SURFACE_FLAG_NO_CAM_COLLISION ≠ 0) := by
    rintro (h1 | h1)
    · exact htype h1
    · exact h1 hcam
  have h2 : ¬ ((signed_area2 s : ℚ) > -(1 / 100000) ∧ (signed_area2 s : ℚ) < 1 / 100000) := by
    rintro ⟨hlo, hhi⟩
    have hlo1 : ((-1 : Int) : ℚ) < (signed_area2 s : ℚ) := by push_cast; linarith
    have hhi1 : (signed_area2 s : ℚ) < ((1 : Int) : ℚ) := by push_cast; linarith
    have := Int.cast_lt.mp hlo1
    have := Int.cast_lt.mp hhi1
    omega
  have h3 : ¬ (b < 0 ∨ b > 1) := by
    rintro (h3 | h3) <;> linarith
  have h4 : ¬ (c < 0 ∨ b + c > 1) := by
    rintro (h4 | h4) <;> linarith
  rw [if_neg h1, if_neg h2, if_neg h3, if_neg h4]
  have hpos : vec3_sum ⟨x, (h : ℚ) + 30 + d, z⟩ (vec3_mul_val ⟨0, -1, 0⟩ d)
      = ⟨x, (h : ℚ) + 30, z⟩ := by
    simp only [vec3_sum, vec3_mul_val, Vec3f.mk.injEq]
    refine ⟨by ring, by ring, by ring⟩
  rw [hpos]

theorem ray_hit_down (E : Externals) (s : Surface) (h : Int) (x z d L : ℚ)
    (hs : horizontal_floor s h) (harea : signed_area2 s ≠ 0)
    (hin : strictly_inside_projection s x z)
    (htype : s.type ≠ E.SURFACE_INTANGIBLE)
    (hcam : Nat.land s.flags E.SURFACE_FLAG_NO_CAM_COLLISION = 0) :
    ray_hit E ⟨x, (h : ℚ) + 30 + d, z⟩ ⟨0, -1, 0⟩ L s
      = if d ≤ 1 / 100000 ∨ d > L then none else some (⟨x, (h : ℚ) + 30, z⟩, d) := by
  unfold ray_hit
  rw [ray_surface_intersect_down E s h x z d L hs harea hin htype hcam]
  split_ifs <;> simp_all

theorem find_surface_on_ray_cell_floor_only (E : Externals) (G : Globals) (cellX cellZ : Int)
    (orig : Vec3f) (dir_length : ℚ) (r : RayHit) (flags : Nat) (s : Surface)
    (hcell : cellX ≥ 0 ∧ cellX ≤ E.NUM_CELLS - 1 ∧ cellZ ≥ 0 ∧ cellZ ≤ E.NUM_CELLS - 1)
    (hst : G.gStaticSurfacePartition cellZ cellX SpatialPartition.SPATIAL_PARTITION_FLOORS = [s])
    (hdy : G.gDynamicSurfacePartition cellZ cellX SpatialPartition.SPATIAL_PARTITION_FLOORS = [])
    (hfloor : Nat.land flags E.RAYCAST_FIND_FLOOR ≠ 0)
    (hwall : Nat.land flags E.RAYCAST_FIND_WALL = 0)
    (hwater : Nat.land flags E.RAYCAST_FIND_WATER = 0) :
    find_surface_on_ray_cell E G cellX cellZ orig ⟨0, -1, 0⟩ dir_length r flags
      = ray_list_step E orig ⟨0, -1, 0⟩ dir_length (ray_top orig ⟨0, -1, 0⟩ dir_length)
          (ray_bottom orig ⟨0, -1, 0⟩ dir_length) r s := by
  unfold find_surface_on_ray_cell
  rw [if_pos hcell]
  have hc : ¬ ((-1 : ℚ) > -(99999 / 100000) ∧ Nat.land flags E.RAYCAST_FIND_CEIL ≠ 0) := by
    rintro ⟨h, _⟩; norm_num at h
  have hf : (-1 : ℚ) < 99999 / 100000 ∧ Nat.land flags E.RAYCAST_FIND_FLOOR ≠ 0 :=
    ⟨by norm_num, hfloor⟩
  simp only []
  rw [if_neg hc, if_pos hf, if_neg (not_not.mpr hwall), if_neg (not_not.mpr hwater), hst, hdy,
    find_surface_on_ray_list_eq_fold, find_surface_on_ray_list_eq_fold]
  rfl

/-- C17, counterexample. For the sample floor at height 100, alone in the floor list of the cell of (10, 10), the ray from (10, 130, 10) with direction (0, -50, 0) and the floor flag reports no hit: the origin lies on the inflated plane, the intersection length is 0 and `ray_surface_intersect` returns FALSE. -/
theorem find_surface_on_ray_from_offset_counterexample :
    horizontal_floor (sampleFloor 0 0 100) 100
    ∧ alone_in_ray_cell sampleExternals (sampleGlobals false false [sampleFloor 0 0 100] [])
        (sampleFloor 0 0 100) 10 10
    ∧ strictly_inside_projection (sampleFloor 0 0 100) 10 10
    ∧ (50 : ℚ) ≥ RAY_OFFSET
    ∧ Nat.land 1 sampleExternals.RAYCAST_FIND_FLOOR ≠ 0
    ∧ find_surface_on_ray sampleExternals (sampleGlobals false false [sampleFloor 0 0 100] [])
        ⟨10, 100 + 30, 10⟩ ⟨0, -50, 0⟩ 1 = (none, ⟨10, 80, 10⟩)
    ∧ ray_surface_intersect sampleExternals ⟨10, 100 + 30, 10⟩ ⟨0, -1, 0⟩ 50
        (sampleFloor 0 0 100) ⟨0, 0, 0⟩ 0 = (false, ⟨0, 0, 0⟩, 0) :=
  ⟨by decide!, by decide!, ⟨8 / 10, 1 / 10, 1 / 10, by norm_num [sampleFloor]⟩, by decide!,
    by decide!, by decide!, by decide!⟩

/-- The ray of the witness evaluated: from (10, 160, 10) straight down with length 60, the
sample floor at height 100 is hit at (10, 130, 10), at distance 30 from the origin. -/
theorem find_surface_on_ray_straight_down_example :
    find_surface_on_ray sampleExternals (sampleGlobals false false [sampleFloor 0 0 100] [])
        ⟨10, 160, 10⟩ ⟨0, -60, 0⟩ 1 = (some (sampleFloor 0 0 100), ⟨10, 130, 10⟩) := by
  decide!

/-- Ties in `find_surface_on_ray_list`: of two surfaces hit at the same length, the later one
in list order is reported. -/
theorem find_surface_on_ray_list_tie_example :
    find_surface_on_ray_list sampleExternals [sampleFloor 0 0 100, sampleFloor 5 0 100]
        ⟨10, 160, 10⟩ ⟨0, -1, 0⟩ 60 ⟨none, ⟨10, 100, 10⟩, 60⟩
      = ⟨some (sampleFloor 5 0 100), ⟨10, 130, 10⟩, 30⟩ := by
  decide!

/-! ## Environment regions: the first matching region -/

theorem gas_region_loop_eq_first (x z : Int) (p : List Int) :
    ∀ (n k0 : Nat) (gl : Int),
      gas_region_loop x z p n (1 + 6 * k0) gl
        = first_gas_level ((List.range n).map (fun k => region_at p (k0 + k))) x z gl := by
  intro n
  induction n with
  | zero => intro k0 gl; rfl
  | succ n ih =>
    intro k0 gl
    rw [gas_region_loop, List.range_succ_eq_map, List.map_cons, List.map_map]
    have hiff : gas_region_matches x z p (1 + 6 * k0)
        ↔ ((region_at p (k0 + 0)).tag ≥ 50 ∧ 10 ∣ (region_at p (k0 + 0)).tag
            ∧ (region_at p (k0 + 0)).contains x z) := by
      unfold gas_region_matches Region.contains region_at
      simp only [Nat.add_zero]
      constructor
      · rintro ⟨h1, h2, h3, h4, h5, h6⟩
        exact ⟨h1, Int.dvd_of_tmod_eq_zero h6, h2, h3, h4, h5⟩
      · rintro ⟨h1, h6, h2, h3, h4, h5⟩
        exact ⟨h1, h2, h3, h4, h5, Int.tmod_eq_zero_of_dvd h6⟩
    have hrest : (List.range n).map ((fun k => region_at p (k0 + k)) ∘ Nat.succ)
        = (List.range n).map (fun k => region_at p (k0 + 1 + k)) := by
      apply List.map_congr_left
      intro k _
      simp only [Function.comp, Nat.succ_eq_add_one]
      rw [show k0 + (k + 1) = k0 + 1 + k by ring]
    rw [hrest]
    unfold first_gas_level
    rw [List.find?_cons]
    by_cases hm : gas_region_matches x z p (1 + 6 * k0)
    · rw [if_pos hm]
      have hd : decide ((region_at p (k0 + 0)).tag ≥ 50 ∧ 10 ∣ (region_at p (k0 + 0)).tag
          ∧ (region_at p (k0 + 0)).contains x z) = true := decide_eq_true (hiff.mp hm)
      simp only [hd]
      simp [region_at]
    · rw [if_neg hm]
      have hd : decide ((region_at p (k0 + 0)).tag ≥ 50 ∧ 10 ∣ (region_at p (k0 + 0)).tag
          ∧ (region_at p (k0 + 0)).contains x z) = false :=
        decide_eq_false (fun h => hm (hiff.mpr h))
      simp only [hd]
      have := ih (k0 + 1) gl
      rw [show 1 + 6 * (k0 + 1) = 1 + 6 * k0 + 6 by ring] at this
      rw [this]
      rfl

theorem water_region_loop_eq_first (x z : Int) (p : List Int) :
    ∀ (n k0 : Nat) (wl : Int),
      water_region_loop x z p n (1 + 6 * k0) wl
        = first_water_level ((List.range n).map (fun k => region_at p (k0 + k))) x z wl := by
  intro n
  induction n with
  | zero => intro k0 wl; rfl
  | succ n ih =>
    intro k0 wl
    rw [water_region_loop, List.range_succ_eq_map, List.map_cons, List.map_map]
    have hiff : water_region_matches x z p (1 + 6 * k0)
        ↔ ((region_at p (k0 + 0)).tag < 50 ∧ (region_at p (k0 + 0)).contains x z) := by
      unfold water_region_matches Region.contains region_at
      simp only [Nat.add_zero]
      tauto
    have hrest : (List.range n).map ((fun k => region_at p (k0 + k)) ∘ Nat.succ)
        = (List.range n).map (fun k => region_at p (k0 + 1 + k)) := by
      apply List.map_congr_left
      intro k _
      simp only [Function.comp, Nat.succ_eq_add_one]
      rw [show k0 + (k + 1) = k0 + 1 + k by ring]
    rw [hrest]
    unfold first_water_level
    rw [List.find?_cons]
    by_cases hm : water_region_matches x z p (1 + 6 * k0)
    · rw [if_pos hm]
      have hd : decide ((region_at p (k0 + 0)).tag < 50 ∧ (region_at p (k0 + 0)).contains x z)
          = true := decide_eq_true (hiff.mp hm)
      simp only [hd]
      simp [region_at]
    · rw [if_neg hm]
      have hd : decide ((region_at p (k0 + 0)).tag < 50 ∧ (region_at p (k0 + 0)).contains x z)
          = false := decide_eq_false (fun h => hm (hiff.mpr h))
      simp only [hd]
      have := ih (k0 + 1) wl
      rw [show 1 + 6 * (k0 + 1) = 1 + 6 * k0 + 6 by ring] at this
      rw [this]
      rfl

theorem region_list_eq (p : List Int) :
    region_list p = (List.range (p.getD 0 0).toNat).map (fun k => region_at p (0 + k)) := by
  unfold region_list
  apply List.map_congr_left
  intro k _
  rw [Nat.zero_add]

theorem find_water_floor_none (E : Externals) (G : Globals) (x y z : Int)
    (h : (find_water_floor E G x y z).2 = none) :
    (find_water_floor E G x y z).1 = (E.FLOOR_LOWER_LIMIT : ℚ) := by
  unfold find_water_floor at h ⊢
  split_ifs at h ⊢
  · rfl
  · simp only [] at h ⊢
    split at h
    · rfl
    · exact Option.noConfusion h

theorem water_surface_level_of_none (E : Externals) (G : Globals) (x z : Int)
    (h : (find_water_floor E G x (water_query_y G) z).2 = none) :
    water_surface_level E G x z = E.FLOOR_LOWER_LIMIT := by
  have h1 := find_water_floor_none E G x (water_query_y G) z h
  unfold water_surface_level
  unfold water_query_y at h1
  split_ifs at h1 ⊢ <;> rw [h1, f32_to_s32_intCast]

/-- C21. `find_poison_gas_level` returns the level of the first region in list order whose tag is at least 50 and divisible by 10 and whose box strictly contains (x,z), and `FLOOR_LOWER_LIMIT` when there is no such region or the region list is absent; and when the water-surface search finds no surface, `find_water_level` returns the level of the first region in list order whose tag is below 50 and whose box strictly contains (x,z), and `FLOOR_LOWER_LIMIT` when there is none. -/
theorem region_levels_first_match (E : Externals) (G : Globals) (x z : Int) :
    find_poison_gas_level E G x z
        = (match G.gEnvironmentRegions with
          | some p => first_gas_level (region_list p) x z E.FLOOR_LOWER_LIMIT
          | none => E.FLOOR_LOWER_LIMIT)
    ∧ ((find_water_floor E G x (water_query_y G) z).2 = none →
        find_water_level E G x z
          = (match G.gEnvironmentRegions with
            | some p => first_water_level (region_list p) x z E.FLOOR_LOWER_LIMIT
            | none => E.FLOOR_LOWER_LIMIT)) := by
  constructor
  · unfold find_poison_gas_level
    cases G.gEnvironmentRegions with
    | none => rfl
    | some p =>
      simp only []
      have := gas_region_loop_eq_first x z p (p.getD 0 0).toNat 0 E.FLOOR_LOWER_LIMIT
      rw [Nat.mul_zero, Nat.add_zero] at this
      rw [this, region_list_eq]
  · intro h
    have hw := water_surface_level_of_none E G x z h
    rw [find_water_level_eq]
    cases G.gEnvironmentRegions with
    | none => exact hw
    | some p =>
      simp only []
      rw [if_pos hw, hw]
      have := water_region_loop_eq_first x z p (p.getD 0 0).toNat 0 E.FLOOR_LOWER_LIMIT
      rw [Nat.mul_zero, Nat.add_zero] at this
      rw [this, region_list_eq]

theorem region_levels_first_match_witness :
    (find_water_floor sampleExternals
        (sampleRegionGlobals [3, 60, -100, -100, 0, 100, 300, 20, -100, -100, 100, 100, 400,
          70, -100, -100, 100, 100, 500]) 0
        (water_query_y (sampleRegionGlobals [3, 60, -100, -100, 0, 100, 300,
          20, -100, -100, 100, 100, 400, 70, -100, -100, 100, 100, 500])) 0).2 = none
    ∧ find_water_level sampleExternals
        (sampleRegionGlobals [3, 60, -100, -100, 0, 100, 300, 20, -100, -100, 100, 100, 400,
          70, -100, -100, 100, 100, 500]) 0 0
      = (match (sampleRegionGlobals [3, 60, -100, -100, 0, 100, 300,
            20, -100, -100, 100, 100, 400, 70, -100, -100, 100, 100, 500]).gEnvironmentRegions with
          | some p => first_water_level (region_list p) 0 0 sampleExternals.FLOOR_LOWER_LIMIT
          | none => sampleExternals.FLOOR_LOWER_LIMIT) :=
  ⟨by decide!,
    (region_levels_first_match sampleExternals
      (sampleRegionGlobals [3, 60, -100, -100, 0, 100, 300, 20, -100, -100, 100, 100, 400,
        70, -100, -100, 100, 100, 500]) 0 0).2 (by decide!)⟩

/-- Three regions around the origin, the first with the point (0,0) on its edge `hiX = 0`: the
gas query skips the first region (the bound is strict) and the water region, and returns the
level 500 of the third; the water query returns the level 400 of the second. -/
theorem region_levels_example :
    find_poison_gas_level sampleExternals
        (sampleRegionGlobals [3, 60, -100, -100, 0, 100, 300, 20, -100, -100, 100, 100, 400,
          70, -100, -100, 100, 100, 500]) 0 0 = 500
    ∧ find_water_level sampleExternals
        (sampleRegionGlobals [3, 60, -100, -100, 0, 100, 300, 20, -100, -100, 100, 100, 400,
          70, -100, -100, 100, 100, 500]) 0 0 = 400
    ∧ first_gas_level (region_list [3, 60, -100, -100, 0, 100, 300, 20, -100, -100, 100, 100, 400,
          70, -100, -100, 100, 100, 500]) 0 0 (-11000) = 500 := by
  decide!

/-! ## The cell index -/

theorem Nat_ldiff_mask_lt (k a : Nat) : Nat.ldiff (2 ^ k - 1) a < 2 ^ k := by
  apply Nat.lt_pow_two_of_testBit
  intro i hi
  rw [Nat.testBit_ldiff, Nat.testBit_two_pow_sub_one]
  have : ¬ i < k := not_lt.mpr hi
  simp [this]

theorem Int_land_mask_range (n : Int) (k : Nat) :
    0 ≤ Int.land n ((2 : Int) ^ k - 1) ∧ Int.land n ((2 : Int) ^ k - 1) ≤ (2 : Int) ^ k - 1 := by
  have hm : ((2 : Int) ^ k - 1) = Int.ofNat (2 ^ k - 1) := by
    have h1 : 1 ≤ 2 ^ k := Nat.one_le_two_pow
    simp only [Int.ofNat_eq_coe]
    rw [Nat.cast_sub h1]
    push_cast
    ring
  rw [hm]
  cases n with
  | ofNat m =>
    show 0 ≤ ((m &&& (2 ^ k - 1) : Nat) : Int) ∧ ((m &&& (2 ^ k - 1) : Nat) : Int) ≤ _
    refine ⟨Int.ofNat_nonneg _, ?_⟩
    simp only [Int.ofNat_eq_coe]
    exact_mod_cast Nat.and_le_right
  | negSucc m =>
    show 0 ≤ ((Nat.ldiff (2 ^ k - 1) m : Nat) : Int) ∧ ((Nat.ldiff (2 ^ k - 1) m : Nat) : Int) ≤ _
    refine ⟨Int.ofNat_nonneg _, ?_⟩
    simp only [Int.ofNat_eq_coe]
    have := Nat_ldiff_mask_lt k m
    have h1 : 1 ≤ 2 ^ k := Nat.one_le_two_pow
    exact_mod_cast Nat.le_sub_one_of_lt this

theorem Int_land_mask_of_range (n : Int) (k : Nat) (h0 : 0 ≤ n) (h1 : n ≤ (2 : Int) ^ k - 1) :
    Int.land n ((2 : Int) ^ k - 1) = n := by
  obtain ⟨m, rfl⟩ := Int.eq_ofNat_of_zero_le h0
  have hm : ((2 : Int) ^ k - 1) = Int.ofNat (2 ^ k - 1) := by
    have h1 : 1 ≤ 2 ^ k := Nat.one_le_two_pow
    simp only [Int.ofNat_eq_coe]
    rw [Nat.cast_sub h1]
    push_cast
    ring
  rw [hm]
  show ((m &&& (2 ^ k - 1) : Nat) : Int) = (m : Int)
  rw [Nat.and_pow_two_sub_one_eq_mod]
  have hlt : m < 2 ^ k := by
    have : (m : Int) < (2 : Int) ^ k := by omega
    exact_mod_cast this
  rw [Nat.mod_eq_of_lt hlt]

/-- C22. With `NUM_CELLS` a power of two, `NUM_CELLS_INDEX = NUM_CELLS - 1` and `NUM_CELLS * CELL_SIZE = 2 * LEVEL_BOUNDARY_MAX`: for every integer x the cell index lies in `[0, NUM_CELLS - 1]`, whether the sum `x + LEVEL_BOUNDARY_MAX` is exact or wraps to 32 bits; and for every x with `-LEVEL_BOUNDARY_MAX < x < LEVEL_BOUNDARY_MAX` the cell index is `floor((x + LEVEL_BOUNDARY_MAX) / CELL_SIZE)`, the quotient itself, so the mask changes nothing. -/
theorem cell_index_range (E : Externals) (k : Nat)
    (hpow : E.NUM_CELLS = (2 : Int) ^ k) (hidx : E.NUM_CELLS_INDEX = E.NUM_CELLS - 1)
    (hsize : E.NUM_CELLS * E.CELL_SIZE = 2 * E.LEVEL_BOUNDARY_MAX) :
    (∀ x : Int, 0 ≤ cell_index E x ∧ cell_index E x ≤ E.NUM_CELLS - 1)
    ∧ (∀ x : Int, 0 ≤ cell_index_wrapped E x ∧ cell_index_wrapped E x ≤ E.NUM_CELLS - 1)
    ∧ (∀ x : Int, -E.LEVEL_BOUNDARY_MAX < x → x < E.LEVEL_BOUNDARY_MAX →
        cell_index E x = ⌊((x + E.LEVEL_BOUNDARY_MAX : Int) : ℚ) / (E.CELL_SIZE : ℚ)⌋
        ∧ cell_index E x = Int.tdiv (x + E.LEVEL_BOUNDARY_MAX) E.CELL_SIZE) := by
  refine ⟨?_, ?_, ?_⟩
  · intro x
    unfold cell_index
    rw [hidx, hpow]
    exact Int_land_mask_range _ k
  · intro x
    unfold cell_index_wrapped
    rw [hidx, hpow]
    exact Int_land_mask_range _ k
  · intro x hlo hhi
    have hN : (0 : Int) < E.NUM_CELLS := by rw [hpow]; positivity
    have hL : 0 < E.LEVEL_BOUNDARY_MAX := by omega
    have hC : 0 < E.CELL_SIZE := by
      by_contra hc
      have hc' : E.CELL_SIZE ≤ 0 := not_lt.mp hc
      have : E.NUM_CELLS * E.CELL_SIZE ≤ 0 := Int.mul_nonpos_of_nonneg_of_nonpos hN.le hc'
      omega
    have hs0 : 0 ≤ x + E.LEVEL_BOUNDARY_MAX := by omega
    have hdiv : Int.tdiv (x + E.LEVEL_BOUNDARY_MAX) E.CELL_SIZE
        = (x + E.LEVEL_BOUNDARY_MAX) / E.CELL_SIZE := Int.tdiv_eq_ediv hs0 hC.le
    have hq0 : 0 ≤ (x + E.LEVEL_BOUNDARY_MAX) / E.CELL_SIZE := Int.ediv_nonneg hs0 hC.le
    have hq1 : (x + E.LEVEL_BOUNDARY_MAX) / E.CELL_SIZE < E.NUM_CELLS := by
      apply Int.ediv_lt_of_lt_mul hC
      rw [hsize]; omega
    have hland : cell_index E x = Int.tdiv (x + E.LEVEL_BOUNDARY_MAX) E.CELL_SIZE := by
      unfold cell_index
      rw [hidx, hpow]
      apply Int_land_mask_of_range
      · rw [hdiv]; exact hq0
      · rw [hdiv, ← hpow]; omega
    refine ⟨?_, hland⟩
    rw [hland, hdiv]
    obtain ⟨c, hc⟩ := Int.eq_ofNat_of_zero_le hC.le
    rw [hc]
    exact (Rat.floor_intCast_div_natCast _ c).symm

theorem cell_index_range_witness :
    (∀ x : Int, 0 ≤ cell_index sampleExternals x
      ∧ cell_index sampleExternals x ≤ sampleExternals.NUM_CELLS - 1)
    ∧ cell_index sampleExternals (-100)
        = ⌊(((-100) + sampleExternals.LEVEL_BOUNDARY_MAX : Int) : ℚ)
            / (sampleExternals.CELL_SIZE : ℚ)⌋
    ∧ cell_index sampleExternals (-100) = 7 :=
  ⟨(cell_index_range sampleExternals 4 (by decide) (by decide) (by decide)).1,
    ((cell_index_range sampleExternals 4 (by decide) (by decide) (by decide)).2.2 (-100)
      (by decide) (by decide)).1, by decide!⟩

/-! ## The point-in-triangle test and its arithmetic -/

theorem check_within_triangle_bounds_iff (x z : Int) (surf : Surface) :
    check_within_triangle_bounds x z surf = true
      ↔ 0 ≤ edge_expr x z surf.vertex1.x surf.vertex1.z surf.vertex2.x surf.vertex2.z
        ∧ 0 ≤ edge_expr x z surf.vertex2.x surf.vertex2.z surf.vertex3.x surf.vertex3.z
        ∧ 0 ≤ edge_expr x z surf.vertex3.x surf.vertex3.z surf.vertex1.x surf.vertex1.z := by
  unfold check_within_triangle_bounds
  split_ifs with h1 h2 h3
  · simp; intro h; omega
  · simp; intro _ h; omega
  · simp; intro _ _; omega
  · simp; omega

/-- The sum of the three exact edge expressions does not depend on the point: it is twice
the signed area of the projection. -/
theorem edge_exact_sum (surf : Surface) (x z : Int) :
    edge_exact x z surf.vertex1.x surf.vertex1.z surf.vertex2.x surf.vertex2.z
      + edge_exact x z surf.vertex2.x surf.vertex2.z surf.vertex3.x surf.vertex3.z
      + edge_exact x z surf.vertex3.x surf.vertex3.z surf.vertex1.x surf.vertex1.z
      = signed_area2 surf := by
  unfold edge_exact signed_area2
  ring

theorem edge_exact_of_weights (surf : Surface) (x z : Int) (a b c : ℚ) (hsum : a + b + c = 1)
    (hx : (x : ℚ) = a * surf.vertex1.x + b * surf.vertex2.x + c * surf.vertex3.x)
    (hz : (z : ℚ) = a * surf.vertex1.z + b * surf.vertex2.z + c * surf.vertex3.z) :
    ((edge_exact x z surf.vertex1.x surf.vertex1.z surf.vertex2.x surf.vertex2.z : Int) : ℚ)
        = c * signed_area2 surf
    ∧ ((edge_exact x z surf.vertex2.x surf.vertex2.z surf.vertex3.x surf.vertex3.z : Int) : ℚ)
        = a * signed_area2 surf
    ∧ ((edge_exact x z surf.vertex3.x surf.vertex3.z surf.vertex1.x surf.vertex1.z : Int) : ℚ)
        = b * signed_area2 surf := by
  have ha : a = 1 - b - c := by linarith
  subst ha
  unfold edge_exact signed_area2
  push_cast
  rw [hx, hz]
  refine ⟨by ring, by ring, by ring⟩

theorem inside_closed_of_edges (surf : Surface) (x z : Int) (hD : 0 < signed_area2 surf)
    (h1 : 0 ≤ edge_exact x z surf.vertex1.x surf.vertex1.z surf.vertex2.x surf.vertex2.z)
    (h2 : 0 ≤ edge_exact x z surf.vertex2.x surf.vertex2.z surf.vertex3.x surf.vertex3.z)
    (h3 : 0 ≤ edge_exact x z surf.vertex3.x surf.vertex3.z surf.vertex1.x surf.vertex1.z) :
    inside_closed_xz surf x z := by
  have hDq : (0 : ℚ) < (signed_area2 surf : ℚ) := by exact_mod_cast hD
  have hDne : (signed_area2 surf : ℚ) ≠ 0 := ne_of_gt hDq
  have q1 : (0 : ℚ) ≤ ((edge_exact x z surf.vertex1.x surf.vertex1.z surf.vertex2.x
      surf.vertex2.z : Int) : ℚ) := by exact_mod_cast h1
  have q2 : (0 : ℚ) ≤ ((edge_exact x z surf.vertex2.x surf.vertex2.z surf.vertex3.x
      surf.vertex3.z : Int) : ℚ) := by exact_mod_cast h2
  have q3 : (0 : ℚ) ≤ ((edge_exact x z surf.vertex3.x surf.vertex3.z surf.vertex1.x
      surf.vertex1.z : Int) : ℚ) := by exact_mod_cast h3
  have hs : ((edge_exact x z surf.vertex1.x surf.vertex1.z surf.vertex2.x surf.vertex2.z
        + edge_exact x z surf.vertex2.x surf.vertex2.z surf.vertex3.x surf.vertex3.z
        + edge_exact x z surf.vertex3.x surf.vertex3.z surf.vertex1.x surf.vertex1.z : Int) : ℚ)
      = (signed_area2 surf : ℚ) := by rw [edge_exact_sum]
  push_cast at hs
  refine ⟨(edge_exact x z surf.vertex2.x surf.vertex2.z surf.vertex3.x surf.vertex3.z : Int)
        / (signed_area2 surf : ℚ),
      (edge_exact x z surf.vertex3.x surf.vertex3.z surf.vertex1.x surf.vertex1.z : Int)
        / (signed_area2 surf : ℚ),
      (edge_exact x z surf.vertex1.x surf.vertex1.z surf.vertex2.x surf.vertex2.z : Int)
        / (signed_area2 surf : ℚ),
      div_nonneg q2 hDq.le, div_nonneg q3 hDq.le, div_nonneg q1 hDq.le, ?_, ?_, ?_⟩
  · rw [← add_div, ← add_div, div_eq_one_iff_eq hDne]
    linarith
  · rw [div_mul_eq_mul_div, div_mul_eq_mul_div, div_mul_eq_mul_div, ← add_div, ← add_div,
      eq_div_iff hDne]
    unfold edge_exact signed_area2
    push_cast
    ring
  · rw [div_mul_eq_mul_div, div_mul_eq_mul_div, div_mul_eq_mul_div, ← add_div, ← add_div,
      eq_div_iff hDne]
    unfold edge_exact signed_area2
    push_cast
    ring

theorem edges_of_inside_closed (surf : Surface) (x z : Int) (hD : 0 < signed_area2 surf)
    (hi : inside_closed_xz surf x z) :
    0 ≤ edge_exact x z surf.vertex1.x surf.vertex1.z surf.vertex2.x surf.vertex2.z
    ∧ 0 ≤ edge_exact x z surf.vertex2.x surf.vertex2.z surf.vertex3.x surf.vertex3.z
    ∧ 0 ≤ edge_exact x z surf.vertex3.x surf.vertex3.z surf.vertex1.x surf.vertex1.z := by
  obtain ⟨a, b, c, ha, hb, hc, hsum, hx, hz⟩ := hi
  obtain ⟨e1, e2, e3⟩ := edge_exact_of_weights surf x z a b c hsum hx hz
  have hDq : (0 : ℚ) ≤ (signed_area2 surf : ℚ) := by exact_mod_cast hD.le
  refine ⟨?_, ?_, ?_⟩
  · have : (0 : ℚ) ≤ ((edge_exact x z surf.vertex1.x surf.vertex1.z surf.vertex2.x
        surf.vertex2.z : Int) : ℚ) := by rw [e1]; exact mul_nonneg hc hDq
    exact_mod_cast this
  · have : (0 : ℚ) ≤ ((edge_exact x z surf.vertex2.x surf.vertex2.z surf.vertex3.x
        surf.vertex3.z : Int) : ℚ) := by rw [e2]; exact mul_nonneg ha hDq
    exact_mod_cast this
  · have : (0 : ℚ) ≤ ((edge_exact x z surf.vertex3.x surf.vertex3.z surf.vertex1.x
        surf.vertex1.z : Int) : ℚ) := by rw [e3]; exact mul_nonneg hb hDq
    exact_mod_cast this

/-- The head of the floor loop with the three inline half-plane tests replaced by a call of
`check_within_triangle_bounds`. -/
theorem find_floor_loop_cons_check (E : Externals) (cam : Bool) (x y z : Int) (surf : Surface)
    (rest : List Surface) (floor : Option Surface) (pheight : ℚ) :
    find_floor_loop E cam x y z (surf :: rest) floor pheight =
      if y < surf.lowerY - 30 then find_floor_loop E cam x y z rest floor pheight
      else if check_within_triangle_bounds x z surf = false then
        find_floor_loop E cam x y z rest floor pheight
      else if floor_mode_excluded E cam surf = true then
        find_floor_loop E cam x y z rest floor pheight
      else if get_surface_height_at_location x z surf < pheight then
        find_floor_loop E cam x y z rest floor pheight
      else if (y : ℚ) < get_surface_height_at_location x z surf - 78 then
        find_floor_loop E cam x y z rest floor pheight
      else if get_surface_height_at_location x z surf - 78 = (y : ℚ) then
        (some surf, get_surface_height_at_location x z surf)
      else find_floor_loop E cam x y z rest (some surf)
        (get_surface_height_at_location x z surf) := by
  simp only [find_floor_loop, check_within_triangle_bounds]
  split_ifs <;> first | rfl | (exfalso; simp_all)

/-- C23. With the three edge expressions evaluated exactly and `D` twice the signed area of the projection: if `D > 0`, `check_within_triangle_bounds(x, z, surf)` is TRUE exactly when (x,z) is a convex combination of the three vertices, edges and vertices included; if `D < 0` it is FALSE; the three inline tests of the loop of `find_floor_from_list` can be replaced by a call of `check_within_triangle_bounds`; and the test is TRUE exactly when the three edge expressions are non-negative. -/
theorem check_within_triangle_bounds_closed (x z : Int) (surf : Surface)
    (hex : edges_exact x z surf) :
    (0 < signed_area2 surf →
      (check_within_triangle_bounds x z surf = true ↔ inside_closed_xz surf x z))
    ∧ (signed_area2 surf < 0 → check_within_triangle_bounds x z surf = false)
    ∧ (∀ (E : Externals) (cam : Bool) (y : Int) (rest : List Surface) (floor : Option Surface)
        (pheight : ℚ),
          find_floor_loop E cam x y z (surf :: rest) floor pheight =
            if y < surf.lowerY - 30 then find_floor_loop E cam x y z rest floor pheight
            else if check_within_triangle_bounds x z surf = false then
              find_floor_loop E cam x y z rest floor pheight
            else if floor_mode_excluded E cam surf = true then
              find_floor_loop E cam x y z rest floor pheight
            else if get_surface_height_at_location x z surf < pheight then
              find_floor_loop E cam x y z rest floor pheight
            else if (y : ℚ) < get_surface_height_at_location x z surf - 78 then
              find_floor_loop E cam x y z rest floor pheight
            else if get_surface_height_at_location x z surf - 78 = (y : ℚ) then
              (some surf, get_surface_height_at_location x z surf)
            else find_floor_loop E cam x y z rest (some surf)
              (get_surface_height_at_location x z surf))
    ∧ (check_within_triangle_bounds x z surf = true ↔
        0 ≤ edge_expr x z surf.vertex1.x surf.vertex1.z surf.vertex2.x surf.vertex2.z
        ∧ 0 ≤ edge_expr x z surf.vertex2.x surf.vertex2.z surf.vertex3.x surf.vertex3.z
        ∧ 0 ≤ edge_expr x z surf.vertex3.x surf.vertex3.z surf.vertex1.x surf.vertex1.z) := by
  obtain ⟨x1, x2, x3⟩ := hex
  refine ⟨?_, ?_, ?_, check_within_triangle_bounds_iff x z surf⟩
  · intro hD
    rw [check_within_triangle_bounds_iff, x1, x2, x3]
    constructor
    · rintro ⟨h1, h2, h3⟩
      exact inside_closed_of_edges surf x z hD h1 h2 h3
    · intro hi
      exact edges_of_inside_closed surf x z hD hi
  · intro hD
    have hs := edge_exact_sum surf x z
    cases hc : check_within_triangle_bounds x z surf with
    | false => rfl
    | true =>
      rw [check_within_triangle_bounds_iff, x1, x2, x3] at hc
      omega
  · intro E cam y rest floor pheight
    exact find_floor_loop_cons_check E cam x y z surf rest floor pheight

theorem check_within_triangle_bounds_closed_witness :
    edges_exact 0 100 (sampleFloor 0 0 0) ∧ 0 < signed_area2 (sampleFloor 0 0 0)
    ∧ check_within_triangle_bounds 0 100 (sampleFloor 0 0 0) = true
    ∧ inside_closed_xz (sampleFloor 0 0 0) 0 100 :=
  ⟨by decide, by decide, by decide,
    ((check_within_triangle_bounds_closed 0 100 (sampleFloor 0 0 0) (by decide)).1
      (by decide)).mp (by decide)⟩

/-- C30. If every vertex x and z coordinate of the surface and the x and z of the query lie in `[-8192, 8192]`, each of the three edge expressions evaluated in 32-bit arithmetic equals its exact integer value, every intermediate difference and product lies in the 32-bit range, and `check_within_triangle_bounds` and the half-plane tests of `find_floor_from_list` decide on the signs of the exact values. -/
theorem edge_expr_exact_in_level (surf : Surface) (x z : Int)
    (hv : vertices_within surf 8192) (hx : -8192 ≤ x ∧ x ≤ 8192) (hz : -8192 ≤ z ∧ z ≤ 8192) :
    edges_exact x z surf
    ∧ edge_steps_in_range x z surf.vertex1.x surf.vertex1.z surf.vertex2.x surf.vertex2.z
    ∧ edge_steps_in_range x z surf.vertex2.x surf.vertex2.z surf.vertex3.x surf.vertex3.z
    ∧ edge_steps_in_range x z surf.vertex3.x surf.vertex3.z surf.vertex1.x surf.vertex1.z
    ∧ (check_within_triangle_bounds x z surf = true ↔
        0 ≤ edge_exact x z surf.vertex1.x surf.vertex1.z surf.vertex2.x surf.vertex2.z
        ∧ 0 ≤ edge_exact x z surf.vertex2.x surf.vertex2.z surf.vertex3.x surf.vertex3.z
        ∧ 0 ≤ edge_exact x z surf.vertex3.x surf.vertex3.z surf.vertex1.x surf.vertex1.z)
    ∧ (∀ (E : Externals) (cam : Bool) (y : Int), floor_candidate E cam x y z surf ↔
        (surf.lowerY - 30 ≤ y
        ∧ 0 ≤ edge_exact x z surf.vertex1.x surf.vertex1.z surf.vertex2.x surf.vertex2.z
        ∧ 0 ≤ edge_exact x z surf.vertex2.x surf.vertex2.z surf.vertex3.x surf.vertex3.z
        ∧ 0 ≤ edge_exact x z surf.vertex3.x surf.vertex3.z surf.vertex1.x surf.vertex1.z
        ∧ floor_mode_excluded E cam surf = false)) := by
  obtain ⟨⟨a1, a2⟩, ⟨a3, a4⟩, ⟨b1, b2⟩, ⟨b3, b4⟩, ⟨c1, c2⟩, ⟨c3, c4⟩⟩ := hv
  obtain ⟨hx1, hx2⟩ := hx
  obtain ⟨hz1, hz2⟩ := hz
  have e1 := edge_expr_eq_exact x z surf.vertex1.x surf.vertex1.z surf.vertex2.x surf.vertex2.z
    (by omega) (by omega) (by omega) (by omega) (by omega) (by omega)
  have e2 := edge_expr_eq_exact x z surf.vertex2.x surf.vertex2.z surf.vertex3.x surf.vertex3.z
    (by omega) (by omega) (by omega) (by omega) (by omega) (by omega)
  have e3 := edge_expr_eq_exact x z surf.vertex3.x surf.vertex3.z surf.vertex1.x surf.vertex1.z
    (by omega) (by omega) (by omega) (by omega) (by omega) (by omega)
  have steps : ∀ vxi vzi vxj vzj : Int, -8192 ≤ vxi → vxi ≤ 8192 → -8192 ≤ vzi → vzi ≤ 8192 →
      -8192 ≤ vxj → vxj ≤ 8192 → -8192 ≤ vzj → vzj ≤ 8192 →
      edge_steps_in_range x z vxi vzi vxj vzj := by
    intro vxi vzi vxj vzj p1 p2 p3 p4 p5 p6 p7 p8
    obtain ⟨m1, m2⟩ := mul_range (vzi - z) (vxj - vxi) (by omega) (by omega) (by omega) (by omega)
    obtain ⟨m3, m4⟩ := mul_range (vxi - x) (vzj - vzi) (by omega) (by omega) (by omega) (by omega)
    unfold edge_steps_in_range in_s32_range
    refine ⟨⟨by omega, by omega⟩, ⟨by omega, by omega⟩, ⟨by omega, by omega⟩,
      ⟨by omega, by omega⟩, ⟨by omega, by omega⟩, ⟨by omega, by omega⟩, ⟨by omega, by omega⟩⟩
  refine ⟨⟨e1, e2, e3⟩, steps _ _ _ _ a1 a2 a3 a4 b1 b2 b3 b4,
    steps _ _ _ _ b1 b2 b3 b4 c1 c2 c3 c4, steps _ _ _ _ c1 c2 c3 c4 a1 a2 a3 a4, ?_, ?_⟩
  · rw [check_within_triangle_bounds_iff, e1, e2, e3]
  · intro E cam y
    unfold floor_candidate
    rw [e1, e2, e3]

theorem edge_expr_exact_in_level_witness :
    vertices_within (sampleFloor 0 0 0) 8192
    ∧ edges_exact 8192 (-8192) (sampleFloor 0 0 0)
    ∧ edge_steps_in_range 8192 (-8192) (sampleFloor 0 0 0).vertex1.x (sampleFloor 0 0 0).vertex1.z
        (sampleFloor 0 0 0).vertex2.x (sampleFloor 0 0 0).vertex2.z :=
  ⟨by decide,
    (edge_expr_exact_in_level (sampleFloor 0 0 0) 8192 (-8192) (by decide) (by decide)
      (by decide)).1,
    (edge_expr_exact_in_level (sampleFloor 0 0 0) 8192 (-8192) (by decide) (by decide)
      (by decide)).2.1⟩

/-! ## The re-probe beneath an intangible floor -/

theorem f32_to_s32_lt_add_one (q : ℚ) : (f32_to_s32 q : ℚ) < q + 1 := by
  unfold f32_to_s32
  split_ifs with h
  · have := Int.floor_le q
    linarith
  · exact Int.ceil_lt_add_one q

theorem f32_to_s32_gt_sub_one (q : ℚ) : q - 1 < (f32_to_s32 q : ℚ) := by
  unfold f32_to_s32
  split_ifs with h
  · have := Int.lt_floor_add_one q
    linarith
  · have := Int.le_ceil q
    linarith

theorem find_floor_from_list_some_height (E : Externals) (cam : Bool) (l : List Surface)
    (x y z : Int) (s : Surface) (h : (find_floor_from_list E cam l x y z).1 = some s) :
    (find_floor_from_list E cam l x y z).2 = get_surface_height_at_location x z s
    ∧ get_surface_height_at_location x z s - 78 ≤ (y : ℚ) := by
  rcases (find_floor_loop_spec E cam x y z l none (E.FLOOR_LOWER_LIMIT : ℚ)).2.2 with
    ⟨heq, _⟩ | ⟨t, _, h1, _, _, h4, h5⟩
  · unfold find_floor_from_list at h; rw [heq] at h; exact Option.noConfusion h
  · unfold find_floor_from_list at h ⊢
    rw [h1] at h
    cases h
    exact ⟨h5, h4⟩

theorem find_floor_static_reprobe (E : Externals) (cam : Bool) (l : List Surface) (x y z : Int)
    (floor0 : Surface) (H : ℚ)
    (hscan : find_floor_from_list E cam l x y z = (some floor0, H))
    (htype : floor0.type = E.SURFACE_INTANGIBLE) :
    (find_floor_static E cam false l x y z).1 = floor_reprobe E cam l x z H := by
  unfold find_floor_static floor_reprobe
  simp only [hscan, Bool.not_false, if_true, htype]

theorem floor_reprobe_below (E : Externals) (cam : Bool) (l : List Surface) (x z : Int) (H : ℚ)
    (s : Surface) (h : (floor_reprobe E cam l x z H).1 = some s) :
    (floor_reprobe E cam l x z H).2 = get_surface_height_at_location x z s
    ∧ (floor_reprobe E cam l x z H).2 < H - 121 := by
  unfold floor_reprobe at h ⊢
  obtain ⟨h1, h2⟩ := find_floor_from_list_some_height E cam l x _ z s h
  refine ⟨h1, ?_⟩
  rw [h1]
  have := f32_to_s32_lt_add_one (H - 200)
  linarith

/-- C24, counterexample. A static list holding one intangible floor at height -11000, the value of `FLOOR_LOWER_LIMIT`, queried at (10, -11000, 10): the first scan returns the intangible floor with `H = -11000`, the re-probe finds nothing and leaves the height -11000, which is not strictly below `H`. -/
theorem find_floor_reprobe_sentinel_counterexample :
    find_floor_from_list sampleExternals false
        [sampleFloor sampleExternals.SURFACE_INTANGIBLE 0 (-11000)] 10 (-11000) 10
      = (some (sampleFloor sampleExternals.SURFACE_INTANGIBLE 0 (-11000)), -11000)
    ∧ static_floor_candidate sampleExternals
        (sampleGlobals false false [sampleFloor sampleExternals.SURFACE_INTANGIBLE 0 (-11000)] [])
        10 (-11000) 10 = (none, -11000)
    ∧ floor_reprobe sampleExternals false
        [sampleFloor sampleExternals.SURFACE_INTANGIBLE 0 (-11000)] 10 10 (-11000)
      = (none, -11000)
    ∧ ¬ ((floor_reprobe sampleExternals false
          [sampleFloor sampleExternals.SURFACE_INTANGIBLE 0 (-11000)] 10 10 (-11000)).2
        < (-11000 : ℚ)) := by
  decide!

/-- C24, amended. In `find_floor` with the include-intangible flag clear and an in-bounds query, when the first static scan returns a surface `floor0` of type `SURFACE_INTANGIBLE` with height `H`: the static candidate is exactly the result of one further scan of the same list at `trunc(H - 200)`; when that scan finds a surface, its height is strictly below `H` and it is not `floor0`; when it finds none, the height is `FLOOR_LOWER_LIMIT`, which is at most `H`; and that candidate enters the merge with the dynamic candidate as it is, whatever its type. -/
theorem find_floor_intangible_reprobe (E : Externals) (G : Globals) (xPos yPos zPos : ℚ)
    (floor0 : Surface) (H : ℚ)
    (hin : is_outside_level_bounds E (f32_to_s32 xPos) (f32_to_s32 zPos) = false)
    (hflag : G.gFindFloorIncludeSurfaceIntangible = false)
    (hscan : find_floor_from_list E G.gCheckingSurfaceCollisionsForCamera
        (static_floor_list E G (f32_to_s32 xPos) (f32_to_s32 zPos))
        (f32_to_s32 xPos) (f32_to_s32 yPos) (f32_to_s32 zPos) = (some floor0, H))
    (htype : floor0.type = E.SURFACE_INTANGIBLE) :
    static_floor_candidate E G (f32_to_s32 xPos) (f32_to_s32 yPos) (f32_to_s32 zPos)
        = floor_reprobe E G.gCheckingSurfaceCollisionsForCamera
            (static_floor_list E G (f32_to_s32 xPos) (f32_to_s32 zPos))
            (f32_to_s32 xPos) (f32_to_s32 zPos) H
    ∧ (∀ s, (floor_reprobe E G.gCheckingSurfaceCollisionsForCamera
            (static_floor_list E G (f32_to_s32 xPos) (f32_to_s32 zPos))
            (f32_to_s32 xPos) (f32_to_s32 zPos) H).1 = some s →
          (floor_reprobe E G.gCheckingSurfaceCollisionsForCamera
            (static_floor_list E G (f32_to_s32 xPos) (f32_to_s32 zPos))
            (f32_to_s32 xPos) (f32_to_s32 zPos) H).2 < H
          ∧ s ≠ floor0)
    ∧ ((floor_reprobe E G.gCheckingSurfaceCollisionsForCamera
            (static_floor_list E G (f32_to_s32 xPos) (f32_to_s32 zPos))
            (f32_to_s32 xPos) (f32_to_s32 zPos) H).1 = none →
          (floor_reprobe E G.gCheckingSurfaceCollisionsForCamera
            (static_floor_list E G (f32_to_s32 xPos) (f32_to_s32 zPos))
            (f32_to_s32 xPos) (f32_to_s32 zPos) H).2 = (E.FLOOR_LOWER_LIMIT : ℚ)
          ∧ (E.FLOOR_LOWER_LIMIT : ℚ) ≤ H)
    ∧ ((find_floor E G xPos yPos zPos).1, (find_floor E G xPos yPos zPos).2.1)
        = if (dynamic_floor_candidate E G (f32_to_s32 xPos) (f32_to_s32 yPos)
                (f32_to_s32 zPos)).2
              > (floor_reprobe E G.gCheckingSurfaceCollisionsForCamera
                  (static_floor_list E G (f32_to_s32 xPos) (f32_to_s32 zPos))
                  (f32_to_s32 xPos) (f32_to_s32 zPos) H).2
          then ((dynamic_floor_candidate E G (f32_to_s32 xPos) (f32_to_s32 yPos)
                  (f32_to_s32 zPos)).2,
                (dynamic_floor_candidate E G (f32_to_s32 xPos) (f32_to_s32 yPos)
                  (f32_to_s32 zPos)).1)
          else ((floor_reprobe E G.gCheckingSurfaceCollisionsForCamera
                  (static_floor_list E G (f32_to_s32 xPos) (f32_to_s32 zPos))
                  (f32_to_s32 xPos) (f32_to_s32 zPos) H).2,
                (floor_reprobe E G.gCheckingSurfaceCollisionsForCamera
                  (static_floor_list E G (f32_to_s32 xPos) (f32_to_s32 zPos))
                  (f32_to_s32 xPos) (f32_to_s32 zPos) H).1) := by
  have hst : static_floor_candidate E G (f32_to_s32 xPos) (f32_to_s32 yPos) (f32_to_s32 zPos)
      = floor_reprobe E G.gCheckingSurfaceCollisionsForCamera
          (static_floor_list E G (f32_to_s32 xPos) (f32_to_s32 zPos))
          (f32_to_s32 xPos) (f32_to_s32 zPos) H := by
    unfold static_floor_candidate
    rw [hflag]
    exact find_floor_static_reprobe E _ _ _ _ _ floor0 H hscan htype
  have hH : H = get_surface_height_at_location (f32_to_s32 xPos) (f32_to_s32 zPos) floor0 := by
    have h1 := (find_floor_from_list_some_height E G.gCheckingSurfaceCollisionsForCamera
      (static_floor_list E G (f32_to_s32 xPos) (f32_to_s32 zPos))
      (f32_to_s32 xPos) (f32_to_s32 yPos) (f32_to_s32 zPos) floor0 (by rw [hscan])).1
    rw [hscan] at h1
    exact h1
  have hge : (E.FLOOR_LOWER_LIMIT : ℚ) ≤ H := by
    have h1 := find_floor_from_list_ge E G.gCheckingSurfaceCollisionsForCamera
      (static_floor_list E G (f32_to_s32 xPos) (f32_to_s32 zPos))
      (f32_to_s32 xPos) (f32_to_s32 yPos) (f32_to_s32 zPos)
    rw [hscan] at h1
    exact h1
  refine ⟨hst, ?_, ?_, ?_⟩
  · intro s hs
    obtain ⟨h1, h2⟩ := floor_reprobe_below E _ _ _ _ H s hs
    refine ⟨by linarith, ?_⟩
    intro heq
    rw [heq, ← hH] at h1
    rw [h1] at h2
    linarith
  · intro hn
    exact ⟨find_floor_from_list_none E _ _ _ _ _ hn, hge⟩
  · rw [find_floor_in_bounds E G xPos yPos zPos hin, hst]

theorem find_floor_intangible_reprobe_witness :
    find_floor_from_list sampleExternals false
        [sampleFloor sampleExternals.SURFACE_INTANGIBLE 0 100,
          sampleFloor sampleExternals.SURFACE_INTANGIBLE 0 (-200)] 10 100 10
      = (some (sampleFloor sampleExternals.SURFACE_INTANGIBLE 0 100), 100)
    ∧ floor_reprobe sampleExternals false
        [sampleFloor sampleExternals.SURFACE_INTANGIBLE 0 100,
          sampleFloor sampleExternals.SURFACE_INTANGIBLE 0 (-200)] 10 10 100
      = (some (sampleFloor sampleExternals.SURFACE_INTANGIBLE 0 (-200)), -200)
    ∧ static_floor_candidate sampleExternals
        (sampleGlobals false false [sampleFloor sampleExternals.SURFACE_INTANGIBLE 0 100,
          sampleFloor sampleExternals.SURFACE_INTANGIBLE 0 (-200)] [])
        (f32_to_s32 10) (f32_to_s32 100) (f32_to_s32 10)
      = floor_reprobe sampleExternals
          (sampleGlobals false false [sampleFloor sampleExternals.SURFACE_INTANGIBLE 0 100,
            sampleFloor sampleExternals.SURFACE_INTANGIBLE 0 (-200)]
            []).gCheckingSurfaceCollisionsForCamera
          (static_floor_list sampleExternals
            (sampleGlobals false false [sampleFloor sampleExternals.SURFACE_INTANGIBLE 0 100,
              sampleFloor sampleExternals.SURFACE_INTANGIBLE 0 (-200)] [])
            (f32_to_s32 10) (f32_to_s32 10))
          (f32_to_s32 10) (f32_to_s32 10) 100 :=
  ⟨by decide!, by decide!,
    (find_floor_intangible_reprobe sampleExternals
      (sampleGlobals false false [sampleFloor sampleExternals.SURFACE_INTANGIBLE 0 100,
        sampleFloor sampleExternals.SURFACE_INTANGIBLE 0 (-200)] [])
      10 100 10 (sampleFloor sampleExternals.SURFACE_INTANGIBLE 0 100) 100
      (by decide!) (by decide!) (by decide!) (by decide!)).1⟩

/-- The re-probe is not repeated: beneath an intangible floor at height 100 lies a second
intangible floor at height -200; `find_floor` queried at (10, 100, 10) returns the second
intangible floor and its height. -/
theorem find_floor_reprobe_once_example :
    (find_floor sampleExternals
        (sampleGlobals false false [sampleFloor sampleExternals.SURFACE_INTANGIBLE 0 100,
          sampleFloor sampleExternals.SURFACE_INTANGIBLE 0 (-200)] []) 10 100 10).1 = -200
    ∧ (find_floor sampleExternals
        (sampleGlobals false false [sampleFloor sampleExternals.SURFACE_INTANGIBLE 0 100,
          sampleFloor sampleExternals.SURFACE_INTANGIBLE 0 (-200)] []) 10 100 10).2.1
      = some (sampleFloor sampleExternals.SURFACE_INTANGIBLE 0 (-200)) := by
  decide!

/-! ## The early exit of the floor and ceiling scans -/

theorem find_floor_loop_noexit_cons (E : Externals) (cam : Bool) (x y z : Int) (surf : Surface)
    (rest : List Surface) (floor : Option Surface) (pheight : ℚ) :
    find_floor_loop_noexit E cam x y z (surf :: rest) floor pheight =
      if floor_candidate E cam x y z surf ∧ pheight ≤ get_surface_height_at_location x z surf
          ∧ get_surface_height_at_location x z surf - 78 ≤ (y : ℚ) then
        find_floor_loop_noexit E cam x y z rest (some surf)
          (get_surface_height_at_location x z surf)
      else find_floor_loop_noexit E cam x y z rest floor pheight := by
  simp only [find_floor_loop_noexit, floor_candidate]
  split_ifs <;>
    (first
      | rfl
      | (exfalso; simp_all; done)
      | (exfalso; simp_all; omega)
      | (exfalso; simp_all; linarith))

theorem find_ceil_loop_noexit_cons (E : Externals) (cam : Bool) (x y z : Int) (surf : Surface)
    (rest : List Surface) (ceil : Option Surface) (pheight : ℚ) :
    find_ceil_loop_noexit E cam x y z (surf :: rest) ceil pheight =
      if ceil_candidate E cam x y z surf ∧ get_surface_height_at_location x z surf ≤ pheight
          ∧ (y : ℚ) ≤ get_surface_height_at_location x z surf ∧ y < surf.upperY then
        find_ceil_loop_noexit E cam x y z rest (some surf)
          (get_surface_height_at_location x z surf)
      else find_ceil_loop_noexit E cam x y z rest ceil pheight := by
  simp only [find_ceil_loop_noexit, ceil_candidate]
  split_ifs <;>
    (first
      | rfl
      | (exfalso; simp_all; done)
      | (exfalso; simp_all; omega)
      | (exfalso; simp_all; linarith))

/-- Once the running best height is `y + 78`, the scan without the exit keeps that height,
and its surface is the running best or a later exit surface of the list. -/
theorem find_floor_loop_noexit_at_top (E : Externals) (cam : Bool) (x y z : Int)
    (l : List Surface) :
    ∀ (floor : Option Surface),
      (find_floor_loop_noexit E cam x y z l floor ((y : ℚ) + 78)).2 = (y : ℚ) + 78
      ∧ ((find_floor_loop_noexit E cam x y z l floor ((y : ℚ) + 78)).1 = floor
        ∨ ∃ t ∈ l, (find_floor_loop_noexit E cam x y z l floor ((y : ℚ) + 78)).1 = some t
            ∧ floor_exit_surface E cam x y z t) := by
  induction l with
  | nil => intro floor; exact ⟨rfl, Or.inl rfl⟩
  | cons surf rest ih =>
    intro floor
    rw [find_floor_loop_noexit_cons]
    by_cases hacc : floor_candidate E cam x y z surf
        ∧ (y : ℚ) + 78 ≤ get_surface_height_at_location x z surf
        ∧ get_surface_height_at_location x z surf - 78 ≤ (y : ℚ)
    · rw [if_pos hacc]
      obtain ⟨hc, h1, h2⟩ := hacc
      have hh : get_surface_height_at_location x z surf = (y : ℚ) + 78 := by linarith
      rw [hh]
      obtain ⟨ih1, ih2⟩ := ih (some surf)
      refine ⟨ih1, Or.inr ?_⟩
      rcases ih2 with heq | ⟨t, ht, h3, h4⟩
      · exact ⟨surf, List.mem_cons_self _ _, heq, hc, by linarith⟩
      · exact ⟨t, List.mem_cons_of_mem _ ht, h3, h4⟩
    · rw [if_neg hacc]
      obtain ⟨ih1, ih2⟩ := ih floor
      refine ⟨ih1, ?_⟩
      rcases ih2 with heq | ⟨t, ht, h3, h4⟩
      · exact Or.inl heq
      · exact Or.inr ⟨t, List.mem_cons_of_mem _ ht, h3, h4⟩

/-- The floor scans with and without the early exit, entered with the same running best:
the heights agree, and the surfaces agree or are two exit surfaces of the list. -/
theorem find_floor_loop_exit_vs_noexit (E : Externals) (cam : Bool) (x y z : Int)
    (l : List Surface) :
    ∀ (floor : Option Surface) (pheight : ℚ),
      (find_floor_loop E cam x y z l floor pheight).2
          = (find_floor_loop_noexit E cam x y z l floor pheight).2
      ∧ ((find_floor_loop E cam x y z l floor pheight).1
            = (find_floor_loop_noexit E cam x y z l floor pheight).1
        ∨ ∃ s ∈ l, ∃ t ∈ l, (find_floor_loop E cam x y z l floor pheight).1 = some s
            ∧ (find_floor_loop_noexit E cam x y z l floor pheight).1 = some t
            ∧ floor_exit_surface E cam x y z s ∧ floor_exit_surface E cam x y z t) := by
  induction l with
  | nil => intro floor pheight; exact ⟨rfl, Or.inl rfl⟩
  | cons surf rest ih =>
    intro floor pheight
    rw [find_floor_loop_cons, find_floor_loop_noexit_cons]
    by_cases hacc : floor_candidate E cam x y z surf
        ∧ pheight ≤ get_surface_height_at_location x z surf
        ∧ get_surface_height_at_location x z surf - 78 ≤ (y : ℚ)
    · rw [if_pos hacc, if_pos hacc]
      obtain ⟨hc, h1, h2⟩ := hacc
      by_cases hbrk : get_surface_height_at_location x z surf - 78 = (y : ℚ)
      · rw [if_pos hbrk]
        have hh : get_surface_height_at_location x z surf = (y : ℚ) + 78 := by linarith
        rw [hh]
        obtain ⟨t1, t2⟩ := find_floor_loop_noexit_at_top E cam x y z rest (some surf)
        refine ⟨t1.symm, ?_⟩
        rcases t2 with heq | ⟨t, ht, h3, h4⟩
        · exact Or.inl heq.symm
        · exact Or.inr ⟨surf, List.mem_cons_self _ _, t, List.mem_cons_of_mem _ ht, rfl, h3,
            ⟨hc, hbrk⟩, h4⟩
      · rw [if_neg hbrk]
        obtain ⟨ih1, ih2⟩ := ih (some surf) (get_surface_height_at_location x z surf)
        refine ⟨ih1, ?_⟩
        rcases ih2 with heq | ⟨s, hs, t, ht, h3, h4, h5, h6⟩
        · exact Or.inl heq
        · exact Or.inr ⟨s, List.mem_cons_of_mem _ hs, t, List.mem_cons_of_mem _ ht, h3, h4, h5, h6⟩
    · rw [if_neg hacc, if_neg hacc]
      obtain ⟨ih1, ih2⟩ := ih floor pheight
      refine ⟨ih1, ?_⟩
      rcases ih2 with heq | ⟨s, hs, t, ht, h3, h4, h5, h6⟩
      · exact Or.inl heq
      · exact Or.inr ⟨s, List.mem_cons_of_mem _ hs, t, List.mem_cons_of_mem _ ht, h3, h4, h5, h6⟩

theorem find_ceil_loop_noexit_at_bottom (E : Externals) (cam : Bool) (x y z : Int)
    (l : List Surface) :
    ∀ (ceil : Option Surface),
      (find_ceil_loop_noexit E cam x y z l ceil (y : ℚ)).2 = (y : ℚ)
      ∧ ((find_ceil_loop_noexit E cam x y z l ceil (y : ℚ)).1 = ceil
        ∨ ∃ t ∈ l, (find_ceil_loop_noexit E cam x y z l ceil (y : ℚ)).1 = some t
            ∧ ceil_exit_surface E cam x y z t) := by
  induction l with
  | nil => intro ceil; exact ⟨rfl, Or.inl rfl⟩
  | cons surf rest ih =>
    intro ceil
    rw [find_ceil_loop_noexit_cons]
    by_cases hacc : ceil_candidate E cam x y z surf
        ∧ get_surface_height_at_location x z surf ≤ (y : ℚ)
        ∧ (y : ℚ) ≤ get_surface_height_at_location x z surf ∧ y < surf.upperY
    · rw [if_pos hacc]
      obtain ⟨hc, h1, h2, h3⟩ := hacc
      have hh : get_surface_height_at_location x z surf = (y : ℚ) := le_antisymm h1 h2
      rw [hh]
      obtain ⟨ih1, ih2⟩ := ih (some surf)
      refine ⟨ih1, Or.inr ?_⟩
      rcases ih2 with heq | ⟨t, ht, h4, h5⟩
      · exact ⟨surf, List.mem_cons_self _ _, heq, hc, hh, h3⟩
      · exact ⟨t, List.mem_cons_of_mem _ ht, h4, h5⟩
    · rw [if_neg hacc]
      obtain ⟨ih1, ih2⟩ := ih ceil
      refine ⟨ih1, ?_⟩
      rcases ih2 with heq | ⟨t, ht, h4, h5⟩
      · exact Or.inl heq
      · exact Or.inr ⟨t, List.mem_cons_of_mem _ ht, h4, h5⟩

theorem find_ceil_loop_exit_vs_noexit (E : Externals) (cam : Bool) (x y z : Int)
    (l : List Surface) :
    ∀ (ceil : Option Surface) (pheight : ℚ),
      (find_ceil_loop E cam x y z l ceil pheight).2
          = (find_ceil_loop_noexit E cam x y z l ceil pheight).2
      ∧ ((find_ceil_loop E cam x y z l ceil pheight).1
            = (find_ceil_loop_noexit E cam x y z l ceil pheight).1
        ∨ ∃ s ∈ l, ∃ t ∈ l, (find_ceil_loop E cam x y z l ceil pheight).1 = some s
            ∧ (find_ceil_loop_noexit E cam x y z l ceil pheight).1 = some t
            ∧ ceil_exit_surface E cam x y z s ∧ ceil_exit_surface E cam x y z t) := by
  induction l with
  | nil => intro ceil pheight; exact ⟨rfl, Or.inl rfl⟩
  | cons surf rest ih =>
    intro ceil pheight
    rw [find_ceil_loop_cons, find_ceil_loop_noexit_cons]
    by_cases hacc : ceil_candidate E cam x y z surf
        ∧ get_surface_height_at_location x z surf ≤ pheight
        ∧ (y : ℚ) ≤ get_surface_height_at_location x z surf ∧ y < surf.upperY
    · rw [if_pos hacc, if_pos hacc]
      obtain ⟨hc, h1, h2, hu⟩ := hacc
      by_cases hbrk : get_surface_height_at_location x z surf = (y : ℚ)
      · rw [if_pos hbrk, hbrk]
        obtain ⟨t1, t2⟩ := find_ceil_loop_noexit_at_bottom E cam x y z rest (some surf)
        refine ⟨t1.symm, ?_⟩
        rcases t2 with heq | ⟨t, ht, h3, h4⟩
        · exact Or.inl heq.symm
        · exact Or.inr ⟨surf, List.mem_cons_self _ _, t, List.mem_cons_of_mem _ ht, rfl, h3,
            ⟨hc, hbrk, hu⟩, h4⟩
      · rw [if_neg hbrk]
        obtain ⟨ih1, ih2⟩ := ih (some surf) (get_surface_height_at_location x z surf)
        refine ⟨ih1, ?_⟩
        rcases ih2 with heq | ⟨s, hs, t, ht, h3, h4, h5, h6⟩
        · exact Or.inl heq
        · exact Or.inr ⟨s, List.mem_cons_of_mem _ hs, t, List.mem_cons_of_mem _ ht, h3, h4, h5, h6⟩
    · rw [if_neg hacc, if_neg hacc]
      obtain ⟨ih1, ih2⟩ := ih ceil pheight
      refine ⟨ih1, ?_⟩
      rcases ih2 with heq | ⟨s, hs, t, ht, h3, h4, h5, h6⟩
      · exact Or.inl heq
      · exact Or.inr ⟨s, List.mem_cons_of_mem _ hs, t, List.mem_cons_of_mem _ ht, h3, h4, h5, h6⟩

/-- C25, counterexample. Two sloped floors of equal geometry and different type, queried at (80, -18, 10) where both have height 60 = y + 78: the scan with the early exit returns the first, the scan without it returns the second. Two sloped ceilings queried at (80, 160, 10), where both have height 160 = y, behave in the same way. -/
theorem early_exit_tie_counterexample :
    find_floor_from_list sampleExternals false [sampleSlopeFloor 0, sampleSlopeFloor 5]
        80 (-18) 10 = (some (sampleSlopeFloor 0), 60)
    ∧ find_floor_from_list_noexit sampleExternals false [sampleSlopeFloor 0, sampleSlopeFloor 5]
        80 (-18) 10 = (some (sampleSlopeFloor 5), 60)
    ∧ find_ceil_from_list sampleExternals false [sampleSlopeCeil 0, sampleSlopeCeil 4]
        80 160 10 = (some (sampleSlopeCeil 0), 160)
    ∧ find_ceil_from_list_noexit sampleExternals false [sampleSlopeCeil 0, sampleSlopeCeil 4]
        80 160 10 = (some (sampleSlopeCeil 4), 160)
    ∧ sampleSlopeFloor 0 ≠ sampleSlopeFloor 5 ∧ sampleSlopeCeil 0 ≠ sampleSlopeCeil 4 := by
  decide!

/-- The early exit taken on a list with a single exit surface: the scans with and without the
exit return the same surface and height, for the floor and for the ceiling. -/
theorem early_exit_single_example :
    find_floor_from_list sampleExternals false [sampleSlopeFloor 0, sampleFloor 5 0 (-100)]
        80 (-18) 10 = (some (sampleSlopeFloor 0), 60)
    ∧ find_floor_from_list_noexit sampleExternals false
        [sampleSlopeFloor 0, sampleFloor 5 0 (-100)] 80 (-18) 10 = (some (sampleSlopeFloor 0), 60)
    ∧ find_ceil_from_list sampleExternals false [sampleSlopeCeil 0] 80 160 10
      = (some (sampleSlopeCeil 0), 160)
    ∧ find_ceil_from_list_noexit sampleExternals false [sampleSlopeCeil 0] 80 160 10
      = (some (sampleSlopeCeil 0), 160) := by
  decide!

/-! ## Walls of zero area -/

/-- The denominator of the face test is the squared length of the cross product of the two
edges (Lagrange's identity), so it is zero for a surface of zero area. -/
theorem wall_face_denominator_of_zero_area (surf : Surface) (h : zero_area surf) :
    wall_face_denominator surf = 0 := by
  unfold zero_area at h
  rw [Vec3f_ext_iff] at h
  simp only [vec3_cross] at h
  obtain ⟨h1, h2, h3⟩ := h
  unfold wall_face_denominator
  simp only [vec3_dot]
  have key : ∀ a b c d e f : ℚ, b * f - c * e = 0 → c * d - a * f = 0 → a * e - b * d = 0 →
      (a * a + b * b + c * c) * (d * d + e * e + f * f)
        - (a * d + b * e + c * f) * (a * d + b * e + c * f) = 0 := by
    intro a b c d e f p1 p2 p3
    have : (a * a + b * b + c * c) * (d * d + e * e + f * f)
        - (a * d + b * e + c * f) * (a * d + b * e + c * f)
        = (b * f - c * e) ^ 2 + (c * d - a * f) ^ 2 + (a * e - b * d) ^ 2 := by ring
    rw [this, p1, p2, p3]; norm_num
  exact key _ _ _ _ _ _ h1 h2 h3

/-- With a zero denominator the face test of the model passes at every position: the
quotient `1 / 0` is `0`, so `v = w = 0`. -/
theorem wall_face_test_of_zero_denominator (surf : Surface) (pos : Vec3f)
    (h : wall_face_denominator surf = 0) : wall_face_test surf pos = true := by
  unfold wall_face_denominator at h
  unfold wall_face_test
  simp only [] at h ⊢
  rw [h]
  simp

/-- A surface of zero area that passes the type, Y-range and plane-distance filters reaches
the division of the face test with a zero denominator, and the iteration then goes to
`hasCollision` with the face push applied. -/
theorem wall_step_zero_area (E : Externals) (G : Globals) (radius pos1 : ℚ) (st : WallScan)
    (surf : Surface) (hz : zero_area surf)
    (hf : wall_passes_filters E G radius surf ⟨st.pos0, pos1, st.pos2⟩) :
    wall_face_denominator surf = 0
    ∧ wall_step E G radius pos1 st surf
        = hasCollision E surf
            { st with
              pos0 := st.pos0 + surf.normal.x
                * (radius - wall_offset surf ⟨st.pos0, pos1, st.pos2⟩),
              pos2 := st.pos2 + surf.normal.z
                * (radius - wall_offset surf ⟨st.pos0, pos1, st.pos2⟩) } := by
  have hd := wall_face_denominator_of_zero_area surf hz
  refine ⟨hd, ?_⟩
  exact wall_step_face E G radius pos1 st surf hf
    (wall_face_test_of_zero_denominator surf _ hd)

/-- C26, failing input. For the wall with the collinear vertices (0,0,0), (0,0,100), (0,0,200), normal (1,0,0) and vertical bounds -5 and 5, and the probe of radius 50 at (10, 0, 50): the surface passes the type, Y-range and plane-distance filters, so the loop evaluates `1.0f / ((d00 * d11) - (d01 * d01))` with the denominator 0; the surface is then counted and reported, and x is moved from 10 to 50. -/
theorem degenerate_wall_makes_contact :
    zero_area sampleDegenerateWall
    ∧ wall_face_denominator sampleDegenerateWall = 0
    ∧ wall_passes_filters sampleExternals (sampleGlobals false false [] []) 50
        sampleDegenerateWall ⟨10, 0, 50⟩
    ∧ (find_wall_collisions_from_list sampleExternals (sampleGlobals false false [] [])
        [sampleDegenerateWall] sampleLowProbe).1 = 1
    ∧ (find_wall_collisions_from_list sampleExternals (sampleGlobals false false [] [])
        [sampleDegenerateWall] sampleLowProbe).2.reported = [sampleDegenerateWall]
    ∧ (find_wall_collisions_from_list sampleExternals (sampleGlobals false false [] [])
        [sampleDegenerateWall] sampleLowProbe).2.x = 50
    ∧ sampleLowProbe.x = 10 := by
  decide!

/-! ## The determinant guard of the ray test -/

/-- A ray that is not parallel to the sample floor: the one division is by `a = 10000`. -/
theorem ray_surface_intersect_divisors_example :
    ray_surface_intersect_divisors sampleExternals ⟨0, -1, 0⟩ (sampleFloor 0 0 100) = [10000] := by
  decide!

/-! ## The DDA walk of the ray -/

/-- The out-parameters computed by the recording loop are those of the DDA loop. -/
theorem ray_dda_walk_fst (E : Externals) (G : Globals) (orig normalized_dir : Vec3f)
    (dir_length : ℚ) (flags : Nat) (step dx dz : ℚ) :
    ∀ (fuel : Nat) (i : Int) (fCellX fCellZ : ℚ) (cellX cellZ : Int) (r : RayHit),
      (ray_dda_walk E G orig normalized_dir dir_length flags step dx dz fuel i fCellX fCellZ
          cellX cellZ r).1
        = ray_dda_loop E G orig normalized_dir dir_length flags step dx dz fuel i fCellX fCellZ
            cellX cellZ r := by
  intro fuel
  induction fuel with
  | zero => intro i fCellX fCellZ cellX cellZ r; rfl
  | succ fuel ih =>
    intro i fCellX fCellZ cellX cellZ r
    rw [ray_dda_walk, ray_dda_loop]
    by_cases hrun : (i : ℚ) < step ∧ r.hit_surface = none
    · rw [if_pos hrun, if_pos hrun]
      simp only []
      by_cases hdiag : cellX ≠ f32_to_s32 (fCellX + dx) ∧ cellZ ≠ f32_to_s32 (fCellZ + dz)
      · rw [if_pos hdiag, if_pos hdiag]
        simp only []
        rw [ih]
        rfl
      · rw [if_neg hdiag, if_neg hdiag]
        simp only []
        rw [ih]
    · rw [if_neg hrun, if_neg hrun]

/-- The fuel given to the DDA loop by `find_surface_on_ray` covers every iteration. -/
theorem ray_dda_fuel_initial (step : ℚ) : step ≤ ((0 : Int) : ℚ) + ((⌈step⌉.toNat : Nat) : ℚ) := by
  have h1 : step ≤ (⌈step⌉ : ℚ) := Int.le_ceil step
  have h2 : (⌈step⌉ : ℚ) ≤ ((⌈step⌉.toNat : Nat) : ℚ) := by
    have : ⌈step⌉ ≤ ((⌈step⌉.toNat : Nat) : Int) := Int.self_le_toNat _
    exact_mod_cast this
  simp only [Int.cast_zero, zero_add]
  linarith

theorem ray_dda_walk_stop (E : Externals) (G : Globals) (orig normalized_dir : Vec3f)
    (dir_length : ℚ) (flags : Nat) (step dx dz : ℚ) (fuel : Nat) (i : Int) (fCellX fCellZ : ℚ)
    (cellX cellZ : Int) (r : RayHit) (h : ¬ ((i : ℚ) < step ∧ r.hit_surface = none)) :
    (ray_dda_walk E G orig normalized_dir dir_length flags step dx dz fuel i fCellX fCellZ
      cellX cellZ r).2 = [] := by
  cases fuel with
  | zero => rfl
  | succ fuel => rw [ray_dda_walk, if_neg h]

theorem ray_dda_walk_head (E : Externals) (G : Globals) (orig normalized_dir : Vec3f)
    (dir_length : ℚ) (flags : Nat) (step dx dz : ℚ) (fuel : Nat) (i : Int) (fCellX fCellZ : ℚ)
    (cellX cellZ : Int) (r : RayHit) (h : (i : ℚ) < step ∧ r.hit_surface = none) :
    ∃ rest, (ray_dda_walk E G orig normalized_dir dir_length flags step dx dz (fuel + 1) i
      fCellX fCellZ cellX cellZ r).2 = (cellX, cellZ) :: rest := by
  rw [ray_dda_walk, if_pos h]
  simp only []
  by_cases hdiag : cellX ≠ f32_to_s32 (fCellX + dx) ∧ cellZ ≠ f32_to_s32 (fCellZ + dz)
  · rw [if_pos hdiag]; exact ⟨_, rfl⟩
  · rw [if_neg hdiag]; exact ⟨_, rfl⟩

/-- A one-step diagonal walk. The ray from (-100, 0, -100) with direction (256, 0, 256) takes the DDA path with `step = 1`: its single iteration starts in cell (7,7) and moves to cell (8,8), both indices changing; the cells passed to `find_surface_on_ray_cell` are (7,7), (8,7) and (7,8), and the new cell (8,8) is not among them. -/
theorem find_surface_on_ray_diagonal_counterexample :
    ¬ ((sampleExternals.vec3f_normalize ⟨256, 0, 256⟩).y ≥ 99999 / 100000
      ∨ (sampleExternals.vec3f_normalize ⟨256, 0, 256⟩).y ≤ -(99999 / 100000))
    ∧ ray_step sampleExternals ⟨256, 0, 256⟩ = 1
    ∧ f32_to_s32 ((-100 + (sampleExternals.LEVEL_BOUNDARY_MAX : ℚ))
        / (sampleExternals.CELL_SIZE : ℚ)) = 7
    ∧ f32_to_s32 ((-100 + (sampleExternals.LEVEL_BOUNDARY_MAX : ℚ))
        / (sampleExternals.CELL_SIZE : ℚ) + ray_dx sampleExternals ⟨256, 0, 256⟩) = 8
    ∧ f32_to_s32 ((-100 + (sampleExternals.LEVEL_BOUNDARY_MAX : ℚ))
        / (sampleExternals.CELL_SIZE : ℚ) + ray_dz sampleExternals ⟨256, 0, 256⟩) = 8
    ∧ find_surface_on_ray_cells sampleExternals (sampleGlobals false false [] [])
        ⟨-100, 0, -100⟩ ⟨256, 0, 256⟩ 1 = [(7, 7), (8, 7), (7, 8)]
    ∧ ((8 : Int), (8 : Int)) ∉ find_surface_on_ray_cells sampleExternals
        (sampleGlobals false false [] []) ⟨-100, 0, -100⟩ ⟨256, 0, 256⟩ 1 := by
  decide!

/-- One iteration of the DDA loop. In an iteration of the DDA loop that runs and in which both cell indices change, the current cell and the two corner cells (new X, old Z) and (old X, new Z) are passed to `find_surface_on_ray_cell`, in that order; the new cell (new X, new Z) is passed next exactly when the loop condition holds again, that is when `i + 1 < step` and no surface has been hit so far; otherwise no further cell is passed. -/
theorem ray_dda_diagonal_step (E : Externals) (G : Globals) (orig normalized_dir : Vec3f)
    (dir_length : ℚ) (flags : Nat) (step dx dz : ℚ) (fuel : Nat) (i : Int) (fCellX fCellZ : ℚ)
    (cellX cellZ : Int) (r : RayHit)
    (hrun : (i : ℚ) < step ∧ r.hit_surface = none)
    (hdiag : cellX ≠ f32_to_s32 (fCellX + dx) ∧ cellZ ≠ f32_to_s32 (fCellZ + dz))
    (hfuel : step ≤ (i : ℚ) + ((fuel + 1 : Nat) : ℚ)) :
    ∃ rest, (ray_dda_walk E G orig normalized_dir dir_length flags step dx dz (fuel + 1) i
          fCellX fCellZ cellX cellZ r).2
        = (cellX, cellZ) :: (f32_to_s32 (fCellX + dx), cellZ)
            :: (cellX, f32_to_s32 (fCellZ + dz)) :: rest
      ∧ ((((i + 1 : Int) : ℚ) < step
            ∧ (ray_dda_corners E G orig normalized_dir dir_length flags cellX cellZ
                (f32_to_s32 (fCellX + dx)) (f32_to_s32 (fCellZ + dz))
                (find_surface_on_ray_cell E G cellX cellZ orig normalized_dir dir_length r
                  flags)).hit_surface = none) →
          ∃ rest1, rest = (f32_to_s32 (fCellX + dx), f32_to_s32 (fCellZ + dz)) :: rest1)
      ∧ (¬ (((i + 1 : Int) : ℚ) < step
            ∧ (ray_dda_corners E G orig normalized_dir dir_length flags cellX cellZ
                (f32_to_s32 (fCellX + dx)) (f32_to_s32 (fCellZ + dz))
                (find_surface_on_ray_cell E G cellX cellZ orig normalized_dir dir_length r
                  flags)).hit_surface = none) →
          rest = [])
      ∧ step ≤ ((i + 1 : Int) : ℚ) + (fuel : ℚ) := by
  refine ⟨(ray_dda_walk E G orig normalized_dir dir_length flags step dx dz fuel (i + 1)
      (fCellX + dx) (fCellZ + dz) (f32_to_s32 (fCellX + dx)) (f32_to_s32 (fCellZ + dz))
      (ray_dda_corners E G orig normalized_dir dir_length flags cellX cellZ
        (f32_to_s32 (fCellX + dx)) (f32_to_s32 (fCellZ + dz))
        (find_surface_on_ray_cell E G cellX cellZ orig normalized_dir dir_length r flags))).2,
    ?_, ?_, ?_, ?_⟩
  · rw [ray_dda_walk, if_pos hrun]
    simp only []
    rw [if_pos hdiag]
  · intro hnext
    have hpos : 0 < fuel := by
      by_contra h0
      have h0' : fuel = 0 := Nat.eq_zero_of_not_pos h0
      rw [h0'] at hfuel
      have := hnext.1
      push_cast at hfuel this
      linarith
    obtain ⟨f1, rfl⟩ := Nat.exists_eq_succ_of_ne_zero (Nat.pos_iff_ne_zero.mp hpos)
    exact ray_dda_walk_head E G orig normalized_dir dir_length flags step dx dz f1 (i + 1)
      _ _ _ _ _ hnext
  · intro hstop
    exact ray_dda_walk_stop E G orig normalized_dir dir_length flags step dx dz fuel (i + 1)
      _ _ _ _ _ hstop
  · push_cast at hfuel ⊢
    linarith

theorem ray_dda_diagonal_step_witness :
    ∃ rest, (ray_dda_walk sampleExternals (sampleGlobals false false [] []) ⟨-100, 0, -100⟩
          (sampleExternals.vec3f_normalize ⟨512, 0, 512⟩) 724 1 2 (1 / 4) (1 / 4) (1 + 1) 0
          (8092 / 1024) (8092 / 1024) 7 7 ⟨none, ⟨412, 0, 412⟩, 724⟩).2
        = (7, 7) :: (f32_to_s32 (8092 / 1024 + 1 / 4), 7)
            :: (7, f32_to_s32 (8092 / 1024 + 1 / 4)) :: rest
      ∧ ((((0 + 1 : Int) : ℚ) < 2
            ∧ (ray_dda_corners sampleExternals (sampleGlobals false false [] [])
                ⟨-100, 0, -100⟩ (sampleExternals.vec3f_normalize ⟨512, 0, 512⟩) 724 1 7 7
                (f32_to_s32 (8092 / 1024 + 1 / 4)) (f32_to_s32 (8092 / 1024 + 1 / 4))
                (find_surface_on_ray_cell sampleExternals (sampleGlobals false false [] []) 7 7
                  ⟨-100, 0, -100⟩ (sampleExternals.vec3f_normalize ⟨512, 0, 512⟩) 724
                  ⟨none, ⟨412, 0, 412⟩, 724⟩ 1)).hit_surface = none) →
          ∃ rest1, rest = (f32_to_s32 (8092 / 1024 + 1 / 4),
            f32_to_s32 (8092 / 1024 + 1 / 4)) :: rest1)
      ∧ (¬ (((0 + 1 : Int) : ℚ) < 2
            ∧ (ray_dda_corners sampleExternals (sampleGlobals false false [] [])
                ⟨-100, 0, -100⟩ (sampleExternals.vec3f_normalize ⟨512, 0, 512⟩) 724 1 7 7
                (f32_to_s32 (8092 / 1024 + 1 / 4)) (f32_to_s32 (8092 / 1024 + 1 / 4))
                (find_surface_on_ray_cell sampleExternals (sampleGlobals false false [] []) 7 7
                  ⟨-100, 0, -100⟩ (sampleExternals.vec3f_normalize ⟨512, 0, 512⟩) 724
                  ⟨none, ⟨412, 0, 412⟩, 724⟩ 1)).hit_surface = none) →
          rest = [])
      ∧ (2 : ℚ) ≤ ((0 + 1 : Int) : ℚ) + ((1 : Nat) : ℚ) :=
  ray_dda_diagonal_step sampleExternals (sampleGlobals false false [] []) ⟨-100, 0, -100⟩
    (sampleExternals.vec3f_normalize ⟨512, 0, 512⟩) 724 1 2 (1 / 4) (1 / 4) 1 0
    (8092 / 1024) (8092 / 1024) 7 7 ⟨none, ⟨412, 0, 412⟩, 724⟩
    (by decide!) (by decide!) (by decide!)

/-- The walk of the witness evaluated: a ray of twice the length of the counterexample takes
two iterations; the first changes both cell indices, and the new cell (8,8) is passed to
`find_surface_on_ray_cell` by the second. -/
theorem find_surface_on_ray_cells_example :
    find_surface_on_ray_cells sampleExternals (sampleGlobals false false [] [])
        ⟨-100, 0, -100⟩ ⟨512, 0, 512⟩ 1 = [(7, 7), (8, 7), (7, 8), (8, 8)] := by
  decide!

theorem wall_push_of_not_filters (E : Externals) (G : Globals) (radius pos1 : ℚ) (g : WallGeom)
    (s : Surface) (hf : ¬ wall_passes_filters E G radius s ⟨g.x, pos1, g.z⟩) :
    wall_push E G radius pos1 g s = g := by
  unfold wall_push
  rw [if_neg hf]

theorem wall_push_face (E : Externals) (G : Globals) (radius pos1 : ℚ) (g : WallGeom)
    (s : Surface) (hf : wall_passes_filters E G radius s ⟨g.x, pos1, g.z⟩)
    (hface : wall_face_test s ⟨g.x, pos1, g.z⟩ = true) :
    wall_push E G radius pos1 g s
      = ⟨g.x + s.normal.x * (radius - wall_offset s ⟨g.x, pos1, g.z⟩),
         g.z + s.normal.z * (radius - wall_offset s ⟨g.x, pos1, g.z⟩), g.margin⟩ := by
  unfold wall_push
  rw [if_pos hf, if_pos hface]

theorem wall_push_back (E : Externals) (G : Globals) (radius pos1 : ℚ) (g : WallGeom)
    (s : Surface) (hf : wall_passes_filters E G radius s ⟨g.x, pos1, g.z⟩)
    (hface : ¬ wall_face_test s ⟨g.x, pos1, g.z⟩ = true)
    (hoff : ¬ 0 ≤ wall_offset s ⟨g.x, pos1, g.z⟩) :
    wall_push E G radius pos1 g s = g := by
  unfold wall_push
  rw [if_pos hf, if_neg hface, if_neg hoff]

theorem wall_push_edge (E : Externals) (G : Globals) (radius pos1 : ℚ) (g : WallGeom)
    (s : Surface) (c : ℚ × ℚ × ℚ × ℚ)
    (hf : wall_passes_filters E G radius s ⟨g.x, pos1, g.z⟩)
    (hface : ¬ wall_face_test s ⟨g.x, pos1, g.z⟩ = true)
    (hoff : 0 ≤ wall_offset s ⟨g.x, pos1, g.z⟩)
    (hev : wall_edge_values E s ⟨g.x, pos1, g.z⟩ g.margin = some c) :
    wall_push E G radius pos1 g s
      = ⟨g.x + c.1 * (c.2.2.2 / c.2.2.1), g.z + c.2.1 * (c.2.2.2 / c.2.2.1),
          g.margin + 1 / 100⟩ := by
  unfold wall_push
  rw [if_pos hf, if_neg hface, if_pos hoff, hev]

theorem wall_push_no_edge (E : Externals) (G : Globals) (radius pos1 : ℚ) (g : WallGeom)
    (s : Surface)
    (hf : wall_passes_filters E G radius s ⟨g.x, pos1, g.z⟩)
    (hface : ¬ wall_face_test s ⟨g.x, pos1, g.z⟩ = true)
    (hoff : 0 ≤ wall_offset s ⟨g.x, pos1, g.z⟩)
    (hev : wall_edge_values E s ⟨g.x, pos1, g.z⟩ g.margin = none) :
    wall_push E G radius pos1 g s = g := by
  unfold wall_push
  rw [if_pos hf, if_neg hface, if_pos hoff, hev]

theorem edge_contact_kept_some (E : Externals) (s : Surface) (pos : Vec3f) (margin : ℚ)
    (c : ℚ × ℚ × ℚ × ℚ) (hev : wall_edge_values E s pos margin = some c) :
    edge_contact_kept E s pos margin ↔ ¬ corner_rejected s c := by
  unfold edge_contact_kept
  rw [hev]

theorem edge_contact_kept_none (E : Externals) (s : Surface) (pos : Vec3f) (margin : ℚ)
    (hev : wall_edge_values E s pos margin = none) :
    ¬ edge_contact_kept E s pos margin := by
  unfold edge_contact_kept
  rw [hev]
  exact fun h => h

theorem wall_step_not_filters (E : Externals) (G : Globals) (radius pos1 : ℚ) (st : WallScan)
    (s : Surface) (hf : ¬ wall_passes_filters E G radius s ⟨st.pos0, pos1, st.pos2⟩) :
    wall_step E G radius pos1 st s = st := by
  unfold wall_passes_filters at hf
  unfold wall_step
  simp only []
  by_cases h1 : wall_type_skip E G s = true
  · rw [if_pos h1]
  · rw [if_neg h1]
    by_cases h2 : pos1 < (s.lowerY : ℚ) ∨ pos1 > (s.upperY : ℚ)
    · rw [if_pos h2]
    · rw [if_neg h2]
      have h3 : wall_offset s ⟨st.pos0, pos1, st.pos2⟩ < -radius
          ∨ wall_offset s ⟨st.pos0, pos1, st.pos2⟩ > radius := by
        by_contra h3
        push_neg at h2 h3
        apply hf
        refine ⟨?_, h2.1, h2.2, h3.1, h3.2⟩
        cases h : wall_type_skip E G s
        · rfl
        · exact absurd h h1
      rw [if_pos h3]

theorem wall_step_to_edges (E : Externals) (G : Globals) (radius pos1 : ℚ) (st : WallScan)
    (s : Surface) (hf : wall_passes_filters E G radius s ⟨st.pos0, pos1, st.pos2⟩)
    (hface : ¬ wall_face_test s ⟨st.pos0, pos1, st.pos2⟩ = true) :
    (wall_offset s ⟨st.pos0, pos1, st.pos2⟩ < 0 → wall_step E G radius pos1 st s = st)
    ∧ (¬ wall_offset s ⟨st.pos0, pos1, st.pos2⟩ < 0 →
        wall_edge_values E s ⟨st.pos0, pos1, st.pos2⟩ st.margin_radius = none →
        wall_step E G radius pos1 st s = st)
    ∧ (∀ c, ¬ wall_offset s ⟨st.pos0, pos1, st.pos2⟩ < 0 →
        wall_edge_values E s ⟨st.pos0, pos1, st.pos2⟩ st.margin_radius = some c →
        wall_step E G radius pos1 st s = check_collision E s st c) := by
  obtain ⟨h1, h2, h3, h4, h5⟩ := hf
  have hn1 : ¬ wall_type_skip E G s = true := by simp [h1]
  have hn2 : ¬ (pos1 < (s.lowerY : ℚ) ∨ pos1 > (s.upperY : ℚ)) := by
    push_neg; exact ⟨h2, h3⟩
  have hn3 : ¬ (wall_offset s ⟨st.pos0, pos1, st.pos2⟩ < -radius
      ∨ wall_offset s ⟨st.pos0, pos1, st.pos2⟩ > radius) := by
    push_neg; exact ⟨h4, h5⟩
  have hstep : wall_step E G radius pos1 st s
      = wall_edges E s ⟨st.pos0, pos1, st.pos2⟩ (wall_offset s ⟨st.pos0, pos1, st.pos2⟩) st := by
    unfold wall_step
    simp only []
    rw [if_neg hn1, if_neg hn2, if_neg hn3, if_neg hface]
  rw [hstep, wall_edges_eq]
  refine ⟨?_, ?_, ?_⟩
  · intro hoff
    rw [if_pos hoff]
  · intro hoff hev
    rw [if_neg hoff, hev]
  · intro c hoff hev
    rw [if_neg hoff, hev]

theorem check_collision_eq (E : Externals) (s : Surface) (st : WallScan) (c : ℚ × ℚ × ℚ × ℚ) :
    check_collision E s st c =
      if corner_rejected s c then
        { st with pos0 := st.pos0 + c.1 * (c.2.2.2 / c.2.2.1),
                  pos2 := st.pos2 + c.2.1 * (c.2.2.2 / c.2.2.1),
                  margin_radius := st.margin_radius + 1 / 100 }
      else hasCollision E s
        { st with pos0 := st.pos0 + c.1 * (c.2.2.2 / c.2.2.1),
                  pos2 := st.pos2 + c.2.1 * (c.2.2.2 / c.2.2.1),
                  margin_radius := st.margin_radius + 1 / 100 } := rfl

/-- One iteration of the wall loop in terms of the geometric tests: the position and the
margin move by `wall_push`, and the surface goes through `hasCollision` exactly when it makes
contact. -/
theorem wall_step_eq_geom (E : Externals) (G : Globals) (radius pos1 : ℚ) (st : WallScan)
    (s : Surface) :
    wall_step E G radius pos1 st s =
      if wall_makes_contact E G radius pos1 st.geom s then
        hasCollision E s
          { st with pos0 := (wall_push E G radius pos1 st.geom s).x,
                    pos2 := (wall_push E G radius pos1 st.geom s).z,
                    margin_radius := (wall_push E G radius pos1 st.geom s).margin }
      else
        { st with pos0 := (wall_push E G radius pos1 st.geom s).x,
                  pos2 := (wall_push E G radius pos1 st.geom s).z,
                  margin_radius := (wall_push E G radius pos1 st.geom s).margin } := by
  by_cases hf : wall_passes_filters E G radius s ⟨st.pos0, pos1, st.pos2⟩
  · by_cases hface : wall_face_test s ⟨st.pos0, pos1, st.pos2⟩ = true
    · have hc : wall_makes_contact E G radius pos1 st.geom s := ⟨hf, Or.inl hface⟩
      rw [if_pos hc, wall_step_face E G radius pos1 st s hf hface,
        wall_push_face E G radius pos1 st.geom s hf hface]
      rfl
    · obtain ⟨e1, e2, e3⟩ := wall_step_to_edges E G radius pos1 st s hf hface
      by_cases hoff : wall_offset s ⟨st.pos0, pos1, st.pos2⟩ < 0
      · have hc : ¬ wall_makes_contact E G radius pos1 st.geom s := by
          rintro ⟨_, h | h⟩
          · exact hface h
          · exact absurd h.1 (not_le.mpr hoff)
        rw [e1 hoff, if_neg hc,
          wall_push_back E G radius pos1 st.geom s hf hface (not_le.mpr hoff)]
        rfl
      · cases hev : wall_edge_values E s ⟨st.pos0, pos1, st.pos2⟩ st.margin_radius with
        | none =>
          have hc : ¬ wall_makes_contact E G radius pos1 st.geom s := by
            rintro ⟨_, h | h⟩
            · exact hface h
            · exact edge_contact_kept_none E s _ _ hev h.2
          rw [e2 hoff hev, if_neg hc,
            wall_push_no_edge E G radius pos1 st.geom s hf hface (not_lt.mp hoff) hev]
          rfl
        | some c =>
          rw [e3 c hoff hev, check_collision_eq,
            wall_push_edge E G radius pos1 st.geom s c hf hface (not_lt.mp hoff) hev]
          by_cases hrej : corner_rejected s c
          · have hc : ¬ wall_makes_contact E G radius pos1 st.geom s := by
              rintro ⟨_, h | h⟩
              · exact hface h
              · exact (edge_contact_kept_some E s _ _ c hev).mp h.2 hrej
            rw [if_pos hrej, if_neg hc]
            rfl
          · have hc : wall_makes_contact E G radius pos1 st.geom s :=
              ⟨hf, Or.inr ⟨not_lt.mp hoff, (edge_contact_kept_some E s _ _ c hev).mpr hrej⟩⟩
            rw [if_neg hrej, if_pos hc]
            rfl
  · have hc : ¬ wall_makes_contact E G radius pos1 st.geom s := fun h => hf h.1
    rw [if_neg hc, wall_step_not_filters E G radius pos1 st s hf,
      wall_push_of_not_filters E G radius pos1 st.geom s hf]
    rfl

theorem hasCollision_geom (E : Externals) (s : Surface) (st : WallScan) :
    (hasCollision E s st).geom = st.geom := by
  obtain ⟨m0, m2, mm, _⟩ := hasCollision_motion E s st
  unfold WallScan.geom
  rw [m0, m2, mm]

theorem wall_step_geom (E : Externals) (G : Globals) (radius pos1 : ℚ) (st : WallScan)
    (s : Surface) :
    (wall_step E G radius pos1 st s).geom = wall_push E G radius pos1 st.geom s
    ∧ (wall_step E G radius pos1 st s).numCols
        = st.numCols + (if wall_makes_contact E G radius pos1 st.geom s then 1 else 0) := by
  rw [wall_step_eq_geom]
  by_cases hc : wall_makes_contact E G radius pos1 st.geom s
  · rw [if_pos hc, if_pos hc]
    obtain ⟨_, _, _, mc⟩ := hasCollision_motion E s
      { st with pos0 := (wall_push E G radius pos1 st.geom s).x,
                pos2 := (wall_push E G radius pos1 st.geom s).z,
                margin_radius := (wall_push E G radius pos1 st.geom s).margin }
    refine ⟨?_, mc⟩
    rw [hasCollision_geom]
    rfl
  · rw [if_neg hc, if_neg hc]
    exact ⟨rfl, (add_zero _).symm⟩

/-- The surface is counted by an iteration of the wall loop exactly when it makes contact in
the sense of the geometric tests. -/
theorem wall_contact_iff (E : Externals) (G : Globals) (radius pos1 : ℚ) (st : WallScan)
    (s : Surface) :
    wall_contact E G radius pos1 st s = true ↔ wall_makes_contact E G radius pos1 st.geom s := by
  unfold wall_contact
  rw [decide_eq_true_iff, (wall_step_geom E G radius pos1 st s).2]
  by_cases hc : wall_makes_contact E G radius pos1 st.geom s
  · rw [if_pos hc]; exact ⟨fun _ => hc, fun _ => rfl⟩
  · rw [if_neg hc]
    constructor
    · intro h; omega
    · intro h; exact absurd h hc

theorem wall_contacts_eq_touches (E : Externals) (G : Globals) (radius pos1 : ℚ)
    (l : List Surface) :
    ∀ st : WallScan,
      wall_contacts E G radius pos1 st l = wall_touches E G radius pos1 st.geom l := by
  induction l with
  | nil => intro st; rfl
  | cons a rest ih =>
    intro st
    rw [wall_contacts, wall_touches, ih, (wall_step_geom E G radius pos1 st a).1]
    by_cases hc : wall_makes_contact E G radius pos1 st.geom a
    · rw [if_pos ((wall_contact_iff E G radius pos1 st a).mpr hc), if_pos hc]
    · have hn : ¬ wall_contact E G radius pos1 st a = true :=
        fun h => hc ((wall_contact_iff E G radius pos1 st a).mp h)
      rw [if_neg hn, if_neg hc]

theorem wall_scan_geom (E : Externals) (G : Globals) (radius pos1 : ℚ) (l : List Surface) :
    ∀ st : WallScan,
      (l.foldl (wall_step E G radius pos1) st).geom
        = wall_scan_push E G radius pos1 st.geom l := by
  induction l with
  | nil => intro st; rfl
  | cons a rest ih =>
    intro st
    unfold wall_scan_push
    rw [List.foldl_cons, List.foldl_cons, ih, (wall_step_geom E G radius pos1 st a).1]
    rfl

theorem find_wall_contacts_eq_touches (E : Externals) (G : Globals) (l : List Surface)
    (data : WallCollisionData) :
    find_wall_contacts E G l data
      = wall_touches E G (probe_radius data) (data.y + data.offsetY) (probe_geom data) l := by
  unfold find_wall_contacts
  rw [wall_contacts_eq_touches]
  rfl

theorem find_wall_collisions_from_list_geom (E : Externals) (G : Globals) (l : List Surface)
    (data : WallCollisionData) :
    (find_wall_collisions_from_list E G l data).2.x
        = (wall_scan_push E G (probe_radius data) (data.y + data.offsetY) (probe_geom data) l).x
    ∧ (find_wall_collisions_from_list E G l data).2.z
        = (wall_scan_push E G (probe_radius data) (data.y + data.offsetY) (probe_geom data) l).z
    ∧ (find_wall_collisions_from_list E G l data).2.y = data.y
    ∧ (find_wall_collisions_from_list E G l data).2.offsetY = data.offsetY
    ∧ (find_wall_collisions_from_list E G l data).2.radius = data.radius := by
  have h := wall_scan_geom E G (probe_radius data) (data.y + data.offsetY) l
    ⟨data.x, data.z, data.radius - 1, data.numWalls, data.walls, 0⟩
  have hx := congrArg WallGeom.x h
  have hz := congrArg WallGeom.z h
  exact ⟨hx, hz, rfl, rfl, rfl⟩

theorem dynamic_scan_probe (E : Externals) (G : Globals) (colData : WallCollisionData) :
    probe_radius (find_wall_collisions_from_list E G (dynamic_wall_list E G colData)
        { colData with numWalls := 0 }).2 = probe_radius colData
    ∧ (find_wall_collisions_from_list E G (dynamic_wall_list E G colData)
        { colData with numWalls := 0 }).2.y
      + (find_wall_collisions_from_list E G (dynamic_wall_list E G colData)
        { colData with numWalls := 0 }).2.offsetY = colData.y + colData.offsetY
    ∧ probe_geom (find_wall_collisions_from_list E G (dynamic_wall_list E G colData)
        { colData with numWalls := 0 }).2 = static_scan_geom E G colData := by
  obtain ⟨hx, hz, hy, ho, hr⟩ := find_wall_collisions_from_list_geom E G
    (dynamic_wall_list E G colData) { colData with numWalls := 0 }
  refine ⟨?_, ?_, ?_⟩
  · unfold probe_radius; rw [hr]
  · rw [hy, ho]
  · unfold probe_geom static_scan_geom
    rw [hx, hz, hr]
    rfl

/-- The contacting surfaces read off the counts of the wall loop are the surfaces that make
contact in the sense of the geometric tests. -/
theorem wall_query_contacts_eq_touches (E : Externals) (G : Globals)
    (colData : WallCollisionData) :
    wall_query_contacts E G colData = wall_query_touches E G colData := by
  unfold wall_query_contacts wall_query_touches
  split_ifs with hout
  · rfl
  · obtain ⟨h1, h2, h3⟩ := dynamic_scan_probe E G colData
    have e1 := find_wall_contacts_eq_touches E G (dynamic_wall_list E G colData)
      { colData with numWalls := 0 }
    have e2 := find_wall_contacts_eq_touches E G (static_wall_list E G colData)
      (find_wall_collisions_from_list E G (dynamic_wall_list E G colData)
        { colData with numWalls := 0 }).2
    rw [h1, h2, h3] at e2
    have e1a : find_wall_contacts E G
        (G.gDynamicSurfacePartition (cell_index E (f32_to_s32 colData.z))
          (cell_index E (f32_to_s32 colData.x)) SpatialPartition.SPATIAL_PARTITION_WALLS)
        { colData with numWalls := 0 }
        = wall_touches E G (probe_radius colData) (colData.y + colData.offsetY)
            (probe_geom colData) (dynamic_wall_list E G colData) := e1
    have e2a : find_wall_contacts E G
        (G.gStaticSurfacePartition (cell_index E (f32_to_s32 colData.z))
          (cell_index E (f32_to_s32 colData.x)) SpatialPartition.SPATIAL_PARTITION_WALLS)
        (find_wall_collisions_from_list E G
          (G.gDynamicSurfacePartition (cell_index E (f32_to_s32 colData.z))
            (cell_index E (f32_to_s32 colData.x)) SpatialPartition.SPATIAL_PARTITION_WALLS)
          { colData with numWalls := 0 }).2
        = wall_touches E G (probe_radius colData) (colData.y + colData.offsetY)
            (static_scan_geom E G colData) (static_wall_list E G colData) := e2
    rw [e1a, e2a]

/-- The position left by `find_wall_collisions` is the position after the pushes of all the
surfaces of the two lists. -/
theorem find_wall_collisions_position (E : Externals) (G : Globals)
    (colData : WallCollisionData) :
    ((find_wall_collisions E G colData).2.1.x, (find_wall_collisions E G colData).2.1.z)
      = wall_query_position E G colData := by
  unfold wall_query_position
  by_cases hout : is_outside_level_bounds E (f32_to_s32 colData.x) (f32_to_s32 colData.z) = true
  · rw [if_pos hout]
    unfold find_wall_collisions
    simp only [hout, if_true]
  · rw [if_neg hout]
    obtain ⟨h1, h2, h3⟩ := dynamic_scan_probe E G colData
    obtain ⟨hx, hz, _⟩ := find_wall_collisions_from_list_geom E G (static_wall_list E G colData)
      (find_wall_collisions_from_list E G (dynamic_wall_list E G colData)
        { colData with numWalls := 0 }).2
    rw [h1, h2, h3] at hx hz
    rw [← hx, ← hz]
    unfold find_wall_collisions
    simp only [hout]
    rfl

theorem wall_query_touches_cap (E : Externals) (G : Globals) (cap : Nat)
    (colData : WallCollisionData) :
    wall_query_touches (with_wall_cap E cap) G colData = wall_query_touches E G colData
    ∧ wall_query_position (with_wall_cap E cap) G colData = wall_query_position E G colData := by
  rw [← wall_query_contacts_eq_touches, ← wall_query_contacts_eq_touches,
    ← find_wall_collisions_position, ← find_wall_collisions_position]
  obtain ⟨h1, h2, h3⟩ := find_wall_collisions_cap E G cap colData
  exact ⟨h3, by rw [h1, h2]⟩

/-- C12, counterexample. With five copies of `sampleWallA` in the static wall list and the cap `MAX_REFEREMCED_WALLS = 4`, all five surfaces make contact with the sample probe, each passing the filters and the face test at the position its predecessors have left; `find_wall_collisions` returns 5, not the capped count 4, while `numWalls` is 4. -/
theorem find_wall_collisions_uncapped_counterexample :
    wall_query_touches sampleExternals
        (sampleGlobals false false
          [sampleWallA, sampleWallA, sampleWallA, sampleWallA, sampleWallA] [])
        sampleProbe = [sampleWallA, sampleWallA, sampleWallA, sampleWallA, sampleWallA]
    ∧ sampleExternals.MAX_REFEREMCED_WALLS = 4
    ∧ (find_wall_collisions sampleExternals
        (sampleGlobals false false
          [sampleWallA, sampleWallA, sampleWallA, sampleWallA, sampleWallA] [])
        sampleProbe).1 = 5
    ∧ (find_wall_collisions sampleExternals
        (sampleGlobals false false
          [sampleWallA, sampleWallA, sampleWallA, sampleWallA, sampleWallA] [])
        sampleProbe).2.1.numWalls = 4 := by
  decide!

/-- C12, amended. The count returned by `find_wall_collisions` is the number of wall surfaces that make contact, without a cap; the contacting surfaces are those picked by the geometric tests alone (the filters, then the face test, or the front side with an edge within the margin whose contact the corner rejection keeps), each tested at the position its predecessors have left. When that number exceeds `MAX_REFEREMCED_WALLS`, `numWalls` and the length of the reported list equal `MAX_REFEREMCED_WALLS`, and the returned count is greater than the cap. -/
theorem find_wall_collisions_count_uncapped (E : Externals) (G : Globals)
    (colData : WallCollisionData) :
    (find_wall_collisions E G colData).1 = ((wall_query_touches E G colData).length : Int)
    ∧ (E.MAX_REFEREMCED_WALLS < (wall_query_touches E G colData).length →
        (find_wall_collisions E G colData).2.1.numWalls = E.MAX_REFEREMCED_WALLS
        ∧ (find_wall_collisions E G colData).2.1.reported.length = E.MAX_REFEREMCED_WALLS
        ∧ (E.MAX_REFEREMCED_WALLS : Int) < (find_wall_collisions E G colData).1) := by
  obtain ⟨h1, h2, h3⟩ := find_wall_collisions_spec E G colData
  rw [wall_query_contacts_eq_touches] at h1 h2 h3
  refine ⟨h1, fun hk => ⟨?_, ?_, ?_⟩⟩
  · rw [h2]; exact min_eq_left (le_of_lt hk)
  · rw [h3, List.length_take]; exact min_eq_left (le_of_lt hk)
  · rw [h1]; exact_mod_cast hk

theorem find_wall_collisions_count_uncapped_witness :
    sampleExternals.MAX_REFEREMCED_WALLS
        < (wall_query_touches sampleExternals
            (sampleGlobals false false
              [sampleWallA, sampleWallA, sampleWallA, sampleWallA, sampleWallA, sampleWallA] [])
            sampleProbe).length
    ∧ (find_wall_collisions sampleExternals
        (sampleGlobals false false
          [sampleWallA, sampleWallA, sampleWallA, sampleWallA, sampleWallA, sampleWallA] [])
        sampleProbe).2.1.numWalls = sampleExternals.MAX_REFEREMCED_WALLS
    ∧ (find_wall_collisions sampleExternals
        (sampleGlobals false false
          [sampleWallA, sampleWallA, sampleWallA, sampleWallA, sampleWallA, sampleWallA] [])
        sampleProbe).1 = 6 :=
  ⟨by decide!,
    ((find_wall_collisions_count_uncapped sampleExternals
      (sampleGlobals false false
        [sampleWallA, sampleWallA, sampleWallA, sampleWallA, sampleWallA, sampleWallA] [])
      sampleProbe).2 (by decide!)).1, by decide!⟩

/-- C13. After `find_wall_collisions`, `numWalls` equals `min(MAX_REFEREMCED_WALLS, k)`, where `k` is the number of surfaces that make contact, picked by the geometric tests alone; the reported walls are the first `numWalls` contacting surfaces in scan order, dynamic list first, then static list; the corrected (x,z) is the position after the push of every surface of the two lists, reported or not; position and contacting surfaces are the same for every capacity of the report list, and with a capacity of at least `k` the report list is the whole list of contacting surfaces. -/
theorem find_wall_collisions_reports_first_contacts (E : Externals) (G : Globals)
    (colData : WallCollisionData) :
    (find_wall_collisions E G colData).2.1.numWalls
        = min E.MAX_REFEREMCED_WALLS (wall_query_touches E G colData).length
    ∧ (find_wall_collisions E G colData).2.1.reported
        = (wall_query_touches E G colData).take (find_wall_collisions E G colData).2.1.numWalls
    ∧ ((find_wall_collisions E G colData).2.1.x, (find_wall_collisions E G colData).2.1.z)
        = wall_query_position E G colData
    ∧ (∀ cap : Nat,
        (find_wall_collisions (with_wall_cap E cap) G colData).2.1.x
            = (find_wall_collisions E G colData).2.1.x
        ∧ (find_wall_collisions (with_wall_cap E cap) G colData).2.1.z
            = (find_wall_collisions E G colData).2.1.z
        ∧ wall_query_touches (with_wall_cap E cap) G colData = wall_query_touches E G colData
        ∧ wall_query_position (with_wall_cap E cap) G colData = wall_query_position E G colData)
    ∧ (∀ cap : Nat, (wall_query_touches E G colData).length ≤ cap →
        (find_wall_collisions (with_wall_cap E cap) G colData).2.1.reported
          = wall_query_touches E G colData) := by
  obtain ⟨_, h2, h3⟩ := find_wall_collisions_spec E G colData
  rw [wall_query_contacts_eq_touches] at h2 h3
  refine ⟨h2, ?_, find_wall_collisions_position E G colData, ?_, ?_⟩
  · rw [h3, h2]
    rcases Nat.le_total E.MAX_REFEREMCED_WALLS (wall_query_touches E G colData).length with h | h
    · rw [min_eq_left h]
    · rw [min_eq_right h, List.take_of_length_le h, List.take_of_length_le (le_refl _)]
  · intro cap
    obtain ⟨c1, c2, _⟩ := find_wall_collisions_cap E G cap colData
    obtain ⟨t1, t2⟩ := wall_query_touches_cap E G cap colData
    exact ⟨c1, c2, t1, t2⟩
  · intro cap hk
    obtain ⟨_, _, c3⟩ := find_wall_collisions_spec (with_wall_cap E cap) G colData
    rw [wall_query_contacts_eq_touches, (wall_query_touches_cap E G cap colData).1] at c3
    rw [c3]
    exact List.take_of_length_le hk

/-- A scan in which the second of three walls makes no contact: the probe of radius 50 at
distance 10 from the plane x = 0 touches `sampleWallA` on its face, is out of the vertical
range of the sample wall with collinear vertices, and touches `sampleWallB` on its face from
the position the first push has left. -/
theorem wall_query_touches_example :
    wall_query_touches sampleExternals
        (sampleGlobals false false [sampleWallA, sampleDegenerateWall, sampleWallB] [])
        sampleProbe = [sampleWallA, sampleWallB]
    ∧ wall_query_position sampleExternals
        (sampleGlobals false false [sampleWallA, sampleDegenerateWall, sampleWallB] [])
        sampleProbe = (50, 50)
    ∧ (find_wall_collisions sampleExternals
        (sampleGlobals false false [sampleWallA, sampleDegenerateWall, sampleWallB] [])
        sampleProbe).1 = 2 := by
  decide!

/-! ## Ray straight down with the computed direction and length -/

theorem ray_down_parts_scaled (s : Surface) (h : Int) (x z d n : ℚ)
    (hs : horizontal_floor s h) (harea : signed_area2 s ≠ 0) (hn : n ≠ 0) (a b c : ℚ)
    (habc : a + b + c = 1)
    (hx : x = a * s.vertex1.x + b * s.vertex2.x + c * s.vertex3.x)
    (hz : z = a * s.vertex1.z + b * s.vertex2.z + c * s.vertex3.z) :
    ray_det ⟨0, -n, 0⟩ s = n * (signed_area2 s : ℚ)
    ∧ ray_u ⟨x, (h : ℚ) + 30 + d, z⟩ ⟨0, -n, 0⟩ s = b
    ∧ ray_v ⟨x, (h : ℚ) + 30 + d, z⟩ ⟨0, -n, 0⟩ s = c
    ∧ ray_len ⟨x, (h : ℚ) + 30 + d, z⟩ ⟨0, -n, 0⟩ s = d / n := by
  obtain ⟨h1, h2, h3, hnm, _, _⟩ := hs
  have hny : s.normal.y = 1 := by rw [hnm]
  have hdet : ray_det ⟨0, -n, 0⟩ s = n * (signed_area2 s : ℚ) := by
    simp only [ray_det, ray_e1, ray_e2, ray_v0, ray_v1, ray_v2, vec3_dot, vec3_cross, vec3_diff,
      vec3_sum, vec3_mul_val, vec3_of_vertex, signed_area2, RAY_OFFSET, h1, h2, h3, hny]
    push_cast
    ring
  have hne : (signed_area2 s : ℚ) ≠ 0 := by exact_mod_cast harea
  have hne2 : n * (signed_area2 s : ℚ) ≠ 0 := mul_ne_zero hn hne
  have ha : a = 1 - b - c := by linarith
  subst ha
  refine ⟨hdet, ?_, ?_, ?_⟩
  · unfold ray_u
    rw [hdet]
    rw [div_mul_eq_mul_div, one_mul, div_eq_iff hne2]
    simp only [ray_e1, ray_e2, ray_v0, ray_v1, ray_v2, vec3_dot, vec3_cross, vec3_diff,
      vec3_sum, vec3_mul_val, vec3_of_vertex, signed_area2, RAY_OFFSET, hx, hz, h1, h2, h3, hny]
    push_cast
    ring
  · unfold ray_v
    rw [hdet]
    rw [div_mul_eq_mul_div, one_mul, div_eq_iff hne2]
    simp only [ray_e1, ray_e2, ray_v0, ray_v1, ray_v2, vec3_dot, vec3_cross, vec3_diff,
      vec3_sum, vec3_mul_val, vec3_of_vertex, signed_area2, RAY_OFFSET, hx, hz, h1, h2, h3, hny]
    push_cast
    ring
  · unfold ray_len
    rw [hdet]
    rw [div_mul_eq_mul_div, one_mul, div_eq_iff hne2]
    simp only [ray_e1, ray_e2, ray_v0, ray_v1, ray_v2, vec3_dot, vec3_cross, vec3_diff,
      vec3_sum, vec3_mul_val, vec3_of_vertex, signed_area2, RAY_OFFSET, h1, h2, h3, hny]
    push_cast
    field_simp
    ring

theorem ray_surface_intersect_down_scaled (E : Externals) (s : Surface) (h : Int)
    (x z d n len : ℚ) (hs : horizontal_floor s h) (harea : signed_area2 s ≠ 0)
    (hin : strictly_inside_projection s x z)
    (htype : s.type ≠ E.SURFACE_INTANGIBLE)
    (hcam : Nat.land s.flags E.SURFACE_FLAG_NO_CAM_COLLISION = 0)
    (hn : 99999 / 100000 ≤ n) (hp : Vec3f) (len0 : ℚ) :
    ray_surface_intersect E ⟨x, (h : ℚ) + 30 + d, z⟩ ⟨0, -n, 0⟩ len s hp len0
      = if d / n ≤ 1 / 100000 ∨ d / n > len then (false, hp, d / n)
        else (true, ⟨x, (h : ℚ) + 30, z⟩, d / n) := by
  have hn0 : n ≠ 0 := by
    intro h0; rw [h0] at hn; norm_num at hn
  obtain ⟨a, b, c, ha, hb, hc, habc, hx, hz⟩ := hin
  obtain ⟨hdet, hu, hv, hlen⟩ := ray_down_parts_scaled s h x z d n hs harea hn0 a b c habc hx hz
  rw [ray_surface_intersect_eq, hdet, hu, hv, hlen]
  have h1 : ¬ (s.type = E.SURFACE_INTANGIBLE
      ∨ Nat.land s.flags E.SURFACE_FLAG_NO_CAM_COLLISION ≠ 0) := by
    rintro (h1 | h1)
    · exact htype h1
    · exact h1 hcam
  have h2 : ¬ (n * (signed_area2 s : ℚ) > -(1 / 100000)
      ∧ n * (signed_area2 s : ℚ) < 1 / 100000) := by
    rintro ⟨hlo, hhi⟩
    rcases lt_or_gt_of_ne harea with hneg | hpos
    · have : (signed_area2 s : ℚ) ≤ -1 := by
        have : signed_area2 s ≤ -1 := by omega
        exact_mod_cast this
      nlinarith
    · have : (1 : ℚ) ≤ (signed_area2 s : ℚ) := by
        have : 1 ≤ signed_area2 s := by omega
        exact_mod_cast this
      nlinarith
  have h3 : ¬ (b < 0 ∨ b > 1) := by
    rintro (h3 | h3) <;> linarith
  have h4 : ¬ (c < 0 ∨ b + c > 1) := by
    rintro (h4 | h4) <;> linarith
  rw [if_neg h1, if_neg h2, if_neg h3, if_neg h4]
  have hpos : vec3_sum ⟨x, (h : ℚ) + 30 + d, z⟩ (vec3_mul_val ⟨0, -n, 0⟩ (d / n))
      = ⟨x, (h : ℚ) + 30, z⟩ := by
    simp only [vec3_sum, vec3_mul_val, Vec3f.mk.injEq]
    refine ⟨by ring, ?_, by ring⟩
    field_simp
    ring
  rw [hpos]

theorem ray_hit_down_scaled (E : Externals) (s : Surface) (h : Int) (x z d n len : ℚ)
    (hs : horizontal_floor s h) (harea : signed_area2 s ≠ 0)
    (hin : strictly_inside_projection s x z)
    (htype : s.type ≠ E.SURFACE_INTANGIBLE)
    (hcam : Nat.land s.flags E.SURFACE_FLAG_NO_CAM_COLLISION = 0)
    (hn : 99999 / 100000 ≤ n) :
    ray_hit E ⟨x, (h : ℚ) + 30 + d, z⟩ ⟨0, -n, 0⟩ len s
      = if d / n ≤ 1 / 100000 ∨ d / n > len then none
        else some (⟨x, (h : ℚ) + 30, z⟩, d / n) := by
  unfold ray_hit
  rw [ray_surface_intersect_down_scaled E s h x z d n len hs harea hin htype hcam hn]
  split_ifs <;> simp_all

theorem find_surface_on_ray_cell_floor_only_scaled (E : Externals) (G : Globals)
    (cellX cellZ : Int) (orig : Vec3f) (n dir_length : ℚ) (r : RayHit) (flags : Nat)
    (s : Surface) (hn : 99999 / 100000 ≤ n)
    (hcell : cellX ≥ 0 ∧ cellX ≤ E.NUM_CELLS - 1 ∧ cellZ ≥ 0 ∧ cellZ ≤ E.NUM_CELLS - 1)
    (hst : G.gStaticSurfacePartition cellZ cellX SpatialPartition.SPATIAL_PARTITION_FLOORS = [s])
    (hdy : G.gDynamicSurfacePartition cellZ cellX SpatialPartition.SPATIAL_PARTITION_FLOORS = [])
    (hfloor : Nat.land flags E.RAYCAST_FIND_FLOOR ≠ 0)
    (hwall : Nat.land flags E.RAYCAST_FIND_WALL = 0)
    (hwater : Nat.land flags E.RAYCAST_FIND_WATER = 0) :
    find_surface_on_ray_cell E G cellX cellZ orig ⟨0, -n, 0⟩ dir_length r flags
      = ray_list_step E orig ⟨0, -n, 0⟩ dir_length (ray_top orig ⟨0, -n, 0⟩ dir_length)
          (ray_bottom orig ⟨0, -n, 0⟩ dir_length) r s := by
  unfold find_surface_on_ray_cell
  rw [if_pos hcell]
  have hc : ¬ (-n > -(99999 / 100000) ∧ Nat.land flags E.RAYCAST_FIND_CEIL ≠ 0) := by
    rintro ⟨h, _⟩; linarith
  have hf : -n < 99999 / 100000 ∧ Nat.land flags E.RAYCAST_FIND_FLOOR ≠ 0 :=
    ⟨by linarith, hfloor⟩
  simp only []
  rw [if_neg hc, if_pos hf, if_neg (not_not.mpr hwall), if_neg (not_not.mpr hwater), hst, hdy,
    find_surface_on_ray_list_eq_fold, find_surface_on_ray_list_eq_fold]
  rfl

/-- C17, amended. For a horizontal floor triangle of plane height `h` and non-zero area, not intangible and without the no-camera-collision flag, alone in the floor list of the origin's cell, a point (x,z) strictly inside its projection, the floor flag set and the wall and water flags clear, and a direction `(0, -L, 0)` for which the square root returns the length `len` and `vec3f_normalize` returns `(0, -n, 0)` with `n >= 0.99999` and `n * len >= 30 + d`: with the remaining arithmetic exact, `find_surface_on_ray` with origin `(x, h + 30 + d, z)` reports a hit on the triangle with `hit_pos = (x, h + 30, z)`, at the length `d / n`, when `d / n > 0.00001`, and reports no hit otherwise, in particular from the height `h + 30` itself. With an exact square root and normalisation, `n = 1` and `len = L`, the condition is `L >= 30 + d` and the hit is at distance `d`. -/
theorem find_surface_on_ray_down_computed (E : Externals) (G : Globals) (s : Surface) (h : Int)
    (x z d L n len : ℚ) (flags : Nat)
    (hs : horizontal_floor s h) (harea : signed_area2 s ≠ 0)
    (hin : strictly_inside_projection s x z)
    (htype : s.type ≠ E.SURFACE_INTANGIBLE)
    (hcam : Nat.land s.flags E.SURFACE_FLAG_NO_CAM_COLLISION = 0)
    (halone : alone_in_ray_cell E G s x z)
    (hfloor : Nat.land flags E.RAYCAST_FIND_FLOOR ≠ 0)
    (hwall : Nat.land flags E.RAYCAST_FIND_WALL = 0)
    (hwater : Nat.land flags E.RAYCAST_FIND_WATER = 0)
    (hsqrt : E.sqrtf (0 ^ 2 + (-L) ^ 2 + 0 ^ 2) = len)
    (hnorm : E.vec3f_normalize ⟨0, -L, 0⟩ = ⟨0, -n, 0⟩)
    (hn : 99999 / 100000 ≤ n)
    (hL : RAY_OFFSET + d ≤ n * len) :
    find_surface_on_ray E G ⟨x, (h : ℚ) + 30 + d, z⟩ ⟨0, -L, 0⟩ flags
      = if 1 / 100000 < d / n then (some s, ⟨x, (h : ℚ) + 30, z⟩)
        else (none, ⟨x, (h : ℚ) + 30 + d - L, z⟩) := by
  obtain ⟨hcell, hst, hdy⟩ := halone
  unfold RAY_OFFSET at hL
  have hnpos : 0 < n := by linarith
  have hdn : d / n < len := by
    rw [div_lt_iff₀ hnpos]
    linarith
  unfold find_surface_on_ray
  simp only []
  rw [hsqrt, hnorm]
  have hdown : -n ≥ 99999 / 100000 ∨ -n ≤ -(99999 / 100000) :=
    Or.inr (by linarith)
  rw [if_pos hdown]
  have hcellr := find_surface_on_ray_cell_floor_only_scaled E G (ray_cell E x) (ray_cell E z)
    ⟨x, (h : ℚ) + 30 + d, z⟩ n len
    ⟨none, vec3_sum ⟨x, (h : ℚ) + 30 + d, z⟩ ⟨0, -L, 0⟩, len⟩ flags s
    hn hcell hst hdy hfloor hwall hwater
  unfold ray_cell at hcellr
  rw [hcellr]
  unfold ray_list_step
  rw [ray_hit_down_scaled E s h x z d n len hs harea hin htype hcam hn]
  by_cases hd : 1 / 100000 < d / n
  · have hb : ray_in_bounds (ray_top ⟨x, (h : ℚ) + 30 + d, z⟩ ⟨0, -n, 0⟩ len)
        (ray_bottom ⟨x, (h : ℚ) + 30 + d, z⟩ ⟨0, -n, 0⟩ len) s := by
      unfold ray_in_bounds ray_top ray_bottom
      simp only []
      have hneg : ¬ (-n ≥ 0) := by
        intro hc; linarith
      rw [if_neg hneg, if_neg hneg]
      have h5 : (s.lowerY : ℚ) ≤ (h : ℚ) := by exact_mod_cast hs.2.2.2.2.1
      have h6 : (h : ℚ) ≤ (s.upperY : ℚ) := by exact_mod_cast hs.2.2.2.2.2
      have hdpos : 0 < d := by
        have := (lt_div_iff₀ hnpos).mp hd
        nlinarith
      rintro (hc | hc) <;> nlinarith
    have hnot : ¬ (d / n ≤ 1 / 100000 ∨ d / n > len) := by
      rintro (hc | hc) <;> linarith
    rw [if_pos hb, if_neg hnot, if_pos hd]
    simp only []
    rw [if_pos (le_of_lt hdn)]
  · have hyes : d / n ≤ 1 / 100000 ∨ d / n > len := Or.inl (not_lt.mp hd)
    rw [if_pos hyes, if_neg hd]
    simp only [ite_self, vec3_sum, Prod.mk.injEq, Vec3f.mk.injEq, true_and]
    refine ⟨by ring, by ring, by ring⟩

theorem find_surface_on_ray_down_computed_witness :
    find_surface_on_ray sampleExternals (sampleGlobals false false [sampleFloor 0 0 100] [])
        ⟨10, ((100 : Int) : ℚ) + 30 + 30, 10⟩ ⟨0, -60, 0⟩ 1
      = if (1 : ℚ) / 100000 < 30 / 1 then
          (some (sampleFloor 0 0 100), ⟨10, ((100 : Int) : ℚ) + 30, 10⟩)
        else (none, ⟨10, ((100 : Int) : ℚ) + 30 + 30 - 60, 10⟩) :=
  find_surface_on_ray_down_computed sampleExternals
    (sampleGlobals false false [sampleFloor 0 0 100] []) (sampleFloor 0 0 100) 100 10 10 30 60
    1 60 1
    (by decide!) (by decide!) ⟨8 / 10, 1 / 10, 1 / 10, by norm_num [sampleFloor]⟩ (by decide!)
    (by decide!) (by decide!) (by decide!) (by decide!) (by decide!) (by decide!) (by decide!)
    (by decide!) (by decide!)

/-- The boundary length with a rounded normalisation. From (10, 182, 10), 82 above the sample
floor at height 100, the ray with direction (0, -82, 0) reaches the floor plane exactly. With
the exact unit direction the floor is hit at (10, 130, 10); when the normalisation returns
the y component `-(1 - 2^-24)`, the lower bound of the ray is above `upperY` = 100, the floor
is skipped by the vertical-bounds filter and no hit is reported. With length 83 the rounded
direction hits as well. -/
theorem find_surface_on_ray_rounded_example :
    find_surface_on_ray sampleExternals (sampleGlobals false false [sampleFloor 0 0 100] [])
        ⟨10, 182, 10⟩ ⟨0, -82, 0⟩ 1 = (some (sampleFloor 0 0 100), ⟨10, 130, 10⟩)
    ∧ find_surface_on_ray (sampleRoundedExternals (16777215 / 16777216) 82)
        (sampleGlobals false false [sampleFloor 0 0 100] [])
        ⟨10, 182, 10⟩ ⟨0, -82, 0⟩ 1 = (none, ⟨10, 100, 10⟩)
    ∧ ray_bottom ⟨10, 182, 10⟩ ⟨0, -(16777215 / 16777216), 0⟩ 82
        > ((sampleFloor 0 0 100).upperY : ℚ)
    ∧ find_surface_on_ray (sampleRoundedExternals (16777215 / 16777216) 83)
        (sampleGlobals false false [sampleFloor 0 0 100] [])
        ⟨10, 182, 10⟩ ⟨0, -83, 0⟩ 1 = (some (sampleFloor 0 0 100), ⟨10, 130, 10⟩) := by
  refine ⟨by decide!, by decide!, by decide!, by decide!⟩

/-! ## The early exit: first and last exit surface -/

theorem getLast_cons_of_ne_nil (u : Surface) (r : List Surface) (h : r ≠ []) :
    (u :: r).getLast? = r.getLast? := by
  cases r with
  | nil => exact absurd rfl h
  | cons a as => simp [List.getLast?_cons_cons]

theorem floor_exits_cons (E : Externals) (cam : Bool) (x y z : Int) (u : Surface)
    (rest : List Surface) :
    floor_exits E cam x y z (u :: rest)
      = if floor_exit_accepted E cam x y z u then u :: floor_exits E cam x y z rest
        else floor_exits E cam x y z rest := by
  unfold floor_exits
  by_cases h : floor_exit_accepted E cam x y z u
  · rw [if_pos h, List.filter_cons_of_pos (by simpa using h)]
  · rw [if_neg h, List.filter_cons_of_neg (by simpa using h)]

theorem ceil_exits_cons (E : Externals) (cam : Bool) (x y z : Int) (u : Surface)
    (rest : List Surface) :
    ceil_exits E cam x y z (u :: rest)
      = if ceil_exit_accepted E cam x y z u then u :: ceil_exits E cam x y z rest
        else ceil_exits E cam x y z rest := by
  unfold ceil_exits
  by_cases h : ceil_exit_accepted E cam x y z u
  · rw [if_pos h, List.filter_cons_of_pos (by simpa using h)]
  · rw [if_neg h, List.filter_cons_of_neg (by simpa using h)]

/-- A surface accepted by the floor loop at a running height between `FLOOR_LOWER_LIMIT` and
`y + 78`, on which the loop takes its exit, satisfies the exit condition; and a surface with
the exit condition is accepted at every such running height. -/
theorem floor_exit_accepted_iff (E : Externals) (cam : Bool) (x y z : Int) (u : Surface)
    (pheight : ℚ) (hlo : (E.FLOOR_LOWER_LIMIT : ℚ) ≤ pheight) (hhi : pheight ≤ (y : ℚ) + 78) :
    floor_exit_accepted E cam x y z u
      ↔ ((floor_candidate E cam x y z u ∧ pheight ≤ get_surface_height_at_location x z u
            ∧ get_surface_height_at_location x z u - 78 ≤ (y : ℚ))
          ∧ get_surface_height_at_location x z u - 78 = (y : ℚ)) := by
  unfold floor_exit_accepted floor_passes
  constructor
  · rintro ⟨⟨hc, h1, h2⟩, h3⟩
    exact ⟨⟨hc, by linarith, h2⟩, h3⟩
  · rintro ⟨⟨hc, h1, h2⟩, h3⟩
    exact ⟨⟨hc, by linarith, h2⟩, h3⟩

theorem ceil_exit_accepted_iff (E : Externals) (cam : Bool) (x y z : Int) (u : Surface)
    (pheight : ℚ) (hhi : pheight ≤ (E.CELL_HEIGHT_LIMIT : ℚ)) (hlo : (y : ℚ) ≤ pheight) :
    ceil_exit_accepted E cam x y z u
      ↔ ((ceil_candidate E cam x y z u ∧ get_surface_height_at_location x z u ≤ pheight
            ∧ (y : ℚ) ≤ get_surface_height_at_location x z u ∧ y < u.upperY)
          ∧ get_surface_height_at_location x z u = (y : ℚ)) := by
  unfold ceil_exit_accepted
  constructor
  · rintro ⟨hc, hu, h1, h2⟩
    exact ⟨⟨hc, by linarith, by linarith, hu⟩, h1⟩
  · rintro ⟨⟨hc, h1, h2, hu⟩, h3⟩
    exact ⟨hc, hu, h3, by linarith⟩

/-- Without a surface that satisfies the exit condition, the floor scans with and without the
exit are the same scan. -/
theorem find_floor_loop_no_exits (E : Externals) (cam : Bool) (x y z : Int) (l : List Surface) :
    ∀ (floor : Option Surface) (pheight : ℚ), (E.FLOOR_LOWER_LIMIT : ℚ) ≤ pheight →
      floor_exits E cam x y z l = [] →
      find_floor_loop E cam x y z l floor pheight
        = find_floor_loop_noexit E cam x y z l floor pheight := by
  induction l with
  | nil => intro floor pheight _ _; rfl
  | cons u rest ih =>
    intro floor pheight hlo hnone
    rw [floor_exits_cons] at hnone
    have hu : ¬ floor_exit_accepted E cam x y z u := by
      intro hu
      rw [if_pos hu] at hnone
      exact List.cons_ne_nil _ _ hnone
    rw [if_neg hu] at hnone
    rw [find_floor_loop_cons, find_floor_loop_noexit_cons]
    by_cases hacc : floor_candidate E cam x y z u
        ∧ pheight ≤ get_surface_height_at_location x z u
        ∧ get_surface_height_at_location x z u - 78 ≤ (y : ℚ)
    · rw [if_pos hacc, if_pos hacc]
      have hbrk : ¬ get_surface_height_at_location x z u - 78 = (y : ℚ) := by
        intro hbrk
        exact hu ⟨⟨hacc.1, by linarith [hacc.2.1], hacc.2.2⟩, hbrk⟩
      rw [if_neg hbrk]
      exact ih _ _ (by linarith [hacc.2.1]) hnone
    · rw [if_neg hacc, if_neg hacc]
      exact ih _ _ hlo hnone

/-- The floor scan with the exit returns the first surface of the list that satisfies the exit
condition. -/
theorem find_floor_loop_first_exit (E : Externals) (cam : Bool) (x y z : Int)
    (l : List Surface) (s : Surface) :
    ∀ (floor : Option Surface) (pheight : ℚ), (E.FLOOR_LOWER_LIMIT : ℚ) ≤ pheight →
      pheight ≤ (y : ℚ) + 78 →
      (floor_exits E cam x y z l).head? = some s →
      find_floor_loop E cam x y z l floor pheight = (some s, (y : ℚ) + 78) := by
  induction l with
  | nil => intro floor pheight _ _ h; simp [floor_exits] at h
  | cons u rest ih =>
    intro floor pheight hlo hhi hhead
    rw [floor_exits_cons] at hhead
    rw [find_floor_loop_cons]
    by_cases hu : floor_exit_accepted E cam x y z u
    · rw [if_pos hu] at hhead
      have hus : u = s := by simpa using hhead
      obtain ⟨hacc, hbrk⟩ := (floor_exit_accepted_iff E cam x y z u pheight hlo hhi).mp hu
      rw [if_pos hacc, if_pos hbrk, hus]
      have : get_surface_height_at_location x z s = (y : ℚ) + 78 := by
        rw [← hus]; linarith
      rw [this]
    · rw [if_neg hu] at hhead
      by_cases hacc : floor_candidate E cam x y z u
          ∧ pheight ≤ get_surface_height_at_location x z u
          ∧ get_surface_height_at_location x z u - 78 ≤ (y : ℚ)
      · rw [if_pos hacc]
        have hbrk : ¬ get_surface_height_at_location x z u - 78 = (y : ℚ) := by
          intro hbrk
          exact hu ((floor_exit_accepted_iff E cam x y z u pheight hlo hhi).mpr ⟨hacc, hbrk⟩)
        rw [if_neg hbrk]
        exact ih _ _ (by linarith [hacc.2.1]) (by linarith [hacc.2.2]) hhead
      · rw [if_neg hacc]
        exact ih _ _ hlo hhi hhead

/-- Entered at the running height `y + 78`, the floor scan without the exit leaves the running
best unchanged over a list without a surface that satisfies the exit condition. -/
theorem find_floor_loop_noexit_keeps (E : Externals) (cam : Bool) (x y z : Int)
    (l : List Surface) (hlo : (E.FLOOR_LOWER_LIMIT : ℚ) ≤ (y : ℚ) + 78) :
    ∀ (floor : Option Surface), floor_exits E cam x y z l = [] →
      find_floor_loop_noexit E cam x y z l floor ((y : ℚ) + 78) = (floor, (y : ℚ) + 78) := by
  induction l with
  | nil => intro floor _; rfl
  | cons u rest ih =>
    intro floor hnone
    rw [floor_exits_cons] at hnone
    have hu : ¬ floor_exit_accepted E cam x y z u := by
      intro hu
      rw [if_pos hu] at hnone
      exact List.cons_ne_nil _ _ hnone
    rw [if_neg hu] at hnone
    rw [find_floor_loop_noexit_cons]
    have hacc : ¬ (floor_candidate E cam x y z u
        ∧ (y : ℚ) + 78 ≤ get_surface_height_at_location x z u
        ∧ get_surface_height_at_location x z u - 78 ≤ (y : ℚ)) := by
      intro hacc
      exact hu ((floor_exit_accepted_iff E cam x y z u _ hlo (le_refl _)).mpr
        ⟨hacc, by linarith [hacc.2.1, hacc.2.2]⟩)
    rw [if_neg hacc]
    exact ih floor hnone

/-- The floor scan without the exit returns the last surface of the list that satisfies the
exit condition. -/
theorem find_floor_loop_noexit_last_exit (E : Externals) (cam : Bool) (x y z : Int)
    (l : List Surface) (t : Surface) :
    ∀ (floor : Option Surface) (pheight : ℚ), (E.FLOOR_LOWER_LIMIT : ℚ) ≤ pheight →
      pheight ≤ (y : ℚ) + 78 →
      (floor_exits E cam x y z l).getLast? = some t →
      find_floor_loop_noexit E cam x y z l floor pheight = (some t, (y : ℚ) + 78) := by
  induction l with
  | nil => intro floor pheight _ _ h; simp [floor_exits] at h
  | cons u rest ih =>
    intro floor pheight hlo hhi hlast
    rw [floor_exits_cons] at hlast
    rw [find_floor_loop_noexit_cons]
    by_cases hu : floor_exit_accepted E cam x y z u
    · rw [if_pos hu] at hlast
      obtain ⟨hacc, hbrk⟩ := (floor_exit_accepted_iff E cam x y z u pheight hlo hhi).mp hu
      have hh : get_surface_height_at_location x z u = (y : ℚ) + 78 := by linarith
      rw [if_pos hacc, hh]
      have hlo2 : (E.FLOOR_LOWER_LIMIT : ℚ) ≤ (y : ℚ) + 78 := by linarith
      by_cases hrest : floor_exits E cam x y z rest = []
      · rw [hrest] at hlast
        have hus : u = t := by simpa using hlast
        rw [find_floor_loop_noexit_keeps E cam x y z rest hlo2 (some u) hrest, hus]
      · rw [getLast_cons_of_ne_nil u _ hrest] at hlast
        exact ih _ _ hlo2 (le_refl _) hlast
    · rw [if_neg hu] at hlast
      by_cases hacc : floor_candidate E cam x y z u
          ∧ pheight ≤ get_surface_height_at_location x z u
          ∧ get_surface_height_at_location x z u - 78 ≤ (y : ℚ)
      · rw [if_pos hacc]
        exact ih _ _ (by linarith [hacc.2.1]) (by linarith [hacc.2.2]) hlast
      · rw [if_neg hacc]
        exact ih _ _ hlo hhi hlast

theorem find_ceil_loop_no_exits (E : Externals) (cam : Bool) (x y z : Int) (l : List Surface) :
    ∀ (ceil : Option Surface) (pheight : ℚ), pheight ≤ (E.CELL_HEIGHT_LIMIT : ℚ) →
      ceil_exits E cam x y z l = [] →
      find_ceil_loop E cam x y z l ceil pheight
        = find_ceil_loop_noexit E cam x y z l ceil pheight := by
  induction l with
  | nil => intro ceil pheight _ _; rfl
  | cons u rest ih =>
    intro ceil pheight hhi hnone
    rw [ceil_exits_cons] at hnone
    have hu : ¬ ceil_exit_accepted E cam x y z u := by
      intro hu
      rw [if_pos hu] at hnone
      exact List.cons_ne_nil _ _ hnone
    rw [if_neg hu] at hnone
    rw [find_ceil_loop_cons, find_ceil_loop_noexit_cons]
    by_cases hacc : ceil_candidate E cam x y z u
        ∧ get_surface_height_at_location x z u ≤ pheight
        ∧ (y : ℚ) ≤ get_surface_height_at_location x z u ∧ y < u.upperY
    · rw [if_pos hacc, if_pos hacc]
      have hbrk : ¬ get_surface_height_at_location x z u = (y : ℚ) := by
        intro hbrk
        exact hu ⟨hacc.1, hacc.2.2.2, hbrk, by linarith [hacc.2.1]⟩
      rw [if_neg hbrk]
      exact ih _ _ (by linarith [hacc.2.1]) hnone
    · rw [if_neg hacc, if_neg hacc]
      exact ih _ _ hhi hnone

/-- The ceiling scan with the exit returns the first surface of the list that satisfies the
exit condition. -/
theorem find_ceil_loop_first_exit (E : Externals) (cam : Bool) (x y z : Int)
    (l : List Surface) (s : Surface) :
    ∀ (ceil : Option Surface) (pheight : ℚ), pheight ≤ (E.CELL_HEIGHT_LIMIT : ℚ) →
      (y : ℚ) ≤ pheight →
      (ceil_exits E cam x y z l).head? = some s →
      find_ceil_loop E cam x y z l ceil pheight = (some s, (y : ℚ)) := by
  induction l with
  | nil => intro ceil pheight _ _ h; simp [ceil_exits] at h
  | cons u rest ih =>
    intro ceil pheight hhi hlo hhead
    rw [ceil_exits_cons] at hhead
    rw [find_ceil_loop_cons]
    by_cases hu : ceil_exit_accepted E cam x y z u
    · rw [if_pos hu] at hhead
      have hus : u = s := by simpa using hhead
      obtain ⟨hacc, hbrk⟩ := (ceil_exit_accepted_iff E cam x y z u pheight hhi hlo).mp hu
      rw [if_pos hacc, if_pos hbrk, hbrk, hus]
    · rw [if_neg hu] at hhead
      by_cases hacc : ceil_candidate E cam x y z u
          ∧ get_surface_height_at_location x z u ≤ pheight
          ∧ (y : ℚ) ≤ get_surface_height_at_location x z u ∧ y < u.upperY
      · rw [if_pos hacc]
        have hbrk : ¬ get_surface_height_at_location x z u = (y : ℚ) := by
          intro hbrk
          exact hu ((ceil_exit_accepted_iff E cam x y z u pheight hhi hlo).mpr ⟨hacc, hbrk⟩)
        rw [if_neg hbrk]
        exact ih _ _ (by linarith [hacc.2.1]) hacc.2.2.1 hhead
      · rw [if_neg hacc]
        exact ih _ _ hhi hlo hhead

theorem find_ceil_loop_noexit_keeps (E : Externals) (cam : Bool) (x y z : Int)
    (l : List Surface) (hhi : (y : ℚ) ≤ (E.CELL_HEIGHT_LIMIT : ℚ)) :
    ∀ (ceil : Option Surface), ceil_exits E cam x y z l = [] →
      find_ceil_loop_noexit E cam x y z l ceil (y : ℚ) = (ceil, (y : ℚ)) := by
  induction l with
  | nil => intro ceil _; rfl
  | cons u rest ih =>
    intro ceil hnone
    rw [ceil_exits_cons] at hnone
    have hu : ¬ ceil_exit_accepted E cam x y z u := by
      intro hu
      rw [if_pos hu] at hnone
      exact List.cons_ne_nil _ _ hnone
    rw [if_neg hu] at hnone
    rw [find_ceil_loop_noexit_cons]
    have hacc : ¬ (ceil_candidate E cam x y z u
        ∧ get_surface_height_at_location x z u ≤ (y : ℚ)
        ∧ (y : ℚ) ≤ get_surface_height_at_location x z u ∧ y < u.upperY) := by
      intro hacc
      exact hu ((ceil_exit_accepted_iff E cam x y z u _ hhi (le_refl _)).mpr
        ⟨hacc, le_antisymm hacc.2.1 hacc.2.2.1⟩)
    rw [if_neg hacc]
    exact ih ceil hnone

/-- The ceiling scan without the exit returns the last surface of the list that satisfies the
exit condition. -/
theorem find_ceil_loop_noexit_last_exit (E : Externals) (cam : Bool) (x y z : Int)
    (l : List Surface) (t : Surface) :
    ∀ (ceil : Option Surface) (pheight : ℚ), pheight ≤ (E.CELL_HEIGHT_LIMIT : ℚ) →
      (y : ℚ) ≤ pheight →
      (ceil_exits E cam x y z l).getLast? = some t →
      find_ceil_loop_noexit E cam x y z l ceil pheight = (some t, (y : ℚ)) := by
  induction l with
  | nil => intro ceil pheight _ _ h; simp [ceil_exits] at h
  | cons u rest ih =>
    intro ceil pheight hhi hlo hlast
    rw [ceil_exits_cons] at hlast
    rw [find_ceil_loop_noexit_cons]
    by_cases hu : ceil_exit_accepted E cam x y z u
    · rw [if_pos hu] at hlast
      obtain ⟨hacc, hbrk⟩ := (ceil_exit_accepted_iff E cam x y z u pheight hhi hlo).mp hu
      rw [if_pos hacc, hbrk]
      have hhi2 : (y : ℚ) ≤ (E.CELL_HEIGHT_LIMIT : ℚ) := by linarith
      by_cases hrest : ceil_exits E cam x y z rest = []
      · rw [hrest] at hlast
        have hus : u = t := by simpa using hlast
        rw [find_ceil_loop_noexit_keeps E cam x y z rest hhi2 (some u) hrest, hus]
      · rw [getLast_cons_of_ne_nil u _ hrest] at hlast
        exact ih _ _ hhi2 (le_refl _) hlast
    · rw [if_neg hu] at hlast
      by_cases hacc : ceil_candidate E cam x y z u
          ∧ get_surface_height_at_location x z u ≤ pheight
          ∧ (y : ℚ) ≤ get_surface_height_at_location x z u ∧ y < u.upperY
      · rw [if_pos hacc]
        exact ih _ _ (by linarith [hacc.2.1]) hacc.2.2.1 hlast
      · rw [if_neg hacc]
        exact ih _ _ hhi hlo hlast

theorem floor_exits_mem (E : Externals) (cam : Bool) (x y z : Int) (l : List Surface)
    (s : Surface) (h : s ∈ floor_exits E cam x y z l) :
    s ∈ l ∧ floor_exit_accepted E cam x y z s := by
  unfold floor_exits at h
  rw [List.mem_filter] at h
  exact ⟨h.1, by simpa using h.2⟩

theorem ceil_exits_mem (E : Externals) (cam : Bool) (x y z : Int) (l : List Surface)
    (s : Surface) (h : s ∈ ceil_exits E cam x y z l) :
    s ∈ l ∧ ceil_exit_accepted E cam x y z s := by
  unfold ceil_exits at h
  rw [List.mem_filter] at h
  exact ⟨h.1, by simpa using h.2⟩

/-- The floor scan with the exit, in terms of the exit surfaces of the list: it is the scan
without the exit when there is none, and returns the first of them at height `y + 78`
otherwise. -/
theorem find_floor_from_list_first_exit (E : Externals) (cam : Bool) (l : List Surface)
    (x y z : Int) :
    (floor_exits E cam x y z l = [] →
        find_floor_from_list E cam l x y z = find_floor_from_list_noexit E cam l x y z)
    ∧ (∀ s, (floor_exits E cam x y z l).head? = some s →
        find_floor_from_list E cam l x y z = (some s, (y : ℚ) + 78)) := by
  refine ⟨fun h => find_floor_loop_no_exits E cam x y z l none _ (le_refl _) h, ?_⟩
  intro s hs
  have hmem := floor_exits_mem E cam x y z l s (List.mem_of_mem_head? hs)
  obtain ⟨_, ⟨_, h1, _⟩, h2⟩ := hmem
  exact find_floor_loop_first_exit E cam x y z l s none _ (le_refl _) (by linarith) hs

/-- The floor scan without the exit returns the last exit surface of the list at height
`y + 78`, when there is one. -/
theorem find_floor_from_list_noexit_last (E : Externals) (cam : Bool) (l : List Surface)
    (x y z : Int) (t : Surface) (ht : (floor_exits E cam x y z l).getLast? = some t) :
    find_floor_from_list_noexit E cam l x y z = (some t, (y : ℚ) + 78) := by
  have hmem := floor_exits_mem E cam x y z l t (List.mem_of_getLast?_eq_some ht)
  obtain ⟨_, ⟨_, h1, _⟩, h2⟩ := hmem
  exact find_floor_loop_noexit_last_exit E cam x y z l t none _ (le_refl _) (by linarith) ht

theorem find_ceil_from_list_first_exit (E : Externals) (cam : Bool) (l : List Surface)
    (x y z : Int) :
    (ceil_exits E cam x y z l = [] →
        find_ceil_from_list E cam l x y z = find_ceil_from_list_noexit E cam l x y z)
    ∧ (∀ s, (ceil_exits E cam x y z l).head? = some s →
        find_ceil_from_list E cam l x y z = (some s, (y : ℚ))) := by
  refine ⟨fun h => find_ceil_loop_no_exits E cam x y z l none _ (le_refl _) h, ?_⟩
  intro s hs
  have hmem := ceil_exits_mem E cam x y z l s (List.mem_of_mem_head? hs)
  obtain ⟨_, _, _, h1, h2⟩ := hmem
  exact find_ceil_loop_first_exit E cam x y z l s none _ (le_refl _) (by linarith) hs

theorem find_ceil_from_list_noexit_last (E : Externals) (cam : Bool) (l : List Surface)
    (x y z : Int) (t : Surface) (ht : (ceil_exits E cam x y z l).getLast? = some t) :
    find_ceil_from_list_noexit E cam l x y z = (some t, (y : ℚ)) := by
  have hmem := ceil_exits_mem E cam x y z l t (List.mem_of_getLast?_eq_some ht)
  obtain ⟨_, _, _, h1, h2⟩ := hmem
  exact find_ceil_loop_noexit_last_exit E cam x y z l t none _ (le_refl _) (by linarith) ht

/-- A list of surfaces is empty, or it has a first and a last element. -/
theorem head_getLast_cases (r : List Surface) :
    r = [] ∨ ∃ a b, r.head? = some a ∧ r.getLast? = some b := by
  cases r with
  | nil => exact Or.inl rfl
  | cons a as =>
    right
    refine ⟨a, (a :: as).getLast (List.cons_ne_nil _ _), rfl, ?_⟩
    exact List.getLast?_eq_getLast _ _

/-- C25, amended. An exit surface of a scan is a surface that passes the filters of the scan and on which the exit condition holds: for the floor scan `height - 78 == y` with `height >= FLOOR_LOWER_LIMIT`, for the ceiling scan `height == y` with `y < upperY` and `height <= CELL_HEIGHT_LIMIT`. `find_floor_from_list` and `find_ceil_from_list` return the same height as the scans with the early exit removed; without an exit surface in the list they return the same result; with one, the scan with the exit returns the first exit surface of the list and the scan without the exit returns the last; so the two scans return the same surface exactly when the first and the last exit surface of the list are the same. -/
theorem early_exit_first_and_last (E : Externals) (cam : Bool) (l : List Surface)
    (x y z : Int) :
    ((find_floor_from_list E cam l x y z).2 = (find_floor_from_list_noexit E cam l x y z).2
      ∧ (floor_exits E cam x y z l = [] →
          find_floor_from_list E cam l x y z = find_floor_from_list_noexit E cam l x y z)
      ∧ (∀ s, (floor_exits E cam x y z l).head? = some s →
          find_floor_from_list E cam l x y z = (some s, (y : ℚ) + 78))
      ∧ (∀ t, (floor_exits E cam x y z l).getLast? = some t →
          find_floor_from_list_noexit E cam l x y z = (some t, (y : ℚ) + 78))
      ∧ ((find_floor_from_list E cam l x y z).1 = (find_floor_from_list_noexit E cam l x y z).1
          ↔ (floor_exits E cam x y z l).head? = (floor_exits E cam x y z l).getLast?))
    ∧ ((find_ceil_from_list E cam l x y z).2 = (find_ceil_from_list_noexit E cam l x y z).2
      ∧ (ceil_exits E cam x y z l = [] →
          find_ceil_from_list E cam l x y z = find_ceil_from_list_noexit E cam l x y z)
      ∧ (∀ s, (ceil_exits E cam x y z l).head? = some s →
          find_ceil_from_list E cam l x y z = (some s, (y : ℚ)))
      ∧ (∀ t, (ceil_exits E cam x y z l).getLast? = some t →
          find_ceil_from_list_noexit E cam l x y z = (some t, (y : ℚ)))
      ∧ ((find_ceil_from_list E cam l x y z).1 = (find_ceil_from_list_noexit E cam l x y z).1
          ↔ (ceil_exits E cam x y z l).head? = (ceil_exits E cam x y z l).getLast?)) := by
  obtain ⟨f1, _⟩ := find_floor_loop_exit_vs_noexit E cam x y z l none (E.FLOOR_LOWER_LIMIT : ℚ)
  obtain ⟨c1, _⟩ := find_ceil_loop_exit_vs_noexit E cam x y z l none (E.CELL_HEIGHT_LIMIT : ℚ)
  obtain ⟨fa, fb⟩ := find_floor_from_list_first_exit E cam l x y z
  obtain ⟨ca, cb⟩ := find_ceil_from_list_first_exit E cam l x y z
  have fc := find_floor_from_list_noexit_last E cam l x y z
  have cc := find_ceil_from_list_noexit_last E cam l x y z
  refine ⟨⟨f1, fa, fb, fc, ?_⟩, ⟨c1, ca, cb, cc, ?_⟩⟩
  · rcases head_getLast_cases (floor_exits E cam x y z l) with hnil | ⟨a, b, ha, hb⟩
    · rw [fa hnil, hnil]
      exact ⟨fun _ => rfl, fun _ => rfl⟩
    · rw [fb a ha, fc b hb, ha, hb]
  · rcases head_getLast_cases (ceil_exits E cam x y z l) with hnil | ⟨a, b, ha, hb⟩
    · rw [ca hnil, hnil]
      exact ⟨fun _ => rfl, fun _ => rfl⟩
    · rw [cb a ha, cc b hb, ha, hb]

/-- The exit surfaces of the two tie lists: both sloped floors satisfy the exit condition at
(80, -18, 10), both sloped ceilings at (80, 160, 10); the first and the last differ. In a list
with a flat floor far below in second place only the sloped floor does. -/
theorem early_exit_lists_example :
    floor_exits sampleExternals false 80 (-18) 10 [sampleSlopeFloor 0, sampleSlopeFloor 5]
        = [sampleSlopeFloor 0, sampleSlopeFloor 5]
    ∧ ceil_exits sampleExternals false 80 160 10 [sampleSlopeCeil 0, sampleSlopeCeil 4]
        = [sampleSlopeCeil 0, sampleSlopeCeil 4]
    ∧ floor_exits sampleExternals false 80 (-18) 10 [sampleSlopeFloor 0, sampleFloor 5 0 (-100)]
        = [sampleSlopeFloor 0] := by
  decide!

/-! ## The cell in which a ray ends -/

/-- C28, failing input. With cells of 1024 units, the ray from (-100, 0, -100) with direction (192, 0, 256) has length 320 and `step = 1`; it starts in cell (7,7), ends at (92, 0, 156) in cell (8,8), and crosses `sampleCellWall`, which is in the static wall list of cell (8,8) only, at (68, 0, 124), at length 280 of its 320. The single iteration of the DDA loop passes the cells (7,7), (8,7) and (7,8) to `find_surface_on_ray_cell`, and the loop ends without passing the cell (8,8): `find_surface_on_ray` with the wall flag reports no hit and `hit_pos = orig + dir`. With the same wall in the lists of every cell the ray hits it at (68, 0, 124), and so does the ray of twice the length on the same line. -/
theorem find_surface_on_ray_misses_end_cell :
    sampleExternals.sqrtf ((192 : ℚ) ^ 2 + 0 ^ 2 + 256 ^ 2) = 320
    ∧ sampleExternals.vec3f_normalize ⟨192, 0, 256⟩ = ⟨3 / 5, 0, 4 / 5⟩
    ∧ ray_step sampleExternals ⟨192, 0, 256⟩ = 1
    ∧ ray_hit sampleExternals ⟨-100, 0, -100⟩ ⟨3 / 5, 0, 4 / 5⟩ 320 sampleCellWall
        = some (⟨68, 0, 124⟩, 280)
    ∧ ray_cell sampleExternals (-100) = 7 ∧ ray_cell sampleExternals 68 = 8
    ∧ ray_cell sampleExternals 124 = 8
    ∧ ray_cell sampleExternals (-100 + 192) = 8 ∧ ray_cell sampleExternals (-100 + 256) = 8
    ∧ sampleCellGlobals.gStaticSurfacePartition 8 8 SpatialPartition.SPATIAL_PARTITION_WALLS
        = [sampleCellWall]
    ∧ find_surface_on_ray_cells sampleExternals sampleCellGlobals ⟨-100, 0, -100⟩
        ⟨192, 0, 256⟩ 2 = [(7, 7), (8, 7), (7, 8)]
    ∧ find_surface_on_ray sampleExternals sampleCellGlobals ⟨-100, 0, -100⟩ ⟨192, 0, 256⟩ 2
        = (none, ⟨92, 0, 156⟩)
    ∧ find_surface_on_ray sampleExternals (sampleGlobals false false [sampleCellWall] [])
        ⟨-100, 0, -100⟩ ⟨192, 0, 256⟩ 2 = (some sampleCellWall, ⟨68, 0, 124⟩)
    ∧ find_surface_on_ray sampleExternals sampleCellGlobals ⟨-100, 0, -100⟩ ⟨384, 0, 512⟩ 2
        = (some sampleCellWall, ⟨68, 0, 124⟩) := by
  decide!

end SurfaceCollision
